import Mathlib

/-!
The hxcpp debug runtime (`src/hx/Debug.cpp`).

A shallow embedding of the breakpoint registry, the step controller, the
per-thread call stacks and the debugger-facing entry points, followed by the
properties established about them.

Conventions of the embedding.

* A `const char *` is a `CStr`: an address together with the text stored
  there.  `==` on pointers compares addresses, `strcmp` compares texts.
* A haxe `::String` is a Lean `String`; a host value (`Dynamic`) is a value of
  the small inductive type `Dynamic`.
* C `int` is `Int`; the places where an `int` grows without bound
  (`gNextBreakpointNumber++`, the counters of the profiler) wrap to 32 bits
  explicitly.
* Memory returned by `new Breakpoint[n]` is not initialised by the source.
  Its prior content is an explicit argument `uninit : Nat → Breakpoint` of
  every operation that allocates such an array: `uninit i` is what the
  memory at element offset `i` of the fresh block holds before it is written.
* A null or dangling dereference is the result `none`.
* A thread is named by its thread number; `tls` holds the thread-local
  `tlsCallStack` of every thread whose pointer is not null.
* In the text of a `CStr` one `Char` stands for one C `char`.
-/

namespace hx

/-! ## Identifier table -/

/-- A C string pointer: where it points and the text found there. -/
structure CStr where
  addr : Nat
  chars : String
deriving DecidableEq

/-- The marker that lets class names live in the `__hxcpp_all_files` array. -/
def CLASSES_MARKER_WITHIN_FILES_ARRAY : String := "@@@ CLASSES FOLLOW @@@"

/-- `Breakpoints::LookupFileName`.  The table argument holds the entries of
`__hxcpp_all_files` that precede its terminating null pointer. -/
def LookupFileName : List CStr → String → Option CStr
  | [], _ => none
  | ptr :: rest, fileName =>
    if ptr.chars = CLASSES_MARKER_WITHIN_FILES_ARRAY then none
    else if ptr.chars = fileName then some ptr
    else LookupFileName rest fileName

/-- The loop of `Breakpoints::LookupClassName`, with its flag `atClasses`. -/
def LookupClassNameFrom : Bool → List CStr → String → Option CStr
  | _, [], _ => none
  | false, ptr :: rest, className =>
    if ptr.chars = CLASSES_MARKER_WITHIN_FILES_ARRAY then
      LookupClassNameFrom true rest className
    else LookupClassNameFrom false rest className
  | true, ptr :: rest, className =>
    if ptr.chars = className then some ptr
    else LookupClassNameFrom true rest className

/-- `Breakpoints::LookupClassName`. -/
def LookupClassName (all_files : List CStr) (className : String) : Option CStr :=
  LookupClassNameFrom false all_files className

/-- `__hxcpp_dbg_getFiles`. -/
def __hxcpp_dbg_getFiles : List CStr → List String
  | [] => []
  | ptr :: rest =>
    if ptr.chars = CLASSES_MARKER_WITHIN_FILES_ARRAY then []
    else ptr.chars :: __hxcpp_dbg_getFiles rest

/-- The loop of `__hxcpp_dbg_getClasses`, with its flag `atClasses`. -/
def getClassesFrom : Bool → List CStr → List String
  | _, [] => []
  | false, ptr :: rest =>
    if ptr.chars = CLASSES_MARKER_WITHIN_FILES_ARRAY then getClassesFrom true rest
    else getClassesFrom false rest
  | true, ptr :: rest => ptr.chars :: getClassesFrom true rest

/-- `__hxcpp_dbg_getClasses`. -/
def __hxcpp_dbg_getClasses (all_files : List CStr) : List String :=
  getClassesFrom false all_files

/-! ## Breakpoint snapshots -/

/-- `Breakpoints::Breakpoint`. -/
structure Breakpoint where
  number : Int
  isFileLine : Bool
  fileOrClassName : CStr
  lineNumber : Int
  functionName : String
deriving DecidableEq

/-- `Breakpoints` (one immutable snapshot): the array `mBreakpoints`, whose
length is `mBreakpointCount`; the null array is the empty list. -/
structure Breakpoints where
  mBreakpoints : List Breakpoint
deriving DecidableEq

/-- The field `mBreakpointCount`. -/
def Breakpoints.mBreakpointCount (bs : Breakpoints) : Int := bs.mBreakpoints.length

/-- `Breakpoints::IsEmpty`. -/
def Breakpoints.IsEmpty (bs : Breakpoints) : Bool := bs.mBreakpointCount == 0

/-- `Breakpoints::HasBreakpoint`. -/
def Breakpoints.HasBreakpoint (bs : Breakpoints) (number : Int) : Bool :=
  bs.mBreakpoints.any (fun b => number == b.number)

/-- `new Breakpoint[n]`: `n` elements whose scalar fields keep whatever the
memory held and whose `functionName` is default-constructed. -/
def newBreakpointArray (uninit : Nat → Breakpoint) (n : Nat) : List Breakpoint :=
  (List.range n).map (fun i => { uninit i with functionName := "" })

/-- The loop `for (i...) mBreakpoints[i] = toCopy->mBreakpoints[i]` of the two
copy-and-add constructors; the second argument is `toCopy->mBreakpoints`
from index `i` on. -/
def copyLoop : Nat → List Breakpoint → List Breakpoint → List Breakpoint
  | _, [], arr => arr
  | i, b :: rest, arr => copyLoop (i + 1) rest (arr.set i b)

/-- `Breakpoints(toCopy, number, fileName, lineNumber)`. -/
def Breakpoints.addFileLine (uninit : Nat → Breakpoint) (toCopy : Breakpoints)
    (number : Int) (fileName : CStr) (lineNumber : Int) : Breakpoints :=
  let n := toCopy.mBreakpoints.length
  let arr := copyLoop 0 toCopy.mBreakpoints (newBreakpointArray uninit (n + 1))
  match arr[n]? with
  | some last =>
    { mBreakpoints := arr.set n { last with number := number, isFileLine := true,
                                            fileOrClassName := fileName,
                                            lineNumber := lineNumber } }
  | none => { mBreakpoints := arr }

/-- `Breakpoints(toCopy, number, className, functionName)`. -/
def Breakpoints.addClassFunction (uninit : Nat → Breakpoint) (toCopy : Breakpoints)
    (number : Int) (className : CStr) (functionName : String) : Breakpoints :=
  let n := toCopy.mBreakpoints.length
  let arr := copyLoop 0 toCopy.mBreakpoints (newBreakpointArray uninit (n + 1))
  match arr[n]? with
  | some last =>
    { mBreakpoints := arr.set n { last with number := number, isFileLine := false,
                                            fileOrClassName := className,
                                            functionName := functionName } }
  | none => { mBreakpoints := arr }

/-- Reading `mBreakpoints[s]` of the array under construction: the element
when `s` is inside the block, the raw memory behind the block otherwise. -/
def readNew (uninit : Nat → Breakpoint) (arr : List Breakpoint) (s : Nat) : Breakpoint :=
  match arr[s]? with
  | some b => b
  | none => uninit s

/-- The loop of `Breakpoints(toCopy, number)`: `s` and `d` are its two
indices, the third argument is `toCopy->mBreakpoints` from index `s` on, the
last one the new array.  The assignment is the source's
`mBreakpoints[d++] = mBreakpoints[s]`, which reads the new array. -/
def deleteLoop (uninit : Nat → Breakpoint) (number : Int) :
    Nat → Nat → List Breakpoint → List Breakpoint → List Breakpoint
  | _, _, [], arr => arr
  | s, d, other :: rest, arr =>
    if other.number = number then deleteLoop uninit number (s + 1) d rest arr
    else deleteLoop uninit number (s + 1) (d + 1) rest (arr.set d (readNew uninit arr s))

/-- `Breakpoints(toCopy, number)`, the delete-one constructor.  Its only caller,
`Delete`, runs it on a source that has the id `number`, so the count it
computes is not negative. -/
def Breakpoints.deleteOne (uninit : Nat → Breakpoint) (toCopy : Breakpoints)
    (number : Int) : Breakpoints :=
  let count : Int := toCopy.mBreakpointCount - 1
  if count = 0 then { mBreakpoints := [] }
  else
    { mBreakpoints :=
        deleteLoop uninit number 0 0 toCopy.mBreakpoints
          (newBreakpointArray uninit count.toNat) }

/-! ## Process-wide state -/

/-- `hx::StepType`, with the constants `Debug.cpp` uses. -/
inductive StepType
  | STEP_NONE
  | STEP_INTO
  | STEP_OVER
  | STEP_OUT
deriving DecidableEq

/-- `hx::ThreadStatus`, with the constants `Debug.cpp` uses. -/
inductive ThreadStatus
  | STATUS_INVALID
  | STATUS_RUNNING
  | STATUS_STOPPED_BREAK_IMMEDIATE
  | STATUS_STOPPED_BREAKPOINT
  | STATUS_STOPPED_CRITICAL_ERROR
deriving DecidableEq

/-- A host value (`Dynamic`); `null` is the value of `null()`.  The host's value
representation lies outside the runtime: only the null value and equality of
values matter here. -/
inductive Dynamic
  | null
  | bool (b : Bool)
  | int (i : Int)
  | string (s : String)
deriving DecidableEq

/-- Modelled from the spec: `StackVariable` is declared in `hx/Debug.h`,
which is not part of the sources at hand.  The spec gives it a name, a reader
that produces a host value from the variable's live location, a writer that
stores a host value back, and a next-pointer.  Here the live location is the
field `value`: the reader (`operator Dynamic`) returns it, the writer
(`operator=`) replaces it, and the next-pointer is the list structure. -/
structure StackVariable where
  mHaxeName : String
  value : Dynamic

/-- Modelled from the spec: `StackCatchable` is declared in `hx/Debug.h`, which
is not part of the sources at hand.  The spec gives it a predicate (does this
handler catch the given exception?) and a next-pointer; the next-pointer is
the list structure. -/
structure StackCatchable where
  Catches : Dynamic → Bool

/-- `hx::StackFrame`; `fileName` may be the null pointer; `variableList` is the
list headed by the member `variables`. -/
structure StackFrame where
  className : CStr
  functionName : CStr
  fullName : CStr
  fileName : Option CStr
  firstLineNumber : Int
  lineNumber : Int
  variableList : List StackVariable
  catchables : List StackCatchable

/-- Where the owning thread stands with respect to `CallStack::DoBreak`: outside
of it, about to execute it with the given arguments, after its status update,
after its call of the event handler, or inside its wait loop. -/
inductive BreakPhase
  | running
  | entering (status : ThreadStatus) (breakpoint : Int)
      (criticalErrorDescription : Option String)
  | recorded
  | notified
  | blocked
deriving DecidableEq

/-- One call of the event notification handler: `(thread, THREAD_STOPPED,
className, functionName, fileName, lineNumber)`, `(thread, THREAD_STARTED)`,
`(thread, THREAD_CREATED)` or `(thread, THREAD_TERMINATED)`. -/
inductive Event
  | stopped (threadNumber : Int) (className functionName : String)
      (fileName : Option String) (lineNumber : Int)
  | started (threadNumber : Int)
  | created (threadNumber : Int)
  | terminated (threadNumber : Int)
deriving DecidableEq

/-- `Profiler::ProfileEntry`.  `children` is the `std::map<const char *, int>`:
the keys are pointers, kept in address order. -/
structure ProfileEntry where
  self : Int
  children : List (CStr × Int)
  total : Int

/-- The data members of `Profiler`.  `mProfileStats` is the
`std::map<const char *, ProfileEntry>`: the keys are pointers, kept in address
order. -/
structure Profiler where
  mDumpFile : String
  mT0 : Int
  mProfileStats : List (CStr × ProfileEntry)

/-- The data members of `CallStack`.  `mWaitSemaphore` is the number of
pending signals of the semaphore; the mutex has no state of its own here.
`phase` is the control location of the owning thread in `DoBreak`;
`mProfiler` is `none` for the null pointer. -/
structure CallStack where
  mThreadNumber : Int
  mCanStop : Bool
  mStatus : ThreadStatus
  mBreakpoint : Int
  mCriticalErrorDescription : String
  mStackFrames : List StackFrame
  mExceptionStack : List String
  mWaiting : Bool
  mWaitSemaphore : Nat
  mContinueCount : Int
  phase : BreakPhase := BreakPhase.running
  mProfiler : Option Profiler := none

/-- The globals of `Debug.cpp`.  `callStacks` is the heap of live `CallStack`
objects by address, `gMap` the `std::map<int, CallStack *>` (a null pointer
is `none`) and `gList` the `std::list<CallStack *>`.  `handlerInstalled` says
whether `g_eventNotificationHandler` is not null, and `events` lists the calls
made to that handler so far, oldest first.  `tls` gives the `tlsCallStack` of
each thread by thread number (no entry for a null pointer) and `gProfileClock`
is `Profiler::gProfileClock`. -/
structure DebugState where
  gShouldCallHandleBreakpoints : Bool
  g_debugThreadNumber : Nat
  gBreakpoints : Breakpoints
  gNextBreakpointNumber : Int
  gStepType : StepType
  gStepLevel : Int
  gStepThread : Int
  gStepCount : Int
  callStacks : List (Nat × CallStack)
  gMap : List (Int × Option Nat)
  gList : List Nat
  handlerInstalled : Bool := false
  events : List Event := []
  tls : List (Int × Nat) := []
  gProfileClock : Int := 0

/-- The state after static initialisation. -/
def DebugState.initial : DebugState :=
  { gShouldCallHandleBreakpoints := false
    g_debugThreadNumber := 4294967295
    gBreakpoints := { mBreakpoints := [] }
    gNextBreakpointNumber := 0
    gStepType := StepType.STEP_NONE
    gStepLevel := 0
    gStepThread := -1
    gStepCount := -1
    callStacks := []
    gMap := []
    gList := [] }

/-- Two's-complement wrap of an `int` result to 32 bits. -/
def wrapInt32 (x : Int) : Int := (x + 2147483648) % 4294967296 - 2147483648

/-! ## Breakpoint registry -/

/-- `Breakpoints::Add(::String inFileName, int lineNumber)`. -/
def Breakpoints.AddFileLine (all_files : List CStr) (uninit : Nat → Breakpoint)
    (st : DebugState) (inFileName : String) (lineNumber : Int) : Int × DebugState :=
  match LookupFileName all_files inFileName with
  | none => (-1, st)
  | some fileName =>
    let ret := st.gNextBreakpointNumber
    let newBreakpoints := Breakpoints.addFileLine uninit st.gBreakpoints ret fileName lineNumber
    (ret, { st with gNextBreakpointNumber := wrapInt32 (ret + 1)
                    gBreakpoints := newBreakpoints
                    gShouldCallHandleBreakpoints := true })

/-- `Breakpoints::Add(::String inClassName, ::String functionName)`. -/
def Breakpoints.AddClassFunction (all_files : List CStr) (uninit : Nat → Breakpoint)
    (st : DebugState) (inClassName : String) (functionName : String) : Int × DebugState :=
  match LookupClassName all_files inClassName with
  | none => (-1, st)
  | some className =>
    let ret := st.gNextBreakpointNumber
    let newBreakpoints :=
      Breakpoints.addClassFunction uninit st.gBreakpoints ret className functionName
    (ret, { st with gNextBreakpointNumber := wrapInt32 (ret + 1)
                    gBreakpoints := newBreakpoints
                    gShouldCallHandleBreakpoints := true })

/-- `Breakpoints::DeleteAll`. -/
def Breakpoints.DeleteAll (st : DebugState) : DebugState :=
  { st with gBreakpoints := { mBreakpoints := [] }
            gShouldCallHandleBreakpoints := (st.gStepType != StepType.STEP_NONE) }

/-- `Breakpoints::Delete`. -/
def Breakpoints.Delete (uninit : Nat → Breakpoint) (st : DebugState) (number : Int) :
    DebugState :=
  if st.gBreakpoints.HasBreakpoint number then
    let newBreakpoints := Breakpoints.deleteOne uninit st.gBreakpoints number
    if newBreakpoints.IsEmpty then
      { st with gBreakpoints := newBreakpoints
                gShouldCallHandleBreakpoints := (st.gStepType != StepType.STEP_NONE) }
    else { st with gBreakpoints := newBreakpoints }
  else st

/-! ## Call stacks and the thread directory -/

/-- The comparison of an `int` thread number with the `unsigned int`
`g_debugThreadNumber`: the `int` is converted to `unsigned int` first. -/
def isDebugThread (st : DebugState) (threadNumber : Int) : Bool :=
  (threadNumber % 4294967296).toNat == st.g_debugThreadNumber

/-- Writing through a `CallStack *`: the object at address `p` is replaced. -/
def storeStack (heap : List (Nat × CallStack)) (p : Nat) (stack : CallStack) :
    List (Nat × CallStack) :=
  heap.map (fun e => if e.1 = p then (p, stack) else e)

/-- `gMap[threadNumber]`: `operator[]` of `std::map`, which inserts a null
pointer for a key that is absent. -/
def mapIndex (gMap : List (Int × Option Nat)) (threadNumber : Int) :
    Option Nat × List (Int × Option Nat) :=
  match gMap.lookup threadNumber with
  | some stack => (stack, gMap)
  | none => (none, gMap ++ [(threadNumber, none)])

/-- `CallStack::Continue`. -/
def CallStack.Continue (stack : CallStack) (count : Int) : CallStack :=
  let count := if count < 1 then 1 else count
  if stack.mWaiting then
    { stack with mWaiting := false
                 mContinueCount := count - 1
                 mWaitSemaphore := stack.mWaitSemaphore + 1 }
  else stack

/-- The loop of `CallStack::ContinueThreads` over `gList`. -/
def continueThreadsLoop (specialThreadNumber count : Int) :
    List Nat → List (Nat × CallStack) → Option (List (Nat × CallStack))
  | [], heap => some heap
  | p :: rest, heap =>
    match heap.lookup p with
    | none => none
    | some stack =>
      if stack.mThreadNumber = specialThreadNumber then
        continueThreadsLoop specialThreadNumber count rest
          (storeStack heap p (stack.Continue count))
      else
        continueThreadsLoop specialThreadNumber count rest
          (storeStack heap p (stack.Continue 1))

/-- `CallStack::ContinueThreads`. -/
def CallStack.ContinueThreads (st : DebugState) (specialThreadNumber count : Int) :
    Option DebugState :=
  match continueThreadsLoop specialThreadNumber count st.gList st.callStacks with
  | none => none
  | some heap => some { st with callStacks := heap }

/-- The loop of `CallStack::StepOneThread` over `gList`; the last argument and
the second component of the result are the reference parameter `stackLevel`. -/
def stepOneThreadLoop (threadNumber : Int) :
    List Nat → List (Nat × CallStack) → Int → Option (List (Nat × CallStack) × Int)
  | [], heap, stackLevel => some (heap, stackLevel)
  | p :: rest, heap, stackLevel =>
    match heap.lookup p with
    | none => none
    | some stack =>
      if stack.mThreadNumber = threadNumber then
        some (storeStack heap p (stack.Continue 1), (stack.mStackFrames.length : Int) - 1)
      else stepOneThreadLoop threadNumber rest heap stackLevel

/-- `CallStack::StepOneThread(threadNumber, gStepLevel)`. -/
def CallStack.StepOneThread (st : DebugState) (threadNumber : Int) : Option DebugState :=
  match stepOneThreadLoop threadNumber st.gList st.callStacks st.gStepLevel with
  | none => none
  | some (heap, stackLevel) => some { st with callStacks := heap, gStepLevel := stackLevel }

/-- The first loop of `CallStack::WaitForAllThreadsToStop`: the thread numbers
of all stacks of `gList` except the debugger's. -/
def collectThreadNumbers (st : DebugState) : List Nat → Option (List Int)
  | [] => some []
  | p :: rest =>
    match st.callStacks.lookup p with
    | none => none
    | some stack =>
      match collectThreadNumbers st rest with
      | none => none
      | some threadNumbers =>
        if isDebugThread st stack.mThreadNumber then some threadNumbers
        else some (stack.mThreadNumber :: threadNumbers)

/-- The locked part of one iteration of the second loop of
`WaitForAllThreadsToStop`: `gMap[threadNumbers[i]]` and the two tests.  The
result says whether the loop moves on to the next index (the stack is gone or
waiting) and gives the state after the map access. -/
def pollThread (st : DebugState) (threadNumber : Int) : Option (Bool × DebugState) :=
  let st1 := { st with gMap := (mapIndex st.gMap threadNumber).2 }
  match (mapIndex st.gMap threadNumber).1 with
  | none => some (true, st1)
  | some p =>
    match st1.callStacks.lookup p with
    | none => none
    | some stack => some (stack.mWaiting, st1)

/-- The iterations of the second loop of `WaitForAllThreadsToStop` that stay at
one index `i`.  `env k` is what the other threads do to the state during the
`k`-th sleep.  Arguments: `timeSlicesLeft`, the number of sleeps so far, the
state.  Result: whether the function returned (gave up), `timeSlicesLeft`, the
number of sleeps, the state. -/
def waitForThread (env : Nat → DebugState → DebugState) (threadNumber : Int) :
    Nat → Nat → DebugState → Option (Bool × Nat × Nat × DebugState)
  | 0, slept, st =>
    match pollThread st threadNumber with
    | none => none
    | some (true, st1) => some (false, 0, slept, st1)
    | some (false, st1) => some (true, 0, slept, st1)
  | k + 1, slept, st =>
    match pollThread st threadNumber with
    | none => none
    | some (true, st1) => some (false, k + 1, slept, st1)
    | some (false, st1) => waitForThread env threadNumber k (slept + 1) (env slept st1)

/-- The second loop of `WaitForAllThreadsToStop`, over the copied thread
numbers from index `i` on. -/
def waitLoop (env : Nat → DebugState → DebugState) :
    List Int → Nat → Nat → DebugState → Option (Nat × DebugState)
  | [], _, slept, st => some (slept, st)
  | threadNumber :: rest, timeSlicesLeft, slept, st =>
    match waitForThread env threadNumber timeSlicesLeft slept st with
    | none => none
    | some (true, _, slept1, st1) => some (slept1, st1)
    | some (false, timeSlicesLeft1, slept1, st1) => waitLoop env rest timeSlicesLeft1 slept1 st1

/-- `CallStack::WaitForAllThreadsToStop`; the result carries the number of
100 ms sleeps performed. -/
def CallStack.WaitForAllThreadsToStop (env : Nat → DebugState → DebugState)
    (st : DebugState) : Option (Nat × DebugState) :=
  match collectThreadNumbers st st.gList with
  | none => none
  | some threadNumbers => waitLoop env threadNumbers 20 0 st

/-- `Breakpoints::BreakNow`. -/
def Breakpoints.BreakNow (env : Nat → DebugState → DebugState) (st : DebugState)
    (wait : Bool) : Option DebugState :=
  let st1 := { st with gStepType := StepType.STEP_INTO
                       gStepCount := 0
                       gStepThread := -1
                       gShouldCallHandleBreakpoints := true }
  if wait then
    match CallStack.WaitForAllThreadsToStop env st1 with
    | none => none
    | some r => some r.2
  else some st1

/-- `Breakpoints::ContinueThreads`. -/
def Breakpoints.ContinueThreads (st : DebugState) (specialThreadNumber continueCount : Int) :
    Option DebugState :=
  CallStack.ContinueThreads
    { st with gStepType := StepType.STEP_NONE
              gShouldCallHandleBreakpoints := !st.gBreakpoints.IsEmpty }
    specialThreadNumber continueCount

/-- `Breakpoints::StepThread`. -/
def Breakpoints.StepThread (st : DebugState) (threadNumber : Int) (stepType : StepType)
    (stepCount : Int) : Option DebugState :=
  CallStack.StepOneThread
    { st with gStepThread := threadNumber
              gStepType := stepType
              gStepCount := stepCount }
    threadNumber

/-! ## Variable inspection -/

/-- The `while (sv != NULL)` loop of `CallStack::GetVariableValue`. -/
def findVariable : List StackVariable → String → Dynamic → Dynamic
  | [], _, markNonexistent => markNonexistent
  | sv :: rest, nameToFind, markNonexistent =>
    if sv.mHaxeName = nameToFind then sv.value
    else findVariable rest nameToFind markNonexistent

/-- The `while (sv != NULL)` loop of `CallStack::SetVariableValue`: the value
returned and the variable list afterwards. -/
def assignVariable : List StackVariable → String → Dynamic → Dynamic →
    Dynamic × List StackVariable
  | [], _, _, markNonexistent => (markNonexistent, [])
  | sv :: rest, nameToFind, value, markNonexistent =>
    if sv.mHaxeName = nameToFind then
      let sv1 : StackVariable := { sv with value := value }
      (sv1.value, sv1 :: rest)
    else
      let r := assignVariable rest nameToFind value markNonexistent
      (r.1, sv :: r.2)

/-- `CallStack::GetVariableValue`. -/
def CallStack.GetVariableValue (st : DebugState) (threadNumber stackFrameNumber : Int)
    (name : String) (unsafeAccess : Bool) (markNonexistent markThreadNotStopped : Dynamic) :
    Option Dynamic :=
  if isDebugThread st threadNumber then some markNonexistent
  else
    match st.gMap.lookup threadNumber with
    | none => some markNonexistent
    | some none => none
    | some (some p) =>
      match st.callStacks.lookup p with
      | none => none
      | some stack =>
        if stack.mStatus = ThreadStatus.STATUS_RUNNING ∧ !unsafeAccess then
          some markThreadNotStopped
        else
          let size : Int := stack.mStackFrames.length
          if stackFrameNumber < 0 ∨ stackFrameNumber ≥ size then some markNonexistent
          else
            match stack.mStackFrames[stackFrameNumber.toNat]? with
            | none => none
            | some frame => some (findVariable frame.variableList name markNonexistent)

/-- `CallStack::SetVariableValue`: the value returned and the state afterwards. -/
def CallStack.SetVariableValue (st : DebugState) (threadNumber stackFrameNumber : Int)
    (name : String) (value : Dynamic) (unsafeAccess : Bool)
    (markNonexistent markThreadNotStopped : Dynamic) : Option (Dynamic × DebugState) :=
  if isDebugThread st threadNumber then some (Dynamic.null, st)
  else
    match st.gMap.lookup threadNumber with
    | none => some (Dynamic.null, st)
    | some none => none
    | some (some p) =>
      match st.callStacks.lookup p with
      | none => none
      | some stack =>
        if stack.mStatus = ThreadStatus.STATUS_RUNNING ∧ !unsafeAccess then
          some (markThreadNotStopped, st)
        else
          let size : Int := stack.mStackFrames.length
          if stackFrameNumber < 0 ∨ stackFrameNumber ≥ size then some (Dynamic.null, st)
          else if name = "this" then some (markNonexistent, st)
          else
            match stack.mStackFrames[stackFrameNumber.toNat]? with
            | none => none
            | some frame =>
              let r := assignVariable frame.variableList name value markNonexistent
              let frame1 := { frame with variableList := r.2 }
              let stack1 :=
                { stack with mStackFrames := stack.mStackFrames.set stackFrameNumber.toNat frame1 }
              some (r.1, { st with callStacks := storeStack st.callStacks p stack1 })

/-- The loop of `CallStack::GetStackVariables` over the variable list. -/
def variableNames : List StackVariable → List Dynamic
  | [] => []
  | sv :: rest => Dynamic.string sv.mHaxeName :: variableNames rest

/-- The loop of `CallStack::GetStackVariables` over `gList`.  The comparison
`mStackFrames.size() <= stackFrameNumber` is made in `size_t`, to which the
`int` is converted, and so is the index. -/
def getStackVariablesLoop (st : DebugState) (threadNumber stackFrameNumber : Int)
    (unsafeAccess : Bool) (markThreadNotStopped : Dynamic) : List Nat → Option (List Dynamic)
  | [] => some []
  | p :: rest =>
    match st.callStacks.lookup p with
    | none => none
    | some stack =>
      if stack.mThreadNumber = threadNumber then
        if stack.mStatus = ThreadStatus.STATUS_RUNNING ∧ !unsafeAccess then
          some [markThreadNotStopped]
        else if (stack.mStackFrames.length : Int) ≤ stackFrameNumber % 18446744073709551616 then
          some []
        else
          match stack.mStackFrames[(stackFrameNumber % 18446744073709551616).toNat]? with
          | none => none
          | some frame => some (variableNames frame.variableList)
      else getStackVariablesLoop st threadNumber stackFrameNumber unsafeAccess
        markThreadNotStopped rest

/-- `CallStack::GetStackVariables`. -/
def CallStack.GetStackVariables (st : DebugState) (threadNumber stackFrameNumber : Int)
    (unsafeAccess : Bool) (markThreadNotStopped : Dynamic) : Option (List Dynamic) :=
  getStackVariablesLoop st threadNumber stackFrameNumber unsafeAccess markThreadNotStopped
    st.gList

/-! ## Thread information -/

/-- Modelled from the spec: the record that the host's callback
`g_newStackFrameFunction` wraps: file name, line number (passed as a string),
class name and function name of one frame. -/
structure StackFrameInfo where
  fileName : Option String
  lineNumber : String
  className : String
  functionName : String
deriving DecidableEq

/-- Modelled from the spec: the record that the host's callback
`g_newThreadInfoFunction` wraps: thread number, status, breakpoint, the
critical error description when it is passed, and the frames that
`g_addStackFrameToThreadInfoFunction` appended, in the order of the calls. -/
structure ThreadInfo where
  number : Int
  status : ThreadStatus
  breakpoint : Int
  criticalErrorDescription : Option String
  stack : List StackFrameInfo
deriving DecidableEq

/-- The text of `::String(int)`: decimal digits with a minus sign when negative. -/
def intToString (i : Int) : String :=
  if i < 0 then "-" ++ Nat.repr i.natAbs else Nat.repr i.natAbs

/-- `CallStack::StackFrameToStackFrameLocked`. -/
def StackFrameToStackFrameLocked (frame : StackFrame) : StackFrameInfo :=
  { fileName := frame.fileName.map CStr.chars
    lineNumber := intToString frame.lineNumber
    className := frame.className.chars
    functionName := frame.functionName.chars }

/-- The loop of `CallStack::CallStackToThreadInfoLocked`: one call of
`g_addStackFrameToThreadInfoFunction` per frame, from index 0 up. -/
def addStackFrames : List StackFrame → ThreadInfo → ThreadInfo
  | [], ret => ret
  | frame :: rest, ret =>
    addStackFrames rest { ret with stack := ret.stack ++ [StackFrameToStackFrameLocked frame] }

/-- `CallStack::CallStackToThreadInfoLocked`. -/
def CallStackToThreadInfoLocked (stack : CallStack) : ThreadInfo :=
  addStackFrames stack.mStackFrames
    { number := stack.mThreadNumber
      status := stack.mStatus
      breakpoint := stack.mBreakpoint
      criticalErrorDescription := some stack.mCriticalErrorDescription
      stack := [] }

/-- `CallStack::GetThreadInfo`; the inner `none` is the null value. -/
def CallStack.GetThreadInfo (st : DebugState) (threadNumber : Int) (unsafeAccess : Bool) :
    Option (Option ThreadInfo) :=
  if isDebugThread st threadNumber then some none
  else
    match st.gMap.lookup threadNumber with
    | none => some none
    | some none => none
    | some (some p) =>
      match st.callStacks.lookup p with
      | none => none
      | some stack =>
        if stack.mStatus = ThreadStatus.STATUS_RUNNING ∧ !unsafeAccess then some none
        else some (some (CallStackToThreadInfoLocked stack))

/-- The loop of `CallStack::GetThreadInfos` over `gList`. -/
def getThreadInfosLoop (st : DebugState) : List Nat → Option (List ThreadInfo)
  | [] => some []
  | p :: rest =>
    match st.callStacks.lookup p with
    | none => none
    | some stack =>
      match getThreadInfosLoop st rest with
      | none => none
      | some ret =>
        if isDebugThread st stack.mThreadNumber then some ret
        else if stack.mStatus = ThreadStatus.STATUS_RUNNING then
          some ({ number := stack.mThreadNumber, status := stack.mStatus, breakpoint := -1,
                  criticalErrorDescription := none, stack := [] } :: ret)
        else some (CallStackToThreadInfoLocked stack :: ret)

/-- `CallStack::GetThreadInfos`. -/
def CallStack.GetThreadInfos (st : DebugState) : Option (List ThreadInfo) :=
  getThreadInfosLoop st st.gList

/-! ## Stopping and resuming a thread -/

/-- The first statements of `CallStack::DoBreak`: status, breakpoint and, when
one is passed, the critical error description are recorded, and `mCanStop`
is cleared. -/
def CallStack.DoBreakRecord (stack : CallStack) (status : ThreadStatus) (breakpoint : Int)
    (criticalErrorDescription : Option String) : CallStack :=
  { stack with mStatus := status
               mBreakpoint := breakpoint
               mCriticalErrorDescription :=
                 match criticalErrorDescription with
                 | some description => description
                 | none => stack.mCriticalErrorDescription
               mCanStop := false
               phase := BreakPhase.recorded }

/-- The call of the event handler in `CallStack::DoBreak` with
`THREAD_STOPPED` and the data of `mStackFrames.back()`. -/
def CallStack.DoBreakNotify (handlerInstalled : Bool) (stack : CallStack) :
    Option (CallStack × Event) :=
  match stack.mStackFrames.getLast? with
  | none => none
  | some frame =>
    if handlerInstalled then
      some ({ stack with phase := BreakPhase.notified },
        Event.stopped stack.mThreadNumber frame.className.chars frame.functionName.chars
          (frame.fileName.map CStr.chars) frame.lineNumber)
    else none

/-- The statement `mWaiting = true` of `CallStack::DoBreak`, made under the wait
mutex; the thread then enters the wait loop. -/
def CallStack.DoBreakSetWaiting (stack : CallStack) : CallStack :=
  { stack with mWaiting := true, phase := BreakPhase.blocked }

/-- `CallStack::DoBreak` up to the point where the thread blocks on its
semaphore. -/
def CallStack.DoBreak (handlerInstalled : Bool) (stack : CallStack) (status : ThreadStatus)
    (breakpoint : Int) (criticalErrorDescription : Option String) :
    Option (CallStack × List Event) :=
  match (stack.DoBreakRecord status breakpoint criticalErrorDescription).DoBreakNotify
      handlerInstalled with
  | none => none
  | some (stack1, event) => some (stack1.DoBreakSetWaiting, [event])

/-- The rest of `CallStack::DoBreak`, for a thread inside the wait loop: `none`
while `mWaitSemaphore.Wait()` blocks; a signal that finds `mWaiting` still set
is consumed and the loop goes on; otherwise the status goes back to RUNNING,
the breakpoint to -1, the handler is called with `THREAD_STARTED` and
`mCanStop` is set. -/
def CallStack.DoBreakWake (handlerInstalled : Bool) (stack : CallStack) :
    Option (CallStack × List Event) :=
  match stack.phase with
  | BreakPhase.blocked =>
    match stack.mWaitSemaphore with
    | 0 => none
    | n + 1 =>
      if stack.mWaiting then some ({ stack with mWaitSemaphore := n }, [])
      else if handlerInstalled then
        some ({ stack with mWaitSemaphore := n
                           mStatus := ThreadStatus.STATUS_RUNNING
                           mBreakpoint := -1
                           mCanStop := true
                           phase := BreakPhase.running },
          [Event.started stack.mThreadNumber])
      else none
  | _ => none

/-- `CallStack::Break` up to its call of `DoBreak`: either it returns (the
residual continue count is decremented) or the thread is about to execute
`DoBreak(status, breakpoint, NULL)`. -/
def CallStack.BreakEnter (stack : CallStack) (status : ThreadStatus) (breakpoint : Int) :
    CallStack :=
  if status = ThreadStatus.STATUS_STOPPED_BREAK_IMMEDIATE then
    { stack with mContinueCount := 0
                 phase := BreakPhase.entering status breakpoint none }
  else if stack.mContinueCount > 0 then
    { stack with mContinueCount := stack.mContinueCount - 1 }
  else { stack with phase := BreakPhase.entering status breakpoint none }

/-- The pending call of `DoBreak`, if there is one, run until the thread blocks. -/
def CallStack.runDoBreak (handlerInstalled : Bool) (stack : CallStack) :
    Option (CallStack × List Event) :=
  match stack.phase with
  | BreakPhase.entering status breakpoint criticalErrorDescription =>
    stack.DoBreak handlerInstalled status breakpoint criticalErrorDescription
  | _ => some (stack, [])

/-- `CallStack::Break`, until it returns or the thread blocks in `DoBreak`. -/
def CallStack.Break (handlerInstalled : Bool) (stack : CallStack) (status : ThreadStatus)
    (breakpoint : Int) : Option (CallStack × List Event) :=
  (stack.BreakEnter status breakpoint).runDoBreak handlerInstalled

/-- The effect of a method of the stack at address `p` on the state: the object
is replaced and the handler calls are appended to the trace. -/
def applyToStack (st : DebugState) (p : Nat) : Option (CallStack × List Event) →
    Option DebugState
  | none => none
  | some (stack, newEvents) =>
    some { st with callStacks := storeStack st.callStacks p stack
                   events := st.events ++ newEvents }

/-- `CallStack::BreakCriticalError` for the thread whose stack is at `p`, until
the thread blocks in `DoBreak`. -/
def CallStack.BreakCriticalError (st : DebugState) (p : Nat) (inErr : String) :
    Option DebugState :=
  match st.callStacks.lookup p with
  | none => none
  | some stack =>
    applyToStack st p
      (stack.DoBreak st.handlerInstalled ThreadStatus.STATUS_STOPPED_CRITICAL_ERROR (-1)
        (some inErr))

/-- `hx::CriticalErrorHandler` in a debugger build, for the thread whose stack is
at `p`: the state in which the thread blocks in `DoBreak`, or `none` when the
process is terminated. -/
def CriticalErrorHandler (st : DebugState) (p : Nat) (inErr : String) (allowFixup : Bool) :
    Option DebugState :=
  if allowFixup ∧ st.handlerInstalled then CallStack.BreakCriticalError st p inErr
  else none

/-- `hx::NullReference`. -/
def NullReference (st : DebugState) (p : Nat) (type : String) (allowFixup : Bool) :
    Option DebugState :=
  CriticalErrorHandler st p ("Null " ++ type ++ " Reference") allowFixup

/-- The inner loop of `CallStack::CanBeCaught` over the catchables of a frame. -/
def catchablesCatch (e : Dynamic) : List StackCatchable → Bool
  | [] => false
  | catchable :: rest => if catchable.Catches e then true else catchablesCatch e rest

/-- The outer loop of `CallStack::CanBeCaught`; the list holds the frames in the
order of the reverse iterator, innermost first. -/
def framesCatch (e : Dynamic) : List StackFrame → Bool
  | [] => false
  | frame :: rest => if catchablesCatch e frame.catchables then true else framesCatch e rest

/-- `CallStack::CanBeCaught`. -/
def CallStack.CanBeCaught (stack : CallStack) (e : Dynamic) : Bool :=
  framesCatch e stack.mStackFrames.reverse

/-! ## The probe -/

/-- `CallStack::GetDepth`. -/
def CallStack.GetDepth (stack : CallStack) : Int := (stack.mStackFrames.length : Int) - 1

/-- The first part of `Breakpoints::HandleBreakpoints`, "handle possible
immediate break": the break status after it. -/
def stepCheck (st : DebugState) (stack : CallStack) : ThreadStatus :=
  match st.gStepType with
  | StepType.STEP_NONE => ThreadStatus.STATUS_INVALID
  | StepType.STEP_INTO =>
    if st.gStepThread = -1 ∨ st.gStepThread = stack.mThreadNumber then
      ThreadStatus.STATUS_STOPPED_BREAK_IMMEDIATE
    else ThreadStatus.STATUS_INVALID
  | StepType.STEP_OVER =>
    if st.gStepThread = -1 ∨ st.gStepThread = stack.mThreadNumber then
      if stack.GetDepth ≤ st.gStepLevel then ThreadStatus.STATUS_STOPPED_BREAK_IMMEDIATE
      else ThreadStatus.STATUS_INVALID
    else ThreadStatus.STATUS_INVALID
  | StepType.STEP_OUT =>
    if st.gStepThread = -1 ∨ st.gStepThread = stack.mThreadNumber then
      if stack.GetDepth < st.gStepLevel then ThreadStatus.STATUS_STOPPED_BREAK_IMMEDIATE
      else ThreadStatus.STATUS_INVALID
    else ThreadStatus.STATUS_INVALID

/-- The address held by a `const char *` that may be null; null is address 0. -/
def ptrOf : Option CStr → Nat
  | none => 0
  | some c => c.addr

/-- The loop of `Breakpoints::FindFileLineBreakpoint`. -/
def findFileLineLoop (fileName : Option CStr) (lineNumber : Int) : List Breakpoint → Int
  | [] => -1
  | breakpoint :: rest =>
    if breakpoint.isFileLine = true ∧ breakpoint.fileOrClassName.addr = ptrOf fileName ∧
        breakpoint.lineNumber = lineNumber then breakpoint.number
    else findFileLineLoop fileName lineNumber rest

/-- `Breakpoints::FindFileLineBreakpoint`. -/
def Breakpoints.FindFileLineBreakpoint (bs : Breakpoints) (fileName : Option CStr)
    (lineNumber : Int) : Int :=
  findFileLineLoop fileName lineNumber bs.mBreakpoints

/-- The loop of `Breakpoints::FindClassFunctionBreakpoint`. -/
def findClassFunctionLoop (className functionName : CStr) : List Breakpoint → Int
  | [] => -1
  | breakpoint :: rest =>
    if breakpoint.isFileLine = false ∧ breakpoint.fileOrClassName.addr = className.addr ∧
        breakpoint.functionName = functionName.chars then breakpoint.number
    else findClassFunctionLoop className functionName rest

/-- `Breakpoints::FindClassFunctionBreakpoint`. -/
def Breakpoints.FindClassFunctionBreakpoint (bs : Breakpoints) (className functionName : CStr) :
    Int :=
  findClassFunctionLoop className functionName bs.mBreakpoints

/-- The value of `breakpointNumber` after the two searches of
`Breakpoints::HandleBreakpoints`: the class:function search is made when the
current line is the first line of the frame, the file:line search when the
number is still -1. -/
def breakpointNumberFor (breakpoints : Breakpoints) (frame : StackFrame) : Int :=
  let classFunction : Int :=
    if frame.lineNumber = frame.firstLineNumber then
      breakpoints.FindClassFunctionBreakpoint frame.className frame.functionName
    else -1
  if classFunction = -1 then
    breakpoints.FindFileLineBreakpoint frame.fileName frame.lineNumber
  else classFunction

/-- The second part of `Breakpoints::HandleBreakpoints`, "check for set
breakpoints", on the snapshot the thread holds after refreshing its
thread-local pointer: break status and breakpoint number after it.  `none` is
`GetCurrentStackFrame()` on a stack without frames. -/
def breakpointCheck (breakpoints : Breakpoints) (stack : CallStack) :
    Option (ThreadStatus × Int) :=
  if breakpoints.IsEmpty then some (ThreadStatus.STATUS_INVALID, -1)
  else
    match stack.mStackFrames.getLast? with
    | none => none
    | some frame =>
      if breakpointNumberFor breakpoints frame ≠ -1 then
        some (ThreadStatus.STATUS_STOPPED_BREAKPOINT, breakpointNumberFor breakpoints frame)
      else some (ThreadStatus.STATUS_INVALID, breakpointNumberFor breakpoints frame)

/-- The break status and breakpoint number that `Breakpoints::HandleBreakpoints`
has computed when it reaches "If no breakpoint of any kind was found".  The
thread-local snapshot is the published one: the probe replaces its cached
pointer whenever it differs from `gBreakpoints`. -/
def probeResult (st : DebugState) (stack : CallStack) : Option (ThreadStatus × Int) :=
  if stepCheck st stack = ThreadStatus.STATUS_INVALID then breakpointCheck st.gBreakpoints stack
  else some (stepCheck st stack, -1)

/-- `Breakpoints::HandleBreakpoints` for the thread whose stack is at `p`, up to
the call of `DoBreak` inside `Break`. -/
def Breakpoints.HandleBreakpointsEnter (st : DebugState) (p : Nat) : Option DebugState :=
  match st.callStacks.lookup p with
  | none => none
  | some stack =>
    match probeResult st stack with
    | none => none
    | some (breakStatus, breakpointNumber) =>
      if breakStatus = ThreadStatus.STATUS_INVALID then some st
      else if isDebugThread st stack.mThreadNumber then some st
      else if !stack.mCanStop then some st
      else if breakStatus = ThreadStatus.STATUS_STOPPED_BREAK_IMMEDIATE ∧ st.gStepCount > 1 then
        some { st with gStepCount := st.gStepCount - 1 }
      else
        some { st with
          callStacks := storeStack st.callStacks p (stack.BreakEnter breakStatus breakpointNumber) }

/-- The pending call of `DoBreak` of the stack at `p`, if there is one, run
until the thread blocks. -/
def runDoBreakAt (st : DebugState) (p : Nat) : Option DebugState :=
  match st.callStacks.lookup p with
  | none => none
  | some stack =>
    match stack.phase with
    | BreakPhase.entering status breakpoint criticalErrorDescription =>
      applyToStack st p
        (stack.DoBreak st.handlerInstalled status breakpoint criticalErrorDescription)
    | _ => some st

/-- `Breakpoints::HandleBreakpoints` for the thread whose stack is at `p`, until
it returns or the thread blocks in `DoBreak`. -/
def Breakpoints.HandleBreakpoints (st : DebugState) (p : Nat) : Option DebugState :=
  match Breakpoints.HandleBreakpointsEnter st p with
  | none => none
  | some st1 => runDoBreakAt st1 p

/-! ## Worker threads step by step -/

/-- One step of the thread whose stack is at `p`.  Outside `DoBreak` the step is
a probe up to the call of `DoBreak`; inside, the steps are: record the status,
notify the handler, set `mWaiting`, and wake (disabled, `none`, while the
semaphore has no signal). -/
def workerStep (st : DebugState) (p : Nat) : Option DebugState :=
  match st.callStacks.lookup p with
  | none => none
  | some stack =>
    match stack.phase with
    | BreakPhase.running => Breakpoints.HandleBreakpointsEnter st p
    | BreakPhase.entering status breakpoint criticalErrorDescription =>
      applyToStack st p
        (some (stack.DoBreakRecord status breakpoint criticalErrorDescription, []))
    | BreakPhase.recorded =>
      match stack.DoBreakNotify st.handlerInstalled with
      | none => none
      | some (stack1, event) => applyToStack st p (some (stack1, [event]))
    | BreakPhase.notified => applyToStack st p (some (stack.DoBreakSetWaiting, []))
    | BreakPhase.blocked => applyToStack st p (stack.DoBreakWake st.handlerInstalled)

/-- The steps of the listed threads, one after the other; a thread that cannot
step is passed over. -/
def runWorkerSteps : List Nat → DebugState → DebugState
  | [], st => st
  | p :: rest, st =>
    match workerStep st p with
    | none => runWorkerSteps rest st
    | some st1 => runWorkerSteps rest st1

/-- The debugger calls `BreakNow(true)` and then `ContinueThreads(-1, 1)`, while
the worker threads take the steps `during k` in the `k`-th sleep of
`WaitForAllThreadsToStop` and the steps `after` once `ContinueThreads` has
returned. -/
def breakAllThenContinue (during : Nat → List Nat) (after : List Nat) (st : DebugState) :
    Option DebugState :=
  match Breakpoints.BreakNow (fun k s => runWorkerSteps (during k) s) st true with
  | none => none
  | some st1 =>
    match Breakpoints.ContinueThreads st1 (-1) 1 with
    | none => none
    | some st2 => some (runWorkerSteps after st2)

/-! ## Sequences of registry operations -/

/-- One call of the breakpoint registry by the debugger, with the content of
the memory its allocation receives. -/
inductive RegistryOp
  | addFileLine (uninit : Nat → Breakpoint) (inFileName : String) (lineNumber : Int)
  | addClassFunction (uninit : Nat → Breakpoint) (inClassName functionName : String)
  | delete (uninit : Nat → Breakpoint) (number : Int)
  | deleteAll

/-- Runs the calls in order; the first component lists what the `Add` calls
returned, in call order. -/
def runRegistryOps (all_files : List CStr) : DebugState → List RegistryOp → List Int × DebugState
  | st, [] => ([], st)
  | st, RegistryOp.addFileLine uninit inFileName lineNumber :: rest =>
    let r := Breakpoints.AddFileLine all_files uninit st inFileName lineNumber
    let t := runRegistryOps all_files r.2 rest
    (r.1 :: t.1, t.2)
  | st, RegistryOp.addClassFunction uninit inClassName functionName :: rest =>
    let r := Breakpoints.AddClassFunction all_files uninit st inClassName functionName
    let t := runRegistryOps all_files r.2 rest
    (r.1 :: t.1, t.2)
  | st, RegistryOp.delete uninit number :: rest =>
    runRegistryOps all_files (Breakpoints.Delete uninit st number) rest
  | st, RegistryOp.deleteAll :: rest =>
    runRegistryOps all_files (Breakpoints.DeleteAll st) rest

/-- The ids among the values returned by `Add` calls: those that are not the
failure value `-1`. -/
def successfulIds (returned : List Int) : List Int :=
  returned.filter (fun r => r != -1)

/-! ## The hot-flag relation -/

/-- The relation between the hot flag, the snapshot and the step mode that the
data model asks for: the flag is true iff a breakpoint exists or the step mode
is not NONE. -/
def HotFlagInvariant (st : DebugState) : Prop :=
  st.gShouldCallHandleBreakpoints = true ↔
    (st.gBreakpoints.mBreakpoints ≠ [] ∨ st.gStepType ≠ StepType.STEP_NONE)

/-- The three globals the hot-flag relation reads agree in two states. -/
def SameRegistry (a b : DebugState) : Prop :=
  a.gShouldCallHandleBreakpoints = b.gShouldCallHandleBreakpoints ∧
  a.gBreakpoints = b.gBreakpoints ∧ a.gStepType = b.gStepType

/-! ## Concrete data used in the examples -/

/-- An identifier table with two files and two classes. -/
def exampleTable : List CStr :=
  [⟨100, "A.hx"⟩, ⟨101, "B.hx"⟩, ⟨102, "@@@ CLASSES FOLLOW @@@"⟩, ⟨103, "X"⟩, ⟨104, "Y"⟩]

/-- A possible content of freshly allocated memory. -/
def exampleUninit : Nat → Breakpoint :=
  fun i => ⟨-7 - i, false, ⟨0, ""⟩, 0, ""⟩

/-- The registry after `AddFileLineBreakpoint("A.hx", 10)` on the initial state. -/
def exampleOneBreakpoint : DebugState :=
  (Breakpoints.AddFileLine exampleTable exampleUninit DebugState.initial "A.hx" 10).2

/-- The registry after a further `AddFileLineBreakpoint("B.hx", 20)`. -/
def exampleTwoBreakpoints : DebugState :=
  (Breakpoints.AddFileLine exampleTable exampleUninit exampleOneBreakpoint "B.hx" 20).2

/-- A short session of the debugger against the registry. -/
def exampleOps : List RegistryOp :=
  [RegistryOp.addFileLine exampleUninit "A.hx" 10,
   RegistryOp.addClassFunction exampleUninit "NoSuchClass" "m",
   RegistryOp.delete exampleUninit 0,
   RegistryOp.addClassFunction exampleUninit "X" "m",
   RegistryOp.deleteAll,
   RegistryOp.addFileLine exampleUninit "B.hx" 5]

/-- A frame of `X.m` in `A.hx` with four variable descriptors. -/
def exampleFrame : StackFrame :=
  { className := ⟨103, "X"⟩
    functionName := ⟨200, "m"⟩
    fullName := ⟨201, "X.m"⟩
    fileName := some ⟨100, "A.hx"⟩
    firstLineNumber := 10
    lineNumber := 12
    variableList :=
      [⟨"a", Dynamic.int 1⟩, ⟨"this", Dynamic.string "obj"⟩, ⟨"b", Dynamic.int 2⟩,
        ⟨"a", Dynamic.int 9⟩]
    catchables := [] }

/-- The call stack of thread 1, stopped in a breakpoint with one frame. -/
def exampleStack : CallStack :=
  { mThreadNumber := 1
    mCanStop := false
    mStatus := ThreadStatus.STATUS_STOPPED_BREAKPOINT
    mBreakpoint := 0
    mCriticalErrorDescription := ""
    mStackFrames := [exampleFrame]
    mExceptionStack := []
    mWaiting := true
    mWaitSemaphore := 0
    mContinueCount := 0
    phase := BreakPhase.blocked }

/-- A state in which the debugger runs on thread 0 and thread 1 is stopped in
breakpoint 0. -/
def exampleStopped : DebugState :=
  { exampleOneBreakpoint with
    g_debugThreadNumber := 0
    callStacks := [(500, exampleStack)]
    gMap := [(1, some 500)]
    gList := [500]
    handlerInstalled := true }

/-- The state `exampleStopped` with thread 1 running instead of stopped. -/
def exampleRunning : DebugState :=
  { exampleStopped with
    callStacks :=
      [(500, { exampleStack with mCanStop := true
                                 mStatus := ThreadStatus.STATUS_RUNNING
                                 mBreakpoint := -1
                                 mWaiting := false
                                 phase := BreakPhase.running })] }

/-! ## Scenarios -/

/-- The state with the frames of the stack at `p` replaced. -/
def withFrames (st : DebugState) (p : Nat) (stack : CallStack) (frames : List StackFrame) :
    DebugState :=
  { st with callStacks := storeStack st.callStacks p { stack with mStackFrames := frames } }

/-- The call stack of thread 1 in `exampleRunning`. -/
def exampleRunningStack : CallStack :=
  { exampleStack with mCanStop := true
                      mStatus := ThreadStatus.STATUS_RUNNING
                      mBreakpoint := -1
                      mWaiting := false
                      phase := BreakPhase.running }

/-- The state `exampleRunning` after thread 1 has called
`EnableCurrentThreadDebugging(false)`. -/
def exampleNoStop : DebugState :=
  { exampleRunning with callStacks := [(500, { exampleRunningStack with mCanStop := false })] }

/-- The thread runs into the breakpoints with the listed ids, one `Break` call
with `STATUS_STOPPED_BREAKPOINT` each; `none` when a hit is due while the
thread is not running. -/
def hitBreakpoints (handlerInstalled : Bool) : List Int → CallStack → Option CallStack
  | [], stack => some stack
  | breakpoint :: rest, stack =>
    match stack.phase with
    | BreakPhase.running =>
      match stack.Break handlerInstalled ThreadStatus.STATUS_STOPPED_BREAKPOINT breakpoint with
      | none => none
      | some r => hitBreakpoints handlerInstalled rest r.1
    | _ => none

/-- The debugger continues the stopped thread with `count`, the thread wakes and
then runs into the listed breakpoints. -/
def continueThenHit (handlerInstalled : Bool) (count : Int) (breakpoints : List Int)
    (stack : CallStack) : Option CallStack :=
  match (stack.Continue count).DoBreakWake handlerInstalled with
  | none => none
  | some r => hitBreakpoints handlerInstalled breakpoints r.1

/-- For each listed breakpoint in turn: the debugger continues the stopped
thread with count 1, the thread wakes and runs into that breakpoint. -/
def continueAtEachHit (handlerInstalled : Bool) : List Int → CallStack → Option CallStack
  | [], stack => some stack
  | breakpoint :: rest, stack =>
    match continueThenHit handlerInstalled 1 [breakpoint] stack with
    | none => none
    | some stack1 => continueAtEachHit handlerInstalled rest stack1

/-- The stack of a thread that runs, with the given residual continue count,
after it was resumed from a break. -/
def resumedWith (stack : CallStack) (residual : Int) : CallStack :=
  { stack with mWaiting := false
               mContinueCount := residual
               mStatus := ThreadStatus.STATUS_RUNNING
               mBreakpoint := -1
               mCanStop := true
               phase := BreakPhase.running }

/-- The stack of a thread that is blocked in `DoBreak` for the given breakpoint
with no residual continue count. -/
def stoppedAt (stack : CallStack) (breakpoint : Int) : CallStack :=
  { stack with mWaiting := true
               mContinueCount := 0
               mStatus := ThreadStatus.STATUS_STOPPED_BREAKPOINT
               mBreakpoint := breakpoint
               mCanStop := false
               phase := BreakPhase.blocked }

/-- What `CallStack::ContinueThreads` does to one stack: `Continue(count)` for
the special thread number and `Continue(1)` for every other. -/
def continuedBy (specialThreadNumber count : Int) (stack : CallStack) : CallStack :=
  stack.Continue (if stack.mThreadNumber = specialThreadNumber then count else 1)

/-- A schedule for the worker of `exampleRunning` during `BreakNow(true)`: in the
first sleep of the debugger it runs a probe and records its stop; it takes no
step during the remaining sleeps. -/
def exampleDuring : Nat → List Nat
  | 0 => [500, 500]
  | _ => []

/-- A state without breakpoints in which thread 1 is stopped by a break-all at
depth 1 (two live frames). -/
def exampleStoppedDeep : DebugState :=
  { exampleStopped with
    gBreakpoints := { mBreakpoints := [] }
    gShouldCallHandleBreakpoints := true
    callStacks :=
      [(500, { exampleStack with mStatus := ThreadStatus.STATUS_STOPPED_BREAK_IMMEDIATE
                                 mBreakpoint := -1
                                 mStackFrames := [exampleFrame, exampleFrame] })] }

/-- The record is a CLASS_FUNCTION breakpoint for the frame: pointer-equal class
name and string-equal function name. -/
def matchesClassFunction (frame : StackFrame) (b : Breakpoint) : Prop :=
  b.isFileLine = false ∧ b.fileOrClassName.addr = frame.className.addr ∧
    b.functionName = frame.functionName.chars

/-- The record is a FILE_LINE breakpoint for the frame: pointer-equal file name
and equal line. -/
def matchesFileLine (frame : StackFrame) (b : Breakpoint) : Prop :=
  b.isFileLine = true ∧ b.fileOrClassName.addr = ptrOf frame.fileName ∧
    b.lineNumber = frame.lineNumber

/-- The frame `exampleFrame` at the first line of its function. -/
def exampleEntryFrame : StackFrame := { exampleFrame with lineNumber := 10 }

/-- The state `exampleRunning` after `AddClassFunctionBreakpoint("X", "m")`, with
thread 1 at the first line of `X.m`: breakpoint 0 is `A.hx`:10 and breakpoint 1
is `X.m`. -/
def exampleAtEntry : DebugState :=
  withFrames (Breakpoints.AddClassFunction exampleTable exampleUninit exampleRunning "X" "m").2
    500 exampleRunningStack [exampleEntryFrame]

/-! ## Thread-local call stacks and frames -/

/-- The constructor `CallStack(int threadNumber)`. -/
def CallStack.ctor (threadNumber : Int) : CallStack :=
  { mThreadNumber := threadNumber
    mCanStop := true
    mStatus := ThreadStatus.STATUS_RUNNING
    mBreakpoint := -1
    mCriticalErrorDescription := ""
    mStackFrames := []
    mExceptionStack := []
    mWaiting := false
    mWaitSemaphore := 0
    mContinueCount := 0
    phase := BreakPhase.running
    mProfiler := none }

/-- The address `new CallStack` returns: one at which no object lives.  The
allocator is free in its choice; here it is the address above all live ones. -/
def newAddress (heap : List (Nat × CallStack)) : Nat :=
  (heap.map Prod.fst).foldr max 0 + 1

/-- `gMap[threadNumber] = stack`.  The list is not kept in key order: the map
is never iterated. -/
def mapAssign (gMap : List (Int × Option Nat)) (threadNumber : Int) (stack : Option Nat) :
    List (Int × Option Nat) :=
  (threadNumber, stack) :: gMap.filter (fun e => e.1 != threadNumber)

/-- Assignment to the `tlsCallStack` of thread `caller`. -/
def tlsAssign (tls : List (Int × Nat)) (caller : Int) : Option Nat → List (Int × Nat)
  | none => tls.filter (fun e => e.1 != caller)
  | some stack => (caller, stack) :: tls.filter (fun e => e.1 != caller)

/-- `CallStack::GetCallerCallStack` called by thread `caller`
(`__hxcpp_GetCurrentThreadNumber()` is `caller`): the pointer returned and the
state afterwards. -/
def CallStack.GetCallerCallStack (st : DebugState) (caller : Int) : Nat × DebugState :=
  match st.tls.lookup caller with
  | some stack => (stack, st)
  | none =>
    let stack := newAddress st.callStacks
    (stack, { st with callStacks := (stack, CallStack.ctor caller) :: st.callStacks
                      gMap := mapAssign st.gMap caller (some stack)
                      gList := st.gList ++ [stack]
                      tls := tlsAssign st.tls caller (some stack) })

/-- `CallStack::RemoveCallStack(threadNumber)` called by thread `caller`.
`gList.remove` removes every element equal to the pointer, `delete` frees the
object, and the `tlsCallStack` that is cleared is the caller's. -/
def CallStack.RemoveCallStack (st : DebugState) (caller threadNumber : Int) : DebugState :=
  match (mapIndex st.gMap threadNumber).1 with
  | none => { st with gMap := (mapIndex st.gMap threadNumber).2 }
  | some stack =>
    { st with gMap := (mapIndex st.gMap threadNumber).2.filter (fun e => e.1 != threadNumber)
              gList := st.gList.filter (fun q => q != stack)
              callStacks := st.callStacks.filter (fun e => e.1 != stack)
              tls := tlsAssign st.tls caller none }

/-- `__hxcpp_dbg_threadCreatedOrTerminated(threadNumber, created)` called by
thread `caller`. -/
def __hxcpp_dbg_threadCreatedOrTerminated (st : DebugState) (caller threadNumber : Int)
    (created : Bool) : DebugState :=
  if !st.handlerInstalled then st
  else
    let st1 := if !created then CallStack.RemoveCallStack st caller threadNumber else st
    { st1 with events := st1.events ++
        [if created then Event.created threadNumber else Event.terminated threadNumber] }

/-! ## The sampling profiler -/

/-- The constructor `Profiler(const String &inDumpFile)`. -/
def Profiler.ctor (inDumpFile : String) : Profiler :=
  { mDumpFile := inDumpFile, mT0 := 0, mProfileStats := [] }

/-- The element access `m[key]` of a `std::map<const char *, T>` followed by an
update of the element: keys compare by address, an absent key is inserted at its
place in address order with the value-initialised element `init`. -/
def mapModify {α : Type} (init : α) (f : α → α) (key : CStr) :
    List (CStr × α) → List (CStr × α)
  | [] => [(key, f init)]
  | e :: rest =>
    if key.addr < e.1.addr then (key, f init) :: e :: rest
    else if key.addr = e.1.addr then (e.1, f e.2) :: rest
    else e :: mapModify init f key rest

/-- The `for` loop of `Profiler::Sample`.  The first list holds, for each index
`i` of the loop, the full names of frame `i` and of frame `i + 1`; the second is
the key set of `alreadySeen`. -/
def sampleLoop (delta : Int) :
    List (CStr × CStr) → List Nat → List (CStr × ProfileEntry) → List (CStr × ProfileEntry)
  | [], _, stats => stats
  | (fullName, child) :: rest, alreadySeen, stats =>
    let seen := alreadySeen.contains fullName.addr
    let stats1 := mapModify (⟨0, [], 0⟩ : ProfileEntry)
      (fun pe =>
        { pe with total := if seen then pe.total else wrapInt32 (pe.total + delta)
                  children := mapModify (0 : Int) (fun t => wrapInt32 (t + delta)) child
                    pe.children })
      fullName stats
    sampleLoop delta rest (if seen then alreadySeen else fullName.addr :: alreadySeen) stats1

/-- `Profiler::Sample(stack)` with `gProfileClock` equal to `clock`. -/
def Profiler.Sample (profiler : Profiler) (clock : Int) (stack : CallStack) : Profiler :=
  if profiler.mT0 = clock then profiler
  else
    let delta0 := wrapInt32 (clock - profiler.mT0)
    let delta := if delta0 < 0 then 1 else delta0
    let depth := stack.GetDepth
    let names := stack.mStackFrames.map (fun frame => frame.fullName)
    let stats1 := sampleLoop delta ((names.zip names.tail).take (depth - 1).toNat) []
      profiler.mProfileStats
    let stats2 :=
      if depth > 0 then
        match names[(depth - 1).toNat]? with
        | none => stats1
        | some fullName =>
          mapModify (⟨0, [], 0⟩ : ProfileEntry)
            (fun pe => { pe with self := wrapInt32 (pe.self + delta) }) fullName stats1
      else stats1
    { profiler with mT0 := clock, mProfileStats := stats2 }

/-- `Profiler::ChildEntry`; of the name only the text is used. -/
structure ChildEntry where
  fullName : String
  self : Int
deriving DecidableEq

/-- `Profiler::ResultsEntry`; of the name only the text is used. -/
structure ResultsEntry where
  fullName : String
  self : Int
  children : List ChildEntry
  total : Int
  childrenPlusSelf : Int
deriving DecidableEq

/-- `ChildEntry::operator<`. -/
def ChildEntry.lt (a inRHS : ChildEntry) : Bool := decide (a.self > inRHS.self)

/-- `ResultsEntry::operator<`. -/
def ResultsEntry.lt (a inRHS : ResultsEntry) : Bool :=
  decide (a.total > inRHS.total) || (decide (a.total = inRHS.total) && decide (a.self < inRHS.self))

/-- `std::sort(first, last)` with the element type's `operator<`, passed as
`lt`.  The library leaves the algorithm and the order of equivalent elements
open; here it is insertion sort. -/
def stdSort {α : Type} (lt : α → α → Bool) (l : List α) : List α :=
  l.insertionSort (fun a b => lt b a = false)

/-- The inner loop of `Profiler::DumpStats` over the children of an entry: the
child rows in map order. -/
def childEntries (children : List (CStr × Int)) : List ChildEntry :=
  children.map (fun c => ({ fullName := c.1.chars, self := c.2 } : ChildEntry))

/-- The value of `re.childrenPlusSelf` after the inner loop of
`Profiler::DumpStats`. -/
def childrenPlusSelf (self : Int) : List (CStr × Int) → Int
  | [] => self
  | c :: rest => childrenPlusSelf (wrapInt32 (self + c.2)) rest

/-- The body of the outer loop of `Profiler::DumpStats`: the `ResultsEntry`
built for one element of `mProfileStats`. -/
def resultsEntry (e : CStr × ProfileEntry) : ResultsEntry :=
  { fullName := e.1.chars
    self := e.2.self
    total := e.2.total
    childrenPlusSelf := childrenPlusSelf e.2.self e.2.children
    children := stdSort ChildEntry.lt
      (childEntries e.2.children ++ [{ fullName := "(internal)", self := e.2.self }]) }

/-- The vector `results` of `Profiler::DumpStats` after `std::sort`. -/
def Profiler.results (profiler : Profiler) : List ResultsEntry :=
  stdSort ResultsEntry.lt (profiler.mProfileStats.map resultsEntry)

/-- The local `total` of `Profiler::DumpStats` after the outer loop, from its
value before: `total += re.self` for each element of `mProfileStats` in map
order. -/
def selfTotal : Int → List (CStr × ProfileEntry) → Int
  | total, [] => total
  | total, e :: rest => selfTotal (wrapInt32 (total + (resultsEntry e).self)) rest

/-- One `PROFILE_PRINT` of `Profiler::DumpStats`, with the integers from which
the printed percentages are computed: the line of an entry (`re.total`,
`re.self` and the sum `total` that gives the scale) or the row of a child
(`ce.self` and `re.childrenPlusSelf`). -/
inductive ReportLine
  | entry (fullName : String) (total self scaleTotal : Int)
  | child (fullName : String) (self childrenPlusSelf : Int)
deriving DecidableEq

/-- The body of the printing loop of `Profiler::DumpStats` for one entry. -/
def reportLines (scaleTotal : Int) (re : ResultsEntry) : List ReportLine :=
  ReportLine.entry re.fullName re.total re.self scaleTotal ::
    (if re.children.length = 1 then []
     else re.children.map (fun ce => ReportLine.child ce.fullName ce.self re.childrenPlusSelf))

/-- `Profiler::DumpStats`: the lines printed, in order.  `fileOpens` says whether
`fopen` of the dump file succeeds. -/
def Profiler.DumpStats (profiler : Profiler) (fileOpens : Bool) : List ReportLine :=
  if profiler.mDumpFile.length > 0 ∧ fileOpens = false then []
  else
    (profiler.results.map (reportLines (selfTotal 0 profiler.mProfileStats))).flatten

/-! ## Frames of a thread -/

/-- The profiler call of `PushStackFrame` and `PopStackFrame`:
`if (stack->mProfiler != NULL) stack->mProfiler->Sample(stack)`. -/
def sampleIfProfiling (clock : Int) (stack : CallStack) : CallStack :=
  match stack.mProfiler with
  | none => stack
  | some profiler => { stack with mProfiler := some (profiler.Sample clock stack) }

/-- `CallStack::PushStackFrame(frame)` called by thread `caller`. -/
def CallStack.PushStackFrame (st : DebugState) (caller : Int) (frame : StackFrame) :
    Option DebugState :=
  let r := CallStack.GetCallerCallStack st caller
  match r.2.callStacks.lookup r.1 with
  | none => none
  | some stack =>
    let stack1 := sampleIfProfiling r.2.gProfileClock stack
    some { r.2 with
      callStacks := storeStack r.2.callStacks r.1
        { stack1 with mStackFrames := stack1.mStackFrames ++ [frame] } }

/-- `CallStack::PopStackFrame()` called by thread `caller`; `pop_back` on an
empty vector is `none`. -/
def CallStack.PopStackFrame (st : DebugState) (caller : Int) : Option DebugState :=
  let r := CallStack.GetCallerCallStack st caller
  match r.2.callStacks.lookup r.1 with
  | none => none
  | some stack =>
    let stack1 := sampleIfProfiling r.2.gProfileClock stack
    if stack1.mStackFrames.isEmpty then none
    else
      some { r.2 with
        callStacks := storeStack r.2.callStacks r.1
          { stack1 with mStackFrames := stack1.mStackFrames.dropLast } }

/-- `__hxcpp_dbg_HandleBreakpoints()` called by thread `caller`: the probe on the
caller's call stack. -/
def __hxcpp_dbg_HandleBreakpoints (st : DebugState) (caller : Int) : Option DebugState :=
  let r := CallStack.GetCallerCallStack st caller
  Breakpoints.HandleBreakpoints r.2 r.1

/-! ## Frame strings -/

/-- The content of `buf` after `snprintf(buf, sizeof(buf), ...)` with
`char buf[1024]`, where `text` is the complete formatted text: at most 1023
characters are stored before the terminating null. -/
def snprintf1024 (text : String) : String := String.mk (text.data.take 1023)

/-- The string built in the loop bodies of `GetCurrentCallStackAsStrings` and
`BeginCatch` for one frame.  `stackLine` says whether `HXCPP_STACK_LINE` is
defined. -/
def frameString (stackLine : Bool) (frame : StackFrame) : String :=
  match frame.fileName with
  | none => snprintf1024 (frame.className.chars ++ "::" ++ frame.functionName.chars)
  | some fileName =>
    if fileName.chars.data.head? = some '?' then
      snprintf1024 (frame.className.chars ++ "::" ++ frame.functionName.chars)
    else if stackLine then
      snprintf1024 (frame.className.chars ++ "::" ++ frame.functionName.chars ++ "::" ++
        fileName.chars ++ "::" ++ intToString frame.lineNumber)
    else
      snprintf1024 (frame.className.chars ++ "::" ++ frame.functionName.chars ++ "::" ++
        fileName.chars ++ "::0")

/-- `CallStack::GetCurrentCallStackAsStrings(result, skipLast)` on the caller's
stack: the array `result` afterwards. -/
def CallStack.GetCurrentCallStackAsStrings (stackLine : Bool) (stack : CallStack)
    (result : List String) (skipLast : Bool) : List String :=
  let n : Int := (stack.mStackFrames.length : Int) - (if skipLast then 1 else 0)
  result ++ (stack.mStackFrames.take n.toNat).map (frameString stackLine)

/-- `CallStack::BeginCatch(inAll)`. -/
def CallStack.BeginCatch (stackLine : Bool) (stack : CallStack) (inAll : Bool) : CallStack :=
  let depth := stack.mStackFrames.length
  if depth = 0 then stack
  else
    let start := if inAll then 0 else depth - 1
    { stack with
      mExceptionStack := stack.mExceptionStack ++
        (stack.mStackFrames.drop start).map (frameString stackLine) }

/-! ## Checked throw -/

/-- `__hxcpp_dbg_checkedThrow(toThrow)` by the thread whose stack is at `p`, up
to the point where the thread blocks in `DoBreak` or goes on to `hx::Throw`; in
the second case the thread is still outside `DoBreak`. -/
def __hxcpp_dbg_checkedThrow (st : DebugState) (p : Nat) (toThrow : Dynamic) :
    Option DebugState :=
  match st.callStacks.lookup p with
  | none => none
  | some stack =>
    if !stack.CanBeCaught toThrow then CriticalErrorHandler st p "Uncatchable Throw" true
    else some st

/-! ## Sequences of calls into the runtime -/

/-- A call into the runtime by a worker thread: a frame push, a frame pop, a
probe, or the notification `ThreadCreatedOrTerminated(threadNumber, created)`
made by the thread `threadNumber` itself. -/
inductive RuntimeCall
  | pushFrame (caller : Int) (frame : StackFrame)
  | popFrame (caller : Int)
  | probe (caller : Int)
  | threadCreatedOrTerminated (threadNumber : Int) (created : Bool)

/-- One call into the runtime. -/
def runRuntimeCall (st : DebugState) : RuntimeCall → Option DebugState
  | RuntimeCall.pushFrame caller frame => CallStack.PushStackFrame st caller frame
  | RuntimeCall.popFrame caller => CallStack.PopStackFrame st caller
  | RuntimeCall.probe caller => __hxcpp_dbg_HandleBreakpoints st caller
  | RuntimeCall.threadCreatedOrTerminated threadNumber created =>
    some (__hxcpp_dbg_threadCreatedOrTerminated st threadNumber threadNumber created)

/-- The calls in order. -/
def runRuntimeCalls : DebugState → List RuntimeCall → Option DebugState
  | st, [] => some st
  | st, call :: rest =>
    match runRuntimeCall st call with
    | none => none
    | some st1 => runRuntimeCalls st1 rest

/-- Thread `t` has a `CallStack` in the directory: `gMap` maps `t` to a pointer
that is in `gList` and at which a stack with that thread number lives. -/
def hasCallStack (st : DebugState) (t : Int) : Bool :=
  match st.gMap.lookup t with
  | some (some p) =>
    decide (p ∈ st.gList) &&
      (match st.callStacks.lookup p with
       | some stack => decide (stack.mThreadNumber = t)
       | none => false)
  | _ => false

/-- The thread numbers of the stacks listed in `gList`. -/
def listedThreads (st : DebugState) : List Int :=
  st.gList.filterMap (fun p => (st.callStacks.lookup p).map (fun stack => stack.mThreadNumber))

/-- The condition of the data model on a sequence of calls:
`ThreadCreatedOrTerminated(t, true)` has been observed and
`ThreadCreatedOrTerminated(t, false)` has not. -/
def createdAndNotTerminated (t : Int) (calls : List RuntimeCall) : Bool :=
  calls.any (fun call =>
      match call with
      | RuntimeCall.threadCreatedOrTerminated n true => n == t
      | _ => false) &&
    !calls.any (fun call =>
      match call with
      | RuntimeCall.threadCreatedOrTerminated n false => n == t
      | _ => false)

/-- Whether thread `t` has entered the runtime (frame push, frame pop or probe)
and has not since notified its termination with an event handler installed;
`present` is the answer before the calls. -/
def enteredAndNotRemoved (handlerInstalled : Bool) (t : Int) : Bool → List RuntimeCall → Bool
  | present, [] => present
  | present, RuntimeCall.pushFrame caller _ :: rest =>
    enteredAndNotRemoved handlerInstalled t (if caller = t then true else present) rest
  | present, RuntimeCall.popFrame caller :: rest =>
    enteredAndNotRemoved handlerInstalled t (if caller = t then true else present) rest
  | present, RuntimeCall.probe caller :: rest =>
    enteredAndNotRemoved handlerInstalled t (if caller = t then true else present) rest
  | present, RuntimeCall.threadCreatedOrTerminated n created :: rest =>
    enteredAndNotRemoved handlerInstalled t
      (if n = t ∧ created = false ∧ handlerInstalled = true then false else present) rest

/-- The directory is consistent: the thread-local pointers are those of `gMap`,
every pointer of `gMap` is in `gList` and leads to a live stack of that thread,
and every pointer of `gList` leads to a live stack that `gMap` maps to it. -/
def DirectoryConsistent (st : DebugState) : Prop :=
  (∀ t p, st.tls.lookup t = some p ↔ st.gMap.lookup t = some (some p)) ∧
  (∀ t p, st.gMap.lookup t = some (some p) →
    p ∈ st.gList ∧ ∃ stack, st.callStacks.lookup p = some stack ∧ stack.mThreadNumber = t) ∧
  (∀ p ∈ st.gList, ∃ stack, st.callStacks.lookup p = some stack ∧
    st.gMap.lookup stack.mThreadNumber = some (some p))

/-! ## Repeated probes -/

/-- The thread whose stack is at `p` makes `n` probes in a row. -/
def probes (p : Nat) : Nat → DebugState → Option DebugState
  | 0, st => some st
  | n + 1, st =>
    match Breakpoints.HandleBreakpoints st p with
    | none => none
    | some st1 => probes p n st1

/-! ## Liveness of the directory -/

/-- Two states have the same directory: `gMap`, `gList`, the thread-local
pointers and the handler agree, and at every address the same thread's stack
lives, if any. -/
def SameDirectory (st st1 : DebugState) : Prop :=
  st1.gMap = st.gMap ∧ st1.gList = st.gList ∧ st1.tls = st.tls ∧
  st1.handlerInstalled = st.handlerInstalled ∧
  ∀ q, (st1.callStacks.lookup q).map (fun stack => stack.mThreadNumber) =
    (st.callStacks.lookup q).map (fun stack => stack.mThreadNumber)

/-- Every non-null pointer of `gMap` leads to a live stack. -/
def MapLive (st : DebugState) : Prop :=
  ∀ t p, st.gMap.lookup t = some (some p) → ∃ stack, st.callStacks.lookup p = some stack

/-- Thread `t` is gone from `gMap` or its stack is waiting. -/
def goneOrWaiting (st : DebugState) (t : Int) : Prop :=
  ∀ p, st.gMap.lookup t = some (some p) →
    ∃ stack, st.callStacks.lookup p = some stack ∧ stack.mWaiting = true

/-! ## The formatting rule -/

/-- The text the formatting rule of the design gives for a frame:
`class::function` when the file name is absent or begins with `?`, and
`class::function::file::line` otherwise, the line being 0 when line tracking
is disabled. -/
def specFrameText (stackLine : Bool) (frame : StackFrame) : String :=
  match frame.fileName with
  | none => frame.className.chars ++ "::" ++ frame.functionName.chars
  | some fileName =>
    if fileName.chars.data.head? = some '?' then
      frame.className.chars ++ "::" ++ frame.functionName.chars
    else
      frame.className.chars ++ "::" ++ frame.functionName.chars ++ "::" ++ fileName.chars ++
        "::" ++ intToString (if stackLine then frame.lineNumber else 0)

/-! ## Further examples -/

/-- The state `exampleRunning` while a step INTO of thread 1 is in force. -/
def exampleStepInto : DebugState :=
  { exampleRunning with gStepType := StepType.STEP_INTO, gStepThread := 1, gStepCount := 1 }

/-- The state `exampleRunning` while a step OVER of thread 2, issued at depth 5,
is in force. -/
def exampleStepOverOther : DebugState :=
  { exampleRunning with gStepType := StepType.STEP_OVER, gStepThread := 2, gStepLevel := 5 }

/-- A catchable that accepts every exception. -/
def exampleCatchAll : StackCatchable := { Catches := fun _ => true }

/-- The state `exampleRunning` with a second, outer frame whose catch handler
accepts every exception. -/
def exampleRunningCatching : DebugState :=
  withFrames exampleRunning 500 exampleRunningStack
    [{ exampleFrame with catchables := [exampleCatchAll] }, exampleFrame]

/-- A frame without file name whose class name has 1030 characters. -/
def exampleLongFrame : StackFrame :=
  { exampleFrame with className := ⟨105, String.mk (List.replicate 1030 'C')⟩, fileName := none }

/-- A behaviour of the worker of `exampleRunning` in which it never stops. -/
def exampleNeverStops : Nat → DebugState → DebugState := fun _ s => s

/-- A frame of `Main.main`. -/
def exampleMainFrame : StackFrame :=
  { exampleFrame with className := ⟨107, "Main"⟩
                      functionName := ⟨202, "main"⟩
                      fullName := ⟨300, "Main.main"⟩ }

/-- A frame of `X.f`. -/
def exampleCalleeFrame : StackFrame :=
  { exampleFrame with functionName := ⟨203, "f"⟩, fullName := ⟨301, "X.f"⟩ }

/-- A thread in `Main.main`, which has called `X.f`. -/
def exampleProfiledStack : CallStack :=
  { exampleRunningStack with mStackFrames := [exampleMainFrame, exampleCalleeFrame] }

/-- A profile with the entry `Main.main` (self 1, total 6, child `X.f` with 5)
and the entry `X.f` (self 5, total 5, no child). -/
def exampleProfile : Profiler :=
  { mDumpFile := ""
    mT0 := 6
    mProfileStats :=
      [(⟨300, "Main.main"⟩, { self := 1, children := [(⟨301, "X.f"⟩, 5)], total := 6 }),
       (⟨301, "X.f"⟩, { self := 5, children := [], total := 5 })] }

/-- The state after static initialisation with an event handler installed. -/
def exampleAttached : DebugState :=
  { DebugState.initial with g_debugThreadNumber := 0, handlerInstalled := true }

/-- A run of two workers: thread 1 enters the runtime, notifies its creation,
probes, thread 2 enters, and thread 1 notifies its termination. -/
def exampleCalls : List RuntimeCall :=
  [RuntimeCall.pushFrame 1 exampleFrame, RuntimeCall.threadCreatedOrTerminated 1 true,
   RuntimeCall.probe 1, RuntimeCall.pushFrame 2 exampleFrame, RuntimeCall.popFrame 1,
   RuntimeCall.threadCreatedOrTerminated 1 false]

/-! ## Array accesses of the delete-one constructor -/

/-- The accesses to the new array made by the loop of
`Breakpoints(toCopy, number)`: each executed assignment
`mBreakpoints[d++] = mBreakpoints[s]` reads the new array at `s` and writes it
at `d`.  The arguments are `s`, `d` and `toCopy->mBreakpoints` from index `s`
on; the result lists the pairs (read index, write index) in order. -/
def deleteLoopAccesses (number : Int) : Nat → Nat → List Breakpoint → List (Nat × Nat)
  | _, _, [] => []
  | s, d, other :: rest =>
    if other.number = number then deleteLoopAccesses number (s + 1) d rest
    else (s, d) :: deleteLoopAccesses number (s + 1) (d + 1) rest

/-- The accesses to the new array made by `Breakpoints(toCopy, number)`; none
when the new count is 0 and no array is allocated. -/
def Breakpoints.deleteOneAccesses (toCopy : Breakpoints) (number : Int) : List (Nat × Nat) :=
  let count : Int := toCopy.mBreakpointCount - 1
  if count = 0 then []
  else deleteLoopAccesses number 0 0 toCopy.mBreakpoints

/-! ## Reading the maps of the profiler -/

/-- The element of a `std::map<const char *, T>` whose key has the address
`addr`, if there is one. -/
def mapFind {α : Type} (addr : Nat) : List (CStr × α) → Option α
  | [] => none
  | e :: rest => if e.1.addr = addr then some e.2 else mapFind addr rest

/-- The keys of the list are in strictly increasing address order, as those of a
`std::map<const char *, T>` are. -/
def MapOrdered {α : Type} (m : List (CStr × α)) : Prop :=
  (m.map (fun e => e.1.addr)).Pairwise (fun a b => a < b)

/-- The profile entry of the key with address `addr`; the value-initialised
entry when the key is absent. -/
def entryAt (stats : List (CStr × ProfileEntry)) (addr : Nat) : ProfileEntry :=
  (mapFind addr stats).getD ⟨0, [], 0⟩

/-- The weight a child map holds for the key with address `addr`; 0 when the
key is absent. -/
def weightAt (children : List (CStr × Int)) (addr : Nat) : Int :=
  (mapFind addr children).getD 0

/-- The profile is a map of entries whose child maps are maps. -/
def ProfileOrdered (stats : List (CStr × ProfileEntry)) : Prop :=
  MapOrdered stats ∧ ∀ e ∈ stats, MapOrdered e.2.children

/-- The full names of frame `i` and frame `i + 1` for the indices `i` that the
loop of `Profiler::Sample` visits, in order: `0 <= i < depth - 1`, where `depth`
is `stack->GetDepth()`. -/
def visitedPairs (stack : CallStack) : List (CStr × CStr) :=
  ((stack.mStackFrames.map (fun frame => frame.fullName)).zip
    (stack.mStackFrames.map (fun frame => frame.fullName)).tail).take (stack.GetDepth - 1).toNat

/-- The increment `delta` of `Profiler::Sample` at clock value `clock`. -/
def sampleDelta (profiler : Profiler) (clock : Int) : Int :=
  if wrapInt32 (clock - profiler.mT0) < 0 then 1 else wrapInt32 (clock - profiler.mT0)

/-! ## Examples for the last properties -/

/-- The state `exampleNoStop` while a break-all is pending. -/
def exampleNoStopBreakAll : DebugState :=
  { exampleNoStop with gStepType := StepType.STEP_INTO, gStepThread := -1, gStepCount := 0 }

/-- A behaviour of the worker of `exampleRunning` in which it terminates during
the first sleep of the debugger: its call stack is removed. -/
def exampleWorkerLeaves : Nat → DebugState → DebugState
  | 0, s => CallStack.RemoveCallStack s 1 1
  | _, s => s

/-- A thread in `X.m`, called from three nested activations of `X.f`, the
outermost called from `Main.main`. -/
def exampleRecursiveStack : CallStack :=
  { exampleRunningStack with
    mStackFrames := [exampleMainFrame, exampleCalleeFrame, exampleCalleeFrame,
      exampleCalleeFrame, exampleFrame] }

/-- The registry after a further `AddClassFunctionBreakpoint("X", "m")`: the
breakpoints 0, 1 and 2. -/
def exampleThreeBreakpoints : DebugState :=
  (Breakpoints.AddClassFunction exampleTable exampleUninit exampleTwoBreakpoints "X" "m").2

/-! ## Examples for a snapshot published by a deletion -/

/-- A possible content of freshly allocated memory: what a freed record has left
there, with number -1, for the file `A.hx` and line 12. -/
def exampleStaleUninit : Nat → Breakpoint :=
  fun _ => ⟨-1, true, ⟨100, "A.hx"⟩, 12, ""⟩

/-- The registry after `DeleteBreakpoint(1)` on `exampleTwoBreakpoints`, the new
array having been allocated over `exampleStaleUninit`. -/
def exampleAfterDelete : DebugState :=
  Breakpoints.Delete exampleStaleUninit exampleTwoBreakpoints 1

/-! ## Sequences of samples -/

/-- A sequence of `Sample` calls of one profiler, each with the value of
`gProfileClock` and the call stack at the time of the call. -/
def runSamples (profiler : Profiler) : List (Int × CallStack) → Profiler
  | [] => profiler
  | (clock, stack) :: rest => runSamples (profiler.Sample clock stack) rest

/-- A thread in `X.m`, called from `X.f`, called from `Main.main`. -/
def exampleThreeFrames : CallStack :=
  { exampleRunningStack with
    mStackFrames := [exampleMainFrame, exampleCalleeFrame, exampleFrame] }

/-! ## Properties -/

/-! ### The copy-and-add constructors -/

/-- The copy loop overwrites the `src.length` elements that follow the first
`pre.length` ones with `src` and touches nothing else. -/
theorem copyLoop_spec (src : List Breakpoint) :
    ∀ (pre mid post : List Breakpoint), mid.length = src.length →
      copyLoop pre.length src (pre ++ mid ++ post) = pre ++ src ++ post := by
  induction src with
  | nil =>
    intro pre mid post h
    have : mid = [] := List.length_eq_zero.mp h
    subst this
    simp [copyLoop]
  | cons b rest ih =>
    intro pre mid post h
    cases mid with
    | nil => simp at h
    | cons m mid1 =>
      have hlen : mid1.length = rest.length := by simpa using h
      have hset : (pre ++ m :: mid1 ++ post).set pre.length b = (pre ++ [b]) ++ mid1 ++ post := by
        simp [List.set_append]
      simp only [copyLoop]
      rw [hset]
      have := ih (pre ++ [b]) mid1 post hlen
      simpa using this

/-- A fresh array of `n + 1` elements is one of `n` followed by element `n`. -/
theorem newBreakpointArray_succ (uninit : Nat → Breakpoint) (n : Nat) :
    newBreakpointArray uninit (n + 1) =
      newBreakpointArray uninit n ++ [{ uninit n with functionName := "" }] := by
  simp [newBreakpointArray, List.range_succ]

/-- `new Breakpoint[n]` has `n` elements. -/
theorem newBreakpointArray_length (uninit : Nat → Breakpoint) (n : Nat) :
    (newBreakpointArray uninit n).length = n := by
  simp [newBreakpointArray]

/-- After the copy loop the new array is the source followed by the still
uninitialised last element. -/
theorem copyLoop_fresh (uninit : Nat → Breakpoint) (src : List Breakpoint) :
    copyLoop 0 src (newBreakpointArray uninit (src.length + 1)) =
      src ++ [{ uninit src.length with functionName := "" }] := by
  have h := copyLoop_spec src [] (newBreakpointArray uninit src.length)
    [{ uninit src.length with functionName := "" }] (newBreakpointArray_length uninit _)
  rw [newBreakpointArray_succ]
  simpa using h

/-- What the file-line constructor builds. -/
theorem addFileLine_eq (uninit : Nat → Breakpoint) (toCopy : Breakpoints)
    (number : Int) (fileName : CStr) (lineNumber : Int) :
    (Breakpoints.addFileLine uninit toCopy number fileName lineNumber).mBreakpoints =
      toCopy.mBreakpoints ++ [⟨number, true, fileName, lineNumber, ""⟩] := by
  simp [Breakpoints.addFileLine, copyLoop_fresh]

/-- What the class-function constructor builds; its `lineNumber` is never
assigned. -/
theorem addClassFunction_eq (uninit : Nat → Breakpoint) (toCopy : Breakpoints)
    (number : Int) (className : CStr) (functionName : String) :
    (Breakpoints.addClassFunction uninit toCopy number className functionName).mBreakpoints =
      toCopy.mBreakpoints ++
        [⟨number, false, className, (uninit toCopy.mBreakpoints.length).lineNumber,
          functionName⟩] := by
  simp [Breakpoints.addClassFunction, copyLoop_fresh]

/-! ### The identifier table -/

/-- `LookupFileName` fails exactly on the names `GetFiles()` does not list. -/
theorem LookupFileName_none_iff (all_files : List CStr) (fileName : String) :
    LookupFileName all_files fileName = none ↔ fileName ∉ __hxcpp_dbg_getFiles all_files := by
  induction all_files with
  | nil => simp [LookupFileName, __hxcpp_dbg_getFiles]
  | cons ptr rest ih =>
    by_cases hm : ptr.chars = CLASSES_MARKER_WITHIN_FILES_ARRAY
    · simp [LookupFileName, __hxcpp_dbg_getFiles, hm]
    · by_cases hf : ptr.chars = fileName
      · simp [LookupFileName, __hxcpp_dbg_getFiles, hm, hf]
      · have hf2 : ¬ fileName = ptr.chars := fun h => hf h.symm
        simp [LookupFileName, __hxcpp_dbg_getFiles, hm, hf, hf2, ih]

/-- A successful `LookupFileName` returns a table entry with the requested text. -/
theorem LookupFileName_some (all_files : List CStr) (fileName : String) (ptr : CStr)
    (h : LookupFileName all_files fileName = some ptr) :
    ptr ∈ all_files ∧ ptr.chars = fileName := by
  induction all_files with
  | nil => simp [LookupFileName] at h
  | cons q rest ih =>
    by_cases hm : q.chars = CLASSES_MARKER_WITHIN_FILES_ARRAY
    · simp [LookupFileName, hm] at h
    · by_cases hf : q.chars = fileName
      · simp [LookupFileName, hm, hf] at h
        obtain ⟨_, rfl⟩ := h
        exact ⟨by simp, hf⟩
      · simp [LookupFileName, hm, hf] at h
        exact ⟨List.mem_cons_of_mem _ (ih h).1, (ih h).2⟩

/-- Past the marker, `LookupClassName` fails exactly on the names not listed. -/
theorem LookupClassNameFrom_true_none_iff (rest : List CStr) (className : String) :
    LookupClassNameFrom true rest className = none ↔
      className ∉ getClassesFrom true rest := by
  induction rest with
  | nil => simp [LookupClassNameFrom, getClassesFrom]
  | cons ptr rest ih =>
    by_cases hf : ptr.chars = className
    · simp [LookupClassNameFrom, getClassesFrom, hf]
    · have hf2 : ¬ className = ptr.chars := fun h => hf h.symm
      simp [LookupClassNameFrom, getClassesFrom, hf, hf2, ih]

/-- The loop of `LookupClassName` fails exactly on the names the loop of
`GetClasses()` does not list, from either value of the flag. -/
theorem LookupClassNameFrom_none_iff (atClasses : Bool) (all_files : List CStr)
    (className : String) :
    LookupClassNameFrom atClasses all_files className = none ↔
      className ∉ getClassesFrom atClasses all_files := by
  cases atClasses with
  | true => exact LookupClassNameFrom_true_none_iff all_files className
  | false =>
    induction all_files with
    | nil => simp [LookupClassNameFrom, getClassesFrom]
    | cons ptr rest ih =>
      by_cases hm : ptr.chars = CLASSES_MARKER_WITHIN_FILES_ARRAY
      · simp [LookupClassNameFrom, getClassesFrom, hm, LookupClassNameFrom_true_none_iff]
      · simp [LookupClassNameFrom, getClassesFrom, hm, ih]

/-- `LookupClassName` fails exactly on the names `GetClasses()` does not list. -/
theorem LookupClassName_none_iff (all_files : List CStr) (className : String) :
    LookupClassName all_files className = none ↔
      className ∉ __hxcpp_dbg_getClasses all_files :=
  LookupClassNameFrom_none_iff false all_files className

/-- A successful `LookupClassName` returns a table entry with the requested text. -/
theorem LookupClassNameFrom_some (atClasses : Bool) (all_files : List CStr)
    (className : String) (ptr : CStr)
    (h : LookupClassNameFrom atClasses all_files className = some ptr) :
    ptr ∈ all_files ∧ ptr.chars = className := by
  induction all_files generalizing atClasses with
  | nil => cases atClasses <;> simp [LookupClassNameFrom] at h
  | cons q rest ih =>
    cases atClasses with
    | false =>
      by_cases hm : q.chars = CLASSES_MARKER_WITHIN_FILES_ARRAY
      · simp [LookupClassNameFrom, hm] at h
        exact ⟨List.mem_cons_of_mem _ (ih true h).1, (ih true h).2⟩
      · simp [LookupClassNameFrom, hm] at h
        exact ⟨List.mem_cons_of_mem _ (ih false h).1, (ih false h).2⟩
    | true =>
      by_cases hf : q.chars = className
      · simp [LookupClassNameFrom, hf] at h
        subst h
        exact ⟨by simp, hf⟩
      · simp [LookupClassNameFrom, hf] at h
        exact ⟨List.mem_cons_of_mem _ (ih true h).1, (ih true h).2⟩

/-- `GetFiles()` is the texts of the entries before the first marker. -/
theorem getFiles_eq_takeWhile (all_files : List CStr) :
    __hxcpp_dbg_getFiles all_files =
      (all_files.takeWhile
        (fun ptr => ptr.chars != CLASSES_MARKER_WITHIN_FILES_ARRAY)).map CStr.chars := by
  induction all_files with
  | nil => simp [__hxcpp_dbg_getFiles]
  | cons ptr rest ih =>
    by_cases hm : ptr.chars = CLASSES_MARKER_WITHIN_FILES_ARRAY
    · simp [__hxcpp_dbg_getFiles, hm, List.takeWhile_cons]
    · have hb : (ptr.chars != CLASSES_MARKER_WITHIN_FILES_ARRAY) = true := by simpa using hm
      simp [__hxcpp_dbg_getFiles, hm, List.takeWhile_cons, hb, ih]

/-- Past the marker every entry is listed. -/
theorem getClassesFrom_true (rest : List CStr) :
    getClassesFrom true rest = rest.map CStr.chars := by
  induction rest with
  | nil => simp [getClassesFrom]
  | cons ptr rest ih => simp [getClassesFrom, ih]

/-- `GetClasses()` is the texts of the entries after the first marker. -/
theorem getClasses_eq_dropWhile (all_files : List CStr) :
    __hxcpp_dbg_getClasses all_files =
      ((all_files.dropWhile
        (fun ptr => ptr.chars != CLASSES_MARKER_WITHIN_FILES_ARRAY)).drop 1).map CStr.chars := by
  unfold __hxcpp_dbg_getClasses
  induction all_files with
  | nil => simp [getClassesFrom]
  | cons ptr rest ih =>
    by_cases hm : ptr.chars = CLASSES_MARKER_WITHIN_FILES_ARRAY
    · simp [getClassesFrom, hm, List.dropWhile_cons, getClassesFrom_true]
    · have hb : (ptr.chars != CLASSES_MARKER_WITHIN_FILES_ARRAY) = true := by simpa using hm
      simp [getClassesFrom, hm, List.dropWhile_cons, hb, ih]

/-! ### The delete-one constructor -/

/-- Storing an element where it already is changes nothing. -/
theorem list_set_getElem_same {α : Type} (l : List α) :
    ∀ (i : Nat) (h : i < l.length), l.set i (l.get ⟨i, h⟩) = l := by
  induction l with
  | nil => intro i h; simp at h
  | cons a t ih =>
    intro i h
    cases i with
    | zero => rfl
    | succ j =>
      have := ih j (by simpa using h)
      simpa [List.set] using this

/-- When only the last source record bears the deleted id, every assignment of
the loop is a self-assignment `mBreakpoints[s] = mBreakpoints[s]`: the new
array keeps its initial content. -/
theorem deleteLoop_last (uninit : Nat → Breakpoint) (number : Int) (b : Breakpoint)
    (hb : b.number = number) (src : List Breakpoint) :
    ∀ (s : Nat) (arr : List Breakpoint), (∀ x ∈ src, x.number ≠ number) →
      s + src.length ≤ arr.length →
      deleteLoop uninit number s s (src ++ [b]) arr = arr := by
  induction src with
  | nil =>
    intro s arr _ _
    simp [deleteLoop, hb]
  | cons x rest ih =>
    intro s arr hne hlen
    have hx : x.number ≠ number := hne x (by simp)
    have hs : s < arr.length := by
      simp only [List.length_cons] at hlen
      omega
    have hread : readNew uninit arr s = arr[s] := by
      simp [readNew, List.getElem?_eq_getElem hs]
    have hset : arr.set s (readNew uninit arr s) = arr := by
      rw [hread]
      exact list_set_getElem_same arr s hs
    simp only [List.cons_append, deleteLoop, if_neg hx, hset]
    apply ih
    · intro y hy
      exact hne y (List.mem_cons_of_mem _ hy)
    · simp only [List.length_cons] at hlen
      omega

/-- A snapshot has the id of its last record. -/
theorem HasBreakpoint_append_self (bs : List Breakpoint) (b : Breakpoint) :
    Breakpoints.HasBreakpoint ⟨bs ++ [b]⟩ b.number = true := by
  simp [Breakpoints.HasBreakpoint]

/-- Deleting the last record, whose id no other record bears, yields the fresh
array untouched. -/
theorem deleteOne_after_append (uninit : Nat → Breakpoint) (bs : List Breakpoint)
    (b : Breakpoint) (hne : ∀ x ∈ bs, x.number ≠ b.number) :
    (Breakpoints.deleteOne uninit ⟨bs ++ [b]⟩ b.number).mBreakpoints =
      newBreakpointArray uninit bs.length := by
  unfold Breakpoints.deleteOne
  by_cases h0 : bs.length = 0
  · have : bs = [] := List.length_eq_zero.mp h0
    subst this
    simp [Breakpoints.mBreakpointCount, newBreakpointArray]
  · have hc : ¬ ((Breakpoints.mBreakpointCount ⟨bs ++ [b]⟩ - 1 : Int) = 0) := by
      simp only [Breakpoints.mBreakpointCount, List.length_append, List.length_singleton]
      push_cast
      omega
    have ht : (Breakpoints.mBreakpointCount ⟨bs ++ [b]⟩ - 1 : Int).toNat = bs.length := by
      simp [Breakpoints.mBreakpointCount]
    simp only [hc, if_false, ht]
    apply deleteLoop_last uninit b.number b rfl bs 0 _ hne
    simp [newBreakpointArray_length]

/-- `Delete` of an id that is present publishes what the delete-one constructor
builds. -/
theorem Delete_gBreakpoints (uninit : Nat → Breakpoint) (st : DebugState) (number : Int)
    (h : st.gBreakpoints.HasBreakpoint number = true) :
    (Breakpoints.Delete uninit st number).gBreakpoints =
      Breakpoints.deleteOne uninit st.gBreakpoints number := by
  unfold Breakpoints.Delete
  simp only [h, if_true]
  split <;> rfl

/-- Adding a file-line breakpoint and deleting it again publishes an array
that consists of uninitialised elements only, one per record of the snapshot
before the Add. -/
theorem add_then_delete_is_fresh (all_files : List CStr) (uninitAdd uninit : Nat → Breakpoint)
    (st : DebugState) (inFileName : String) (lineNumber : Int)
    (hf : inFileName ∈ __hxcpp_dbg_getFiles all_files)
    (hids : ∀ b ∈ st.gBreakpoints.mBreakpoints, b.number ≠ st.gNextBreakpointNumber) :
    (Breakpoints.Delete uninit
        (Breakpoints.AddFileLine all_files uninitAdd st inFileName lineNumber).2
        (Breakpoints.AddFileLine all_files uninitAdd st inFileName lineNumber).1
      ).gBreakpoints.mBreakpoints =
      newBreakpointArray uninit st.gBreakpoints.mBreakpoints.length := by
  cases hl : LookupFileName all_files inFileName with
  | none => exact absurd hf ((LookupFileName_none_iff _ _).mp hl)
  | some fileName =>
    have hsnap : (Breakpoints.addFileLine uninitAdd st.gBreakpoints st.gNextBreakpointNumber
        fileName lineNumber) =
        ⟨st.gBreakpoints.mBreakpoints ++
          [⟨st.gNextBreakpointNumber, true, fileName, lineNumber, ""⟩]⟩ := by
      have := addFileLine_eq uninitAdd st.gBreakpoints st.gNextBreakpointNumber fileName lineNumber
      cases hh : Breakpoints.addFileLine uninitAdd st.gBreakpoints st.gNextBreakpointNumber
        fileName lineNumber with
      | mk l =>
        rw [hh] at this
        simp at this
        simp [this]
    simp only [Breakpoints.AddFileLine, hl]
    rw [Delete_gBreakpoints]
    · simp only [hsnap]
      exact deleteOne_after_append uninit st.gBreakpoints.mBreakpoints
        ⟨st.gNextBreakpointNumber, true, fileName, lineNumber, ""⟩ hids
    · simp only [hsnap]
      exact HasBreakpoint_append_self _ ⟨st.gNextBreakpointNumber, true, fileName, lineNumber, ""⟩

/-- Claim C1 (defect in the delete-one constructor): `Add(f, l); Delete(id)` does
not restore the records of the snapshot before the Add.  From the snapshot
holding the single record `(0, FILE_LINE, "A.hx", 10)`,
`AddFileLineBreakpoint("B.hx", 20)` returns id 1 and `DeleteBreakpoint(1)` then
publishes a one-element array whose element was never assigned from the
source snapshot: it is whatever the fresh allocation held (`uninit 0`), for
every content of that allocation; with the content `exampleUninit` the
published records differ from those before the Add. -/
theorem add_delete_roundtrip_loses_snapshot :
    (∀ uninit : Nat → Breakpoint,
      (Breakpoints.Delete uninit
          (Breakpoints.AddFileLine exampleTable exampleUninit exampleOneBreakpoint "B.hx" 20).2
          (Breakpoints.AddFileLine exampleTable exampleUninit exampleOneBreakpoint "B.hx" 20).1
        ).gBreakpoints.mBreakpoints = [{ uninit 0 with functionName := "" }]) ∧
    exampleOneBreakpoint.gBreakpoints.mBreakpoints = [⟨0, true, ⟨100, "A.hx"⟩, 10, ""⟩] ∧
    (Breakpoints.Delete exampleUninit
          (Breakpoints.AddFileLine exampleTable exampleUninit exampleOneBreakpoint "B.hx" 20).2
          (Breakpoints.AddFileLine exampleTable exampleUninit exampleOneBreakpoint "B.hx" 20).1
        ).gBreakpoints.mBreakpoints ≠ exampleOneBreakpoint.gBreakpoints.mBreakpoints := by
  refine ⟨fun uninit => rfl, rfl, by decide⟩

/-- Claim C2 (defect in the delete-one constructor): `DeleteBreakpoint(n)` does
not publish the records of the source whose id differs from `n`.  From the
snapshot with records 0 (`"A.hx"`:10) and 1 (`"B.hx"`:20), deleting id 1
publishes the uninitialised element 0 of the new array, and deleting id 0
publishes what lies in memory behind the one-element new array (`uninit 1`);
neither is the surviving record. -/
theorem delete_publishes_uninitialised_records :
    exampleTwoBreakpoints.gBreakpoints.mBreakpoints =
      [⟨0, true, ⟨100, "A.hx"⟩, 10, ""⟩, ⟨1, true, ⟨101, "B.hx"⟩, 20, ""⟩] ∧
    (∀ uninit : Nat → Breakpoint,
      (Breakpoints.Delete uninit exampleTwoBreakpoints 1).gBreakpoints.mBreakpoints =
        [{ uninit 0 with functionName := "" }]) ∧
    (∀ uninit : Nat → Breakpoint,
      (Breakpoints.Delete uninit exampleTwoBreakpoints 0).gBreakpoints.mBreakpoints =
        [uninit 1]) ∧
    (Breakpoints.Delete exampleUninit exampleTwoBreakpoints 1).gBreakpoints.mBreakpoints ≠
      exampleTwoBreakpoints.gBreakpoints.mBreakpoints.filter (fun b => b.number != 1) ∧
    (Breakpoints.Delete exampleUninit exampleTwoBreakpoints 0).gBreakpoints.mBreakpoints ≠
      exampleTwoBreakpoints.gBreakpoints.mBreakpoints.filter (fun b => b.number != 0) := by
  refine ⟨rfl, fun uninit => rfl, fun uninit => rfl, by decide, by decide⟩

/-! ### Breakpoint ids -/

/-- The increment of the counter does not wrap below `2^31 - 1`. -/
theorem wrapInt32_succ (c : Int) (h0 : 0 ≤ c) (h1 : c + 1 < 2147483648) :
    wrapInt32 (c + 1) = c + 1 := by
  unfold wrapInt32
  omega

/-- A file-line Add either fails, returning `-1` with the counter unchanged, or
returns the counter and increments it. -/
theorem AddFileLine_counter (all_files : List CStr) (uninit : Nat → Breakpoint)
    (st : DebugState) (inFileName : String) (lineNumber : Int)
    (h0 : 0 ≤ st.gNextBreakpointNumber) (h1 : st.gNextBreakpointNumber + 1 < 2147483648) :
    ((Breakpoints.AddFileLine all_files uninit st inFileName lineNumber).1 = -1 ∧
      (Breakpoints.AddFileLine all_files uninit st inFileName lineNumber).2.gNextBreakpointNumber
        = st.gNextBreakpointNumber) ∨
    ((Breakpoints.AddFileLine all_files uninit st inFileName lineNumber).1
        = st.gNextBreakpointNumber ∧
      (Breakpoints.AddFileLine all_files uninit st inFileName lineNumber).2.gNextBreakpointNumber
        = st.gNextBreakpointNumber + 1) := by
  unfold Breakpoints.AddFileLine
  cases LookupFileName all_files inFileName with
  | none => left; simp
  | some p => right; simp [wrapInt32_succ _ h0 h1]

/-- A class-function Add either fails, returning `-1` with the counter
unchanged, or returns the counter and increments it. -/
theorem AddClassFunction_counter (all_files : List CStr) (uninit : Nat → Breakpoint)
    (st : DebugState) (inClassName functionName : String)
    (h0 : 0 ≤ st.gNextBreakpointNumber) (h1 : st.gNextBreakpointNumber + 1 < 2147483648) :
    ((Breakpoints.AddClassFunction all_files uninit st inClassName functionName).1 = -1 ∧
      (Breakpoints.AddClassFunction all_files uninit st inClassName
        functionName).2.gNextBreakpointNumber = st.gNextBreakpointNumber) ∨
    ((Breakpoints.AddClassFunction all_files uninit st inClassName functionName).1
        = st.gNextBreakpointNumber ∧
      (Breakpoints.AddClassFunction all_files uninit st inClassName
        functionName).2.gNextBreakpointNumber = st.gNextBreakpointNumber + 1) := by
  unfold Breakpoints.AddClassFunction
  cases LookupClassName all_files inClassName with
  | none => left; simp
  | some p => right; simp [wrapInt32_succ _ h0 h1]

/-- `Delete` does not touch the counter. -/
theorem Delete_counter (uninit : Nat → Breakpoint) (st : DebugState) (number : Int) :
    (Breakpoints.Delete uninit st number).gNextBreakpointNumber = st.gNextBreakpointNumber := by
  unfold Breakpoints.Delete
  by_cases h : st.gBreakpoints.HasBreakpoint number = true
  · by_cases h2 : (Breakpoints.deleteOne uninit st.gBreakpoints number).IsEmpty = true
    · simp [h, h2]
    · simp [h, h2]
  · simp [h]

/-- `DeleteAll` does not touch the counter. -/
theorem DeleteAll_counter (st : DebugState) :
    (Breakpoints.DeleteAll st).gNextBreakpointNumber = st.gNextBreakpointNumber := rfl

/-- Prepending `c` to the `n` consecutive integers from `c + 1` gives the `n + 1`
consecutive integers from `c`. -/
theorem consecutive_cons (c : Int) (n : Nat) :
    c :: (List.range n).map (fun k : Nat => c + 1 + (k : Int)) =
      (List.range (n + 1)).map (fun k : Nat => c + (k : Int)) := by
  rw [List.range_succ_eq_map]
  simp only [List.map_cons, List.map_map]
  congr 1
  · simp
  · apply List.map_congr_left
    intro k _
    simp only [Function.comp, Nat.succ_eq_add_one]
    push_cast
    ring

/-- Over a run that cannot overflow the counter, the successful ids are the
consecutive counter values and the counter advances by their number. -/
theorem runRegistryOps_ids (all_files : List CStr) (ops : List RegistryOp) :
    ∀ st : DebugState, 0 ≤ st.gNextBreakpointNumber →
      st.gNextBreakpointNumber + ops.length < 2147483648 →
      successfulIds (runRegistryOps all_files st ops).1 =
          (List.range (successfulIds (runRegistryOps all_files st ops).1).length).map
            (fun k : Nat => st.gNextBreakpointNumber + (k : Int)) ∧
        (runRegistryOps all_files st ops).2.gNextBreakpointNumber =
          st.gNextBreakpointNumber +
            ((successfulIds (runRegistryOps all_files st ops).1).length : Int) ∧
        (successfulIds (runRegistryOps all_files st ops).1).length ≤ ops.length := by
  induction ops with
  | nil => intro st _ _; simp [runRegistryOps, successfulIds]
  | cons op rest ih =>
    intro st h0 h1
    have hlen : (((op :: rest).length : Nat) : Int) = (rest.length : Int) + 1 := by simp
    rw [hlen] at h1
    cases op with
    | addFileLine uninit inFileName lineNumber =>
      simp only [runRegistryOps]
      rcases AddFileLine_counter all_files uninit st inFileName lineNumber h0 (by omega) with
        ⟨hr, hc⟩ | ⟨hr, hc⟩
      · obtain ⟨i1, i2, i3⟩ := ih (Breakpoints.AddFileLine all_files uninit st inFileName lineNumber).2
          (by rw [hc]; exact h0) (by rw [hc]; omega)
        rw [hc] at i1 i2
        have hs : ∀ t : List Int, successfulIds
            ((Breakpoints.AddFileLine all_files uninit st inFileName lineNumber).1 :: t) =
            successfulIds t := by
          intro t; rw [hr]; simp [successfulIds]
        rw [hs]
        exact ⟨i1, i2, by simp only [List.length_cons]; omega⟩
      · obtain ⟨i1, i2, i3⟩ := ih (Breakpoints.AddFileLine all_files uninit st inFileName lineNumber).2
          (by rw [hc]; omega) (by rw [hc]; omega)
        rw [hc] at i1 i2
        have hs : ∀ t : List Int, successfulIds
            ((Breakpoints.AddFileLine all_files uninit st inFileName lineNumber).1 :: t) =
            st.gNextBreakpointNumber :: successfulIds t := by
          intro t
          rw [hr]
          have : (st.gNextBreakpointNumber != -1) = true := by
            simp only [bne_iff_ne, ne_eq]
            omega
          simp [successfulIds, List.filter_cons, this]
        rw [hs]
        refine ⟨?_, ?_, ?_⟩
        · rw [List.length_cons, ← consecutive_cons, ← i1]
        · rw [i2, List.length_cons]; push_cast; ring
        · simp only [List.length_cons]; omega
    | addClassFunction uninit inClassName functionName =>
      simp only [runRegistryOps]
      rcases AddClassFunction_counter all_files uninit st inClassName functionName h0
        (by omega) with ⟨hr, hc⟩ | ⟨hr, hc⟩
      · obtain ⟨i1, i2, i3⟩ := ih
          (Breakpoints.AddClassFunction all_files uninit st inClassName functionName).2
          (by rw [hc]; exact h0) (by rw [hc]; omega)
        rw [hc] at i1 i2
        have hs : ∀ t : List Int, successfulIds
            ((Breakpoints.AddClassFunction all_files uninit st inClassName functionName).1 :: t) =
            successfulIds t := by
          intro t; rw [hr]; simp [successfulIds]
        rw [hs]
        exact ⟨i1, i2, by simp only [List.length_cons]; omega⟩
      · obtain ⟨i1, i2, i3⟩ := ih
          (Breakpoints.AddClassFunction all_files uninit st inClassName functionName).2
          (by rw [hc]; omega) (by rw [hc]; omega)
        rw [hc] at i1 i2
        have hs : ∀ t : List Int, successfulIds
            ((Breakpoints.AddClassFunction all_files uninit st inClassName functionName).1 :: t) =
            st.gNextBreakpointNumber :: successfulIds t := by
          intro t
          rw [hr]
          have : (st.gNextBreakpointNumber != -1) = true := by
            simp only [bne_iff_ne, ne_eq]
            omega
          simp [successfulIds, List.filter_cons, this]
        rw [hs]
        refine ⟨?_, ?_, ?_⟩
        · rw [List.length_cons, ← consecutive_cons, ← i1]
        · rw [i2, List.length_cons]; push_cast; ring
        · simp only [List.length_cons]; omega
    | delete uninit number =>
      simp only [runRegistryOps]
      obtain ⟨i1, i2, i3⟩ := ih (Breakpoints.Delete uninit st number)
        (by rw [Delete_counter]; exact h0) (by rw [Delete_counter]; omega)
      rw [Delete_counter] at i1 i2
      exact ⟨i1, i2, by simp only [List.length_cons]; omega⟩
    | deleteAll =>
      simp only [runRegistryOps]
      obtain ⟨i1, i2, i3⟩ := ih (Breakpoints.DeleteAll st)
        (by rw [DeleteAll_counter]; exact h0) (by rw [DeleteAll_counter]; omega)
      rw [DeleteAll_counter] at i1 i2
      exact ⟨i1, i2, by simp only [List.length_cons]; omega⟩

/-- Consecutive integers are strictly increasing. -/
theorem consecutive_pairwise (c : Int) (n : Nat) :
    List.Pairwise (fun a b : Int => a < b)
      ((List.range n).map (fun k : Nat => c + (k : Int))) := by
  rw [List.pairwise_map]
  have h := List.pairwise_lt_range n
  exact h.imp (fun {a b} hab => by
    show c + (a : Int) < c + (b : Int)
    omega)

/-- Claim C3: over every sequence of registry calls (both kinds of Add, Delete,
DeleteAll) that starts with a non-negative counter and cannot overflow it, the
ids returned by the successful Adds are strictly increasing in call order,
hence pairwise distinct; they are exactly the consecutive values of the
counter, and the counter ends at its start value plus the number of successful
Adds, so failed Adds and Deletes consume no id. -/
theorem breakpoint_ids_strictly_increasing (all_files : List CStr) (st : DebugState)
    (ops : List RegistryOp) (h0 : 0 ≤ st.gNextBreakpointNumber)
    (hov : st.gNextBreakpointNumber + (ops.length : Int) < 2147483648) :
    List.Pairwise (fun a b : Int => a < b) (successfulIds (runRegistryOps all_files st ops).1) ∧
    (successfulIds (runRegistryOps all_files st ops).1).Nodup ∧
    successfulIds (runRegistryOps all_files st ops).1 =
      (List.range (successfulIds (runRegistryOps all_files st ops).1).length).map
        (fun k : Nat => st.gNextBreakpointNumber + (k : Int)) ∧
    (runRegistryOps all_files st ops).2.gNextBreakpointNumber =
      st.gNextBreakpointNumber +
        ((successfulIds (runRegistryOps all_files st ops).1).length : Int) := by
  obtain ⟨i1, i2, _⟩ := runRegistryOps_ids all_files ops st h0 hov
  have hp : List.Pairwise (fun a b : Int => a < b)
      (successfulIds (runRegistryOps all_files st ops).1) := by
    rw [i1]
    exact consecutive_pairwise _ _
  refine ⟨hp, ?_, i1, i2⟩
  exact hp.imp (fun {a b} hab => ne_of_lt hab)

/-- Claim C3 at `exampleOps` run on the initial state: the results are 0, -1, 1
and 2, and the ids of the successful additions increase strictly. -/
theorem breakpoint_ids_strictly_increasing_witness :
    (0 : Int) ≤ DebugState.initial.gNextBreakpointNumber ∧
    DebugState.initial.gNextBreakpointNumber + (exampleOps.length : Int) < 2147483648 ∧
    (runRegistryOps exampleTable DebugState.initial exampleOps).1 = [0, -1, 1, 2] ∧
    List.Pairwise (fun a b : Int => a < b)
      (successfulIds (runRegistryOps exampleTable DebugState.initial exampleOps).1) :=
  ⟨by decide, by decide, by decide,
    (breakpoint_ids_strictly_increasing exampleTable DebugState.initial exampleOps
      (by decide) (by decide)).1⟩

/-- Claim C4: `AddFileLineBreakpoint` with a name that is not among `GetFiles()`
and `AddClassFunctionBreakpoint` with a name that is not among `GetClasses()`
return `-1` and leave the whole state (snapshot, next-id counter, hot flag)
as it was. -/
theorem add_unknown_name_rejected (all_files : List CStr) (uninit : Nat → Breakpoint)
    (st : DebugState) (inFileName : String) (lineNumber : Int)
    (inClassName functionName : String)
    (hf : inFileName ∉ __hxcpp_dbg_getFiles all_files)
    (hc : inClassName ∉ __hxcpp_dbg_getClasses all_files) :
    Breakpoints.AddFileLine all_files uninit st inFileName lineNumber = (-1, st) ∧
    Breakpoints.AddClassFunction all_files uninit st inClassName functionName = (-1, st) := by
  constructor
  · simp [Breakpoints.AddFileLine, (LookupFileName_none_iff _ _).mpr hf]
  · simp [Breakpoints.AddClassFunction, (LookupClassName_none_iff _ _).mpr hc]

/-- Claim C4 at `exampleOneBreakpoint`: the class name `X` is no file name and the
file name `A.hx` is no class name, and both additions return -1. -/
theorem add_unknown_name_rejected_witness :
    "X" ∉ __hxcpp_dbg_getFiles exampleTable ∧
    "A.hx" ∉ __hxcpp_dbg_getClasses exampleTable ∧
    (Breakpoints.AddFileLine exampleTable exampleUninit exampleOneBreakpoint "X" 3).1 = -1 ∧
    (Breakpoints.AddClassFunction exampleTable exampleUninit exampleOneBreakpoint
      "A.hx" "m").1 = -1 :=
  ⟨by decide, by decide,
    congrArg Prod.fst (add_unknown_name_rejected exampleTable exampleUninit exampleOneBreakpoint
      "X" 3 "A.hx" "m" (by decide) (by decide)).1,
    congrArg Prod.fst (add_unknown_name_rejected exampleTable exampleUninit exampleOneBreakpoint
      "X" 3 "A.hx" "m" (by decide) (by decide)).2⟩

/-- Claim C5: an Add with a name known to the identifier table returns the current
counter value and publishes the old records, unchanged and in order, followed
by exactly one new record that carries the returned id, the requested kind,
the interned table entry for the name, and the requested line (file-line) or
function name (class-function); the hot flag is true afterwards. -/
theorem add_appends_one_record (all_files : List CStr) (uninit : Nat → Breakpoint)
    (st : DebugState) (inFileName : String) (lineNumber : Int)
    (inClassName functionName : String)
    (hf : inFileName ∈ __hxcpp_dbg_getFiles all_files)
    (hc : inClassName ∈ __hxcpp_dbg_getClasses all_files) :
    (∃ fileName ∈ all_files, fileName.chars = inFileName ∧
      LookupFileName all_files inFileName = some fileName ∧
      (Breakpoints.AddFileLine all_files uninit st inFileName lineNumber).1 =
        st.gNextBreakpointNumber ∧
      (Breakpoints.AddFileLine all_files uninit st inFileName
          lineNumber).2.gBreakpoints.mBreakpoints =
        st.gBreakpoints.mBreakpoints ++
          [⟨(Breakpoints.AddFileLine all_files uninit st inFileName lineNumber).1, true,
            fileName, lineNumber, ""⟩] ∧
      (Breakpoints.AddFileLine all_files uninit st inFileName
          lineNumber).2.gShouldCallHandleBreakpoints = true) ∧
    (∃ className ∈ all_files, className.chars = inClassName ∧
      LookupClassName all_files inClassName = some className ∧
      (Breakpoints.AddClassFunction all_files uninit st inClassName functionName).1 =
        st.gNextBreakpointNumber ∧
      (∃ added : Breakpoint,
        (Breakpoints.AddClassFunction all_files uninit st inClassName
            functionName).2.gBreakpoints.mBreakpoints =
          st.gBreakpoints.mBreakpoints ++ [added] ∧
        added.number =
          (Breakpoints.AddClassFunction all_files uninit st inClassName functionName).1 ∧
        added.isFileLine = false ∧
        added.fileOrClassName = className ∧
        added.functionName = functionName) ∧
      (Breakpoints.AddClassFunction all_files uninit st inClassName
          functionName).2.gShouldCallHandleBreakpoints = true) := by
  constructor
  · cases hl : LookupFileName all_files inFileName with
    | none => exact absurd hf ((LookupFileName_none_iff _ _).mp hl)
    | some fileName =>
      obtain ⟨hmem, hchars⟩ := LookupFileName_some _ _ _ hl
      refine ⟨fileName, hmem, hchars, rfl, ?_, ?_, ?_⟩
      · simp [Breakpoints.AddFileLine, hl]
      · simp [Breakpoints.AddFileLine, hl, addFileLine_eq]
      · simp [Breakpoints.AddFileLine, hl]
  · cases hl : LookupClassName all_files inClassName with
    | none => exact absurd hc ((LookupClassName_none_iff _ _).mp hl)
    | some className =>
      obtain ⟨hmem, hchars⟩ := LookupClassNameFrom_some false _ _ _ hl
      refine ⟨className, hmem, hchars, rfl, ?_, ?_, ?_⟩
      · simp [Breakpoints.AddClassFunction, hl]
      · refine ⟨⟨st.gNextBreakpointNumber, false, className,
          (uninit st.gBreakpoints.mBreakpoints.length).lineNumber, functionName⟩, ?_, ?_,
          rfl, rfl, rfl⟩
        · simp [Breakpoints.AddClassFunction, hl, addClassFunction_eq]
        · simp [Breakpoints.AddClassFunction, hl]
      · simp [Breakpoints.AddClassFunction, hl]

/-- Claim C5 at `exampleOneBreakpoint`: adding `B.hx`:20 appends the record with
id 1 and the interned name of `B.hx`. -/
theorem add_appends_one_record_witness :
    "B.hx" ∈ __hxcpp_dbg_getFiles exampleTable ∧
    "Y" ∈ __hxcpp_dbg_getClasses exampleTable ∧
    (Breakpoints.AddFileLine exampleTable exampleUninit exampleOneBreakpoint "B.hx"
        20).2.gBreakpoints.mBreakpoints =
      [⟨0, true, ⟨100, "A.hx"⟩, 10, ""⟩, ⟨1, true, ⟨101, "B.hx"⟩, 20, ""⟩] ∧
    (∃ fileName ∈ exampleTable, fileName.chars = "B.hx" ∧
      LookupFileName exampleTable "B.hx" = some fileName ∧
      (Breakpoints.AddFileLine exampleTable exampleUninit exampleOneBreakpoint "B.hx" 20).1 =
        exampleOneBreakpoint.gNextBreakpointNumber ∧
      (Breakpoints.AddFileLine exampleTable exampleUninit exampleOneBreakpoint "B.hx"
          20).2.gBreakpoints.mBreakpoints =
        exampleOneBreakpoint.gBreakpoints.mBreakpoints ++
          [⟨(Breakpoints.AddFileLine exampleTable exampleUninit exampleOneBreakpoint "B.hx"
              20).1, true, fileName, 20, ""⟩] ∧
      (Breakpoints.AddFileLine exampleTable exampleUninit exampleOneBreakpoint "B.hx"
          20).2.gShouldCallHandleBreakpoints = true) :=
  ⟨by decide, by decide, by decide,
    (add_appends_one_record exampleTable exampleUninit exampleOneBreakpoint "B.hx" 20 "Y" "m"
      (by decide) (by decide)).1⟩

/-- Claim C6: `GetFiles()` lists the table entries before the first marker and
`GetClasses()` those after it; when the next id is not `-1`, a file-line Add
returns an id other than `-1` iff its name is among `GetFiles()`, a
class-function Add iff its name is among `GetClasses()`, and a name found only
on the other side of the marker is rejected. -/
theorem add_succeeds_iff_listed (all_files : List CStr) (uninit : Nat → Breakpoint)
    (st : DebugState) (inFileName : String) (lineNumber : Int)
    (inClassName functionName : String)
    (hctr : st.gNextBreakpointNumber ≠ -1) :
    __hxcpp_dbg_getFiles all_files =
      (all_files.takeWhile
        (fun ptr => ptr.chars != CLASSES_MARKER_WITHIN_FILES_ARRAY)).map CStr.chars ∧
    __hxcpp_dbg_getClasses all_files =
      ((all_files.dropWhile
        (fun ptr => ptr.chars != CLASSES_MARKER_WITHIN_FILES_ARRAY)).drop 1).map CStr.chars ∧
    ((Breakpoints.AddFileLine all_files uninit st inFileName lineNumber).1 ≠ -1 ↔
      inFileName ∈ __hxcpp_dbg_getFiles all_files) ∧
    ((Breakpoints.AddClassFunction all_files uninit st inClassName functionName).1 ≠ -1 ↔
      inClassName ∈ __hxcpp_dbg_getClasses all_files) ∧
    (inFileName ∈ __hxcpp_dbg_getClasses all_files →
      inFileName ∉ __hxcpp_dbg_getFiles all_files →
      (Breakpoints.AddFileLine all_files uninit st inFileName lineNumber).1 = -1) ∧
    (inClassName ∈ __hxcpp_dbg_getFiles all_files →
      inClassName ∉ __hxcpp_dbg_getClasses all_files →
      (Breakpoints.AddClassFunction all_files uninit st inClassName functionName).1 = -1) := by
  have hfile : (Breakpoints.AddFileLine all_files uninit st inFileName lineNumber).1 ≠ -1 ↔
      inFileName ∈ __hxcpp_dbg_getFiles all_files := by
    cases hl : LookupFileName all_files inFileName with
    | none =>
      have := (LookupFileName_none_iff _ _).mp hl
      simp [Breakpoints.AddFileLine, hl, this]
    | some fileName =>
      have : inFileName ∈ __hxcpp_dbg_getFiles all_files := by
        by_contra hn
        rw [(LookupFileName_none_iff _ _).mpr hn] at hl
        cases hl
      simp [Breakpoints.AddFileLine, hl, this, hctr]
  have hclass : (Breakpoints.AddClassFunction all_files uninit st inClassName
      functionName).1 ≠ -1 ↔ inClassName ∈ __hxcpp_dbg_getClasses all_files := by
    cases hl : LookupClassName all_files inClassName with
    | none =>
      have := (LookupClassName_none_iff _ _).mp hl
      simp [Breakpoints.AddClassFunction, hl, this]
    | some className =>
      have : inClassName ∈ __hxcpp_dbg_getClasses all_files := by
        by_contra hn
        rw [(LookupClassName_none_iff _ _).mpr hn] at hl
        cases hl
      simp [Breakpoints.AddClassFunction, hl, this, hctr]
  refine ⟨getFiles_eq_takeWhile _, getClasses_eq_dropWhile _, hfile, hclass, ?_, ?_⟩
  · intro _ hn
    by_contra h
    exact hn (hfile.mp h)
  · intro _ hn
    by_contra h
    exact hn (hclass.mp h)

/-- Claim C6 at `exampleOneBreakpoint`: an addition for the unlisted file name `X`
fails and one for the listed file name `B.hx` succeeds. -/
theorem add_succeeds_iff_listed_witness :
    exampleOneBreakpoint.gNextBreakpointNumber ≠ -1 ∧
    __hxcpp_dbg_getFiles exampleTable = ["A.hx", "B.hx"] ∧
    __hxcpp_dbg_getClasses exampleTable = ["X", "Y"] ∧
    (Breakpoints.AddFileLine exampleTable exampleUninit exampleOneBreakpoint "X" 1).1 = -1 ∧
    ((Breakpoints.AddFileLine exampleTable exampleUninit exampleOneBreakpoint "B.hx" 1).1 ≠ -1 ↔
      "B.hx" ∈ __hxcpp_dbg_getFiles exampleTable) :=
  ⟨by decide, by decide, by decide,
    (add_succeeds_iff_listed exampleTable exampleUninit exampleOneBreakpoint "X" 1 "Y" "m"
      (by decide)).2.2.2.2.1 (by decide) (by decide),
    (add_succeeds_iff_listed exampleTable exampleUninit exampleOneBreakpoint "B.hx" 1 "Y" "m"
      (by decide)).2.2.1⟩

/-! ### The hot flag under the operations other than `StepThread` -/

/-- The loop of the delete-one constructor keeps the length of the new array. -/
theorem deleteLoop_length (uninit : Nat → Breakpoint) (number : Int) (src : List Breakpoint) :
    ∀ (s d : Nat) (arr : List Breakpoint),
      (deleteLoop uninit number s d src arr).length = arr.length := by
  induction src with
  | nil => intro s d arr; rfl
  | cons x rest ih =>
    intro s d arr
    by_cases hx : x.number = number
    · simp only [deleteLoop, if_pos hx, ih]
    · simp only [deleteLoop, if_neg hx, ih, List.length_set]

/-- The delete-one constructor builds an array one shorter than its source. -/
theorem deleteOne_length (uninit : Nat → Breakpoint) (toCopy : Breakpoints) (number : Int) :
    (Breakpoints.deleteOne uninit toCopy number).mBreakpoints.length =
      toCopy.mBreakpoints.length - 1 := by
  unfold Breakpoints.deleteOne
  by_cases hc : (toCopy.mBreakpointCount - 1 : Int) = 0
  · simp only [hc, if_true, List.length_nil]
    simp only [Breakpoints.mBreakpointCount] at hc
    omega
  · simp only [hc, if_false, deleteLoop_length, newBreakpointArray_length]
    simp only [Breakpoints.mBreakpointCount]
    omega

/-- A snapshot that has some id is not empty. -/
theorem HasBreakpoint_nonempty (bs : Breakpoints) (number : Int)
    (h : bs.HasBreakpoint number = true) : bs.mBreakpoints ≠ [] := by
  intro hn
  simp [Breakpoints.HasBreakpoint, hn] at h

/-- `IsEmpty` holds exactly of the snapshot without records. -/
theorem IsEmpty_iff (bs : Breakpoints) : bs.IsEmpty = true ↔ bs.mBreakpoints = [] := by
  simp [Breakpoints.IsEmpty, Breakpoints.mBreakpointCount]

/-- A file-line Add keeps the hot-flag relation. -/
theorem HotFlagInvariant_AddFileLine (all_files : List CStr) (uninit : Nat → Breakpoint)
    (st : DebugState) (inFileName : String) (lineNumber : Int) (h : HotFlagInvariant st) :
    HotFlagInvariant (Breakpoints.AddFileLine all_files uninit st inFileName lineNumber).2 := by
  unfold Breakpoints.AddFileLine
  cases LookupFileName all_files inFileName with
  | none => exact h
  | some fileName => simp [HotFlagInvariant, addFileLine_eq]

/-- A class-function Add keeps the hot-flag relation. -/
theorem HotFlagInvariant_AddClassFunction (all_files : List CStr) (uninit : Nat → Breakpoint)
    (st : DebugState) (inClassName functionName : String) (h : HotFlagInvariant st) :
    HotFlagInvariant
      (Breakpoints.AddClassFunction all_files uninit st inClassName functionName).2 := by
  unfold Breakpoints.AddClassFunction
  cases LookupClassName all_files inClassName with
  | none => exact h
  | some className => simp [HotFlagInvariant, addClassFunction_eq]

/-- `DeleteAll` establishes the hot-flag relation. -/
theorem HotFlagInvariant_DeleteAll (st : DebugState) :
    HotFlagInvariant (Breakpoints.DeleteAll st) := by
  simp [HotFlagInvariant, Breakpoints.DeleteAll]

/-- `Delete` keeps the hot-flag relation. -/
theorem HotFlagInvariant_Delete (uninit : Nat → Breakpoint) (st : DebugState) (number : Int)
    (h : HotFlagInvariant st) : HotFlagInvariant (Breakpoints.Delete uninit st number) := by
  unfold Breakpoints.Delete
  by_cases hb : st.gBreakpoints.HasBreakpoint number = true
  · by_cases he : (Breakpoints.deleteOne uninit st.gBreakpoints number).IsEmpty = true
    · have hnil := (IsEmpty_iff _).mp he
      simp [hb, he, HotFlagInvariant, hnil]
    · have hne : (Breakpoints.deleteOne uninit st.gBreakpoints number).mBreakpoints ≠ [] :=
        fun hn => he ((IsEmpty_iff _).mpr hn)
      have hhot : st.gShouldCallHandleBreakpoints = true :=
        h.mpr (Or.inl (HasBreakpoint_nonempty _ _ hb))
      simp [hb, he, HotFlagInvariant, hne, hhot]
  · simp only [hb]
    exact h

/-- One poll of `WaitForAllThreadsToStop` leaves flag, snapshot and step mode. -/
theorem pollThread_same (st : DebugState) (threadNumber : Int) (r : Bool × DebugState)
    (h : pollThread st threadNumber = some r) : SameRegistry r.2 st := by
  unfold pollThread at h
  simp only at h
  split at h
  · cases h; exact ⟨rfl, rfl, rfl⟩
  · split at h
    · cases h
    · cases h; exact ⟨rfl, rfl, rfl⟩

/-- Waiting for one thread leaves flag, snapshot and step mode when the other
threads do. -/
theorem waitForThread_same (env : Nat → DebugState → DebugState)
    (henv : ∀ k s, SameRegistry (env k s) s) (threadNumber : Int) :
    ∀ (timeSlicesLeft slept : Nat) (st : DebugState) (r : Bool × Nat × Nat × DebugState),
      waitForThread env threadNumber timeSlicesLeft slept st = some r →
      SameRegistry r.2.2.2 st := by
  intro timeSlicesLeft
  induction timeSlicesLeft with
  | zero =>
    intro slept st r h
    simp only [waitForThread] at h
    cases hp : pollThread st threadNumber with
    | none => rw [hp] at h; cases h
    | some w =>
      obtain ⟨advance, st1⟩ := w
      have hs := pollThread_same st threadNumber _ hp
      rw [hp] at h
      cases advance <;> (simp only at h; cases h; exact hs)
  | succ k ih =>
    intro slept st r h
    simp only [waitForThread] at h
    cases hp : pollThread st threadNumber with
    | none => rw [hp] at h; cases h
    | some w =>
      obtain ⟨advance, st1⟩ := w
      have hs := pollThread_same st threadNumber _ hp
      rw [hp] at h
      cases advance with
      | true => simp only at h; cases h; exact hs
      | false =>
        simp only at h
        have h1 := ih _ _ _ h
        have h2 := henv slept st1
        exact ⟨(h1.1.trans h2.1).trans hs.1, (h1.2.1.trans h2.2.1).trans hs.2.1,
          (h1.2.2.trans h2.2.2).trans hs.2.2⟩

/-- Waiting for all threads leaves flag, snapshot and step mode when the other
threads do. -/
theorem waitLoop_same (env : Nat → DebugState → DebugState)
    (henv : ∀ k s, SameRegistry (env k s) s) (threadNumbers : List Int) :
    ∀ (timeSlicesLeft slept : Nat) (st : DebugState) (r : Nat × DebugState),
      waitLoop env threadNumbers timeSlicesLeft slept st = some r →
      SameRegistry r.2 st := by
  induction threadNumbers with
  | nil =>
    intro timeSlicesLeft slept st r h
    simp only [waitLoop] at h
    cases h
    exact ⟨rfl, rfl, rfl⟩
  | cons t rest ih =>
    intro timeSlicesLeft slept st r h
    unfold waitLoop at h
    cases hw : waitForThread env t timeSlicesLeft slept st with
    | none => rw [hw] at h; cases h
    | some w =>
      obtain ⟨gaveUp, slices1, slept1, st1⟩ := w
      have hs := waitForThread_same env henv t _ _ _ _ hw
      rw [hw] at h
      cases gaveUp with
      | true =>
        simp only at h
        cases h
        exact hs
      | false =>
        simp only at h
        have h1 := ih _ _ _ _ h
        exact ⟨h1.1.trans hs.1, h1.2.1.trans hs.2.1, h1.2.2.trans hs.2.2⟩

/-- `BreakNow` establishes the hot-flag relation, with or without waiting. -/
theorem HotFlagInvariant_BreakNow (env : Nat → DebugState → DebugState)
    (henv : ∀ k s, SameRegistry (env k s) s) (st st1 : DebugState) (wait : Bool)
    (h : Breakpoints.BreakNow env st wait = some st1) : HotFlagInvariant st1 := by
  unfold Breakpoints.BreakNow at h
  cases wait with
  | false =>
    simp only [Bool.false_eq_true, if_false] at h
    cases h
    simp [HotFlagInvariant]
  | true =>
    simp only [if_true, CallStack.WaitForAllThreadsToStop] at h
    split at h
    · cases h
    · rename_i r hr
      cases h
      split at hr
      · cases hr
      · have hs := waitLoop_same env henv _ _ _ _ _ hr
        unfold HotFlagInvariant
        rw [hs.1, hs.2.1, hs.2.2]
        simp

/-- `ContinueThreads` establishes the hot-flag relation. -/
theorem HotFlagInvariant_ContinueThreads (st st1 : DebugState)
    (specialThreadNumber continueCount : Int)
    (h : Breakpoints.ContinueThreads st specialThreadNumber continueCount = some st1) :
    HotFlagInvariant st1 := by
  unfold Breakpoints.ContinueThreads CallStack.ContinueThreads at h
  split at h
  · cases h
  · cases h
    simp [HotFlagInvariant, Breakpoints.IsEmpty, Breakpoints.mBreakpointCount]

/-- `StepThread` stores the requested step mode and leaves the hot flag and the
snapshot as they were. -/
theorem StepThread_registry (st st1 : DebugState) (threadNumber : Int) (stepType : StepType)
    (stepCount : Int) (h : Breakpoints.StepThread st threadNumber stepType stepCount = some st1) :
    st1.gShouldCallHandleBreakpoints = st.gShouldCallHandleBreakpoints ∧
    st1.gBreakpoints = st.gBreakpoints ∧ st1.gStepType = stepType := by
  unfold Breakpoints.StepThread CallStack.StepOneThread at h
  split at h
  · cases h
  · cases h
    exact ⟨rfl, rfl, rfl⟩

/-- Claim C7 (defect in `StepThread`): the hot flag is not kept equal to "snapshot
non-empty or step mode not NONE".  From the initial state (flag false, mode
NONE, no breakpoints) `StepThread(1, STEP_OVER, 1)` sets the step mode to OVER
and leaves the flag false; likewise when thread 1 is stopped in a breakpoint
and the debugger calls `DeleteAllBreakpoints` and then
`StepThread(1, STEP_OVER, 1)`: the thread is continued with the flag false.
The relation holds in the initial state and fails after the call. -/
theorem step_thread_leaves_hot_flag_clear :
    (DebugState.initial.gShouldCallHandleBreakpoints = false ∧
      DebugState.initial.gStepType = StepType.STEP_NONE ∧
      DebugState.initial.gBreakpoints.mBreakpoints = []) ∧
    (Breakpoints.StepThread DebugState.initial 1 StepType.STEP_OVER 1).map
        (fun st => (st.gShouldCallHandleBreakpoints, st.gStepType, st.gBreakpoints.mBreakpoints))
      = some (false, StepType.STEP_OVER, []) ∧
    (Breakpoints.StepThread (Breakpoints.DeleteAll exampleStopped) 1 StepType.STEP_OVER 1).map
        (fun st => (st.gShouldCallHandleBreakpoints, st.gStepType, st.gBreakpoints.mBreakpoints,
          st.callStacks.map (fun e => e.2.mWaiting)))
      = some (false, StepType.STEP_OVER, [], [false]) ∧
    HotFlagInvariant DebugState.initial ∧
    (∃ st1 : DebugState,
      Breakpoints.StepThread DebugState.initial 1 StepType.STEP_OVER 1 = some st1 ∧
      ¬ HotFlagInvariant st1) := by
  refine ⟨⟨rfl, rfl, rfl⟩, rfl, rfl, ?_, ⟨_, rfl, ?_⟩⟩
  · simp [HotFlagInvariant, DebugState.initial]
  · simp [HotFlagInvariant, DebugState.initial]

/-! ### Variable inspection -/

/-- Reading back through a pointer that was just written through. -/
theorem lookup_storeStack_same (p : Nat) (new : CallStack) (heap : List (Nat × CallStack)) :
    ∀ old : CallStack, heap.lookup p = some old →
      (storeStack heap p new).lookup p = some new := by
  induction heap with
  | nil => intro old h; simp [List.lookup] at h
  | cons e rest ih =>
    intro old h
    obtain ⟨q, s⟩ := e
    by_cases hq : q = p
    · subst hq
      simp only [storeStack, List.map_cons]
      simp [List.lookup]
    · have hpq : (p == q) = false := by
        simp only [beq_eq_false_iff_ne, ne_eq]
        exact fun h => hq h.symm
      simp only [List.lookup, hpq] at h
      have := ih old h
      simp only [storeStack, List.map_cons]
      rw [if_neg hq]
      simp only [List.lookup, hpq]
      simpa [storeStack] using this

/-- The search of `GetVariableValue` yields the sentinel when no variable bears
the name. -/
theorem findVariable_none (nameToFind : String) (markNonexistent : Dynamic)
    (vars : List StackVariable) (h : ∀ sv ∈ vars, sv.mHaxeName ≠ nameToFind) :
    findVariable vars nameToFind markNonexistent = markNonexistent := by
  induction vars with
  | nil => rfl
  | cons sv rest ih =>
    have h1 : sv.mHaxeName ≠ nameToFind := h sv (by simp)
    simp only [findVariable, if_neg h1]
    exact ih (fun x hx => h x (List.mem_cons_of_mem _ hx))

/-- The search of `GetVariableValue` yields the value of the first variable that
bears the name. -/
theorem findVariable_first (nameToFind : String) (markNonexistent : Dynamic)
    (sv : StackVariable) (post : List StackVariable) (hsv : sv.mHaxeName = nameToFind)
    (pre : List StackVariable) (h : ∀ x ∈ pre, x.mHaxeName ≠ nameToFind) :
    findVariable (pre ++ sv :: post) nameToFind markNonexistent = sv.value := by
  induction pre with
  | nil => simp [findVariable, hsv]
  | cons x rest ih =>
    have h1 : x.mHaxeName ≠ nameToFind := h x (by simp)
    simp only [List.cons_append, findVariable, if_neg h1]
    exact ih (fun y hy => h y (List.mem_cons_of_mem _ hy))

/-- When some variable bears the name, the walk of `SetVariableValue` returns
the value written and a later search finds that value. -/
theorem assignVariable_found (nameToFind : String) (value markSet markGet : Dynamic)
    (vars : List StackVariable) (h : ∃ sv ∈ vars, sv.mHaxeName = nameToFind) :
    (assignVariable vars nameToFind value markSet).1 = value ∧
    findVariable (assignVariable vars nameToFind value markSet).2 nameToFind markGet = value := by
  induction vars with
  | nil => simp at h
  | cons sv rest ih =>
    by_cases h1 : sv.mHaxeName = nameToFind
    · simp [assignVariable, findVariable, h1]
    · have hrest : ∃ x ∈ rest, x.mHaxeName = nameToFind := by
        obtain ⟨x, hx, hn⟩ := h
        rcases List.mem_cons.mp hx with rfl | hx
        · exact absurd hn h1
        · exact ⟨x, hx, hn⟩
      obtain ⟨i1, i2⟩ := ih hrest
      simp only [assignVariable, if_neg h1, findVariable]
      exact ⟨i1, i2⟩

/-- Claim C8: for a thread that is not the debugger's, is in the directory and is
not RUNNING, an in-range frame and a name other than `"this"` that some
variable of that frame bears, `SetVariableValue` returns the value written
and a following `GetVariableValue` for the same thread, frame and name returns
that value. -/
theorem set_then_get_variable (st : DebugState) (threadNumber stackFrameNumber : Int)
    (name : String) (value : Dynamic) (unsafeSet unsafeGet : Bool)
    (markNonexistent markThreadNotStopped markNonexistentGet markThreadNotStoppedGet : Dynamic)
    (p : Nat) (stack : CallStack) (frame : StackFrame)
    (hdbg : isDebugThread st threadNumber = false)
    (hmap : st.gMap.lookup threadNumber = some (some p))
    (hheap : st.callStacks.lookup p = some stack)
    (hstop : stack.mStatus ≠ ThreadStatus.STATUS_RUNNING)
    (hdepth : 0 ≤ stackFrameNumber)
    (hframe : stack.mStackFrames[stackFrameNumber.toNat]? = some frame)
    (hthis : name ≠ "this")
    (hex : ∃ sv ∈ frame.variableList, sv.mHaxeName = name) :
    ∃ st1 : DebugState,
      CallStack.SetVariableValue st threadNumber stackFrameNumber name value unsafeSet
        markNonexistent markThreadNotStopped = some (value, st1) ∧
      CallStack.GetVariableValue st1 threadNumber stackFrameNumber name unsafeGet
        markNonexistentGet markThreadNotStoppedGet = some value := by
  have hlt : stackFrameNumber.toNat < stack.mStackFrames.length := by
    by_contra hn
    rw [List.getElem?_eq_none (by omega)] at hframe
    cases hframe
  have hrange : ¬ (stackFrameNumber < 0 ∨ stackFrameNumber ≥ (stack.mStackFrames.length : Int)) := by
    omega
  obtain ⟨a1, a2⟩ := assignVariable_found name value markNonexistent markNonexistentGet
    frame.variableList hex
  have hrun : ¬ (stack.mStatus = ThreadStatus.STATUS_RUNNING ∧ (!unsafeSet) = true) :=
    fun h => hstop h.1
  have hframes : ∃ frames1 : List StackFrame,
      frames1 = stack.mStackFrames.set stackFrameNumber.toNat
        ({ frame with variableList :=
            (assignVariable frame.variableList name value markNonexistent).2 } : StackFrame) :=
    ⟨_, rfl⟩
  obtain ⟨frames1, hframes1⟩ := hframes
  obtain ⟨stack1, hstack1⟩ : ∃ stack1 : CallStack,
      stack1 = { stack with mStackFrames := frames1 } := ⟨_, rfl⟩
  refine ⟨{ st with callStacks := storeStack st.callStacks p stack1 }, ?_, ?_⟩
  · unfold CallStack.SetVariableValue
    simp only [hdbg, hmap, hheap, hrun, hrange, hthis, hframe, if_false, Bool.false_eq_true]
    rw [a1, hstack1, hframes1]
  · unfold CallStack.GetVariableValue
    have hdbg1 : ∀ s : DebugState, s.g_debugThreadNumber = st.g_debugThreadNumber →
        isDebugThread s threadNumber = false := by
      intro s hs
      unfold isDebugThread at hdbg ⊢
      rw [hs]; exact hdbg
    have hheap1 := lookup_storeStack_same p stack1 st.callStacks stack hheap
    have hstatus1 : stack1.mStatus = stack.mStatus := by rw [hstack1]
    have hframes2 : stack1.mStackFrames = frames1 := by rw [hstack1]
    have hrun1 : ¬ (stack.mStatus = ThreadStatus.STATUS_RUNNING ∧ (!unsafeGet) = true) :=
      fun h => hstop h.1
    have hlen1 : frames1.length = stack.mStackFrames.length := by
      rw [hframes1, List.length_set]
    have hget1 : frames1[stackFrameNumber.toNat]? =
        some ({ frame with variableList :=
          (assignVariable frame.variableList name value markNonexistent).2 } : StackFrame) := by
      rw [hframes1, List.getElem?_set_self hlt]
    simp only [hmap, hheap1, hstatus1, hframes2, hrun1, hlen1, hrange, if_false,
      Bool.false_eq_true, hget1, a2]
    have hd := hdbg1 { st with callStacks := storeStack st.callStacks p stack1 } rfl
    rw [hd]
    simp

/-- Claim C8 at the stopped thread 1 of `exampleStopped`: variable `a` of frame 0
reads 1, is set to 42, and then reads 42. -/
theorem set_then_get_variable_witness :
    isDebugThread exampleStopped 1 = false ∧
    exampleStack.mStatus ≠ ThreadStatus.STATUS_RUNNING ∧
    CallStack.GetVariableValue exampleStopped 1 0 "a" false (Dynamic.string "nonexistent")
      (Dynamic.string "not stopped") = some (Dynamic.int 1) ∧
    ∃ st1 : DebugState,
      CallStack.SetVariableValue exampleStopped 1 0 "a" (Dynamic.int 42) false
        (Dynamic.string "nonexistent") (Dynamic.string "not stopped")
        = some (Dynamic.int 42, st1) ∧
      CallStack.GetVariableValue st1 1 0 "a" false (Dynamic.string "nonexistent")
        (Dynamic.string "not stopped") = some (Dynamic.int 42) :=
  ⟨rfl, by decide, rfl,
    set_then_get_variable exampleStopped 1 0 "a" (Dynamic.int 42) false false
      (Dynamic.string "nonexistent") (Dynamic.string "not stopped")
      (Dynamic.string "nonexistent") (Dynamic.string "not stopped")
      500 exampleStack exampleFrame rfl rfl rfl (by decide) (by decide) rfl (by decide)
      ⟨⟨"a", Dynamic.int 1⟩, List.mem_cons_self _ _, rfl⟩⟩

/-- Claim C9 (defect in `SetVariableValue`): when the target is not found,
`SetVariableValue` returns `null`, not the caller's nonexistent sentinel: for
the debugger's own thread (0), for a thread number absent from the directory
(7), and for a frame depth out of range (1 and -1 on a one-frame stack).
`GetVariableValue` returns the sentinel on the same input. -/
theorem set_variable_returns_null_when_target_missing :
    isDebugThread exampleStopped 0 = true ∧
    (CallStack.SetVariableValue exampleStopped 0 0 "a" (Dynamic.int 5) false
        (Dynamic.string "nonexistent") (Dynamic.string "not stopped")).map Prod.fst
      = some Dynamic.null ∧
    exampleStopped.gMap.lookup 7 = none ∧
    (CallStack.SetVariableValue exampleStopped 7 0 "a" (Dynamic.int 5) false
        (Dynamic.string "nonexistent") (Dynamic.string "not stopped")).map Prod.fst
      = some Dynamic.null ∧
    (CallStack.SetVariableValue exampleStopped 1 1 "a" (Dynamic.int 5) false
        (Dynamic.string "nonexistent") (Dynamic.string "not stopped")).map Prod.fst
      = some Dynamic.null ∧
    (CallStack.SetVariableValue exampleStopped 1 (-1) "a" (Dynamic.int 5) false
        (Dynamic.string "nonexistent") (Dynamic.string "not stopped")).map Prod.fst
      = some Dynamic.null ∧
    CallStack.GetVariableValue exampleStopped 1 1 "a" false
        (Dynamic.string "nonexistent") (Dynamic.string "not stopped")
      = some (Dynamic.string "nonexistent") := by
  refine ⟨rfl, rfl, rfl, rfl, rfl, rfl, rfl⟩

/-- Claim C10, as stated, fails for a RUNNING thread inspected with the unsafe flag
clear: thread 1 of `exampleRunning` has one frame, and `GetVariableValue` for
frame depth 5 (not below the frame count), for depth -1 and for the name
`"zz"` that no variable of frame 0 bears returns the not-stopped sentinel, not
the nonexistent one: the RUNNING test comes before the frame is looked at. -/
theorem get_variable_running_yields_not_stopped :
    isDebugThread exampleRunning 1 = false ∧
    exampleRunning.gMap.lookup 1 = some (some 500) ∧
    (exampleRunning.callStacks.lookup 500).map
        (fun stack => (stack.mStatus, stack.mStackFrames.length))
      = some (ThreadStatus.STATUS_RUNNING, 1) ∧
    CallStack.GetVariableValue exampleRunning 1 5 "a" false (Dynamic.string "nonexistent")
        (Dynamic.string "not stopped") = some (Dynamic.string "not stopped") ∧
    CallStack.GetVariableValue exampleRunning 1 (-1) "a" false (Dynamic.string "nonexistent")
        (Dynamic.string "not stopped") = some (Dynamic.string "not stopped") ∧
    (∀ sv ∈ exampleFrame.variableList, sv.mHaxeName ≠ "zz") ∧
    CallStack.GetVariableValue exampleRunning 1 0 "zz" false (Dynamic.string "nonexistent")
        (Dynamic.string "not stopped") = some (Dynamic.string "not stopped") ∧
    Dynamic.string "not stopped" ≠ Dynamic.string "nonexistent" := by
  refine ⟨rfl, rfl, rfl, rfl, rfl, by decide, rfl, by decide⟩

/-- Claim C10, amended: `GetVariableValue` returns the nonexistent sentinel when
the thread is the debugger's or is absent from the directory; and, for a thread
of the directory that is stopped or inspected with the unsafe flag set, when
the frame depth is negative or not below the frame count, or when no variable
of the selected frame bears the name; otherwise (thread stopped or unsafe flag
set) it returns the value of the first variable of that frame's list whose
name equals the requested one. -/
theorem get_variable_value_cases (st : DebugState) (threadNumber stackFrameNumber : Int)
    (name : String) (unsafeAccess : Bool) (markNonexistent markThreadNotStopped : Dynamic) :
    (isDebugThread st threadNumber = true →
      CallStack.GetVariableValue st threadNumber stackFrameNumber name unsafeAccess
        markNonexistent markThreadNotStopped = some markNonexistent) ∧
    (st.gMap.lookup threadNumber = none →
      CallStack.GetVariableValue st threadNumber stackFrameNumber name unsafeAccess
        markNonexistent markThreadNotStopped = some markNonexistent) ∧
    (∀ (p : Nat) (stack : CallStack),
      isDebugThread st threadNumber = false →
      st.gMap.lookup threadNumber = some (some p) →
      st.callStacks.lookup p = some stack →
      (stack.mStatus ≠ ThreadStatus.STATUS_RUNNING ∨ unsafeAccess = true) →
      ((stackFrameNumber < 0 ∨ (stack.mStackFrames.length : Int) ≤ stackFrameNumber) →
        CallStack.GetVariableValue st threadNumber stackFrameNumber name unsafeAccess
          markNonexistent markThreadNotStopped = some markNonexistent) ∧
      (∀ frame : StackFrame, 0 ≤ stackFrameNumber →
        stack.mStackFrames[stackFrameNumber.toNat]? = some frame →
        ((∀ sv ∈ frame.variableList, sv.mHaxeName ≠ name) →
          CallStack.GetVariableValue st threadNumber stackFrameNumber name unsafeAccess
            markNonexistent markThreadNotStopped = some markNonexistent) ∧
        (∀ (pre : List StackVariable) (sv : StackVariable) (post : List StackVariable),
          frame.variableList = pre ++ sv :: post →
          (∀ x ∈ pre, x.mHaxeName ≠ name) → sv.mHaxeName = name →
          CallStack.GetVariableValue st threadNumber stackFrameNumber name unsafeAccess
            markNonexistent markThreadNotStopped = some sv.value))) := by
  refine ⟨?_, ?_, ?_⟩
  · intro h
    simp [CallStack.GetVariableValue, h]
  · intro h
    unfold CallStack.GetVariableValue
    simp only [h]
    split <;> rfl
  · intro p stack hdbg hmap hheap hstop
    have hrun : ¬ (stack.mStatus = ThreadStatus.STATUS_RUNNING ∧ (!unsafeAccess) = true) := by
      rintro ⟨h1, h2⟩
      rcases hstop with h | h
      · exact h h1
      · simp [h] at h2
    constructor
    · intro hrange
      have hrange1 : stackFrameNumber < 0 ∨ stackFrameNumber ≥ (stack.mStackFrames.length : Int) :=
        hrange
      unfold CallStack.GetVariableValue
      simp only [hdbg, hmap, hheap, hrun, hrange1, if_false, if_true, Bool.false_eq_true]
    · intro frame hd hframe
      have hlt : stackFrameNumber.toNat < stack.mStackFrames.length := by
        by_contra hn
        rw [List.getElem?_eq_none (by omega)] at hframe
        cases hframe
      have hrange : ¬ (stackFrameNumber < 0 ∨
          stackFrameNumber ≥ (stack.mStackFrames.length : Int)) := by omega
      have hval : CallStack.GetVariableValue st threadNumber stackFrameNumber name unsafeAccess
          markNonexistent markThreadNotStopped =
          some (findVariable frame.variableList name markNonexistent) := by
        unfold CallStack.GetVariableValue
        simp only [hdbg, hmap, hheap, hrun, hrange, hframe, if_false, Bool.false_eq_true]
      constructor
      · intro hnone
        rw [hval, findVariable_none name markNonexistent _ hnone]
      · intro pre sv post hsplit hpre hsv
        rw [hval, hsplit, findVariable_first name markNonexistent sv post hsv pre hpre]

/-- Claim C10 at `exampleStopped`: the cases of `GetVariableValue` for the
debugger thread, an unknown thread, a frame out of range and an unknown name. -/
theorem get_variable_value_cases_witness :
    (isDebugThread exampleStopped 0 = true ∧
      CallStack.GetVariableValue exampleStopped 0 0 "a" false (Dynamic.string "nonexistent")
        (Dynamic.string "not stopped") = some (Dynamic.string "nonexistent")) ∧
    (exampleStopped.gMap.lookup 7 = none ∧
      CallStack.GetVariableValue exampleStopped 7 0 "a" false (Dynamic.string "nonexistent")
        (Dynamic.string "not stopped") = some (Dynamic.string "nonexistent")) ∧
    CallStack.GetVariableValue exampleStopped 1 1 "a" false (Dynamic.string "nonexistent")
        (Dynamic.string "not stopped") = some (Dynamic.string "nonexistent") ∧
    CallStack.GetVariableValue exampleStopped 1 0 "zz" false (Dynamic.string "nonexistent")
        (Dynamic.string "not stopped") = some (Dynamic.string "nonexistent") ∧
    CallStack.GetVariableValue exampleStopped 1 0 "b" false (Dynamic.string "nonexistent")
        (Dynamic.string "not stopped") = some (Dynamic.int 2) :=
  ⟨⟨rfl, (get_variable_value_cases exampleStopped 0 0 "a" false (Dynamic.string "nonexistent")
        (Dynamic.string "not stopped")).1 rfl⟩,
    ⟨rfl, (get_variable_value_cases exampleStopped 7 0 "a" false (Dynamic.string "nonexistent")
        (Dynamic.string "not stopped")).2.1 rfl⟩,
    ((get_variable_value_cases exampleStopped 1 1 "a" false (Dynamic.string "nonexistent")
        (Dynamic.string "not stopped")).2.2 500 exampleStack rfl rfl rfl
        (Or.inl (by decide))).1 (Or.inr (by decide)),
    (((get_variable_value_cases exampleStopped 1 0 "zz" false (Dynamic.string "nonexistent")
        (Dynamic.string "not stopped")).2.2 500 exampleStack rfl rfl rfl
        (Or.inl (by decide))).2 exampleFrame (by decide) rfl).1 (by decide),
    (((get_variable_value_cases exampleStopped 1 0 "b" false (Dynamic.string "nonexistent")
        (Dynamic.string "not stopped")).2.2 500 exampleStack rfl rfl rfl
        (Or.inl (by decide))).2 exampleFrame (by decide) rfl).2
        [⟨"a", Dynamic.int 1⟩, ⟨"this", Dynamic.string "obj"⟩] ⟨"b", Dynamic.int 2⟩
        [⟨"a", Dynamic.int 9⟩] rfl (by decide) rfl⟩

/-! ### Inspection of a running thread -/

/-- Storing a stack at `p` leaves the lookup of every other address as it was. -/
theorem lookup_storeStack_ne (p q : Nat) (new : CallStack) (hq : q ≠ p)
    (heap : List (Nat × CallStack)) :
    (storeStack heap p new).lookup q = heap.lookup q := by
  induction heap with
  | nil => rfl
  | cons e rest ih =>
    obtain ⟨r, s⟩ := e
    by_cases hr : r = p
    · subst hr
      have hqr : (q == r) = false := by simpa using hq
      simp only [storeStack, List.map_cons]
      simp only [if_true, List.lookup, hqr]
      simpa [storeStack] using ih
    · simp only [storeStack, List.map_cons]
      rw [if_neg hr]
      by_cases hqr : q = r
      · subst hqr
        simp [List.lookup]
      · have hb : (q == r) = false := by simpa using hqr
        simp only [List.lookup, hb]
        simpa [storeStack] using ih

/-- The loop of `GetStackVariables` returns `[sentinel]` at the first stack of the
list with the requested thread number when that stack is RUNNING. -/
theorem getStackVariablesLoop_running (st : DebugState) (threadNumber stackFrameNumber : Int)
    (markThreadNotStopped : Dynamic) (p : Nat) (stack : CallStack) (post : List Nat)
    (hheap : st.callStacks.lookup p = some stack)
    (hrun : stack.mStatus = ThreadStatus.STATUS_RUNNING)
    (hnum : stack.mThreadNumber = threadNumber) (pre : List Nat)
    (hpre : ∀ q ∈ pre, ∃ other, st.callStacks.lookup q = some other ∧
      other.mThreadNumber ≠ threadNumber) :
    getStackVariablesLoop st threadNumber stackFrameNumber false markThreadNotStopped
      (pre ++ p :: post) = some [markThreadNotStopped] := by
  induction pre with
  | nil =>
    simp [getStackVariablesLoop, hheap, hrun, hnum]
  | cons q rest ih =>
    obtain ⟨other, ho, hne⟩ := hpre q (by simp)
    simp only [List.cons_append, getStackVariablesLoop, ho, if_neg hne]
    exact ih (fun r hr => hpre r (List.mem_cons_of_mem _ hr))

/-- The results of the three inspection calls on a RUNNING thread with
`unsafe = false`. -/
theorem running_thread_results (st : DebugState) (threadNumber stackFrameNumber : Int)
    (name : String) (value markNonexistent markThreadNotStopped : Dynamic)
    (p : Nat) (stack : CallStack) (pre post : List Nat)
    (hdbg : isDebugThread st threadNumber = false)
    (hmap : st.gMap.lookup threadNumber = some (some p))
    (hheap : st.callStacks.lookup p = some stack)
    (hrun : stack.mStatus = ThreadStatus.STATUS_RUNNING)
    (hnum : stack.mThreadNumber = threadNumber)
    (hlist : st.gList = pre ++ p :: post)
    (hpre : ∀ q ∈ pre, ∃ other, st.callStacks.lookup q = some other ∧
      other.mThreadNumber ≠ threadNumber) :
    CallStack.GetVariableValue st threadNumber stackFrameNumber name false markNonexistent
        markThreadNotStopped = some markThreadNotStopped ∧
    CallStack.SetVariableValue st threadNumber stackFrameNumber name value false
        markNonexistent markThreadNotStopped = some (markThreadNotStopped, st) ∧
    CallStack.GetStackVariables st threadNumber stackFrameNumber false markThreadNotStopped =
        some [markThreadNotStopped] := by
  refine ⟨?_, ?_, ?_⟩
  · simp [CallStack.GetVariableValue, hdbg, hmap, hheap, hrun]
  · simp [CallStack.SetVariableValue, hdbg, hmap, hheap, hrun]
  · unfold CallStack.GetStackVariables
    rw [hlist]
    exact getStackVariablesLoop_running st threadNumber stackFrameNumber markThreadNotStopped
      p stack post hheap hrun hnum pre hpre

/-- Claim C11: for a known non-debugger thread whose status is RUNNING and with
`unsafe = false`, `GetVariableValue` and `SetVariableValue` return the
caller-supplied not-stopped sentinel, `GetStackVariables` returns `[sentinel]`,
`SetVariableValue` leaves the whole state (all variables of all frames)
unchanged, and the three results are the same whatever frames and variables the
thread has, so no variable of the thread is read. -/
theorem running_thread_not_inspected (st : DebugState) (threadNumber stackFrameNumber : Int)
    (name : String) (value markNonexistent markThreadNotStopped : Dynamic)
    (p : Nat) (stack : CallStack) (pre post : List Nat)
    (hdbg : isDebugThread st threadNumber = false)
    (hmap : st.gMap.lookup threadNumber = some (some p))
    (hheap : st.callStacks.lookup p = some stack)
    (hrun : stack.mStatus = ThreadStatus.STATUS_RUNNING)
    (hnum : stack.mThreadNumber = threadNumber)
    (hlist : st.gList = pre ++ p :: post)
    (hpre : ∀ q ∈ pre, ∃ other, st.callStacks.lookup q = some other ∧
      other.mThreadNumber ≠ threadNumber) :
    (CallStack.GetVariableValue st threadNumber stackFrameNumber name false markNonexistent
        markThreadNotStopped = some markThreadNotStopped ∧
      CallStack.SetVariableValue st threadNumber stackFrameNumber name value false
        markNonexistent markThreadNotStopped = some (markThreadNotStopped, st) ∧
      CallStack.GetStackVariables st threadNumber stackFrameNumber false markThreadNotStopped =
        some [markThreadNotStopped]) ∧
    (∀ frames : List StackFrame,
      CallStack.GetVariableValue (withFrames st p stack frames) threadNumber stackFrameNumber
        name false markNonexistent markThreadNotStopped = some markThreadNotStopped ∧
      CallStack.SetVariableValue (withFrames st p stack frames) threadNumber stackFrameNumber
        name value false markNonexistent markThreadNotStopped =
          some (markThreadNotStopped, withFrames st p stack frames) ∧
      CallStack.GetStackVariables (withFrames st p stack frames) threadNumber stackFrameNumber
        false markThreadNotStopped = some [markThreadNotStopped]) := by
  refine ⟨running_thread_results st threadNumber stackFrameNumber name value markNonexistent
    markThreadNotStopped p stack pre post hdbg hmap hheap hrun hnum hlist hpre, ?_⟩
  intro frames
  apply running_thread_results (withFrames st p stack frames) threadNumber stackFrameNumber name
    value markNonexistent markThreadNotStopped p { stack with mStackFrames := frames } pre post
  · exact hdbg
  · exact hmap
  · exact lookup_storeStack_same p _ st.callStacks stack hheap
  · exact hrun
  · exact hnum
  · exact hlist
  · intro q hq
    obtain ⟨other, ho, hne⟩ := hpre q hq
    have hqp : q ≠ p := by
      rintro rfl
      rw [hheap] at ho
      cases ho
      exact hne hnum
    exact ⟨other, by
      show (storeStack st.callStacks p _).lookup q = some other
      rw [lookup_storeStack_ne p q _ hqp]; exact ho, hne⟩

/-- Claim C11 at thread 1 of `exampleRunning`. -/
theorem running_thread_not_inspected_witness :
    isDebugThread exampleRunning 1 = false ∧
    exampleRunningStack.mStatus = ThreadStatus.STATUS_RUNNING ∧
    CallStack.GetVariableValue exampleRunning 1 0 "a" false (Dynamic.string "nonexistent")
        (Dynamic.string "not stopped") = some (Dynamic.string "not stopped") ∧
    CallStack.SetVariableValue exampleRunning 1 0 "a" (Dynamic.int 5) false
        (Dynamic.string "nonexistent") (Dynamic.string "not stopped") =
          some (Dynamic.string "not stopped", exampleRunning) ∧
    CallStack.GetStackVariables exampleRunning 1 0 false (Dynamic.string "not stopped") =
        some [Dynamic.string "not stopped"] :=
  ⟨rfl, rfl,
    (running_thread_not_inspected exampleRunning 1 0 "a" (Dynamic.int 5)
      (Dynamic.string "nonexistent") (Dynamic.string "not stopped") 500 exampleRunningStack
      [] [] rfl rfl rfl rfl rfl rfl (by simp)).1⟩

/-! ### Writes to `this` -/

/-- Claim C12: for a known non-debugger thread that is not RUNNING and a frame
number in range, `SetVariableValue` with the name `this` returns the
nonexistent sentinel and leaves the state, hence every variable of every frame,
unchanged, whatever variables the frame has. -/
theorem set_this_rejected (st : DebugState) (threadNumber stackFrameNumber : Int)
    (value : Dynamic) (unsafeAccess : Bool) (markNonexistent markThreadNotStopped : Dynamic)
    (p : Nat) (stack : CallStack)
    (hdbg : isDebugThread st threadNumber = false)
    (hmap : st.gMap.lookup threadNumber = some (some p))
    (hheap : st.callStacks.lookup p = some stack)
    (hstop : stack.mStatus ≠ ThreadStatus.STATUS_RUNNING)
    (hd0 : 0 ≤ stackFrameNumber)
    (hd1 : stackFrameNumber < (stack.mStackFrames.length : Int)) :
    CallStack.SetVariableValue st threadNumber stackFrameNumber "this" value unsafeAccess
      markNonexistent markThreadNotStopped = some (markNonexistent, st) := by
  have hrun : ¬ (stack.mStatus = ThreadStatus.STATUS_RUNNING ∧ (!unsafeAccess) = true) :=
    fun h => hstop h.1
  have hrange : ¬ (stackFrameNumber < 0 ∨
      stackFrameNumber ≥ (stack.mStackFrames.length : Int)) := by omega
  unfold CallStack.SetVariableValue
  simp only [hdbg, hmap, hheap, hrun, hrange, if_false, if_true, Bool.false_eq_true]

/-- Claim C12 at `exampleStopped`, whose frame has a variable named `this`. -/
theorem set_this_rejected_witness :
    (∃ sv ∈ exampleFrame.variableList, sv.mHaxeName = "this") ∧
    CallStack.SetVariableValue exampleStopped 1 0 "this" (Dynamic.int 5) false
      (Dynamic.string "nonexistent") (Dynamic.string "not stopped") =
        some (Dynamic.string "nonexistent", exampleStopped) :=
  ⟨⟨⟨"this", Dynamic.string "obj"⟩, by simp [exampleFrame], rfl⟩,
    set_this_rejected exampleStopped 1 0 (Dynamic.int 5) false (Dynamic.string "nonexistent")
      (Dynamic.string "not stopped") 500 exampleStack rfl rfl rfl (by decide) (by decide)
      (by decide)⟩

/-! ### Thread information -/

/-- The frame loop of `CallStackToThreadInfoLocked` appends one record per frame,
in frame order. -/
theorem addStackFrames_eq (frames : List StackFrame) :
    ∀ ret : ThreadInfo, addStackFrames frames ret =
      { ret with stack := ret.stack ++ frames.map StackFrameToStackFrameLocked } := by
  induction frames with
  | nil => intro ret; simp [addStackFrames]
  | cons frame rest ih =>
    intro ret
    simp [addStackFrames, ih]

/-- What `CallStackToThreadInfoLocked` builds. -/
theorem CallStackToThreadInfoLocked_eq (stack : CallStack) :
    CallStackToThreadInfoLocked stack =
      { number := stack.mThreadNumber
        status := stack.mStatus
        breakpoint := stack.mBreakpoint
        criticalErrorDescription := some stack.mCriticalErrorDescription
        stack := stack.mStackFrames.map StackFrameToStackFrameLocked } := by
  simp [CallStackToThreadInfoLocked, addStackFrames_eq]

/-- The list built by `GetThreadInfos` contains the lightweight info of every
RUNNING non-debugger stack of the directory. -/
theorem getThreadInfosLoop_running (st : DebugState) (l : List Nat) :
    ∀ infos : List ThreadInfo, getThreadInfosLoop st l = some infos →
      ∀ (p : Nat) (stack : CallStack), p ∈ l → st.callStacks.lookup p = some stack →
        isDebugThread st stack.mThreadNumber = false →
        stack.mStatus = ThreadStatus.STATUS_RUNNING →
        ({ number := stack.mThreadNumber, status := ThreadStatus.STATUS_RUNNING,
           breakpoint := -1, criticalErrorDescription := none, stack := [] } : ThreadInfo)
          ∈ infos := by
  induction l with
  | nil => intro infos _ p stack hp; simp at hp
  | cons q rest ih =>
    intro infos h p stack hp hheap hdbg hrun
    simp only [getThreadInfosLoop] at h
    cases hq : st.callStacks.lookup q with
    | none => rw [hq] at h; cases h
    | some other =>
      rw [hq] at h
      cases hr : getThreadInfosLoop st rest with
      | none => rw [hr] at h; cases h
      | some ret =>
        rw [hr] at h
        simp only at h
        rcases List.mem_cons.mp hp with hpq | hprest
        · subst hpq
          rw [hheap] at hq
          cases hq
          simp only [hdbg, Bool.false_eq_true, if_false, hrun, if_true] at h
          cases h
          simp [hrun]
        · have hin := ih ret hr p stack hprest hheap hdbg hrun
          split at h
          · cases h; exact hin
          · split at h
            · cases h; exact List.mem_cons_of_mem _ hin
            · cases h; exact List.mem_cons_of_mem _ hin

/-- Claim C13, counterexample: `GetThreadInfo(1, false)` on the RUNNING thread 1 of
`exampleRunning` returns null, not the lightweight thread info; the lightweight
info is what `GetThreadInfos` lists for that thread. -/
theorem get_thread_info_running_is_null :
    isDebugThread exampleRunning 1 = false ∧
    exampleRunning.gMap.lookup 1 = some (some 500) ∧
    exampleRunning.callStacks.lookup 500 = some exampleRunningStack ∧
    exampleRunningStack.mStatus = ThreadStatus.STATUS_RUNNING ∧
    CallStack.GetThreadInfo exampleRunning 1 false = some none ∧
    CallStack.GetThreadInfo exampleRunning 1 false ≠
      some (some { number := 1, status := ThreadStatus.STATUS_RUNNING, breakpoint := -1,
                   criticalErrorDescription := none, stack := [] }) ∧
    CallStack.GetThreadInfos exampleRunning =
      some [{ number := 1, status := ThreadStatus.STATUS_RUNNING, breakpoint := -1,
              criticalErrorDescription := none, stack := [] }] := by
  refine ⟨rfl, rfl, rfl, rfl, rfl, by decide, rfl⟩

/-- Claim C13, amended: on a known non-debugger thread whose status is RUNNING,
`GetThreadInfo(tid, false)` returns null; `GetThreadInfo(tid, true)` returns a
thread info with one stack-frame record per live frame, in frame order; and the
list of `GetThreadInfos` contains the lightweight info (thread number and
status, no frames) of the thread. -/
theorem get_thread_info_running (st : DebugState) (threadNumber : Int) (p : Nat)
    (stack : CallStack)
    (hdbg : isDebugThread st threadNumber = false)
    (hmap : st.gMap.lookup threadNumber = some (some p))
    (hheap : st.callStacks.lookup p = some stack)
    (hrun : stack.mStatus = ThreadStatus.STATUS_RUNNING) :
    CallStack.GetThreadInfo st threadNumber false = some none ∧
    CallStack.GetThreadInfo st threadNumber true =
      some (some { number := stack.mThreadNumber
                   status := ThreadStatus.STATUS_RUNNING
                   breakpoint := stack.mBreakpoint
                   criticalErrorDescription := some stack.mCriticalErrorDescription
                   stack := stack.mStackFrames.map StackFrameToStackFrameLocked }) ∧
    (∀ infos : List ThreadInfo, CallStack.GetThreadInfos st = some infos → p ∈ st.gList →
      isDebugThread st stack.mThreadNumber = false →
      ({ number := stack.mThreadNumber, status := ThreadStatus.STATUS_RUNNING,
         breakpoint := -1, criticalErrorDescription := none, stack := [] } : ThreadInfo)
        ∈ infos) := by
  refine ⟨?_, ?_, ?_⟩
  · simp [CallStack.GetThreadInfo, hdbg, hmap, hheap, hrun]
  · simp [CallStack.GetThreadInfo, hdbg, hmap, hheap, hrun, CallStackToThreadInfoLocked_eq]
  · intro infos h hp hd
    exact getThreadInfosLoop_running st st.gList infos h p stack hp hheap hd hrun

/-- Claim C13, amended, at thread 1 of `exampleRunning`. -/
theorem get_thread_info_running_witness :
    CallStack.GetThreadInfo exampleRunning 1 false = some none ∧
    CallStack.GetThreadInfo exampleRunning 1 true =
      some (some { number := 1
                   status := ThreadStatus.STATUS_RUNNING
                   breakpoint := -1
                   criticalErrorDescription := some ""
                   stack := [{ fileName := some "A.hx", lineNumber := "12",
                               className := "X", functionName := "m" }] }) :=
  ⟨(get_thread_info_running exampleRunning 1 500 exampleRunningStack rfl rfl rfl rfl).1,
    (get_thread_info_running exampleRunning 1 500 exampleRunningStack rfl rfl rfl rfl).2.1⟩

/-! ### Continue and Break -/

/-- A blocked thread that is continued with `count` wakes, resets its status and
runs with the residual count `max(1, count) - 1`. -/
theorem Continue_then_wake (stack : CallStack) (count : Int)
    (hw : stack.mWaiting = true) (hp : stack.phase = BreakPhase.blocked) :
    (stack.Continue count).DoBreakWake true =
      some (resumedWith stack ((if count < 1 then 1 else count) - 1),
        [Event.started stack.mThreadNumber]) := by
  simp [CallStack.Continue, CallStack.DoBreakWake, resumedWith, hw, hp]

/-- With a positive residual continue-count `Break` only decrements it. -/
theorem Break_passes (stack : CallStack) (breakpoint : Int)
    (hp : stack.phase = BreakPhase.running) (hc : 0 < stack.mContinueCount) :
    stack.Break true ThreadStatus.STATUS_STOPPED_BREAKPOINT breakpoint =
      some ({ stack with mContinueCount := stack.mContinueCount - 1 }, []) := by
  simp [CallStack.Break, CallStack.BreakEnter, CallStack.runDoBreak, hc, hp]

/-- With no residual continue-count `Break` stops the thread in `DoBreak`. -/
theorem Break_stops (stack : CallStack) (breakpoint : Int)
    (hc : ¬ 0 < stack.mContinueCount) (hf : stack.mStackFrames ≠ []) :
    ∃ event, stack.Break true ThreadStatus.STATUS_STOPPED_BREAKPOINT breakpoint =
      some ({ stack with mWaiting := true
                         mStatus := ThreadStatus.STATUS_STOPPED_BREAKPOINT
                         mBreakpoint := breakpoint
                         mCanStop := false
                         phase := BreakPhase.blocked }, [event]) := by
  obtain ⟨frame, hframe⟩ : ∃ frame, stack.mStackFrames.getLast? = some frame := by
    cases h : stack.mStackFrames.getLast? with
    | none => exact absurd (List.getLast?_eq_none_iff.mp h) hf
    | some frame => exact ⟨frame, rfl⟩
  refine ⟨Event.stopped stack.mThreadNumber frame.className.chars frame.functionName.chars
    (frame.fileName.map CStr.chars) frame.lineNumber, ?_⟩
  simp [CallStack.Break, CallStack.BreakEnter, CallStack.runDoBreak, CallStack.DoBreak,
    CallStack.DoBreakRecord, CallStack.DoBreakNotify, CallStack.DoBreakSetWaiting, hc, hframe]

/-- A running thread passes as many hits as its residual continue-count. -/
theorem hitBreakpoints_pass (breakpoints : List Int) :
    ∀ stack : CallStack, stack.phase = BreakPhase.running →
      (breakpoints.length : Int) ≤ stack.mContinueCount →
      hitBreakpoints true breakpoints stack =
        some { stack with mContinueCount := stack.mContinueCount - breakpoints.length } := by
  induction breakpoints with
  | nil => intro stack _ _; simp [hitBreakpoints]
  | cons b rest ih =>
    intro stack hp hc
    obtain ⟨tn, cs, stt, bp, ced, fr, ex, w, sem, cc, ph, pr⟩ := stack
    simp only at hp hc
    subst hp
    simp only [List.length_cons, Nat.cast_add, Nat.cast_one] at hc
    have hpos : 0 < cc := by omega
    have hb := Break_passes ⟨tn, cs, stt, bp, ced, fr, ex, w, sem, cc, BreakPhase.running, pr⟩ b
      rfl hpos
    have hnext := ih ⟨tn, cs, stt, bp, ced, fr, ex, w, sem, cc - 1, BreakPhase.running, pr⟩ rfl
      (by show (rest.length : Int) ≤ cc - 1; omega)
    simp only at hb hnext
    simp only [hitBreakpoints, hb, hnext, List.length_cons, Nat.cast_add, Nat.cast_one]
    congr 2
    ring

/-- Hits of a concatenated list are the hits of its parts in sequence. -/
theorem hitBreakpoints_append (breakpoints more : List Int) :
    ∀ stack : CallStack,
      hitBreakpoints true (breakpoints ++ more) stack =
        (hitBreakpoints true breakpoints stack).bind (hitBreakpoints true more) := by
  induction breakpoints with
  | nil => intro stack; simp [hitBreakpoints]
  | cons b rest ih =>
    intro stack
    cases hb : stack.Break true ThreadStatus.STATUS_STOPPED_BREAKPOINT b <;>
      cases hph : stack.phase <;> simp [hitBreakpoints, hph, hb, ih]

/-- A running thread with residual count 0 stops at the next hit. -/
theorem hitBreakpoints_stop (stack : CallStack) (breakpoint : Int)
    (hp : stack.phase = BreakPhase.running) (hc : stack.mContinueCount = 0)
    (hf : stack.mStackFrames ≠ []) :
    hitBreakpoints true [breakpoint] stack = some (stoppedAt stack breakpoint) := by
  obtain ⟨event, he⟩ := Break_stops stack breakpoint (by omega) hf
  simp [hitBreakpoints, hp, he, stoppedAt, hc]

/-- After `Continue(k + 1)` the thread passes `k` hits and still runs. -/
theorem continueThenHit_passes (stack : CallStack) (breakpoints : List Int)
    (hw : stack.mWaiting = true) (hp : stack.phase = BreakPhase.blocked) :
    continueThenHit true (breakpoints.length + 1) breakpoints stack =
      some (resumedWith stack 0) := by
  have hcount : ¬ ((breakpoints.length : Int) + 1 < 1) := by omega
  have hpass := hitBreakpoints_pass breakpoints (resumedWith stack (breakpoints.length : Int))
    rfl (by show (breakpoints.length : Int) ≤ (breakpoints.length : Int); omega)
  simp only [continueThenHit, Continue_then_wake stack _ hw hp, if_neg hcount,
    add_sub_cancel_right, hpass]
  simp [resumedWith]

/-- After `Continue(k + 1)` the thread passes `k` hits and stops at the next. -/
theorem continueThenHit_stops (stack : CallStack) (breakpoints : List Int) (last : Int)
    (hw : stack.mWaiting = true) (hp : stack.phase = BreakPhase.blocked)
    (hf : stack.mStackFrames ≠ []) :
    continueThenHit true (breakpoints.length + 1) (breakpoints ++ [last]) stack =
      some (stoppedAt stack last) := by
  have hcount : ¬ ((breakpoints.length : Int) + 1 < 1) := by omega
  have hpass := hitBreakpoints_pass breakpoints (resumedWith stack (breakpoints.length : Int))
    rfl (by show (breakpoints.length : Int) ≤ (breakpoints.length : Int); omega)
  have hstop := hitBreakpoints_stop (resumedWith stack 0) last rfl rfl hf
  simp only [continueThenHit, Continue_then_wake stack _ hw hp, if_neg hcount,
    add_sub_cancel_right, hitBreakpoints_append, hpass, Option.bind]
  have hsame : ({ resumedWith stack (breakpoints.length : Int) with
      mContinueCount := (resumedWith stack (breakpoints.length : Int)).mContinueCount -
        (breakpoints.length : Int) } : CallStack) = resumedWith stack 0 := by
    simp [resumedWith]
  rw [hsame, hstop]
  simp [stoppedAt, resumedWith]

/-- With `Continue(1)` at each hit the thread ends stopped at the last hit. -/
theorem continueAtEachHit_stops (breakpoints : List Int) :
    ∀ (stack : CallStack) (last : Int), stack.mWaiting = true →
      stack.phase = BreakPhase.blocked → stack.mStackFrames ≠ [] →
      continueAtEachHit true (breakpoints ++ [last]) stack = some (stoppedAt stack last) := by
  induction breakpoints with
  | nil =>
    intro stack last hw hp hf
    have h := continueThenHit_stops stack [] last hw hp hf
    simp only [List.length_nil, Nat.cast_zero, zero_add, List.nil_append] at h
    simp [continueAtEachHit, h]
  | cons b rest ih =>
    intro stack last hw hp hf
    have h := continueThenHit_stops stack [] b hw hp hf
    simp only [List.length_nil, Nat.cast_zero, zero_add, List.nil_append] at h
    have hnext := ih (stoppedAt stack b) last rfl rfl hf
    have hgoal : stoppedAt (stoppedAt stack b) last = stoppedAt stack last := by
      simp [stoppedAt]
    simp only [List.cons_append, continueAtEachHit, h]
    exact hnext.trans (congrArg some hgoal)

/-- After `Continue(count)` the thread passes up to `count - 1` hits, each of
which decrements the residual count. -/
theorem continueThenHit_pass (stack : CallStack) (count : Int) (breakpoints : List Int)
    (hw : stack.mWaiting = true) (hp : stack.phase = BreakPhase.blocked)
    (hcount : 1 ≤ count) (hlen : (breakpoints.length : Int) ≤ count - 1) :
    continueThenHit true count breakpoints stack =
      some (resumedWith stack (count - 1 - breakpoints.length)) := by
  have hc : ¬ (count < 1) := by omega
  have hpass := hitBreakpoints_pass breakpoints (resumedWith stack (count - 1)) rfl
    (by show (breakpoints.length : Int) ≤ count - 1; exact hlen)
  simp only [continueThenHit, Continue_then_wake stack _ hw hp, if_neg hc, hpass]
  simp [resumedWith]

/-- Claim C15: for a thread blocked in a break and `k = hits.length >= 1` breakpoint
hits, `Continue(k)` followed by the hits passes the first `k - 1` without
stopping (after `n < k` hits the thread runs with residual count `k - 1 - n`)
and stops at the `k`-th; the final `CallStack` (status STOPPED_BREAKPOINT, the
id of the last hit, residual count 0, waiting) equals the one reached by
`Continue(1)` at each of the `k` hits in turn. -/
theorem continue_count_collapses (stack : CallStack) (hits : List Int) (hne : hits ≠ [])
    (hw : stack.mWaiting = true) (hp : stack.phase = BreakPhase.blocked)
    (hf : stack.mStackFrames ≠ []) :
    (∀ n : Nat, n < hits.length →
      continueThenHit true hits.length (hits.take n) stack =
        some (resumedWith stack ((hits.length : Int) - 1 - n))) ∧
    continueThenHit true hits.length hits stack = some (stoppedAt stack (hits.getLast hne)) ∧
    continueAtEachHit true hits stack = some (stoppedAt stack (hits.getLast hne)) ∧
    ((stoppedAt stack (hits.getLast hne)).mStatus = ThreadStatus.STATUS_STOPPED_BREAKPOINT ∧
      (stoppedAt stack (hits.getLast hne)).mBreakpoint = hits.getLast hne ∧
      (stoppedAt stack (hits.getLast hne)).mContinueCount = 0 ∧
      (stoppedAt stack (hits.getLast hne)).mWaiting = true) := by
  have hsplit : hits.dropLast ++ [hits.getLast hne] = hits := List.dropLast_append_getLast hne
  have hlen : (hits.length : Int) = (hits.dropLast.length : Int) + 1 := by
    have : hits.length = hits.dropLast.length + 1 := by
      conv_lhs => rw [← hsplit]
      simp
    omega
  refine ⟨?_, ?_, ?_, rfl, rfl, rfl, rfl⟩
  · intro n hn
    have hl : (hits.take n).length = n := by
      rw [List.length_take]; omega
    have h := continueThenHit_pass stack hits.length (hits.take n) hw hp (by omega)
      (by rw [hl]; omega)
    rw [hl] at h
    exact h
  · have h := continueThenHit_stops stack hits.dropLast (hits.getLast hne) hw hp hf
    rw [hsplit, ← hlen] at h
    exact h
  · have h := continueAtEachHit_stops hits.dropLast stack (hits.getLast hne) hw hp hf
    rw [hsplit] at h
    exact h

/-- Claim C15 at `exampleStack` with three hits. -/
theorem continue_count_collapses_witness :
    exampleStack.mWaiting = true ∧ exampleStack.phase = BreakPhase.blocked ∧
    continueThenHit true 3 [4, 5] exampleStack = some (resumedWith exampleStack 0) ∧
    continueThenHit true 3 [4, 5, 6] exampleStack = some (stoppedAt exampleStack 6) ∧
    continueAtEachHit true [4, 5, 6] exampleStack = some (stoppedAt exampleStack 6) :=
  ⟨rfl, rfl,
    (continue_count_collapses exampleStack [4, 5, 6] (by simp) rfl rfl
      (by simp [exampleStack])).1 2 (by simp),
    (continue_count_collapses exampleStack [4, 5, 6] (by simp) rfl rfl
      (by simp [exampleStack])).2.1,
    (continue_count_collapses exampleStack [4, 5, 6] (by simp) rfl rfl
      (by simp [exampleStack])).2.2.1⟩

/-- On a stack that is not waiting `Continue` changes nothing. -/
theorem Continue_not_waiting (stack : CallStack) (count : Int) (h : stack.mWaiting = false) :
    stack.Continue count = stack := by
  simp [CallStack.Continue, h]

/-- Claim C16: on a waiting stack `Continue(count)` clears waiting, sets the
residual continue-count to `max(0, count - 1)` for every integer `count` and
signals the semaphore once, changing nothing else; on a stack that is not
waiting any number of `Continue` calls leaves the stack as it was; so a stack
is changed by `Continue` iff it is waiting. -/
theorem continue_acts_iff_waiting (stack : CallStack) (count : Int) :
    (stack.mWaiting = true →
      stack.Continue count =
        { stack with mWaiting := false
                     mContinueCount := max 0 (count - 1)
                     mWaitSemaphore := stack.mWaitSemaphore + 1 }) ∧
    (stack.mWaiting = false →
      ∀ n : Nat, (fun s : CallStack => s.Continue count)^[n] stack = stack) ∧
    (stack.Continue count ≠ stack ↔ stack.mWaiting = true) := by
  refine ⟨?_, ?_, ?_⟩
  · intro hw
    by_cases hc : count < 1
    · have hm : max 0 (count - 1) = 0 := by omega
      simp [CallStack.Continue, hw, hc, hm]
    · have hm : max 0 (count - 1) = count - 1 := by omega
      simp [CallStack.Continue, hw, hc, hm]
  · intro hw n
    induction n with
    | zero => rfl
    | succ k ih =>
      rw [Function.iterate_succ_apply, Continue_not_waiting stack count hw]
      exact ih
  · constructor
    · intro hne
      by_contra hw
      have hw2 : stack.mWaiting = false := by simpa using hw
      exact hne (Continue_not_waiting stack count hw2)
    · intro hw heq
      have h1 : (stack.Continue count).mWaiting = false := by
        simp [CallStack.Continue, hw]
      rw [heq, hw] at h1
      cases h1

/-- Claim C16 at the waiting `exampleStack` and the running
`exampleRunningStack`. -/
theorem continue_acts_iff_waiting_witness :
    exampleStack.mWaiting = true ∧
    (exampleStack.Continue (-3)).mWaiting = false ∧
    (exampleStack.Continue (-3)).mContinueCount = 0 ∧
    (exampleStack.Continue 5).mContinueCount = 4 ∧
    (exampleStack.Continue 5).mWaitSemaphore = exampleStack.mWaitSemaphore + 1 ∧
    exampleRunningStack.mWaiting = false ∧
    (fun s : CallStack => s.Continue 5)^[3] exampleRunningStack = exampleRunningStack :=
  ⟨rfl,
    congrArg CallStack.mWaiting ((continue_acts_iff_waiting exampleStack (-3)).1 rfl),
    congrArg CallStack.mContinueCount ((continue_acts_iff_waiting exampleStack (-3)).1 rfl),
    congrArg CallStack.mContinueCount ((continue_acts_iff_waiting exampleStack 5).1 rfl),
    congrArg CallStack.mWaitSemaphore ((continue_acts_iff_waiting exampleStack 5).1 rfl),
    rfl,
    (continue_acts_iff_waiting exampleRunningStack 5).2.1 rfl 3⟩

/-! ### The can-stop flag -/

/-- A probe by the debugger thread, or by a thread whose can-stop flag is false,
does not enter `DoBreak`. -/
theorem HandleBreakpointsEnter_no_stop (st : DebugState) (p : Nat) (stack : CallStack)
    (hheap : st.callStacks.lookup p = some stack)
    (hflag : stack.mCanStop = false ∨ isDebugThread st stack.mThreadNumber = true)
    (hres : probeResult st stack ≠ none) :
    Breakpoints.HandleBreakpointsEnter st p = some st := by
  unfold Breakpoints.HandleBreakpointsEnter
  cases hr : probeResult st stack with
  | none => exact absurd hr hres
  | some r =>
    obtain ⟨breakStatus, breakpointNumber⟩ := r
    simp only [hheap, hr]
    by_cases h1 : breakStatus = ThreadStatus.STATUS_INVALID
    · simp [h1]
    · by_cases h2 : isDebugThread st stack.mThreadNumber = true
      · simp [h1, h2]
      · rcases hflag with h3 | h3
        · simp [h1, h2, h3]
        · exact absurd h3 h2

/-- A probe by the debugger thread, or by a thread whose can-stop flag is false,
returns and leaves the whole state as it was. -/
theorem HandleBreakpoints_no_stop (st : DebugState) (p : Nat) (stack : CallStack)
    (hheap : st.callStacks.lookup p = some stack)
    (hphase : stack.phase = BreakPhase.running)
    (hflag : stack.mCanStop = false ∨ isDebugThread st stack.mThreadNumber = true)
    (hres : probeResult st stack ≠ none) :
    Breakpoints.HandleBreakpoints st p = some st := by
  unfold Breakpoints.HandleBreakpoints
  rw [HandleBreakpointsEnter_no_stop st p stack hheap hflag hres]
  simp [runDoBreakAt, hheap, hphase]

/-- Claim C14, failing input: thread 1 of `exampleNoStop` has can-stop false and
status RUNNING, an event handler is installed; `NullReference("Foo", true)`
and `CriticalErrorHandler` both leave it in STATUS_STOPPED_CRITICAL_ERROR,
waiting, with a stop event sent, while a probe after `BreakNow(false)` leaves
it RUNNING. -/
theorem critical_error_stops_thread_that_cannot_stop :
    (exampleNoStop.callStacks.lookup 500).map
        (fun stack => (stack.mCanStop, stack.mStatus, stack.mWaiting))
      = some (false, ThreadStatus.STATUS_RUNNING, false) ∧
    exampleNoStop.handlerInstalled = true ∧
    (NullReference exampleNoStop 500 "Foo" true).map
        (fun st => ((st.callStacks.lookup 500).map
          (fun stack => (stack.mStatus, stack.mBreakpoint, stack.mWaiting,
            stack.mCriticalErrorDescription)), st.events))
      = some (some (ThreadStatus.STATUS_STOPPED_CRITICAL_ERROR, -1, true,
          "Null Foo Reference"), [Event.stopped 1 "X" "m" (some "A.hx") 12]) ∧
    (CriticalErrorHandler exampleNoStop 500 "Uncatchable Throw" true).map
        (fun st => (st.callStacks.lookup 500).map (fun stack => stack.mStatus))
      = some (some ThreadStatus.STATUS_STOPPED_CRITICAL_ERROR) ∧
    ((Breakpoints.BreakNow (fun _ s => s) exampleNoStop false).bind
        (fun st => (Breakpoints.HandleBreakpoints st 500).map
          (fun st1 => (st1.callStacks.lookup 500).map
            (fun stack => (stack.mStatus, stack.mWaiting)))))
      = some (some (ThreadStatus.STATUS_RUNNING, false)) := by
  refine ⟨rfl, rfl, rfl, rfl, rfl⟩

/-! ### ContinueThreads -/

/-- Lookup after storing a stack at `p`. -/
theorem lookup_storeStack (p q : Nat) (new : CallStack) (heap : List (Nat × CallStack)) :
    (storeStack heap p new).lookup q =
      if q = p then (heap.lookup p).map (fun _ => new) else heap.lookup q := by
  by_cases hq : q = p
  · subst hq
    simp only [if_true]
    cases h : heap.lookup q with
    | some old => simpa using lookup_storeStack_same q new heap old h
    | none =>
      simp only [Option.map_none']
      induction heap with
      | nil => rfl
      | cons e rest ih =>
        obtain ⟨r, s⟩ := e
        by_cases hr : q = r
        · subst hr
          simp [List.lookup] at h
        · have hb : (q == r) = false := by simpa using hr
          have hr2 : ¬ r = q := fun h => hr h.symm
          simp only [List.lookup, hb] at h
          simp only [storeStack, List.map_cons]
          rw [if_neg hr2]
          simp only [List.lookup, hb]
          simpa [storeStack] using ih h
  · simp only [if_neg hq]
    exact lookup_storeStack_ne p q new hq heap

/-- Continuing a stack twice is the same as continuing it once. -/
theorem continuedBy_idem (specialThreadNumber count : Int) (stack : CallStack) :
    continuedBy specialThreadNumber count (continuedBy specialThreadNumber count stack) =
      continuedBy specialThreadNumber count stack := by
  cases hw : stack.mWaiting <;>
    simp [continuedBy, CallStack.Continue, hw]

/-- One iteration of the loop of `CallStack::ContinueThreads`. -/
theorem continueThreadsLoop_step (specialThreadNumber count : Int) (p : Nat) (rest : List Nat)
    (heap : List (Nat × CallStack)) (stack : CallStack) (h : heap.lookup p = some stack) :
    continueThreadsLoop specialThreadNumber count (p :: rest) heap =
      continueThreadsLoop specialThreadNumber count rest
        (storeStack heap p (continuedBy specialThreadNumber count stack)) := by
  by_cases hs : stack.mThreadNumber = specialThreadNumber <;>
    simp [continueThreadsLoop, h, hs, continuedBy]

/-- The loop of `CallStack::ContinueThreads` succeeds when every listed stack is
live, and continues exactly the listed stacks. -/
theorem continueThreadsLoop_spec (specialThreadNumber count : Int) (l : List Nat) :
    ∀ heap : List (Nat × CallStack), (∀ p ∈ l, ∃ s, heap.lookup p = some s) →
      ∃ heap1, continueThreadsLoop specialThreadNumber count l heap = some heap1 ∧
        ∀ q, heap1.lookup q =
          (heap.lookup q).map
            (fun s => if q ∈ l then continuedBy specialThreadNumber count s else s) := by
  induction l with
  | nil =>
    intro heap _
    exact ⟨heap, rfl, fun q => by simp⟩
  | cons p rest ih =>
    intro heap hlive
    obtain ⟨stack, hstack⟩ := hlive p (by simp)
    have hlive1 : ∀ q ∈ rest, ∃ s,
        (storeStack heap p (continuedBy specialThreadNumber count stack)).lookup q = some s := by
      intro q hq
      obtain ⟨s, hs⟩ := hlive q (List.mem_cons_of_mem _ hq)
      rw [lookup_storeStack]
      by_cases hqp : q = p
      · simp [hqp, hstack]
      · simp [hqp, hs]
    obtain ⟨heap1, hrun, hlook⟩ := ih _ hlive1
    refine ⟨heap1, ?_, ?_⟩
    · rw [continueThreadsLoop_step specialThreadNumber count p rest heap stack hstack]
      exact hrun
    · intro q
      rw [hlook q, lookup_storeStack]
      by_cases hqp : q = p
      · subst hqp
        by_cases hin : q ∈ rest
        · simp [hstack, hin, continuedBy_idem]
        · simp [hstack, hin]
      · cases hq : heap.lookup q with
        | none => simp [hqp]
        | some s =>
          by_cases hin : q ∈ rest
          · simp [hqp, hin]
          · simp [hqp, hin]

/-- Claim C17: `ContinueThreads(specialTid, count)` sets the step mode to NONE and
the hot flag to (published snapshot non-empty), keeps the snapshot and the
directory, replaces every stack of the directory by the result of one
`Continue`, with argument `count` when its thread number is `specialTid` and 1
otherwise, and touches no other stack. -/
theorem continue_threads_effect (st : DebugState) (specialThreadNumber count : Int)
    (hlive : ∀ p ∈ st.gList, ∃ s, st.callStacks.lookup p = some s) :
    ∃ st1, Breakpoints.ContinueThreads st specialThreadNumber count = some st1 ∧
      st1.gStepType = StepType.STEP_NONE ∧
      (st1.gShouldCallHandleBreakpoints = true ↔ st.gBreakpoints.mBreakpoints ≠ []) ∧
      st1.gBreakpoints = st.gBreakpoints ∧
      st1.gList = st.gList ∧ st1.gMap = st.gMap ∧
      (∀ (p : Nat) (stack : CallStack), p ∈ st.gList → st.callStacks.lookup p = some stack →
        st1.callStacks.lookup p =
          some (stack.Continue (if stack.mThreadNumber = specialThreadNumber then count else 1))) ∧
      (∀ p : Nat, p ∉ st.gList → st1.callStacks.lookup p = st.callStacks.lookup p) := by
  obtain ⟨heap1, hrun, hlook⟩ :=
    continueThreadsLoop_spec specialThreadNumber count st.gList st.callStacks hlive
  refine ⟨{ st with gStepType := StepType.STEP_NONE
                    gShouldCallHandleBreakpoints := !st.gBreakpoints.IsEmpty
                    callStacks := heap1 }, ?_, rfl, ?_, rfl, rfl, rfl, ?_, ?_⟩
  · simp only [Breakpoints.ContinueThreads, CallStack.ContinueThreads, hrun]
  · simp [Breakpoints.IsEmpty, Breakpoints.mBreakpointCount]
  · intro p stack hp hstack
    show heap1.lookup p = _
    rw [hlook p, hstack]
    simp [hp, continuedBy]
  · intro p hp
    show heap1.lookup p = _
    rw [hlook p]
    cases st.callStacks.lookup p <;> simp [hp]

/-- Claim C17 at `exampleStopped` with `ContinueThreads(1, 3)`. -/
theorem continue_threads_effect_witness :
    (∀ p ∈ exampleStopped.gList, ∃ s, exampleStopped.callStacks.lookup p = some s) ∧
    ∃ st1, Breakpoints.ContinueThreads exampleStopped 1 3 = some st1 ∧
      st1.gStepType = StepType.STEP_NONE ∧
      st1.callStacks.lookup 500 = some (exampleStack.Continue 3) :=
  ⟨by simp [exampleStopped],
    (continue_threads_effect exampleStopped 1 3 (by simp [exampleStopped])).imp
      (fun _ h => ⟨h.1, h.2.1, h.2.2.2.2.2.2.1 500 exampleStack (by simp [exampleStopped]) rfl⟩)⟩

/-! ### Break-all followed by continue -/

/-- Claim C18, counterexample: the worker of `exampleRunning` runs a probe and
records its stop during the first sleep of `BreakNow(true)` and then takes no
step (it is inside the call of the event handler).  Its waiting flag stays
clear, so `WaitForAllThreadsToStop` sleeps all of its 20 time slices and gives
up; the debugger then runs `ContinueThreads(-1, 1)`, which leaves the worker
as it is, and only then the worker returns from the handler, sets waiting and
blocks.  It ends in STATUS_STOPPED_BREAK_IMMEDIATE, waiting, with semaphore
count 0 and no further step. -/
theorem break_all_then_continue_leaves_thread_stopped :
    (exampleRunning.callStacks.lookup 500).map
        (fun stack => (stack.mThreadNumber, stack.mStatus, stack.mWaiting, stack.phase))
      = some (1, ThreadStatus.STATUS_RUNNING, false, BreakPhase.running) ∧
    exampleRunning.gList = [500] ∧
    (CallStack.WaitForAllThreadsToStop (fun k s => runWorkerSteps (exampleDuring k) s)
        { exampleRunning with gStepType := StepType.STEP_INTO
                              gStepCount := 0
                              gStepThread := -1
                              gShouldCallHandleBreakpoints := true }).map
        (fun r => (r.1, (r.2.callStacks.lookup 500).map
          (fun stack => (stack.mStatus, stack.mWaiting, stack.phase))))
      = some (20, some (ThreadStatus.STATUS_STOPPED_BREAK_IMMEDIATE, false,
          BreakPhase.recorded)) ∧
    (breakAllThenContinue exampleDuring [500, 500, 500] exampleRunning).map
        (fun st => (st.gStepType,
          (st.callStacks.lookup 500).map
            (fun stack => (stack.mStatus, stack.mWaiting, stack.mWaitSemaphore, stack.phase)),
          (workerStep st 500).isSome))
      = some (StepType.STEP_NONE,
          some (ThreadStatus.STATUS_STOPPED_BREAK_IMMEDIATE, true, 0, BreakPhase.blocked),
          false) := by
  refine ⟨rfl, rfl, rfl, rfl⟩

/-- The step of a thread that has recorded its stop: the handler is called. -/
theorem workerStep_recorded (st : DebugState) (p : Nat) (s : CallStack) (frame : StackFrame)
    (hlook : st.callStacks.lookup p = some s) (hphase : s.phase = BreakPhase.recorded)
    (hhandler : st.handlerInstalled = true) (hframe : s.mStackFrames.getLast? = some frame) :
    workerStep st p =
      some { st with
        callStacks := storeStack st.callStacks p { s with phase := BreakPhase.notified }
        events := st.events ++
          [Event.stopped s.mThreadNumber frame.className.chars frame.functionName.chars
            (frame.fileName.map CStr.chars) frame.lineNumber] } := by
  simp only [workerStep, hlook, hphase, CallStack.DoBreakNotify, hframe, hhandler, if_true,
    applyToStack]

/-- The step of a thread that has called the handler: the waiting flag is set. -/
theorem workerStep_notified (st : DebugState) (p : Nat) (s : CallStack)
    (hlook : st.callStacks.lookup p = some s) (hphase : s.phase = BreakPhase.notified) :
    workerStep st p =
      some { st with callStacks := storeStack st.callStacks p s.DoBreakSetWaiting
                     events := st.events ++ [] } := by
  simp only [workerStep, hlook, hphase, applyToStack]

/-- A thread inside the wait loop of `DoBreak` has no step while its semaphore
has no signal. -/
theorem workerStep_blocked_idle (st : DebugState) (p : Nat) (s : CallStack)
    (hlook : st.callStacks.lookup p = some s) (hphase : s.phase = BreakPhase.blocked)
    (hsem : s.mWaitSemaphore = 0) : workerStep st p = none := by
  simp only [workerStep, hlook, hphase, CallStack.DoBreakWake, hsem, applyToStack]

/-- A thread that has recorded its stop and not yet set its waiting flag, with no
signal pending, goes on to set the flag and block; it keeps everything else,
its status included, and then has no step. -/
theorem runWorkerSteps_to_blocked (st : DebugState) (p : Nat) (s : CallStack)
    (hlook : st.callStacks.lookup p = some s) (hhandler : st.handlerInstalled = true)
    (hsem : s.mWaitSemaphore = 0) (hframes : s.mStackFrames ≠ [])
    (hphase : s.phase = BreakPhase.recorded ∨ s.phase = BreakPhase.notified) :
    (runWorkerSteps [p, p] st).callStacks.lookup p =
        some { s with mWaiting := true, phase := BreakPhase.blocked } ∧
      workerStep (runWorkerSteps [p, p] st) p = none := by
  obtain ⟨frame, hframe⟩ : ∃ frame, s.mStackFrames.getLast? = some frame := by
    cases h : s.mStackFrames.getLast? with
    | none => exact absurd (List.getLast?_eq_none_iff.mp h) hframes
    | some frame => exact ⟨frame, rfl⟩
  obtain ⟨final, hfinal⟩ : ∃ final : CallStack,
      final = { s with mWaiting := true, phase := BreakPhase.blocked } := ⟨_, rfl⟩
  have hfphase : final.phase = BreakPhase.blocked := by rw [hfinal]
  have hfsem : final.mWaitSemaphore = 0 := by rw [hfinal]; exact hsem
  rw [← hfinal]
  rcases hphase with hrec | hnot
  · obtain ⟨st1, hst1⟩ : ∃ st1 : DebugState, workerStep st p = some st1 ∧
        st1.callStacks.lookup p = some { s with phase := BreakPhase.notified } :=
      ⟨_, workerStep_recorded st p s frame hlook hrec hhandler hframe,
        lookup_storeStack_same p _ st.callStacks s hlook⟩
    obtain ⟨st2, hst2⟩ : ∃ st2 : DebugState, workerStep st1 p = some st2 ∧
        st2.callStacks.lookup p = some final := by
      refine ⟨_, workerStep_notified st1 p _ hst1.2 rfl, ?_⟩
      rw [hfinal]
      exact lookup_storeStack_same p _ st1.callStacks _ hst1.2
    have hrun : runWorkerSteps [p, p] st = st2 := by
      simp only [runWorkerSteps, hst1.1, hst2.1]
    rw [hrun]
    exact ⟨hst2.2, workerStep_blocked_idle st2 p final hst2.2 hfphase hfsem⟩
  · obtain ⟨st1, hst1⟩ : ∃ st1 : DebugState, workerStep st p = some st1 ∧
        st1.callStacks.lookup p = some final := by
      refine ⟨_, workerStep_notified st p s hlook hnot, ?_⟩
      rw [hfinal]
      exact lookup_storeStack_same p _ st.callStacks s hlook
    have hidle := workerStep_blocked_idle st1 p final hst1.2 hfphase hfsem
    have hrun : runWorkerSteps [p, p] st = st1 := by
      simp only [runWorkerSteps, hst1.1, hidle]
    rw [hrun]
    exact ⟨hst1.2, hidle⟩

/-- Claim C18, amended: `ContinueThreads(-1, 1)` succeeds whenever the stacks of
the directory are live.  Every thread of the directory that is then blocked in
`DoBreak` with its waiting flag set is woken by its next step, which sets its
status to RUNNING.  A stack whose waiting flag is clear is left as it is; if its
thread has recorded a stop and not yet set the flag (no signal pending on its
semaphore), the thread goes on to set the flag and block, keeping the recorded
status, and then has no step until a later `Continue`. -/
theorem continue_releases_waiting_threads (st : DebugState)
    (hhandler : st.handlerInstalled = true)
    (hlive : ∀ p ∈ st.gList, ∃ s, st.callStacks.lookup p = some s) :
    ∃ st1, Breakpoints.ContinueThreads st (-1) 1 = some st1 ∧
      (∀ p ∈ st.gList, ∀ s, st.callStacks.lookup p = some s → s.mWaiting = true →
        s.phase = BreakPhase.blocked →
        ∃ st2 stack2, workerStep st1 p = some st2 ∧
          st2.callStacks.lookup p = some stack2 ∧
          stack2.mStatus = ThreadStatus.STATUS_RUNNING ∧ stack2.mWaiting = false ∧
          stack2.phase = BreakPhase.running) ∧
      (∀ p s, st.callStacks.lookup p = some s → s.mWaiting = false →
        st1.callStacks.lookup p = some s) ∧
      (∀ p s, st.callStacks.lookup p = some s → s.mWaiting = false →
        s.mWaitSemaphore = 0 → s.mStackFrames ≠ [] →
        (s.phase = BreakPhase.recorded ∨ s.phase = BreakPhase.notified) →
        (runWorkerSteps [p, p] st1).callStacks.lookup p =
            some { s with mWaiting := true, phase := BreakPhase.blocked } ∧
          workerStep (runWorkerSteps [p, p] st1) p = none) := by
  obtain ⟨heap1, hloop, hheap1⟩ :=
    continueThreadsLoop_spec (-1) 1 st.gList st.callStacks hlive
  obtain ⟨st1, hst1⟩ : ∃ st1 : DebugState,
      st1 = { st with gStepType := StepType.STEP_NONE
                      gShouldCallHandleBreakpoints := !st.gBreakpoints.IsEmpty
                      callStacks := heap1 } := ⟨_, rfl⟩
  have hrun : Breakpoints.ContinueThreads st (-1) 1 = some st1 := by
    simp only [Breakpoints.ContinueThreads, CallStack.ContinueThreads, hloop, hst1]
  have hh1 : st1.handlerInstalled = true := by rw [hst1]; exact hhandler
  have hsame : ∀ p s, st.callStacks.lookup p = some s → s.mWaiting = false →
      st1.callStacks.lookup p = some s := by
    intro p s hs hw
    rw [hst1]
    show heap1.lookup p = _
    rw [hheap1 p, hs]
    by_cases hp : p ∈ st.gList
    · simp [hp, continuedBy, Continue_not_waiting s _ hw]
    · simp [hp]
  refine ⟨st1, hrun, ?_, hsame, ?_⟩
  · intro p hp s hs hw hph
    have hlook : st1.callStacks.lookup p =
        some (s.Continue (if s.mThreadNumber = -1 then 1 else 1)) := by
      rw [hst1]
      show heap1.lookup p = _
      rw [hheap1 p, hs]
      simp [hp, continuedBy]
    obtain ⟨woken, hwoken⟩ : ∃ woken,
        (s.Continue (if s.mThreadNumber = -1 then 1 else 1)).DoBreakWake true =
          some (woken, [Event.started s.mThreadNumber]) ∧
        woken.mStatus = ThreadStatus.STATUS_RUNNING ∧ woken.mWaiting = false ∧
        woken.phase = BreakPhase.running := by
      refine ⟨resumedWith s 0, ?_, rfl, rfl, rfl⟩
      have := Continue_then_wake s (if s.mThreadNumber = -1 then 1 else 1) hw hph
      rw [this]
      split <;> simp
    have hphase : (s.Continue (if s.mThreadNumber = -1 then 1 else 1)).phase =
        BreakPhase.blocked := by
      simp [CallStack.Continue, hw, hph]
    refine ⟨{ st1 with callStacks := storeStack st1.callStacks p woken
                       events := st1.events ++ [Event.started s.mThreadNumber] }, woken, ?_, ?_,
      hwoken.2.1, hwoken.2.2.1, hwoken.2.2.2⟩
    · simp only [workerStep, hlook, hphase, hh1, hwoken.1, applyToStack]
    · exact lookup_storeStack_same p woken st1.callStacks _ hlook
  · intro p s hs hw hsem hframes hphase
    exact runWorkerSteps_to_blocked st1 p s (hsame p s hs hw) hh1 hsem hframes hphase

/-- Claim C18, amended, at `exampleStopped` after `BreakNow(true)`: the stopped
worker is woken and runs. -/
theorem continue_releases_waiting_threads_witness :
    Breakpoints.BreakNow (fun _ s => s) exampleStopped true =
      some { exampleStopped with gStepType := StepType.STEP_INTO
                                 gStepCount := 0
                                 gStepThread := -1
                                 gShouldCallHandleBreakpoints := true } ∧
    ∃ st1, Breakpoints.ContinueThreads
        { exampleStopped with gStepType := StepType.STEP_INTO
                              gStepCount := 0
                              gStepThread := -1
                              gShouldCallHandleBreakpoints := true } (-1) 1 = some st1 ∧
      ∃ st2 stack2, workerStep st1 500 = some st2 ∧
        st2.callStacks.lookup 500 = some stack2 ∧
        stack2.mStatus = ThreadStatus.STATUS_RUNNING ∧ stack2.mWaiting = false ∧
        stack2.phase = BreakPhase.running :=
  ⟨rfl,
    (continue_releases_waiting_threads
      { exampleStopped with gStepType := StepType.STEP_INTO
                            gStepCount := 0
                            gStepThread := -1
                            gShouldCallHandleBreakpoints := true } rfl
      (by
        intro p hp
        have : p = 500 := by simpa [exampleStopped] using hp
        subst this
        exact ⟨exampleStack, rfl⟩)).imp
      (fun _ h => ⟨h.1, h.2.1 500 (by simp [exampleStopped]) exampleStack rfl rfl rfl⟩)⟩

/-! ### Stepping over -/

/-- The loop of `StepOneThread` continues the first stack with the thread number
and returns its depth. -/
theorem stepOneThreadLoop_found (threadNumber : Int) (heap : List (Nat × CallStack))
    (stackLevel : Int) (p : Nat) (stack : CallStack) (post : List Nat)
    (hheap : heap.lookup p = some stack) (hnum : stack.mThreadNumber = threadNumber)
    (pre : List Nat)
    (hpre : ∀ q ∈ pre, ∃ other, heap.lookup q = some other ∧
      other.mThreadNumber ≠ threadNumber) :
    stepOneThreadLoop threadNumber (pre ++ p :: post) heap stackLevel =
      some (storeStack heap p (stack.Continue 1), (stack.mStackFrames.length : Int) - 1) := by
  induction pre with
  | nil => simp [stepOneThreadLoop, hheap, hnum]
  | cons q rest ih =>
    obtain ⟨other, ho, hne⟩ := hpre q (by simp)
    simp only [List.cons_append, stepOneThreadLoop, ho, if_neg hne]
    exact ih (fun r hr => hpre r (List.mem_cons_of_mem _ hr))

/-- In step mode OVER the step check of the target thread fires iff its depth is
at most the target depth. -/
theorem stepCheck_over (st : DebugState) (stack : CallStack)
    (htype : st.gStepType = StepType.STEP_OVER) (hthread : st.gStepThread = stack.mThreadNumber) :
    stepCheck st stack = ThreadStatus.STATUS_STOPPED_BREAK_IMMEDIATE ↔
      stack.GetDepth ≤ st.gStepLevel := by
  by_cases hd : stack.GetDepth ≤ st.gStepLevel <;>
    simp [stepCheck, htype, hthread, hd]

/-- The stop phase of `DoBreak` on a thread with a frame: status and breakpoint
recorded, one stop event, waiting set, thread blocked. -/
theorem DoBreak_spec (stack : CallStack) (status : ThreadStatus) (breakpoint : Int)
    (criticalErrorDescription : Option String) (hframes : stack.mStackFrames ≠ []) :
    ∃ final event, stack.DoBreak true status breakpoint criticalErrorDescription =
        some (final, [event]) ∧
      final.mStatus = status ∧ final.mBreakpoint = breakpoint ∧ final.mWaiting = true ∧
      final.mContinueCount = stack.mContinueCount ∧ final.phase = BreakPhase.blocked ∧
      final.mCanStop = false ∧ final.mThreadNumber = stack.mThreadNumber ∧
      final.mStackFrames = stack.mStackFrames := by
  obtain ⟨frame, hframe⟩ : ∃ frame, stack.mStackFrames.getLast? = some frame := by
    cases h : stack.mStackFrames.getLast? with
    | none => exact absurd (List.getLast?_eq_none_iff.mp h) hframes
    | some frame => exact ⟨frame, rfl⟩
  obtain ⟨recorded, hrecorded⟩ : ∃ recorded : CallStack,
      recorded = stack.DoBreakRecord status breakpoint criticalErrorDescription := ⟨_, rfl⟩
  refine ⟨({ recorded with phase := BreakPhase.notified } : CallStack).DoBreakSetWaiting,
    Event.stopped stack.mThreadNumber frame.className.chars frame.functionName.chars
      (frame.fileName.map CStr.chars) frame.lineNumber, ?_, ?_⟩
  · simp [CallStack.DoBreak, CallStack.DoBreakRecord, CallStack.DoBreakNotify, hframe,
      hrecorded]
  · simp [CallStack.DoBreakSetWaiting, hrecorded, CallStack.DoBreakRecord]

/-- A probe whose step check fires, by a thread that may stop, ends blocked in
`DoBreak` with status BREAK_IMMEDIATE. -/
theorem HandleBreakpoints_immediate (st : DebugState) (p : Nat) (stack : CallStack)
    (hheap : st.callStacks.lookup p = some stack)
    (hcheck : stepCheck st stack = ThreadStatus.STATUS_STOPPED_BREAK_IMMEDIATE)
    (hdbg : isDebugThread st stack.mThreadNumber = false)
    (hcan : stack.mCanStop = true) (hcount : st.gStepCount ≤ 1)
    (hhandler : st.handlerInstalled = true) (hframes : stack.mStackFrames ≠ []) :
    ∃ st1 stack1, Breakpoints.HandleBreakpoints st p = some st1 ∧
      st1.callStacks.lookup p = some stack1 ∧
      stack1.mStatus = ThreadStatus.STATUS_STOPPED_BREAK_IMMEDIATE ∧
      stack1.mBreakpoint = -1 ∧ stack1.mWaiting = true ∧ stack1.mContinueCount = 0 ∧
      stack1.phase = BreakPhase.blocked := by
  have hnc : ¬ (1 < st.gStepCount) := by omega
  obtain ⟨entered, hentered⟩ : ∃ entered : CallStack,
      entered = stack.BreakEnter ThreadStatus.STATUS_STOPPED_BREAK_IMMEDIATE (-1) := ⟨_, rfl⟩
  have hphase : entered.phase =
      BreakPhase.entering ThreadStatus.STATUS_STOPPED_BREAK_IMMEDIATE (-1) none := by
    simp [hentered, CallStack.BreakEnter]
  have hef : entered.mStackFrames ≠ [] := by
    simpa [hentered, CallStack.BreakEnter] using hframes
  have hec : entered.mContinueCount = 0 := by
    simp [hentered, CallStack.BreakEnter]
  have henter : Breakpoints.HandleBreakpointsEnter st p =
      some { st with callStacks := storeStack st.callStacks p entered } := by
    simp [Breakpoints.HandleBreakpointsEnter, hheap, probeResult, hcheck, hdbg, hcan, hnc,
      hentered]
  have hlook := lookup_storeStack_same p entered st.callStacks stack hheap
  obtain ⟨final, event, hdo, h1, h2, h3, h4, h5, _⟩ :=
    DoBreak_spec entered ThreadStatus.STATUS_STOPPED_BREAK_IMMEDIATE (-1) none hef
  refine ⟨{ st with callStacks := storeStack (storeStack st.callStacks p entered) p final
                    events := st.events ++ [event] }, final, ?_, ?_, h1, h2, h3,
    h4.trans hec, h5⟩
  · simp only [Breakpoints.HandleBreakpoints, henter, runDoBreakAt, hlook, hphase, hhandler,
      hdo, applyToStack]
  · exact lookup_storeStack_same p final _ entered hlook

/-- A probe with no step hit and an empty snapshot returns with the state
unchanged. -/
theorem HandleBreakpoints_nothing (st : DebugState) (p : Nat) (stack : CallStack)
    (hheap : st.callStacks.lookup p = some stack)
    (hcheck : stepCheck st stack = ThreadStatus.STATUS_INVALID)
    (hempty : st.gBreakpoints.mBreakpoints = [])
    (hphase : stack.phase = BreakPhase.running) :
    Breakpoints.HandleBreakpoints st p = some st := by
  have henter : Breakpoints.HandleBreakpointsEnter st p = some st := by
    simp [Breakpoints.HandleBreakpointsEnter, hheap, probeResult, hcheck, breakpointCheck,
      Breakpoints.IsEmpty, Breakpoints.mBreakpointCount, hempty]
  simp [Breakpoints.HandleBreakpoints, henter, runDoBreakAt, hheap, hphase]

/-- Claim C19: for a thread `t` stopped (waiting) with `depth + 1` live frames and
an empty snapshot, `StepThread(t, STEP_OVER, 1)` succeeds, sets the target
depth to `depth`, the target thread to `t` and continues `t` (waiting cleared,
semaphore signalled). In every later state with the same step globals and
snapshot, the step check of a probe by `t` yields BREAK_IMMEDIATE iff the depth
of `t` is at most `depth`: a probe at a greater depth returns with the state
unchanged, and a probe at depth at most `depth` stops the thread with status
STATUS_STOPPED_BREAK_IMMEDIATE. -/
theorem step_over_stops_at_depth (st : DebugState) (threadNumber : Int) (p : Nat)
    (stack : CallStack) (pre post : List Nat) (depth : Nat)
    (hlist : st.gList = pre ++ p :: post)
    (hpre : ∀ q ∈ pre, ∃ other, st.callStacks.lookup q = some other ∧
      other.mThreadNumber ≠ threadNumber)
    (hheap : st.callStacks.lookup p = some stack)
    (hnum : stack.mThreadNumber = threadNumber)
    (hwait : stack.mWaiting = true)
    (hdepth : stack.mStackFrames.length = depth + 1)
    (hempty : st.gBreakpoints.mBreakpoints = []) :
    ∃ st1, Breakpoints.StepThread st threadNumber StepType.STEP_OVER 1 = some st1 ∧
      st1.gStepLevel = depth ∧ st1.gStepThread = threadNumber ∧
      st1.gStepType = StepType.STEP_OVER ∧ st1.gStepCount = 1 ∧
      st1.gBreakpoints.mBreakpoints = [] ∧
      st1.callStacks.lookup p = some (stack.Continue 1) ∧
      (stack.Continue 1).mWaiting = false ∧
      (stack.Continue 1).mWaitSemaphore = stack.mWaitSemaphore + 1 ∧
      ∀ (st2 : DebugState) (stack2 : CallStack),
        st2.gStepType = st1.gStepType → st2.gStepThread = st1.gStepThread →
        st2.gStepLevel = st1.gStepLevel → st2.gStepCount = st1.gStepCount →
        st2.gBreakpoints = st1.gBreakpoints →
        st2.callStacks.lookup p = some stack2 → stack2.mThreadNumber = threadNumber →
        (stepCheck st2 stack2 = ThreadStatus.STATUS_STOPPED_BREAK_IMMEDIATE ↔
          stack2.GetDepth ≤ depth) ∧
        (stack2.phase = BreakPhase.running → (depth : Int) < stack2.GetDepth →
          Breakpoints.HandleBreakpoints st2 p = some st2) ∧
        (isDebugThread st2 threadNumber = false → stack2.mCanStop = true →
          st2.handlerInstalled = true → stack2.mStackFrames ≠ [] →
          stack2.GetDepth ≤ depth →
          ∃ st3 stack3, Breakpoints.HandleBreakpoints st2 p = some st3 ∧
            st3.callStacks.lookup p = some stack3 ∧
            stack3.mStatus = ThreadStatus.STATUS_STOPPED_BREAK_IMMEDIATE ∧
            stack3.mWaiting = true) := by
  have hloop := stepOneThreadLoop_found threadNumber st.callStacks st.gStepLevel p stack post
    hheap hnum pre hpre
  have hlevel : (stack.mStackFrames.length : Int) - 1 = (depth : Int) := by
    rw [hdepth]; push_cast; ring
  refine ⟨{ st with gStepThread := threadNumber
                    gStepType := StepType.STEP_OVER
                    gStepCount := 1
                    callStacks := storeStack st.callStacks p (stack.Continue 1)
                    gStepLevel := (depth : Int) }, ?_, rfl, rfl, rfl, rfl, hempty, ?_, ?_, ?_, ?_⟩
  · simp only [Breakpoints.StepThread, CallStack.StepOneThread, hlist, hloop, hlevel]
  · exact lookup_storeStack_same p _ st.callStacks stack hheap
  · simp [CallStack.Continue, hwait]
  · simp [CallStack.Continue, hwait]
  · intro st2 stack2 htype hthread hlevel2 hcount hbps hheap2 hnum2
    simp only at htype hthread hlevel2 hcount hbps
    have hcheck : stepCheck st2 stack2 = ThreadStatus.STATUS_STOPPED_BREAK_IMMEDIATE ↔
        stack2.GetDepth ≤ depth := by
      rw [stepCheck_over st2 stack2 htype (by rw [hthread, hnum2]), hlevel2]
    have hinvalid : ¬ stack2.GetDepth ≤ depth →
        stepCheck st2 stack2 = ThreadStatus.STATUS_INVALID := by
      intro hd
      have hd2 : ¬ stack2.GetDepth ≤ st2.gStepLevel := by rw [hlevel2]; exact hd
      simp [stepCheck, htype, hd2]
    refine ⟨hcheck, ?_, ?_⟩
    · intro hphase hdeep
      exact HandleBreakpoints_nothing st2 p stack2 hheap2 (hinvalid (by omega))
        (by rw [hbps]; exact hempty) hphase
    · intro hdbg hcan hhandler hframes hshallow
      obtain ⟨st3, stack3, h1, h2, h3, _, h5, _⟩ :=
        HandleBreakpoints_immediate st2 p stack2 hheap2 (hcheck.mpr hshallow)
          (by rw [hnum2]; exact hdbg) hcan (by rw [hcount]) hhandler hframes
      exact ⟨st3, stack3, h1, h2, h3, h5⟩

/-- Claim C19 at `exampleStoppedDeep`: thread 1 is stepped over at depth 1, wakes,
and its next probe at depth 1 stops it. -/
theorem step_over_stops_at_depth_witness :
    (exampleStoppedDeep.callStacks.lookup 500).map
        (fun stack => (stack.mThreadNumber, stack.mWaiting, stack.mStackFrames.length))
      = some (1, true, 2) ∧
    exampleStoppedDeep.gBreakpoints.mBreakpoints = [] ∧
    (∃ st1, Breakpoints.StepThread exampleStoppedDeep 1 StepType.STEP_OVER 1 = some st1 ∧
      st1.gStepLevel = 1 ∧ st1.gStepThread = 1 ∧ st1.gStepType = StepType.STEP_OVER) ∧
    (((Breakpoints.StepThread exampleStoppedDeep 1 StepType.STEP_OVER 1).bind
        (fun st1 => workerStep st1 500)).bind
        (fun st2 => Breakpoints.HandleBreakpoints st2 500)).map
        (fun st3 => (st3.callStacks.lookup 500).map (fun stack => (stack.mStatus, stack.mWaiting)))
      = some (some (ThreadStatus.STATUS_STOPPED_BREAK_IMMEDIATE, true)) :=
  ⟨rfl, rfl,
    (step_over_stops_at_depth exampleStoppedDeep 1 500
      { exampleStack with mStatus := ThreadStatus.STATUS_STOPPED_BREAK_IMMEDIATE
                          mBreakpoint := -1
                          mStackFrames := [exampleFrame, exampleFrame] }
      [] [] 1 rfl (by simp) rfl rfl rfl rfl rfl).imp
      (fun _ h => ⟨h.1, h.2.1, h.2.2.1, h.2.2.2.1⟩),
    rfl⟩

/-! ### The breakpoint check of the probe -/

/-- `FindClassFunctionBreakpoint` returns the id of the first matching record. -/
theorem findClassFunctionLoop_first (frame : StackFrame) (b : Breakpoint)
    (post : List Breakpoint) (hb : matchesClassFunction frame b) (pre : List Breakpoint)
    (hpre : ∀ x ∈ pre, ¬ matchesClassFunction frame x) :
    findClassFunctionLoop frame.className frame.functionName (pre ++ b :: post) = b.number := by
  induction pre with
  | nil =>
    have h := hb
    unfold matchesClassFunction at h
    simp [findClassFunctionLoop, h.1, h.2.1, h.2.2]
  | cons x rest ih =>
    have hx : ¬ (x.isFileLine = false ∧ x.fileOrClassName.addr = frame.className.addr ∧
        x.functionName = frame.functionName.chars) := hpre x (by simp)
    simp only [List.cons_append, findClassFunctionLoop, if_neg hx]
    exact ih (fun y hy => hpre y (List.mem_cons_of_mem _ hy))

/-- `FindClassFunctionBreakpoint` returns -1 when no record matches. -/
theorem findClassFunctionLoop_none (frame : StackFrame) (l : List Breakpoint)
    (h : ∀ x ∈ l, ¬ matchesClassFunction frame x) :
    findClassFunctionLoop frame.className frame.functionName l = -1 := by
  induction l with
  | nil => rfl
  | cons x rest ih =>
    have hx : ¬ (x.isFileLine = false ∧ x.fileOrClassName.addr = frame.className.addr ∧
        x.functionName = frame.functionName.chars) := h x (by simp)
    simp only [findClassFunctionLoop, if_neg hx]
    exact ih (fun y hy => h y (List.mem_cons_of_mem _ hy))

/-- `FindFileLineBreakpoint` returns the id of the first matching record. -/
theorem findFileLineLoop_first (frame : StackFrame) (b : Breakpoint)
    (post : List Breakpoint) (hb : matchesFileLine frame b) (pre : List Breakpoint)
    (hpre : ∀ x ∈ pre, ¬ matchesFileLine frame x) :
    findFileLineLoop frame.fileName frame.lineNumber (pre ++ b :: post) = b.number := by
  induction pre with
  | nil =>
    have h := hb
    unfold matchesFileLine at h
    simp [findFileLineLoop, h.1, h.2.1, h.2.2]
  | cons x rest ih =>
    have hx : ¬ (x.isFileLine = true ∧ x.fileOrClassName.addr = ptrOf frame.fileName ∧
        x.lineNumber = frame.lineNumber) := hpre x (by simp)
    simp only [List.cons_append, findFileLineLoop, if_neg hx]
    exact ih (fun y hy => hpre y (List.mem_cons_of_mem _ hy))

/-- `FindFileLineBreakpoint` returns -1 when no record matches. -/
theorem findFileLineLoop_none (frame : StackFrame) (l : List Breakpoint)
    (h : ∀ x ∈ l, ¬ matchesFileLine frame x) :
    findFileLineLoop frame.fileName frame.lineNumber l = -1 := by
  induction l with
  | nil => rfl
  | cons x rest ih =>
    have hx : ¬ (x.isFileLine = true ∧ x.fileOrClassName.addr = ptrOf frame.fileName ∧
        x.lineNumber = frame.lineNumber) := h x (by simp)
    simp only [findFileLineLoop, if_neg hx]
    exact ih (fun y hy => h y (List.mem_cons_of_mem _ hy))

/-- The result of `FindClassFunctionBreakpoint` is -1 or the id of a record. -/
theorem findClassFunctionLoop_mem (className functionName : CStr) (l : List Breakpoint) :
    findClassFunctionLoop className functionName l = -1 ∨
      ∃ b ∈ l, b.number = findClassFunctionLoop className functionName l := by
  induction l with
  | nil => left; rfl
  | cons x rest ih =>
    by_cases hx : x.isFileLine = false ∧ x.fileOrClassName.addr = className.addr ∧
        x.functionName = functionName.chars
    · right
      exact ⟨x, by simp, by simp [findClassFunctionLoop, hx]⟩
    · simp only [findClassFunctionLoop, if_neg hx]
      rcases ih with h | ⟨b, hb, hn⟩
      · left; exact h
      · right; exact ⟨b, List.mem_cons_of_mem _ hb, hn⟩

/-- The result of `FindFileLineBreakpoint` is -1 or the id of a record. -/
theorem findFileLineLoop_mem (fileName : Option CStr) (lineNumber : Int) (l : List Breakpoint) :
    findFileLineLoop fileName lineNumber l = -1 ∨
      ∃ b ∈ l, b.number = findFileLineLoop fileName lineNumber l := by
  induction l with
  | nil => left; rfl
  | cons x rest ih =>
    by_cases hx : x.isFileLine = true ∧ x.fileOrClassName.addr = ptrOf fileName ∧
        x.lineNumber = lineNumber
    · right
      exact ⟨x, by simp, by simp [findFileLineLoop, hx]⟩
    · simp only [findFileLineLoop, if_neg hx]
      rcases ih with h | ⟨b, hb, hn⟩
      · left; exact h
      · right; exact ⟨b, List.mem_cons_of_mem _ hb, hn⟩

/-- With no step hit and a non-empty snapshot the probe's result is decided by
the breakpoint id found for the top frame. -/
theorem probeResult_breakpoints (st : DebugState) (stack : CallStack) (frame : StackFrame)
    (hstep : stepCheck st stack = ThreadStatus.STATUS_INVALID)
    (hne : st.gBreakpoints.mBreakpoints ≠ [])
    (hframe : stack.mStackFrames.getLast? = some frame) :
    probeResult st stack =
      if breakpointNumberFor st.gBreakpoints frame ≠ -1 then
        some (ThreadStatus.STATUS_STOPPED_BREAKPOINT, breakpointNumberFor st.gBreakpoints frame)
      else some (ThreadStatus.STATUS_INVALID, breakpointNumberFor st.gBreakpoints frame) := by
  have hemp : st.gBreakpoints.IsEmpty = false := by
    simp [Breakpoints.IsEmpty, Breakpoints.mBreakpointCount, hne]
  simp only [probeResult, hstep, if_true, breakpointCheck, hemp, hframe, Bool.false_eq_true,
    if_false]

/-- The breakpoint id found for a frame is -1 or the id of a record. -/
theorem breakpointNumberFor_mem (breakpoints : Breakpoints) (frame : StackFrame) :
    breakpointNumberFor breakpoints frame = -1 ∨
      ∃ b ∈ breakpoints.mBreakpoints, b.number = breakpointNumberFor breakpoints frame := by
  unfold breakpointNumberFor
  simp only
  by_cases hline : frame.lineNumber = frame.firstLineNumber
  · simp only [hline, if_true]
    by_cases hcf : breakpoints.FindClassFunctionBreakpoint frame.className
        frame.functionName = -1
    · simp only [hcf, if_true]
      exact findFileLineLoop_mem frame.fileName _ breakpoints.mBreakpoints
    · simp only [hcf, if_false]
      rcases findClassFunctionLoop_mem frame.className frame.functionName
        breakpoints.mBreakpoints with h | h
      · exact absurd h hcf
      · exact Or.inr h
  · simp only [hline, if_false, if_true]
    exact findFileLineLoop_mem frame.fileName _ breakpoints.mBreakpoints

/-- Claim C20, counterexample: after two additions (ids 0 and 1) and
`DeleteBreakpoint(1)` the published snapshot holds one record, which the
delete-one constructor left uninitialised; here it has the number -1 and is a
FILE_LINE record for `A.hx`:12.  A thread at `A.hx`:12, whose step check does
not fire, has a matching FILE_LINE record in its non-empty snapshot, and the
result of its probe is no break. -/
theorem probe_passes_over_record_numbered_minus_one :
    exampleTwoBreakpoints.gBreakpoints.mBreakpoints.map (fun b => b.number) = [0, 1] ∧
    exampleAfterDelete.gBreakpoints.mBreakpoints = [⟨-1, true, ⟨100, "A.hx"⟩, 12, ""⟩] ∧
    exampleAfterDelete.gNextBreakpointNumber = 2 ∧
    stepCheck exampleAfterDelete exampleRunningStack = ThreadStatus.STATUS_INVALID ∧
    exampleRunningStack.mStackFrames.getLast? = some exampleFrame ∧
    matchesFileLine exampleFrame ⟨-1, true, ⟨100, "A.hx"⟩, 12, ""⟩ ∧
    probeResult exampleAfterDelete exampleRunningStack =
      some (ThreadStatus.STATUS_INVALID, -1) :=
  ⟨by decide, by decide, by decide, rfl, rfl, ⟨rfl, rfl, rfl⟩, by decide⟩

/-- Claim C20, amended: when the step check does not fire and the snapshot S is
non-empty, (a) if the current line is the top frame's first line and the first
CLASS_FUNCTION record of S with pointer-equal class and string-equal function
has an id other than -1, the result is STOPPED_BREAKPOINT with that id; (b)
otherwise, that is on another line, without such a record, or when the first
such record has the id -1, the result is decided by the first FILE_LINE record
of S with pointer-equal file and equal line: STOPPED_BREAKPOINT with its id
when that id is not -1, no break when it is -1, and (c) no break when there is
no such record; (d) a breakpoint result always has status STOPPED_BREAKPOINT
and the id of a record of S. -/
theorem breakpoint_check_result (st : DebugState) (stack : CallStack) (frame : StackFrame)
    (hstep : stepCheck st stack = ThreadStatus.STATUS_INVALID)
    (hne : st.gBreakpoints.mBreakpoints ≠ [])
    (hframe : stack.mStackFrames.getLast? = some frame) :
    (∀ (pre : List Breakpoint) (b : Breakpoint) (post : List Breakpoint),
      st.gBreakpoints.mBreakpoints = pre ++ b :: post →
      frame.lineNumber = frame.firstLineNumber → matchesClassFunction frame b →
      (∀ x ∈ pre, ¬ matchesClassFunction frame x) → b.number ≠ -1 →
      probeResult st stack = some (ThreadStatus.STATUS_STOPPED_BREAKPOINT, b.number)) ∧
    ((frame.lineNumber ≠ frame.firstLineNumber ∨
        (∀ x ∈ st.gBreakpoints.mBreakpoints, ¬ matchesClassFunction frame x) ∨
        ∃ (pre : List Breakpoint) (b : Breakpoint) (post : List Breakpoint),
          st.gBreakpoints.mBreakpoints = pre ++ b :: post ∧ matchesClassFunction frame b ∧
          (∀ x ∈ pre, ¬ matchesClassFunction frame x) ∧ b.number = -1) →
      (∀ (pre : List Breakpoint) (b : Breakpoint) (post : List Breakpoint),
        st.gBreakpoints.mBreakpoints = pre ++ b :: post → matchesFileLine frame b →
        (∀ x ∈ pre, ¬ matchesFileLine frame x) →
        (b.number ≠ -1 →
          probeResult st stack = some (ThreadStatus.STATUS_STOPPED_BREAKPOINT, b.number)) ∧
        (b.number = -1 →
          probeResult st stack = some (ThreadStatus.STATUS_INVALID, -1))) ∧
      ((∀ x ∈ st.gBreakpoints.mBreakpoints, ¬ matchesFileLine frame x) →
        probeResult st stack = some (ThreadStatus.STATUS_INVALID, -1))) ∧
    (∀ (status : ThreadStatus) (breakpointNumber : Int),
      probeResult st stack = some (status, breakpointNumber) →
      status ≠ ThreadStatus.STATUS_INVALID →
      status = ThreadStatus.STATUS_STOPPED_BREAKPOINT ∧
        ∃ b ∈ st.gBreakpoints.mBreakpoints, b.number = breakpointNumber) := by
  have hres := probeResult_breakpoints st stack frame hstep hne hframe
  refine ⟨?_, ?_, ?_⟩
  · intro pre b post hsplit hline hb hpre hid
    have hfind : st.gBreakpoints.FindClassFunctionBreakpoint frame.className
        frame.functionName = b.number := by
      unfold Breakpoints.FindClassFunctionBreakpoint
      rw [hsplit]
      exact findClassFunctionLoop_first frame b post hb pre hpre
    have hnum : breakpointNumberFor st.gBreakpoints frame = b.number := by
      simp [breakpointNumberFor, hline, hfind, hid]
    rw [hres, hnum]
    simp [hid]
  · intro hmiss
    have hclass : (if frame.lineNumber = frame.firstLineNumber then
        st.gBreakpoints.FindClassFunctionBreakpoint frame.className frame.functionName
        else -1) = -1 := by
      rcases hmiss with hline | hnone | ⟨pre, b, post, hsplit, hb, hpre, hid⟩
      · simp [hline]
      · have := findClassFunctionLoop_none frame st.gBreakpoints.mBreakpoints hnone
        simp [Breakpoints.FindClassFunctionBreakpoint, this]
      · have hfind : st.gBreakpoints.FindClassFunctionBreakpoint frame.className
            frame.functionName = -1 := by
          unfold Breakpoints.FindClassFunctionBreakpoint
          rw [hsplit, ← hid]
          exact findClassFunctionLoop_first frame b post hb pre hpre
        simp [hfind]
    have hnum : breakpointNumberFor st.gBreakpoints frame =
        st.gBreakpoints.FindFileLineBreakpoint frame.fileName frame.lineNumber := by
      simp only [breakpointNumberFor, hclass, if_true]
    constructor
    · intro pre b post hsplit hb hpre
      have hfind : st.gBreakpoints.FindFileLineBreakpoint frame.fileName frame.lineNumber =
          b.number := by
        unfold Breakpoints.FindFileLineBreakpoint
        rw [hsplit]
        exact findFileLineLoop_first frame b post hb pre hpre
      constructor
      · intro hid
        rw [hres, hnum, hfind]
        simp [hid]
      · intro hid
        rw [hres, hnum, hfind, hid]
        simp
    · intro hnone
      have hfind : st.gBreakpoints.FindFileLineBreakpoint frame.fileName frame.lineNumber =
          -1 := findFileLineLoop_none frame st.gBreakpoints.mBreakpoints hnone
      rw [hres, hnum, hfind]
      simp
  · intro status breakpointNumber hprobe hstatus
    rw [hres] at hprobe
    by_cases hnum : breakpointNumberFor st.gBreakpoints frame ≠ -1
    · rw [if_pos hnum] at hprobe
      cases hprobe
      refine ⟨rfl, ?_⟩
      rcases breakpointNumberFor_mem st.gBreakpoints frame with h | h
      · exact absurd h hnum
      · exact h
    · rw [if_neg hnum] at hprobe
      cases hprobe
      exact absurd rfl hstatus

/-- Claim C20, amended, at `exampleAtEntry`: the thread is at the first line of
`X.m`, both the FILE_LINE record 0 and the CLASS_FUNCTION record 1 match, the
result is record 1. -/
theorem breakpoint_check_result_witness :
    exampleAtEntry.gBreakpoints.mBreakpoints =
      [⟨0, true, ⟨100, "A.hx"⟩, 10, ""⟩, ⟨1, false, ⟨103, "X"⟩, 0, "m"⟩] ∧
    matchesFileLine exampleEntryFrame ⟨0, true, ⟨100, "A.hx"⟩, 10, ""⟩ ∧
    matchesClassFunction exampleEntryFrame ⟨1, false, ⟨103, "X"⟩, 0, "m"⟩ ∧
    probeResult exampleAtEntry { exampleRunningStack with mStackFrames := [exampleEntryFrame] } =
      some (ThreadStatus.STATUS_STOPPED_BREAKPOINT, 1) :=
  ⟨rfl, ⟨rfl, rfl, rfl⟩, ⟨rfl, rfl, rfl⟩,
    (breakpoint_check_result exampleAtEntry
      { exampleRunningStack with mStackFrames := [exampleEntryFrame] } exampleEntryFrame
      rfl (by decide) rfl).1
      [⟨0, true, ⟨100, "A.hx"⟩, 10, ""⟩] ⟨1, false, ⟨103, "X"⟩, 0, "m"⟩ [] rfl rfl
      ⟨rfl, rfl, rfl⟩ (by simp [matchesClassFunction]) (by decide)⟩

/-! ### The step check -/

/-- The step check yields BREAK_IMMEDIATE or nothing. -/
theorem stepCheck_values (st : DebugState) (stack : CallStack) :
    stepCheck st stack = ThreadStatus.STATUS_STOPPED_BREAK_IMMEDIATE ∨
      stepCheck st stack = ThreadStatus.STATUS_INVALID := by
  unfold stepCheck
  cases st.gStepType with
  | STEP_NONE => right; rfl
  | STEP_INTO => simp only; split <;> simp
  | STEP_OVER =>
    simp only
    split
    · split <;> simp
    · simp
  | STEP_OUT =>
    simp only
    split
    · split <;> simp
    · simp

/-- The breakpoint check yields STOPPED_BREAKPOINT or nothing. -/
theorem breakpointCheck_status (breakpoints : Breakpoints) (stack : CallStack)
    (r : ThreadStatus × Int) (h : breakpointCheck breakpoints stack = some r) :
    r.1 = ThreadStatus.STATUS_INVALID ∨ r.1 = ThreadStatus.STATUS_STOPPED_BREAKPOINT := by
  unfold breakpointCheck at h
  split at h
  · cases h; left; rfl
  · split at h
    · cases h
    · split at h
      · cases h; right; rfl
      · cases h; left; rfl

/-- Claim C28: when the step mode is INTO, the step check of a probe yields
BREAK_IMMEDIATE iff the step target thread is -1 or the probing thread's number,
and nothing otherwise; the result is the same for every frame sequence of the
thread and every breakpoint snapshot, and when the check fires the probe's
result is BREAK_IMMEDIATE with breakpoint id -1 whatever the snapshot holds. -/
theorem step_into_check (st : DebugState) (stack : CallStack)
    (hmode : st.gStepType = StepType.STEP_INTO) :
    (stepCheck st stack = ThreadStatus.STATUS_STOPPED_BREAK_IMMEDIATE ↔
      (st.gStepThread = -1 ∨ st.gStepThread = stack.mThreadNumber)) ∧
    (stepCheck st stack ≠ ThreadStatus.STATUS_STOPPED_BREAK_IMMEDIATE →
      stepCheck st stack = ThreadStatus.STATUS_INVALID) ∧
    (∀ (frames : List StackFrame) (breakpoints : Breakpoints),
      stepCheck { st with gBreakpoints := breakpoints } { stack with mStackFrames := frames } =
        stepCheck st stack) ∧
    ((st.gStepThread = -1 ∨ st.gStepThread = stack.mThreadNumber) →
      ∀ (frames : List StackFrame) (breakpoints : Breakpoints),
        probeResult { st with gBreakpoints := breakpoints }
            { stack with mStackFrames := frames } =
          some (ThreadStatus.STATUS_STOPPED_BREAK_IMMEDIATE, -1)) := by
  refine ⟨?_, ?_, ?_, ?_⟩
  · by_cases h : st.gStepThread = -1 ∨ st.gStepThread = stack.mThreadNumber <;>
      simp [stepCheck, hmode, h]
  · intro h
    rcases stepCheck_values st stack with h1 | h1
    · exact absurd h1 h
    · exact h1
  · intro frames breakpoints
    simp [stepCheck, hmode]
  · intro h frames breakpoints
    simp [probeResult, stepCheck, hmode, h]

/-- Claim C28 at `exampleStepInto`: thread 1 is the step target. -/
theorem step_into_check_witness :
    exampleStepInto.gStepType = StepType.STEP_INTO ∧
    (stepCheck exampleStepInto exampleRunningStack =
        ThreadStatus.STATUS_STOPPED_BREAK_IMMEDIATE ↔
      (exampleStepInto.gStepThread = -1 ∨
        exampleStepInto.gStepThread = exampleRunningStack.mThreadNumber)) ∧
    stepCheck exampleStepInto exampleRunningStack =
      ThreadStatus.STATUS_STOPPED_BREAK_IMMEDIATE ∧
    stepCheck exampleStepInto { exampleRunningStack with mThreadNumber := 2 } =
      ThreadStatus.STATUS_INVALID :=
  ⟨rfl, (step_into_check exampleStepInto exampleRunningStack rfl).1, rfl, rfl⟩

/-- Claim C29, counterexample: a step OVER of thread 2 issued at depth 5 is in
force; thread 1 probes at depth 0, which is at most 5, and its step check yields
nothing. -/
theorem step_over_check_skips_other_thread :
    exampleStepOverOther.gStepType = StepType.STEP_OVER ∧
    exampleStepOverOther.gStepLevel = 5 ∧
    exampleRunningStack.mThreadNumber = 1 ∧
    exampleRunningStack.GetDepth = 0 ∧
    stepCheck exampleStepOverOther exampleRunningStack = ThreadStatus.STATUS_INVALID := by
  refine ⟨rfl, rfl, rfl, rfl, rfl⟩

/-- Claim C29, amended: when the step mode is OVER, the step check of a probing
thread yields BREAK_IMMEDIATE iff the step target thread is -1 or that thread
and the thread's depth is at most the captured target depth. -/
theorem step_over_check (st : DebugState) (stack : CallStack)
    (hmode : st.gStepType = StepType.STEP_OVER) :
    stepCheck st stack = ThreadStatus.STATUS_STOPPED_BREAK_IMMEDIATE ↔
      ((st.gStepThread = -1 ∨ st.gStepThread = stack.mThreadNumber) ∧
        stack.GetDepth ≤ st.gStepLevel) := by
  by_cases h : st.gStepThread = -1 ∨ st.gStepThread = stack.mThreadNumber <;>
    by_cases hd : stack.GetDepth ≤ st.gStepLevel <;>
    simp [stepCheck, hmode, h, hd]

/-- Claim C29, amended, at a step OVER of thread 1 issued at depth 5. -/
theorem step_over_check_witness :
    stepCheck { exampleStepOverOther with gStepThread := 1 } exampleRunningStack =
      ThreadStatus.STATUS_STOPPED_BREAK_IMMEDIATE :=
  (step_over_check { exampleStepOverOther with gStepThread := 1 } exampleRunningStack rfl).mpr
    ⟨Or.inr rfl, by decide⟩

/-- Claim C30: when the step mode is OUT, the step check yields BREAK_IMMEDIATE
for a target thread iff its depth is strictly less than the target depth; and
after `StepThread(t, STEP_OUT, n)` issued while `t` has a single frame the
target depth is 0, so that in every later state with the same step globals no
probe by `t` with a non-empty frame sequence yields BREAK_IMMEDIATE, neither
from the step check nor as the result of the probe. -/
theorem step_out_check (st : DebugState) (threadNumber : Int) (p : Nat)
    (stack : CallStack) (pre post : List Nat) (stepCount : Int) (frame : StackFrame)
    (hlist : st.gList = pre ++ p :: post)
    (hpre : ∀ q ∈ pre, ∃ other, st.callStacks.lookup q = some other ∧
      other.mThreadNumber ≠ threadNumber)
    (hheap : st.callStacks.lookup p = some stack)
    (hnum : stack.mThreadNumber = threadNumber)
    (hframes : stack.mStackFrames = [frame]) :
    (∀ (st2 : DebugState) (stack2 : CallStack), st2.gStepType = StepType.STEP_OUT →
      (st2.gStepThread = -1 ∨ st2.gStepThread = stack2.mThreadNumber) →
      (stepCheck st2 stack2 = ThreadStatus.STATUS_STOPPED_BREAK_IMMEDIATE ↔
        stack2.GetDepth < st2.gStepLevel)) ∧
    ∃ st1, Breakpoints.StepThread st threadNumber StepType.STEP_OUT stepCount = some st1 ∧
      st1.gStepType = StepType.STEP_OUT ∧ st1.gStepThread = threadNumber ∧
      st1.gStepLevel = 0 ∧
      ∀ (st2 : DebugState) (stack2 : CallStack),
        st2.gStepType = st1.gStepType → st2.gStepThread = st1.gStepThread →
        st2.gStepLevel = st1.gStepLevel → stack2.mThreadNumber = threadNumber →
        stack2.mStackFrames ≠ [] →
        stepCheck st2 stack2 = ThreadStatus.STATUS_INVALID ∧
        ∀ r, probeResult st2 stack2 = some r →
          r.1 ≠ ThreadStatus.STATUS_STOPPED_BREAK_IMMEDIATE := by
  have hout : ∀ (st2 : DebugState) (stack2 : CallStack), st2.gStepType = StepType.STEP_OUT →
      (st2.gStepThread = -1 ∨ st2.gStepThread = stack2.mThreadNumber) →
      (stepCheck st2 stack2 = ThreadStatus.STATUS_STOPPED_BREAK_IMMEDIATE ↔
        stack2.GetDepth < st2.gStepLevel) := by
    intro st2 stack2 hmode ht
    by_cases hd : stack2.GetDepth < st2.gStepLevel <;> simp [stepCheck, hmode, ht, hd]
  refine ⟨hout, ?_⟩
  have hloop := stepOneThreadLoop_found threadNumber st.callStacks st.gStepLevel p stack post
    hheap hnum pre hpre
  have hlevel : (stack.mStackFrames.length : Int) - 1 = 0 := by rw [hframes]; rfl
  refine ⟨{ st with gStepThread := threadNumber
                    gStepType := StepType.STEP_OUT
                    gStepCount := stepCount
                    callStacks := storeStack st.callStacks p (stack.Continue 1)
                    gStepLevel := 0 }, ?_, rfl, rfl, rfl, ?_⟩
  · simp only [Breakpoints.StepThread, CallStack.StepOneThread, hlist, hloop, hlevel]
  · intro st2 stack2 htype hthread hlevel2 hnum2 hne
    simp only at htype hthread hlevel2
    have hdepth : ¬ stack2.GetDepth < st2.gStepLevel := by
      have hpos : 0 < stack2.mStackFrames.length := List.length_pos.mpr hne
      rw [hlevel2]
      unfold CallStack.GetDepth
      omega
    have hnot : stepCheck st2 stack2 ≠ ThreadStatus.STATUS_STOPPED_BREAK_IMMEDIATE :=
      fun h => hdepth ((hout st2 stack2 htype (Or.inr (by rw [hthread, hnum2]))).mp h)
    have hinv : stepCheck st2 stack2 = ThreadStatus.STATUS_INVALID := by
      rcases stepCheck_values st2 stack2 with h | h
      · exact absurd h hnot
      · exact h
    refine ⟨hinv, ?_⟩
    intro r hr
    simp only [probeResult, hinv, if_true] at hr
    rcases breakpointCheck_status st2.gBreakpoints stack2 r hr with h | h <;>
      rw [h] <;> decide

/-- Claim C30 at `exampleStopped`: thread 1 has one frame when the step OUT is
issued. -/
theorem step_out_check_witness :
    ∃ st1, Breakpoints.StepThread exampleStopped 1 StepType.STEP_OUT 1 = some st1 ∧
      st1.gStepType = StepType.STEP_OUT ∧ st1.gStepThread = 1 ∧ st1.gStepLevel = 0 ∧
      stepCheck st1 exampleRunningStack = ThreadStatus.STATUS_INVALID :=
  (step_out_check exampleStopped 1 500 exampleStack [] [] 1 exampleFrame rfl (by simp) rfl rfl
    rfl).2.imp
    (fun st1 h => ⟨h.1, h.2.1, h.2.2.1, h.2.2.2.1,
      (h.2.2.2.2 st1 exampleRunningStack rfl rfl rfl rfl (by simp [exampleRunningStack,
        exampleStack])).1⟩)

/-! ### Step counts -/

/-- A probe whose step check fires while the residual step count is above 1
decrements the count and returns. -/
theorem HandleBreakpoints_countdown (st : DebugState) (p : Nat) (stack : CallStack)
    (hheap : st.callStacks.lookup p = some stack)
    (hcheck : stepCheck st stack = ThreadStatus.STATUS_STOPPED_BREAK_IMMEDIATE)
    (hdbg : isDebugThread st stack.mThreadNumber = false)
    (hcan : stack.mCanStop = true) (hcount : 1 < st.gStepCount)
    (hphase : stack.phase = BreakPhase.running) :
    Breakpoints.HandleBreakpoints st p = some { st with gStepCount := st.gStepCount - 1 } := by
  have henter : Breakpoints.HandleBreakpointsEnter st p =
      some { st with gStepCount := st.gStepCount - 1 } := by
    simp [Breakpoints.HandleBreakpointsEnter, hheap, probeResult, hcheck, hdbg, hcan, hcount]
  simp [Breakpoints.HandleBreakpoints, henter, runDoBreakAt, hheap, hphase]

/-- While the residual step count allows, `k` probes in a row by a step target
that may stop only lower the count by `k`. -/
theorem probes_countdown (p : Nat) (stack : CallStack) (k : Nat) :
    ∀ st : DebugState, st.callStacks.lookup p = some stack →
      stepCheck st stack = ThreadStatus.STATUS_STOPPED_BREAK_IMMEDIATE →
      (∀ c, stepCheck { st with gStepCount := c } stack = stepCheck st stack) →
      isDebugThread st stack.mThreadNumber = false →
      stack.mCanStop = true → stack.phase = BreakPhase.running →
      (k : Int) + 1 ≤ st.gStepCount →
      probes p k st = some { st with gStepCount := st.gStepCount - k } := by
  induction k with
  | zero => intro st _ _ _ _ _ _ _; simp [probes]
  | succ n ih =>
    intro st hheap hcheck hindep hdbg hcan hphase hcount
    have hgt : 1 < st.gStepCount := by push_cast at hcount; omega
    have hone := HandleBreakpoints_countdown st p stack hheap hcheck hdbg hcan hgt hphase
    have hnext := ih { st with gStepCount := st.gStepCount - 1 } hheap
      ((hindep _).trans hcheck) (fun c => hindep c) hdbg hcan hphase
      (by show (n : Int) + 1 ≤ st.gStepCount - 1; push_cast at hcount; omega)
    simp only [probes, hone, hnext]
    congr 2
    push_cast
    ring

/-- Claim C21: after `StepThread(t, STEP_INTO, N)` the step mode is INTO, the
target is `t` and the residual step count is `N`.  In every later state with
these step globals in which `t` is not the debugger thread, may stop and runs
with a frame (an event handler being installed): after `k` probes by `t`, for
every `k` with `k + 1 <= N`, the thread has not stopped and the residual count
is `N - k`, each probe having lowered it by one; and the probe after the first
`max(N - 1, 0)` ones, which for `N <= 1` is the first probe, stops `t` with
status STATUS_STOPPED_BREAK_IMMEDIATE. -/
theorem step_into_count (st : DebugState) (threadNumber : Int) (p : Nat)
    (stack : CallStack) (pre post : List Nat) (stepCount : Int)
    (hlist : st.gList = pre ++ p :: post)
    (hpre : ∀ q ∈ pre, ∃ other, st.callStacks.lookup q = some other ∧
      other.mThreadNumber ≠ threadNumber)
    (hheap : st.callStacks.lookup p = some stack)
    (hnum : stack.mThreadNumber = threadNumber) :
    ∃ st1, Breakpoints.StepThread st threadNumber StepType.STEP_INTO stepCount = some st1 ∧
      st1.gStepType = StepType.STEP_INTO ∧ st1.gStepThread = threadNumber ∧
      st1.gStepCount = stepCount ∧
      st1.callStacks.lookup p = some (stack.Continue 1) ∧
      ∀ (st2 : DebugState) (stack2 : CallStack),
        st2.gStepType = st1.gStepType → st2.gStepThread = st1.gStepThread →
        st2.gStepCount = st1.gStepCount →
        st2.callStacks.lookup p = some stack2 → stack2.mThreadNumber = threadNumber →
        isDebugThread st2 threadNumber = false → stack2.mCanStop = true →
        stack2.phase = BreakPhase.running → st2.handlerInstalled = true →
        stack2.mStackFrames ≠ [] →
        (∀ k : Nat, (k : Int) + 1 ≤ stepCount →
          probes p k st2 = some { st2 with gStepCount := stepCount - k }) ∧
        ∃ st3 stack3, probes p ((stepCount - 1).toNat + 1) st2 = some st3 ∧
          st3.callStacks.lookup p = some stack3 ∧
          stack3.mStatus = ThreadStatus.STATUS_STOPPED_BREAK_IMMEDIATE ∧
          stack3.mWaiting = true ∧ stack3.phase = BreakPhase.blocked := by
  have hloop := stepOneThreadLoop_found threadNumber st.callStacks st.gStepLevel p stack post
    hheap hnum pre hpre
  refine ⟨{ st with gStepThread := threadNumber
                    gStepType := StepType.STEP_INTO
                    gStepCount := stepCount
                    callStacks := storeStack st.callStacks p (stack.Continue 1)
                    gStepLevel := (stack.mStackFrames.length : Int) - 1 }, ?_, rfl, rfl, rfl,
    ?_, ?_⟩
  · simp only [Breakpoints.StepThread, CallStack.StepOneThread, hlist, hloop]
  · exact lookup_storeStack_same p _ st.callStacks stack hheap
  · intro st2 stack2 htype hthread hcount hheap2 hnum2 hdbg hcan hphase hhandler hframes
    simp only at htype hthread hcount
    have hfires : ∀ s : DebugState, s.gStepType = StepType.STEP_INTO →
        s.gStepThread = threadNumber →
        stepCheck s stack2 = ThreadStatus.STATUS_STOPPED_BREAK_IMMEDIATE := by
      intro s h1 h2
      simp [stepCheck, h1, h2, hnum2]
    have hdbg2 : isDebugThread st2 stack2.mThreadNumber = false := by rw [hnum2]; exact hdbg
    have hpass : ∀ k : Nat, (k : Int) + 1 ≤ stepCount →
        probes p k st2 = some { st2 with gStepCount := stepCount - k } := by
      intro k hk
      have h := probes_countdown p stack2 k st2 hheap2 (hfires st2 htype hthread)
        (fun c => (hfires _ htype hthread).trans (hfires st2 htype hthread).symm) hdbg2 hcan
        hphase (by rw [hcount]; exact hk)
      rw [hcount] at h
      exact h
    refine ⟨hpass, ?_⟩
    obtain ⟨last, hlast⟩ : ∃ last : DebugState,
        last = { st2 with gStepCount := stepCount - ((stepCount - 1).toNat : Nat) } := ⟨_, rfl⟩
    have hbefore : probes p (stepCount - 1).toNat st2 = some last := by
      by_cases hn : 1 ≤ stepCount
      · rw [hlast]
        exact hpass (stepCount - 1).toNat (by omega)
      · have hz : (stepCount - 1).toNat = 0 := by omega
        rw [hlast, hz]
        simp only [probes, Nat.cast_zero, sub_zero]
        rw [← hcount]
    have hlastcount : last.gStepCount ≤ 1 := by
      rw [hlast]
      show stepCount - ((stepCount - 1).toNat : Nat) ≤ 1
      omega
    have hlastheap : last.callStacks.lookup p = some stack2 := by rw [hlast]; exact hheap2
    obtain ⟨st3, stack3, h1, h2, h3, _, h5, _, h7⟩ :=
      HandleBreakpoints_immediate last p stack2 hlastheap
        (hfires last (by rw [hlast]; exact htype) (by rw [hlast]; exact hthread))
        (by rw [hlast]; exact hdbg2) hcan hlastcount (by rw [hlast]; exact hhandler) hframes
    refine ⟨st3, stack3, ?_, h2, h3, h5, h7⟩
    have happend : ∀ (n : Nat) (a b : DebugState), probes p n a = some b →
        probes p (n + 1) a = Breakpoints.HandleBreakpoints b p := by
      intro n
      induction n with
      | zero =>
        intro a b h
        simp only [probes] at h
        cases h
        simp only [probes]
        cases Breakpoints.HandleBreakpoints a p <;> rfl
      | succ m ih =>
        intro a b h
        simp only [probes] at h
        cases hstep : Breakpoints.HandleBreakpoints a p with
        | none => rw [hstep] at h; cases h
        | some a1 =>
          rw [hstep] at h
          have := ih a1 b h
          show (match Breakpoints.HandleBreakpoints a p with
            | none => none
            | some st1 => probes p (m + 1) st1) = _
          rw [hstep]
          exact this
    rw [happend _ st2 last hbefore]
    exact h1

/-- Claim C21 at `exampleStopped`: thread 1 is stepped INTO with count 3 and
wakes; its first two probes lower the count to 1 and the third stops it. -/
theorem step_into_count_witness :
    (((Breakpoints.StepThread exampleStopped 1 StepType.STEP_INTO 3).bind
        (fun st1 => workerStep st1 500)).bind (fun st2 => probes 500 2 st2)).map
        (fun st => (st.gStepCount,
          (st.callStacks.lookup 500).map (fun stack => (stack.mStatus, stack.mWaiting))))
      = some (1, some (ThreadStatus.STATUS_RUNNING, false)) ∧
    (((Breakpoints.StepThread exampleStopped 1 StepType.STEP_INTO 3).bind
        (fun st1 => workerStep st1 500)).bind (fun st2 => probes 500 3 st2)).map
        (fun st => (st.callStacks.lookup 500).map (fun stack => (stack.mStatus, stack.mWaiting)))
      = some (some (ThreadStatus.STATUS_STOPPED_BREAK_IMMEDIATE, true)) ∧
    ∃ st1, Breakpoints.StepThread exampleStopped 1 StepType.STEP_INTO 3 = some st1 ∧
      st1.gStepType = StepType.STEP_INTO ∧ st1.gStepThread = 1 ∧ st1.gStepCount = 3 :=
  ⟨rfl, rfl,
    (step_into_count exampleStopped 1 500 exampleStack [] [] 3 rfl (by simp) rfl rfl).imp
      (fun _ h => ⟨h.1, h.2.1, h.2.2.1, h.2.2.2.1⟩)⟩

/-! ### Checked throw -/

/-- The inner loop of `CanBeCaught` finds a catchable iff one accepts. -/
theorem catchablesCatch_iff (e : Dynamic) (catchables : List StackCatchable) :
    catchablesCatch e catchables = true ↔ ∃ c ∈ catchables, c.Catches e = true := by
  induction catchables with
  | nil => simp [catchablesCatch]
  | cons c rest ih =>
    by_cases hc : c.Catches e = true
    · simp [catchablesCatch, hc]
    · simp [catchablesCatch, hc, ih]

/-- The outer loop of `CanBeCaught` finds a frame iff one has an accepting
catchable. -/
theorem framesCatch_iff (e : Dynamic) (frames : List StackFrame) :
    framesCatch e frames = true ↔
      ∃ frame ∈ frames, ∃ c ∈ frame.catchables, c.Catches e = true := by
  induction frames with
  | nil => simp [framesCatch]
  | cons frame rest ih =>
    by_cases hc : catchablesCatch e frame.catchables = true
    · have := (catchablesCatch_iff e frame.catchables).mp hc
      simp only [framesCatch, hc, if_true, List.mem_cons, true_iff]
      obtain ⟨c, hcm, hce⟩ := this
      exact ⟨frame, Or.inl rfl, c, hcm, hce⟩
    · have hno : ¬ ∃ c ∈ frame.catchables, c.Catches e = true :=
        fun h => hc ((catchablesCatch_iff e frame.catchables).mpr h)
      have hstep : framesCatch e (frame :: rest) = framesCatch e rest := by
        simp [framesCatch, hc]
      rw [hstep, ih]
      constructor
      · rintro ⟨f, hf, h⟩
        exact ⟨f, List.mem_cons_of_mem _ hf, h⟩
      · rintro ⟨f, hf, h⟩
        rcases List.mem_cons.mp hf with hf | hf
        · subst hf; exact absurd h hno
        · exact ⟨f, hf, h⟩

/-- `CanBeCaught` holds iff some catchable of some frame of the stack accepts. -/
theorem CanBeCaught_iff (stack : CallStack) (e : Dynamic) :
    stack.CanBeCaught e = true ↔
      ∃ frame ∈ stack.mStackFrames, ∃ c ∈ frame.catchables, c.Catches e = true := by
  simp [CallStack.CanBeCaught, framesCatch_iff]

/-- Claim C24: with an event handler installed and a frame on the calling
thread's stack, `CheckedThrow(e)` (a) stops the thread with status
STATUS_STOPPED_CRITICAL_ERROR, breakpoint id -1 and description
"Uncatchable Throw", adding exactly one STOPPED event to the trace, when no
catchable of any frame of the stack accepts `e`, and (b) leaves the whole state
unchanged and goes on to the throw when some catchable of some frame accepts
`e`. -/
theorem checked_throw_stops_iff_uncatchable (st : DebugState) (p : Nat) (stack : CallStack)
    (e : Dynamic)
    (hhandler : st.handlerInstalled = true)
    (hheap : st.callStacks.lookup p = some stack)
    (hframes : stack.mStackFrames ≠ []) :
    ((∀ frame ∈ stack.mStackFrames, ∀ c ∈ frame.catchables, c.Catches e = false) →
      ∃ st1 stack1 event, __hxcpp_dbg_checkedThrow st p e = some st1 ∧
        st1.callStacks.lookup p = some stack1 ∧
        stack1.mStatus = ThreadStatus.STATUS_STOPPED_CRITICAL_ERROR ∧
        stack1.mBreakpoint = -1 ∧
        stack1.mCriticalErrorDescription = "Uncatchable Throw" ∧
        stack1.mWaiting = true ∧ stack1.phase = BreakPhase.blocked ∧
        st1.events = st.events ++ [event] ∧
        ∃ frame, stack.mStackFrames.getLast? = some frame ∧
          event = Event.stopped stack.mThreadNumber frame.className.chars
            frame.functionName.chars (frame.fileName.map CStr.chars) frame.lineNumber) ∧
    ((∃ frame ∈ stack.mStackFrames, ∃ c ∈ frame.catchables, c.Catches e = true) →
      __hxcpp_dbg_checkedThrow st p e = some st) := by
  constructor
  · intro hnone
    have hcannot : stack.CanBeCaught e = false := by
      cases h : stack.CanBeCaught e with
      | false => rfl
      | true =>
        obtain ⟨frame, hf, c, hc, hce⟩ := (CanBeCaught_iff stack e).mp h
        rw [hnone frame hf c hc] at hce
        cases hce
    obtain ⟨frame, hframe⟩ : ∃ frame, stack.mStackFrames.getLast? = some frame := by
      cases h : stack.mStackFrames.getLast? with
      | none => exact absurd (List.getLast?_eq_none_iff.mp h) hframes
      | some frame => exact ⟨frame, rfl⟩
    obtain ⟨final, hfinal⟩ : ∃ final : CallStack,
        final = (({ (stack.DoBreakRecord ThreadStatus.STATUS_STOPPED_CRITICAL_ERROR (-1)
          (some "Uncatchable Throw")) with phase := BreakPhase.notified } :
            CallStack).DoBreakSetWaiting) := ⟨_, rfl⟩
    have hdo : stack.DoBreak true ThreadStatus.STATUS_STOPPED_CRITICAL_ERROR (-1)
        (some "Uncatchable Throw") =
        some (final, [Event.stopped stack.mThreadNumber frame.className.chars
          frame.functionName.chars (frame.fileName.map CStr.chars) frame.lineNumber]) := by
      simp [CallStack.DoBreak, CallStack.DoBreakRecord, CallStack.DoBreakNotify, hframe,
        hfinal]
    refine ⟨{ st with callStacks := storeStack st.callStacks p final
                      events := st.events ++ [Event.stopped stack.mThreadNumber
                        frame.className.chars frame.functionName.chars
                        (frame.fileName.map CStr.chars) frame.lineNumber] }, final, _, ?_, ?_,
      ?_, ?_, ?_, ?_, ?_, rfl, frame, hframe, rfl⟩
    · simp only [__hxcpp_dbg_checkedThrow, hheap, hcannot, CriticalErrorHandler, hhandler,
        CallStack.BreakCriticalError, hdo, applyToStack]
      simp
    · exact lookup_storeStack_same p final st.callStacks stack hheap
    all_goals simp [hfinal, CallStack.DoBreakSetWaiting, CallStack.DoBreakRecord]
  · intro hsome
    have hcan : stack.CanBeCaught e = true := (CanBeCaught_iff stack e).mpr hsome
    simp [__hxcpp_dbg_checkedThrow, hheap, hcan]

/-- Claim C24 at thread 1 of `exampleRunning`, whose frame has no catchable, and
of `exampleRunningCatching`, whose outer frame catches everything. -/
theorem checked_throw_stops_iff_uncatchable_witness :
    (∃ st1 stack1 event,
      __hxcpp_dbg_checkedThrow exampleRunning 500 (Dynamic.string "boom") = some st1 ∧
        st1.callStacks.lookup 500 = some stack1 ∧
        stack1.mStatus = ThreadStatus.STATUS_STOPPED_CRITICAL_ERROR ∧
        stack1.mCriticalErrorDescription = "Uncatchable Throw" ∧
        st1.events = exampleRunning.events ++ [event]) ∧
    __hxcpp_dbg_checkedThrow exampleRunningCatching 500 (Dynamic.string "boom") =
      some exampleRunningCatching :=
  ⟨((checked_throw_stops_iff_uncatchable exampleRunning 500 exampleRunningStack
      (Dynamic.string "boom") rfl rfl (by simp [exampleRunningStack, exampleStack])).1
      (by simp [exampleRunningStack, exampleStack, exampleFrame])).imp
      (fun _ h => h.imp (fun _ h => h.imp
        (fun _ h => ⟨h.1, h.2.1, h.2.2.1, h.2.2.2.2.1, h.2.2.2.2.2.2.2.1⟩))),
    (checked_throw_stops_iff_uncatchable exampleRunningCatching 500
      { exampleRunningStack with
        mStackFrames := [{ exampleFrame with catchables := [exampleCatchAll] }, exampleFrame] }
      (Dynamic.string "boom") rfl rfl (by simp)).2
      ⟨{ exampleFrame with catchables := [exampleCatchAll] }, by simp, exampleCatchAll,
        by simp, rfl⟩⟩

/-! ### Frame strings -/

/-- The buffer holds the complete text when the text has at most 1023
characters. -/
theorem snprintf1024_short (text : String) (h : text.length ≤ 1023) :
    snprintf1024 text = text := by
  unfold snprintf1024
  have : text.data.take 1023 = text.data := List.take_of_length_le h
  rw [this]

/-- The buffer holds at most 1023 characters. -/
theorem snprintf1024_length (text : String) :
    (snprintf1024 text).length = min 1023 text.length := by
  show (text.data.take 1023).length = min 1023 text.data.length
  exact List.length_take 1023 text.data

/-- The last element of a list, as the result of dropping all but one. -/
theorem drop_length_pred {α : Type} (l : List α) (h : l ≠ []) :
    l.drop (l.length - 1) = [l.getLast h] := by
  have hsplit := List.dropLast_append_getLast h
  have hlen : l.dropLast.length = l.length - 1 := by simp
  have hdrop := List.drop_left l.dropLast [l.getLast h]
  rw [hsplit, hlen] at hdrop
  exact hdrop

/-- The string built for a frame is the text of the formatting rule cut to 1023
characters. -/
theorem frameString_eq (stackLine : Bool) (frame : StackFrame) :
    frameString stackLine frame = snprintf1024 (specFrameText stackLine frame) := by
  unfold frameString specFrameText
  cases frame.fileName with
  | none => rfl
  | some fileName =>
    simp only
    by_cases hq : fileName.chars.data.head? = some '?'
    · simp only [hq, if_true]
    · cases stackLine with
      | true => simp only [hq, if_false, if_true]
      | false =>
        have h0 : intToString 0 = "0" := by decide
        have hcat : ("::" ++ "0" : String) = "::0" := by decide
        simp only [hq, if_false, Bool.false_eq_true, h0, String.append_assoc, hcat]

/-- Claim C22, counterexample: for a frame without file name whose class name
has 1030 characters the rule gives a text of 1033 characters, while the string
produced by `GetCurrentCallStackAsStrings` and by `BeginCatch` has 1023
characters. -/
theorem long_frame_string_is_cut :
    exampleLongFrame.fileName = none ∧
    (specFrameText true exampleLongFrame).length = 1033 ∧
    (frameString true exampleLongFrame).length = 1023 ∧
    frameString true exampleLongFrame ≠ specFrameText true exampleLongFrame ∧
    (CallStack.GetCurrentCallStackAsStrings true
        { exampleRunningStack with mStackFrames := [exampleLongFrame] } [] false).map
        String.length = [1023] ∧
    ((CallStack.BeginCatch true
        { exampleRunningStack with mStackFrames := [exampleLongFrame] } true).mExceptionStack).map
        String.length = [1023] := by
  have hclass : exampleLongFrame.className.chars.length = 1030 := by
    show (List.replicate 1030 'C').length = 1030
    exact List.length_replicate 1030 'C'
  have htext : specFrameText true exampleLongFrame =
      exampleLongFrame.className.chars ++ "::" ++ exampleLongFrame.functionName.chars := rfl
  have h1 : (specFrameText true exampleLongFrame).length = 1033 := by
    rw [htext, String.length_append, String.length_append, hclass]
    rfl
  have h2 : (frameString true exampleLongFrame).length = 1023 := by
    rw [frameString_eq, snprintf1024_length, h1]
    rfl
  refine ⟨rfl, h1, h2, ?_, ?_, ?_⟩
  · intro h
    rw [h, h1] at h2
    omega
  · have hlist : CallStack.GetCurrentCallStackAsStrings true
        { exampleRunningStack with mStackFrames := [exampleLongFrame] } [] false =
        [frameString true exampleLongFrame] := rfl
    rw [hlist, List.map_singleton, h2]
  · have hlist : (CallStack.BeginCatch true
        { exampleRunningStack with mStackFrames := [exampleLongFrame] } true).mExceptionStack =
        [frameString true exampleLongFrame] := rfl
    rw [hlist, List.map_singleton, h2]

/-- Claim C22, amended: the string produced for a frame by
`GetCurrentCallStackAsStrings` and by `BeginCatch` is the first 1023 characters
of `class::function` when the frame's file name is absent or starts with `?`,
and of `class::function::file::line` otherwise (the line being the frame's
current line number when line tracking is enabled and 0 when it is not); it is
that text itself whenever the text has at most 1023 characters.
`GetCurrentCallStackAsStrings` appends these strings for the frames in order,
without the innermost when `skipLast` is set, and `BeginCatch` appends them to
the exception stack for every frame or for the innermost only. -/
theorem frame_string_format (stackLine : Bool) (stack : CallStack) (result : List String)
    (frame : StackFrame) (hshort : (specFrameText stackLine frame).length ≤ 1023) :
    frameString stackLine frame = specFrameText stackLine frame ∧
    (∀ other : StackFrame, frameString stackLine other =
      String.mk ((specFrameText stackLine other).data.take 1023)) ∧
    (∀ skipLast : Bool,
      CallStack.GetCurrentCallStackAsStrings stackLine stack result skipLast =
        result ++ (if skipLast then stack.mStackFrames.dropLast else stack.mStackFrames).map
          (frameString stackLine)) ∧
    (∀ inAll : Bool,
      (stack.BeginCatch stackLine inAll).mExceptionStack =
        stack.mExceptionStack ++
          (if inAll then stack.mStackFrames else stack.mStackFrames.getLast?.toList).map
            (frameString stackLine)) := by
  refine ⟨?_, ?_, ?_, ?_⟩
  · rw [frameString_eq, snprintf1024_short _ hshort]
  · intro other
    rw [frameString_eq]
    rfl
  · intro skipLast
    cases skipLast with
    | false => simp [CallStack.GetCurrentCallStackAsStrings]
    | true =>
      have : ((stack.mStackFrames.length : Int) - 1).toNat = stack.mStackFrames.length - 1 := by
        omega
      simp [CallStack.GetCurrentCallStackAsStrings, this, List.dropLast_eq_take]
  · intro inAll
    unfold CallStack.BeginCatch
    cases hframes : stack.mStackFrames with
    | nil => cases inAll <;> simp
    | cons first rest =>
      cases inAll with
      | true => simp
      | false =>
        have hne : first :: rest ≠ [] := by simp
        have hdrop : (first :: rest).drop ((first :: rest).length - 1) =
            [(first :: rest).getLast hne] := drop_length_pred _ hne
        have hlast : (first :: rest).getLast? = some ((first :: rest).getLast hne) :=
          List.getLast?_eq_getLast _ hne
        simp only [List.length_cons, Nat.add_one_ne_zero, if_false, Bool.false_eq_true]
        simp only [List.length_cons] at hdrop
        rw [hdrop, hlast]
        rfl

/-- Claim C22, amended, at `exampleFrame`, whose string is `X::m::A.hx::12` with
line tracking and `X::m::A.hx::0` without. -/
theorem frame_string_format_witness :
    frameString true exampleFrame = "X::m::A.hx::12" ∧
    frameString false exampleFrame = "X::m::A.hx::0" ∧
    frameString true { exampleFrame with fileName := some ⟨106, "?"⟩ } = "X::m" :=
  ⟨(frame_string_format true exampleRunningStack [] exampleFrame (by decide)).1.trans
      (by decide),
    (frame_string_format false exampleRunningStack [] exampleFrame (by decide)).1.trans
      (by decide),
    (frame_string_format true exampleRunningStack []
      { exampleFrame with fileName := some ⟨106, "?"⟩ } (by decide)).1.trans (by decide)⟩

/-! ### Waiting for all threads to stop -/

/-- The map after `gMap[threadNumber]`: the old entries, and a null entry for
the indexed key when it was absent. -/
theorem mapIndex_lookup (gMap : List (Int × Option Nat)) (threadNumber k : Int) :
    (mapIndex gMap threadNumber).2.lookup k =
      match gMap.lookup k with
      | some v => some v
      | none => if k = threadNumber then some none else none := by
  unfold mapIndex
  cases ht : gMap.lookup threadNumber with
  | some v =>
    simp only
    cases hk : gMap.lookup k with
    | some w => rfl
    | none =>
      have hne : ¬ k = threadNumber := by
        rintro rfl
        rw [ht] at hk
        cases hk
      simp [hne]
  | none =>
    simp only [List.lookup_append]
    cases hk : gMap.lookup k with
    | some w => rfl
    | none =>
      by_cases hkt : k = threadNumber
      · subst hkt
        simp [List.lookup]
      · have hb : (k == threadNumber) = false := by simpa using hkt
        simp [List.lookup, hb, hkt]

/-- The value read by `gMap[threadNumber]`. -/
theorem mapIndex_value (gMap : List (Int × Option Nat)) (threadNumber : Int) :
    (mapIndex gMap threadNumber).1 =
      match gMap.lookup threadNumber with
      | some v => v
      | none => none := by
  unfold mapIndex
  cases gMap.lookup threadNumber <;> rfl

/-- A non-null pointer found after `gMap[threadNumber]` was there before. -/
theorem mapIndex_lookup_some (gMap : List (Int × Option Nat)) (threadNumber k : Int) (p : Nat)
    (h : (mapIndex gMap threadNumber).2.lookup k = some (some p)) :
    gMap.lookup k = some (some p) := by
  rw [mapIndex_lookup] at h
  cases hk : gMap.lookup k with
  | some v => rw [hk] at h; exact h
  | none =>
    rw [hk] at h
    simp only at h
    split at h <;> cases h

/-- The map access of `WaitForAllThreadsToStop` keeps the pointers of the map
live. -/
theorem MapLive_mapIndex (st : DebugState) (threadNumber : Int) (h : MapLive st) :
    MapLive { st with gMap := (mapIndex st.gMap threadNumber).2 } := by
  intro t p hp
  exact h t p (mapIndex_lookup_some st.gMap threadNumber t p hp)

/-- With live map pointers one poll of a thread succeeds. -/
theorem pollThread_total (st : DebugState) (threadNumber : Int) (h : MapLive st) :
    ∃ moveOn, pollThread st threadNumber =
      some (moveOn, { st with gMap := (mapIndex st.gMap threadNumber).2 }) := by
  unfold pollThread
  rw [mapIndex_value]
  cases ht : st.gMap.lookup threadNumber with
  | none => exact ⟨true, rfl⟩
  | some v =>
    cases v with
    | none => exact ⟨true, rfl⟩
    | some p =>
      obtain ⟨stack, hstack⟩ := h threadNumber p ht
      refine ⟨stack.mWaiting, ?_⟩
      simp only [hstack]

/-- A poll of a thread that is gone or waiting moves on. -/
theorem pollThread_done (st : DebugState) (threadNumber : Int)
    (h : goneOrWaiting st threadNumber) :
    pollThread st threadNumber =
      some (true, { st with gMap := (mapIndex st.gMap threadNumber).2 }) := by
  unfold pollThread
  rw [mapIndex_value]
  cases ht : st.gMap.lookup threadNumber with
  | none => rfl
  | some v =>
    cases v with
    | none => rfl
    | some p =>
      obtain ⟨stack, hstack, hw⟩ := h p ht
      simp only [hstack, hw]

/-- The iterations at one index succeed, and every time slice taken from the
budget is a sleep. -/
theorem waitForThread_total (env : Nat → DebugState → DebugState)
    (henv : ∀ k s, MapLive s → MapLive (env k s)) (threadNumber : Int)
    (timeSlicesLeft : Nat) :
    ∀ (slept : Nat) (st : DebugState), MapLive st →
      ∃ gaveUp left1 slept1 st1,
        waitForThread env threadNumber timeSlicesLeft slept st =
          some (gaveUp, left1, slept1, st1) ∧
        slept1 + left1 = slept + timeSlicesLeft ∧ MapLive st1 := by
  induction timeSlicesLeft with
  | zero =>
    intro slept st hlive
    obtain ⟨moveOn, hpoll⟩ := pollThread_total st threadNumber hlive
    cases moveOn with
    | true =>
      exact ⟨false, 0, slept, _, by simp [waitForThread, hpoll], rfl,
        MapLive_mapIndex st threadNumber hlive⟩
    | false =>
      exact ⟨true, 0, slept, _, by simp [waitForThread, hpoll], rfl,
        MapLive_mapIndex st threadNumber hlive⟩
  | succ k ih =>
    intro slept st hlive
    obtain ⟨moveOn, hpoll⟩ := pollThread_total st threadNumber hlive
    cases moveOn with
    | true =>
      exact ⟨false, k + 1, slept, _, by simp [waitForThread, hpoll], rfl,
        MapLive_mapIndex st threadNumber hlive⟩
    | false =>
      obtain ⟨gaveUp, left1, slept1, st1, hrun, hsum, hlive1⟩ :=
        ih (slept + 1) (env slept { st with gMap := (mapIndex st.gMap threadNumber).2 })
          (henv slept _ (MapLive_mapIndex st threadNumber hlive))
      refine ⟨gaveUp, left1, slept1, st1, ?_, by omega, hlive1⟩
      simp only [waitForThread, hpoll]
      exact hrun

/-- The second loop of `WaitForAllThreadsToStop` ends, having slept no more often
than the time slices it was given. -/
theorem waitLoop_total (env : Nat → DebugState → DebugState)
    (henv : ∀ k s, MapLive s → MapLive (env k s)) (threadNumbers : List Int) :
    ∀ (timeSlicesLeft slept : Nat) (st : DebugState), MapLive st →
      ∃ slept1 st1, waitLoop env threadNumbers timeSlicesLeft slept st = some (slept1, st1) ∧
        slept1 ≤ slept + timeSlicesLeft := by
  induction threadNumbers with
  | nil =>
    intro timeSlicesLeft slept st _
    exact ⟨slept, st, rfl, by omega⟩
  | cons threadNumber rest ih =>
    intro timeSlicesLeft slept st hlive
    obtain ⟨gaveUp, left1, slept1, st1, hrun, hsum, hlive1⟩ :=
      waitForThread_total env henv threadNumber timeSlicesLeft slept st hlive
    cases gaveUp with
    | true =>
      refine ⟨slept1, st1, ?_, by omega⟩
      simp only [waitLoop, hrun]
    | false =>
      obtain ⟨slept2, st2, hrest, hle⟩ := ih left1 slept1 st1 hlive1
      refine ⟨slept2, st2, ?_, by omega⟩
      simp only [waitLoop, hrun]
      exact hrest

/-- The first loop of `WaitForAllThreadsToStop` succeeds when every pointer of
`gList` is live, and copies only thread numbers of listed stacks that are not
the debugger's. -/
theorem collectThreadNumbers_total (st : DebugState) (l : List Nat)
    (h : ∀ p ∈ l, ∃ stack, st.callStacks.lookup p = some stack) :
    ∃ threadNumbers, collectThreadNumbers st l = some threadNumbers ∧
      ∀ t ∈ threadNumbers, ∃ p ∈ l, ∃ stack, st.callStacks.lookup p = some stack ∧
        stack.mThreadNumber = t ∧ isDebugThread st t = false := by
  induction l with
  | nil => exact ⟨[], rfl, by simp⟩
  | cons p rest ih =>
    obtain ⟨stack, hstack⟩ := h p (by simp)
    obtain ⟨numbers, hnumbers, hfrom⟩ := ih (fun q hq => h q (List.mem_cons_of_mem _ hq))
    by_cases hdbg : isDebugThread st stack.mThreadNumber = true
    · refine ⟨numbers, by simp [collectThreadNumbers, hstack, hnumbers, hdbg], ?_⟩
      intro t ht
      obtain ⟨q, hq, s, hs⟩ := hfrom t ht
      exact ⟨q, List.mem_cons_of_mem _ hq, s, hs⟩
    · have hdbg2 : isDebugThread st stack.mThreadNumber = false := by simpa using hdbg
      refine ⟨stack.mThreadNumber :: numbers,
        by simp [collectThreadNumbers, hstack, hnumbers, hdbg2], ?_⟩
      intro t ht
      rcases List.mem_cons.mp ht with rfl | ht
      · exact ⟨p, by simp, stack, hstack, rfl, hdbg2⟩
      · obtain ⟨q, hq, s, hs⟩ := hfrom t ht
        exact ⟨q, List.mem_cons_of_mem _ hq, s, hs⟩

/-- Over threads that are all gone or waiting the second loop ends without a
sleep and changes neither the stacks nor the list. -/
theorem waitLoop_no_sleep (env : Nat → DebugState → DebugState) (threadNumbers : List Int) :
    ∀ (timeSlicesLeft slept : Nat) (st : DebugState),
      (∀ t ∈ threadNumbers, goneOrWaiting st t) →
      ∃ st1, waitLoop env threadNumbers timeSlicesLeft slept st = some (slept, st1) ∧
        st1.callStacks = st.callStacks ∧ st1.gList = st.gList := by
  induction threadNumbers with
  | nil =>
    intro timeSlicesLeft slept st _
    exact ⟨st, rfl, rfl, rfl⟩
  | cons threadNumber rest ih =>
    intro timeSlicesLeft slept st hall
    have hpoll := pollThread_done st threadNumber (hall threadNumber (by simp))
    have hrun : waitForThread env threadNumber timeSlicesLeft slept st =
        some (false, timeSlicesLeft, slept,
          { st with gMap := (mapIndex st.gMap threadNumber).2 }) := by
      cases timeSlicesLeft <;> simp [waitForThread, hpoll]
    have hrest : ∀ t ∈ rest,
        goneOrWaiting { st with gMap := (mapIndex st.gMap threadNumber).2 } t := by
      intro t ht p hp
      exact hall t (List.mem_cons_of_mem _ ht) p
        (mapIndex_lookup_some st.gMap threadNumber t p hp)
    obtain ⟨st1, hloop, h1, h2⟩ := ih timeSlicesLeft slept _ hrest
    refine ⟨st1, ?_, h1, h2⟩
    simp only [waitLoop, hrun]
    exact hloop

/-- Claim C25: `WaitForAllThreadsToStop` returns for every directory whose
pointers are live and every behaviour of the other threads during its sleeps
that keeps the pointers of the map live (threads that never wait and threads
that are removed included), after at most 20 sleeps of 100 ms; and it returns
without any sleep, whatever the other threads would do, when every listed
thread other than the debugger is already waiting or gone from the map. -/
theorem wait_for_all_threads_terminates (env : Nat → DebugState → DebugState)
    (st : DebugState)
    (hlist : ∀ p ∈ st.gList, ∃ stack, st.callStacks.lookup p = some stack)
    (hmap : MapLive st) :
    ((∀ k s, MapLive s → MapLive (env k s)) →
      ∃ slept st1, CallStack.WaitForAllThreadsToStop env st = some (slept, st1) ∧
        slept ≤ 20) ∧
    ((∀ p ∈ st.gList, ∀ stack, st.callStacks.lookup p = some stack →
        isDebugThread st stack.mThreadNumber = false → goneOrWaiting st stack.mThreadNumber) →
      ∃ st1, CallStack.WaitForAllThreadsToStop env st = some (0, st1) ∧
        st1.callStacks = st.callStacks ∧ st1.gList = st.gList) := by
  obtain ⟨threadNumbers, hcollect, hfrom⟩ := collectThreadNumbers_total st st.gList hlist
  constructor
  · intro henv
    obtain ⟨slept, st1, hrun, hle⟩ := waitLoop_total env henv threadNumbers 20 0 st hmap
    refine ⟨slept, st1, ?_, by omega⟩
    simp only [CallStack.WaitForAllThreadsToStop, hcollect]
    exact hrun
  · intro hdone
    have hall : ∀ t ∈ threadNumbers, goneOrWaiting st t := by
      intro t ht
      obtain ⟨p, hp, stack, hstack, hnum, hdbg⟩ := hfrom t ht
      have := hdone p hp stack hstack (by rw [hnum]; exact hdbg)
      rw [hnum] at this
      exact this
    obtain ⟨st1, hrun, h1, h2⟩ := waitLoop_no_sleep env threadNumbers 20 0 st hall
    refine ⟨st1, ?_, h1, h2⟩
    simp only [CallStack.WaitForAllThreadsToStop, hcollect]
    exact hrun

/-- Claim C25 at `exampleRunning`, whose worker never stops: the wait ends after
20 sleeps; and at `exampleStopped`, whose worker is waiting: no sleep. -/
theorem wait_for_all_threads_terminates_witness :
    (CallStack.WaitForAllThreadsToStop exampleNeverStops exampleRunning).map Prod.fst =
      some 20 ∧
    (∃ slept st1, CallStack.WaitForAllThreadsToStop exampleNeverStops exampleRunning =
      some (slept, st1) ∧ slept ≤ 20) ∧
    ∃ st1, CallStack.WaitForAllThreadsToStop exampleNeverStops exampleStopped = some (0, st1) ∧
      st1.callStacks = exampleStopped.callStacks ∧ st1.gList = exampleStopped.gList :=
  ⟨rfl,
    (wait_for_all_threads_terminates exampleNeverStops exampleRunning
      (by
        intro p hp
        have : p = 500 := by simpa [exampleRunning, exampleStopped] using hp
        subst this
        exact ⟨_, rfl⟩)
      (by
        intro t p h
        have hmapeq : exampleRunning.gMap = [(1, some 500)] := rfl
        rw [hmapeq] at h
        by_cases ht : t = 1
        · subst ht
          have : p = 500 := by simpa [List.lookup] using h.symm
          subst this
          exact ⟨_, rfl⟩
        · have hb : (t == 1) = false := by simpa using ht
          simp [List.lookup, hb] at h)).1 (fun _ _ h => h),
    (wait_for_all_threads_terminates exampleNeverStops exampleStopped
      (by
        intro p hp
        have : p = 500 := by simpa [exampleStopped] using hp
        subst this
        exact ⟨_, rfl⟩)
      (by
        intro t p h
        have hmapeq : exampleStopped.gMap = [(1, some 500)] := rfl
        rw [hmapeq] at h
        by_cases ht : t = 1
        · subst ht
          have : p = 500 := by simpa [List.lookup] using h.symm
          subst this
          exact ⟨_, rfl⟩
        · have hb : (t == 1) = false := by simpa using ht
          simp [List.lookup, hb] at h)).2
      (by
        intro p hp stack hstack _ q hq
        have hp500 : p = 500 := by simpa [exampleStopped] using hp
        subst hp500
        have hs : stack = exampleStack := by
          have : exampleStopped.callStacks.lookup 500 = some exampleStack := rfl
          rw [this] at hstack
          exact (Option.some.inj hstack).symm
        subst hs
        have hq500 : q = 500 := by
          have : exampleStopped.gMap.lookup exampleStack.mThreadNumber = some (some 500) := rfl
          rw [this] at hq
          exact ((Option.some.inj (Option.some.inj hq))).symm
        subst hq500
        exact ⟨exampleStack, rfl, rfl⟩)⟩

/-! ### The profiler -/

/-- Claim C27, counterexample: a fresh profiler samples, at clock 5, the stack of
a thread that is in `X.f`, called from `Main.main`.  The entry of `Main.main`
gets self 5 and total 0; with a third frame on top the entry of `X.f` gets self
5 and total 0, while `Main.main`, which has a callee at a visited position, gets
total 5 and self 0. -/
theorem sample_leaves_total_below_self :
    ((Profiler.ctor "").Sample 5 exampleProfiledStack).mProfileStats.map
        (fun e => (e.1.chars, e.2.self, e.2.total)) = [("Main.main", 5, 0)] ∧
    ((Profiler.ctor "").Sample 5
        { exampleProfiledStack with
          mStackFrames := [exampleMainFrame, exampleCalleeFrame, exampleFrame] }).mProfileStats.map
        (fun e => (e.1.chars, e.2.self, e.2.total, e.2.children.map (fun c => (c.1.chars, c.2))))
      = [("Main.main", 0, 5, [("X.f", 5)]), ("X.f", 5, 0, [])] := by
  refine ⟨by decide, by decide⟩

/-- `std::sort` returns a permutation of its input. -/
theorem stdSort_perm {α : Type} (lt : α → α → Bool) (l : List α) :
    (stdSort lt l).Perm l :=
  List.perm_insertionSort _ l

/-- `std::sort` returns a sequence in which no element is less than an earlier
one, for an `operator<` whose negation is total and transitive. -/
theorem stdSort_sorted {α : Type} (lt : α → α → Bool)
    (htotal : ∀ a b, lt b a = false ∨ lt a b = false)
    (htrans : ∀ a b c, lt b a = false → lt c b = false → lt c a = false) (l : List α) :
    (stdSort lt l).Pairwise (fun a b => lt b a = false) := by
  haveI : IsTotal α (fun a b => lt b a = false) := ⟨htotal⟩
  haveI : IsTrans α (fun a b => lt b a = false) := ⟨fun a b c => htrans a b c⟩
  exact List.sorted_insertionSort (fun a b => lt b a = false) l

/-- The child rows after `std::sort`: non-increasing time. -/
theorem sorted_children (l : List ChildEntry) :
    (stdSort ChildEntry.lt l).Pairwise (fun a b => a.self ≥ b.self) := by
  have h := stdSort_sorted ChildEntry.lt
    (by intro a b; simp only [ChildEntry.lt, decide_eq_false_iff_not]; omega)
    (by intro a b c; simp only [ChildEntry.lt, decide_eq_false_iff_not]; omega) l
  refine h.imp ?_
  intro a b hab
  simp only [ChildEntry.lt, decide_eq_false_iff_not] at hab
  omega

/-- The entries after `std::sort`: non-increasing total, and non-decreasing self
among equal totals. -/
theorem sorted_results (l : List ResultsEntry) :
    (stdSort ResultsEntry.lt l).Pairwise
      (fun a b => a.total > b.total ∨ (a.total = b.total ∧ a.self ≤ b.self)) := by
  have hiff : ∀ a b : ResultsEntry, ResultsEntry.lt b a = false ↔
      (a.total > b.total ∨ (a.total = b.total ∧ a.self ≤ b.self)) := by
    intro a b
    simp only [ResultsEntry.lt, Bool.or_eq_false_iff, Bool.and_eq_false_iff,
      decide_eq_false_iff_not]
    omega
  have h := stdSort_sorted ResultsEntry.lt
    (by intro a b; rw [hiff a b, hiff b a]; omega)
    (by intro a b c; rw [hiff a b, hiff b c, hiff a c]; omega) l
  exact h.imp (fun {a b} hab => (hiff a b).mp hab)

/-- Claim C26, counterexample: for a profile whose only entry `X.f` has no child
the report consists of the line of the entry; the "(internal)" row is
synthesized in `results` but not listed. -/
theorem report_omits_lone_internal_row :
    ({ exampleProfile with
        mProfileStats := [(⟨301, "X.f"⟩, { self := 5, children := [], total := 5 })] } :
      Profiler).results.map (fun re => (re.fullName, re.children))
      = [("X.f", [{ fullName := "(internal)", self := 5 }])] ∧
    ({ exampleProfile with
        mProfileStats := [(⟨301, "X.f"⟩, { self := 5, children := [], total := 5 })] } :
      Profiler).DumpStats true = [ReportLine.entry "X.f" 5 5 5] := by
  refine ⟨by decide, by decide⟩

/-- Claim C26, amended: when the dump file can be opened or none is named, the
report lists the entries of `results` in order, each followed by its rows.
`results` is a permutation of the profile entries, in non-increasing order of
total and, among equal totals, non-decreasing order of self.  The rows built
for an entry are a permutation of its children plus one "(internal)" row whose
time is the entry's self, in non-increasing order of time; they are listed
under the entry when it has at least one child, and no row is listed under an
entry without children. -/
theorem profile_report_order (profiler : Profiler) (fileOpens : Bool)
    (hopen : profiler.mDumpFile.length = 0 ∨ fileOpens = true) :
    profiler.DumpStats fileOpens =
      (profiler.results.map (reportLines (selfTotal 0 profiler.mProfileStats))).flatten ∧
    profiler.results.Perm (profiler.mProfileStats.map resultsEntry) ∧
    profiler.results.Pairwise
      (fun a b => a.total > b.total ∨ (a.total = b.total ∧ a.self ≤ b.self)) ∧
    ∀ e ∈ profiler.mProfileStats,
      (resultsEntry e).fullName = e.1.chars ∧ (resultsEntry e).total = e.2.total ∧
      (resultsEntry e).self = e.2.self ∧
      (resultsEntry e).children.Perm
        (childEntries e.2.children ++ [{ fullName := "(internal)", self := e.2.self }]) ∧
      (resultsEntry e).children.Pairwise (fun a b => a.self ≥ b.self) ∧
      ∀ scaleTotal : Int,
        (e.2.children ≠ [] →
          reportLines scaleTotal (resultsEntry e) =
            ReportLine.entry e.1.chars e.2.total e.2.self scaleTotal ::
              (resultsEntry e).children.map
                (fun ce => ReportLine.child ce.fullName ce.self
                  (resultsEntry e).childrenPlusSelf)) ∧
        (e.2.children = [] →
          reportLines scaleTotal (resultsEntry e) =
            [ReportLine.entry e.1.chars e.2.total e.2.self scaleTotal]) := by
  refine ⟨?_, stdSort_perm _ _, sorted_results _, ?_⟩
  · unfold Profiler.DumpStats
    rcases hopen with h | h
    · simp [h]
    · simp [h]
  · intro e _
    have hperm : (resultsEntry e).children.Perm
        (childEntries e.2.children ++ [{ fullName := "(internal)", self := e.2.self }]) :=
      stdSort_perm _ _
    have hlen : (resultsEntry e).children.length = e.2.children.length + 1 := by
      rw [hperm.length_eq]
      simp [childEntries]
    refine ⟨rfl, rfl, rfl, hperm, sorted_children _, ?_⟩
    intro scaleTotal
    constructor
    · intro hne
      have hpos : 0 < e.2.children.length := List.length_pos.mpr hne
      have hnot : ¬ (resultsEntry e).children.length = 1 := by omega
      simp only [reportLines, hnot, if_false]
      rfl
    · intro hnil
      have hone : (resultsEntry e).children.length = 1 := by rw [hlen, hnil]; rfl
      simp only [reportLines, hone, if_true]
      rfl

/-- Claim C26, amended, at `exampleProfile`. -/
theorem profile_report_order_witness :
    exampleProfile.DumpStats false =
      [ReportLine.entry "Main.main" 6 1 6, ReportLine.child "X.f" 5 6,
       ReportLine.child "(internal)" 1 6, ReportLine.entry "X.f" 5 5 6] :=
  (profile_report_order exampleProfile false (Or.inl rfl)).1.trans (by decide)

/-! ### The thread directory -/

/-- Lookup in an association list from which one key was filtered out. -/
theorem lookup_filter_ne {κ α : Type} [DecidableEq κ] [BEq κ] [LawfulBEq κ] (k k1 : κ)
    (l : List (κ × α)) :
    (l.filter (fun e => e.1 != k)).lookup k1 = if k1 = k then none else l.lookup k1 := by
  induction l with
  | nil => simp
  | cons e rest ih =>
    obtain ⟨a, v⟩ := e
    by_cases hak : a = k
    · subst hak
      simp only [List.filter_cons, bne_self_eq_false, Bool.false_eq_true, if_false, ih]
      by_cases hk1 : k1 = a
      · simp [hk1]
      · have hb : (k1 == a) = false := by simpa using hk1
        simp [hk1, List.lookup, hb]
    · have hf : (a != k) = true := by simpa using hak
      simp only [List.filter_cons, hf, if_true]
      by_cases hk1 : k1 = a
      · subst hk1
        simp [List.lookup, hak]
      · have hb : (k1 == a) = false := by simpa using hk1
        simp only [List.lookup, hb, ih]

/-- Every live address is below the one `new` returns. -/
theorem lt_newAddress (heap : List (Nat × CallStack)) (p : Nat) (stack : CallStack)
    (h : heap.lookup p = some stack) : p < newAddress heap := by
  induction heap with
  | nil => simp at h
  | cons e rest ih =>
    obtain ⟨q, s⟩ := e
    by_cases hpq : p = q
    · subst hpq
      simp only [newAddress, List.map_cons, List.foldr_cons]
      omega
    · have hb : (p == q) = false := by simpa using hpq
      simp only [List.lookup, hb] at h
      have := ih h
      simp only [newAddress, List.map_cons, List.foldr_cons] at this ⊢
      omega

/-- No object lives at the address `new` returns. -/
theorem lookup_newAddress (heap : List (Nat × CallStack)) :
    heap.lookup (newAddress heap) = none := by
  cases h : heap.lookup (newAddress heap) with
  | none => rfl
  | some stack =>
    have := lt_newAddress heap _ stack h
    omega

/-- In a consistent directory a thread has a call stack iff `gMap` holds a
pointer for it. -/
theorem hasCallStack_iff (st : DebugState) (h : DirectoryConsistent st) (t : Int) :
    hasCallStack st t = true ↔ ∃ p, st.gMap.lookup t = some (some p) := by
  constructor
  · intro hhas
    unfold hasCallStack at hhas
    cases hm : st.gMap.lookup t with
    | none => rw [hm] at hhas; cases hhas
    | some v =>
      cases v with
      | none => rw [hm] at hhas; cases hhas
      | some p => exact ⟨p, rfl⟩
  · rintro ⟨p, hp⟩
    obtain ⟨hin, stack, hstack, hnum⟩ := h.2.1 t p hp
    simp [hasCallStack, hp, hin, hstack, hnum]

/-- In a consistent directory the threads with a stack in `gList` are those for
which `gMap` holds a pointer. -/
theorem listedThreads_iff (st : DebugState) (h : DirectoryConsistent st) (t : Int) :
    t ∈ listedThreads st ↔ ∃ p, st.gMap.lookup t = some (some p) := by
  unfold listedThreads
  rw [List.mem_filterMap]
  constructor
  · rintro ⟨p, hp, hmap⟩
    obtain ⟨stack, hstack, hback⟩ := h.2.2 p hp
    rw [hstack] at hmap
    simp only [Option.map_some', Option.some.injEq] at hmap
    rw [hmap] at hback
    exact ⟨p, hback⟩
  · rintro ⟨p, hp⟩
    obtain ⟨hin, stack, hstack, hnum⟩ := h.2.1 t p hp
    exact ⟨p, hin, by simp [hstack, hnum]⟩

/-- States with the same directory are consistent together and give the same
threads a call stack. -/
theorem SameDirectory_consistent (st st1 : DebugState) (hsame : SameDirectory st st1)
    (h : DirectoryConsistent st) :
    DirectoryConsistent st1 ∧ ∀ t p, st1.gMap.lookup t = some (some p) ↔
      st.gMap.lookup t = some (some p) := by
  obtain ⟨hmap, hlist, htls, _, hheap⟩ := hsame
  have hlive : ∀ q stack, st.callStacks.lookup q = some stack →
      ∃ stack1, st1.callStacks.lookup q = some stack1 ∧
        stack1.mThreadNumber = stack.mThreadNumber := by
    intro q stack hq
    have := hheap q
    rw [hq] at this
    cases h1 : st1.callStacks.lookup q with
    | none => rw [h1] at this; cases this
    | some stack1 =>
      rw [h1] at this
      simp only [Option.map_some', Option.some.injEq] at this
      exact ⟨stack1, rfl, this⟩
  refine ⟨⟨?_, ?_, ?_⟩, ?_⟩
  · intro t p
    rw [htls, hmap]
    exact h.1 t p
  · intro t p hp
    rw [hmap] at hp
    obtain ⟨hin, stack, hstack, hnum⟩ := h.2.1 t p hp
    obtain ⟨stack1, hs1, hn1⟩ := hlive p stack hstack
    exact ⟨by rw [hlist]; exact hin, stack1, hs1, hn1.trans hnum⟩
  · intro p hp
    rw [hlist] at hp
    obtain ⟨stack, hstack, hback⟩ := h.2.2 p hp
    obtain ⟨stack1, hs1, hn1⟩ := hlive p stack hstack
    exact ⟨stack1, hs1, by rw [hmap, hn1]; exact hback⟩
  · intro t p
    rw [hmap]

/-- Every state has the same directory as itself. -/
theorem SameDirectory_refl (st : DebugState) : SameDirectory st st :=
  ⟨rfl, rfl, rfl, rfl, fun _ => rfl⟩

/-- Having the same directory is transitive. -/
theorem SameDirectory_trans (a b c : DebugState) (hab : SameDirectory a b)
    (hbc : SameDirectory b c) : SameDirectory a c :=
  ⟨hbc.1.trans hab.1, hbc.2.1.trans hab.2.1, hbc.2.2.1.trans hab.2.2.1,
    hbc.2.2.2.1.trans hab.2.2.2.1, fun q => (hbc.2.2.2.2 q).trans (hab.2.2.2.2 q)⟩

/-- Replacing the stack at an address by one of the same thread keeps the
directory. -/
theorem SameDirectory_store (st : DebugState) (p : Nat) (stack stack1 : CallStack)
    (hheap : st.callStacks.lookup p = some stack)
    (hnum : stack1.mThreadNumber = stack.mThreadNumber) (heap1 : List (Nat × CallStack))
    (hheap1 : heap1 = storeStack st.callStacks p stack1) (st1 : DebugState)
    (h : st1.gMap = st.gMap ∧ st1.gList = st.gList ∧ st1.tls = st.tls ∧
      st1.handlerInstalled = st.handlerInstalled ∧ st1.callStacks = heap1) :
    SameDirectory st st1 := by
  refine ⟨h.1, h.2.1, h.2.2.1, h.2.2.2.1, ?_⟩
  intro q
  rw [h.2.2.2.2, hheap1, lookup_storeStack]
  by_cases hq : q = p
  · subst hq
    simp [hheap, hnum]
  · simp [hq]

/-- The stop phase of `DoBreak` keeps the thread number. -/
theorem DoBreak_threadNumber (handlerInstalled : Bool) (stack : CallStack)
    (status : ThreadStatus) (breakpoint : Int) (criticalErrorDescription : Option String)
    (r : CallStack × List Event)
    (h : stack.DoBreak handlerInstalled status breakpoint criticalErrorDescription = some r) :
    r.1.mThreadNumber = stack.mThreadNumber := by
  unfold CallStack.DoBreak CallStack.DoBreakNotify at h
  simp only [CallStack.DoBreakRecord] at h
  split at h
  · cases h
  · rename_i stack1 event heq
    cases h
    split at heq
    · cases heq
    · split at heq
      · cases heq
        rfl
      · cases heq

/-- A probe keeps the directory. -/
theorem HandleBreakpoints_directory (st st1 : DebugState) (p : Nat)
    (h : Breakpoints.HandleBreakpoints st p = some st1) : SameDirectory st st1 := by
  unfold Breakpoints.HandleBreakpoints at h
  cases henter : Breakpoints.HandleBreakpointsEnter st p with
  | none => rw [henter] at h; cases h
  | some mid =>
    rw [henter] at h
    simp only at h
    have hfirst : SameDirectory st mid := by
      unfold Breakpoints.HandleBreakpointsEnter at henter
      cases hheap : st.callStacks.lookup p with
      | none => rw [hheap] at henter; cases henter
      | some stack =>
        rw [hheap] at henter
        simp only at henter
        cases hres : probeResult st stack with
        | none => rw [hres] at henter; cases henter
        | some r =>
          obtain ⟨breakStatus, breakpointNumber⟩ := r
          rw [hres] at henter
          simp only at henter
          split at henter
          · cases henter; exact SameDirectory_refl st
          · split at henter
            · cases henter; exact SameDirectory_refl st
            · split at henter
              · cases henter; exact SameDirectory_refl st
              · split at henter
                · cases henter
                  exact ⟨rfl, rfl, rfl, rfl, fun _ => rfl⟩
                · cases henter
                  refine SameDirectory_store st p stack
                    (stack.BreakEnter breakStatus breakpointNumber) hheap ?_ _ rfl _
                    ⟨rfl, rfl, rfl, rfl, rfl⟩
                  unfold CallStack.BreakEnter
                  split
                  · rfl
                  · split <;> rfl
    have hsecond : SameDirectory mid st1 := by
      unfold runDoBreakAt at h
      cases hheap : mid.callStacks.lookup p with
      | none => rw [hheap] at h; cases h
      | some stack =>
        rw [hheap] at h
        simp only at h
        cases hphase : stack.phase with
        | entering status breakpoint criticalErrorDescription =>
          rw [hphase] at h
          simp only at h
          cases hdo : stack.DoBreak mid.handlerInstalled status breakpoint
              criticalErrorDescription with
          | none => rw [hdo] at h; cases h
          | some r =>
            rw [hdo] at h
            obtain ⟨stack1, newEvents⟩ := r
            simp only [applyToStack] at h
            cases h
            exact SameDirectory_store mid p stack stack1 hheap
              (DoBreak_threadNumber _ _ _ _ _ _ hdo) _ rfl _ ⟨rfl, rfl, rfl, rfl, rfl⟩
        | running => rw [hphase] at h; cases h; exact SameDirectory_refl _
        | recorded => rw [hphase] at h; cases h; exact SameDirectory_refl _
        | notified => rw [hphase] at h; cases h; exact SameDirectory_refl _
        | blocked => rw [hphase] at h; cases h; exact SameDirectory_refl _
    exact SameDirectory_trans st mid st1 hfirst hsecond

/-- `GetCallerCallStack` by a thread whose thread-local pointer is set. -/
theorem GetCallerCallStack_known (st : DebugState) (caller : Int) (p : Nat)
    (htls : st.tls.lookup caller = some p) :
    CallStack.GetCallerCallStack st caller = (p, st) := by
  simp [CallStack.GetCallerCallStack, htls]

/-- `GetCallerCallStack` by a thread whose thread-local pointer is null. -/
theorem GetCallerCallStack_new (st : DebugState) (caller : Int)
    (htls : st.tls.lookup caller = none) :
    CallStack.GetCallerCallStack st caller =
      (newAddress st.callStacks,
        { st with callStacks := (newAddress st.callStacks, CallStack.ctor caller) :: st.callStacks
                  gMap := mapAssign st.gMap caller (some (newAddress st.callStacks))
                  gList := st.gList ++ [newAddress st.callStacks]
                  tls := tlsAssign st.tls caller (some (newAddress st.callStacks)) }) := by
  simp [CallStack.GetCallerCallStack, htls]

/-- Lookup in `gMap` after `gMap[threadNumber] = stack`. -/
theorem mapAssign_lookup (gMap : List (Int × Option Nat)) (threadNumber t : Int)
    (stack : Option Nat) :
    (mapAssign gMap threadNumber stack).lookup t =
      if t = threadNumber then some stack else gMap.lookup t := by
  unfold mapAssign
  by_cases ht : t = threadNumber
  · subst ht
    simp [List.lookup]
  · have hb : (t == threadNumber) = false := by simpa using ht
    simp only [List.lookup, hb, lookup_filter_ne, if_neg ht]

/-- Lookup of a thread-local pointer after an assignment to one. -/
theorem tlsAssign_lookup (tls : List (Int × Nat)) (caller t : Int) (stack : Option Nat) :
    (tlsAssign tls caller stack).lookup t = if t = caller then stack else tls.lookup t := by
  cases stack with
  | none =>
    unfold tlsAssign
    rw [lookup_filter_ne]
  | some p =>
    unfold tlsAssign
    by_cases ht : t = caller
    · subst ht
      simp [List.lookup]
    · have hb : (t == caller) = false := by simpa using ht
      simp only [List.lookup, hb, lookup_filter_ne, if_neg ht]

/-- What `GetCallerCallStack` does to a consistent directory: it stays
consistent, the caller now has a call stack, which is the one returned, and
every other thread is as before. -/
theorem GetCallerCallStack_directory (st : DebugState) (caller : Int)
    (h : DirectoryConsistent st) :
    DirectoryConsistent (CallStack.GetCallerCallStack st caller).2 ∧
    (CallStack.GetCallerCallStack st caller).2.handlerInstalled = st.handlerInstalled ∧
    (∃ stack, (CallStack.GetCallerCallStack st caller).2.callStacks.lookup
        (CallStack.GetCallerCallStack st caller).1 = some stack ∧
      stack.mThreadNumber = caller) ∧
    (CallStack.GetCallerCallStack st caller).2.gMap.lookup caller =
      some (some (CallStack.GetCallerCallStack st caller).1) ∧
    ∀ t, t ≠ caller → ∀ p,
      ((CallStack.GetCallerCallStack st caller).2.gMap.lookup t = some (some p) ↔
        st.gMap.lookup t = some (some p)) := by
  cases htls : st.tls.lookup caller with
  | some p =>
    rw [GetCallerCallStack_known st caller p htls]
    have hmap := (h.1 caller p).mp htls
    obtain ⟨_, stack, hstack, hnum⟩ := h.2.1 caller p hmap
    exact ⟨h, rfl, ⟨stack, hstack, hnum⟩, hmap, fun _ _ _ => Iff.rfl⟩
  | none =>
    rw [GetCallerCallStack_new st caller htls]
    obtain ⟨fresh, hfreshdef⟩ : ∃ fresh, fresh = newAddress st.callStacks := ⟨_, rfl⟩
    rw [← hfreshdef]
    have hfresh : st.callStacks.lookup fresh = none := by
      rw [hfreshdef]; exact lookup_newAddress st.callStacks
    have hnomap : ∀ p, st.gMap.lookup caller ≠ some (some p) := by
      intro p hp
      have := (h.1 caller p).mpr hp
      rw [htls] at this
      cases this
    have hheapNew : ∀ q stack, st.callStacks.lookup q = some stack →
        ((fresh, CallStack.ctor caller) :: st.callStacks).lookup q = some stack := by
      intro q stack hq
      have hne : q ≠ fresh := by
        rintro rfl
        rw [hfresh] at hq
        cases hq
      have hb : (q == fresh) = false := by simpa using hne
      simp only [List.lookup, hb, hq]
    have hheapSelf : ((fresh, CallStack.ctor caller) :: st.callStacks).lookup fresh =
        some (CallStack.ctor caller) := by
      simp [List.lookup]
    refine ⟨⟨?_, ?_, ?_⟩, rfl, ⟨CallStack.ctor caller, hheapSelf, rfl⟩, ?_, ?_⟩
    · intro t p
      show (tlsAssign st.tls caller (some fresh)).lookup t = some p ↔
        (mapAssign st.gMap caller (some fresh)).lookup t = some (some p)
      rw [tlsAssign_lookup, mapAssign_lookup]
      by_cases ht : t = caller
      · simp [ht]
      · simp only [if_neg ht]
        exact h.1 t p
    · intro t p hp
      change (mapAssign st.gMap caller (some fresh)).lookup t = some (some p) at hp
      rw [mapAssign_lookup] at hp
      by_cases ht : t = caller
      · rw [if_pos ht] at hp
        have hpe : fresh = p := by
          simpa using hp
        subst hpe
        refine ⟨?_, CallStack.ctor caller, hheapSelf, ht.symm⟩
        show fresh ∈ st.gList ++ [fresh]
        simp
      · rw [if_neg ht] at hp
        obtain ⟨hin, stack, hstack, hnum⟩ := h.2.1 t p hp
        exact ⟨List.mem_append_left _ hin, stack, hheapNew p stack hstack, hnum⟩
    · intro p hp
      change p ∈ st.gList ++ [fresh] at hp
      rcases List.mem_append.mp hp with hin | hin
      · obtain ⟨stack, hstack, hback⟩ := h.2.2 p hin
        refine ⟨stack, hheapNew p stack hstack, ?_⟩
        show (mapAssign st.gMap caller (some fresh)).lookup stack.mThreadNumber = some (some p)
        rw [mapAssign_lookup]
        have hne : stack.mThreadNumber ≠ caller := by
          intro heq
          rw [heq] at hback
          exact hnomap p hback
        rw [if_neg hne]
        exact hback
      · have hpe : p = fresh := by simpa using hin
        subst hpe
        refine ⟨CallStack.ctor caller, hheapSelf, ?_⟩
        show (mapAssign st.gMap caller (some p)).lookup caller = _
        rw [mapAssign_lookup]
        simp
    · show (mapAssign st.gMap caller (some fresh)).lookup caller = _
      rw [mapAssign_lookup]
      simp
    · intro t ht p
      show (mapAssign st.gMap caller (some fresh)).lookup t = some (some p) ↔ _
      rw [mapAssign_lookup, if_neg ht]

/-- `RemoveCallStack` for a thread without a pointer in `gMap`. -/
theorem RemoveCallStack_absent (st : DebugState) (caller t : Int)
    (h : ∀ p, st.gMap.lookup t ≠ some (some p)) :
    CallStack.RemoveCallStack st caller t = { st with gMap := (mapIndex st.gMap t).2 } := by
  unfold CallStack.RemoveCallStack
  rw [mapIndex_value]
  cases hm : st.gMap.lookup t with
  | none => rfl
  | some v =>
    cases v with
    | none => rfl
    | some p => exact absurd hm (h p)

/-- `RemoveCallStack` for a thread with a pointer in `gMap`. -/
theorem RemoveCallStack_present (st : DebugState) (caller t : Int) (p : Nat)
    (h : st.gMap.lookup t = some (some p)) :
    CallStack.RemoveCallStack st caller t =
      { st with gMap := (mapIndex st.gMap t).2.filter (fun e => e.1 != t)
                gList := st.gList.filter (fun q => q != p)
                callStacks := st.callStacks.filter (fun e => e.1 != p)
                tls := tlsAssign st.tls caller none } := by
  unfold CallStack.RemoveCallStack
  rw [mapIndex_value, h]

/-- What `RemoveCallStack(t)` called by thread `t` does to a consistent
directory: it stays consistent, `t` has no call stack afterwards, and every
other thread is as before. -/
theorem RemoveCallStack_directory (st : DebugState) (t : Int) (h : DirectoryConsistent st) :
    DirectoryConsistent (CallStack.RemoveCallStack st t t) ∧
    (CallStack.RemoveCallStack st t t).handlerInstalled = st.handlerInstalled ∧
    (∀ p, (CallStack.RemoveCallStack st t t).gMap.lookup t ≠ some (some p)) ∧
    ∀ t1, t1 ≠ t → ∀ p,
      ((CallStack.RemoveCallStack st t t).gMap.lookup t1 = some (some p) ↔
        st.gMap.lookup t1 = some (some p)) := by
  have hsome : ∀ k p, (mapIndex st.gMap t).2.lookup k = some (some p) ↔
      st.gMap.lookup k = some (some p) := by
    intro k p
    constructor
    · exact mapIndex_lookup_some st.gMap t k p
    · intro hk
      rw [mapIndex_lookup, hk]
  by_cases hno : ∀ p, st.gMap.lookup t ≠ some (some p)
  · rw [RemoveCallStack_absent st t t hno]
    refine ⟨⟨?_, ?_, ?_⟩, rfl, ?_, ?_⟩
    · intro k p
      show st.tls.lookup k = some p ↔ (mapIndex st.gMap t).2.lookup k = some (some p)
      rw [hsome]
      exact h.1 k p
    · intro k p hp
      exact h.2.1 k p ((hsome k p).mp hp)
    · intro p hp
      obtain ⟨stack, hstack, hback⟩ := h.2.2 p hp
      exact ⟨stack, hstack, (hsome _ p).mpr hback⟩
    · intro p hp
      exact hno p ((hsome t p).mp hp)
    · intro t1 _ p
      exact hsome t1 p
  · obtain ⟨p, hm⟩ : ∃ p, st.gMap.lookup t = some (some p) := by
      by_contra hc
      exact hno (fun p hp => hc ⟨p, hp⟩)
    rw [RemoveCallStack_present st t t p hm]
    obtain ⟨hpin, stack, hstack, hnum⟩ := h.2.1 t p hm
    have hmapNew : ∀ k, ((mapIndex st.gMap t).2.filter (fun e => e.1 != t)).lookup k =
        if k = t then none else st.gMap.lookup k := by
      intro k
      rw [lookup_filter_ne]
      by_cases hk : k = t
      · simp [hk]
      · simp only [if_neg hk, mapIndex_lookup]
        cases st.gMap.lookup k <;> simp
    have htlsNew : ∀ k, (tlsAssign st.tls t none).lookup k =
        if k = t then none else st.tls.lookup k := by
      intro k
      exact tlsAssign_lookup st.tls t k none
    have hheapNew : ∀ q, (st.callStacks.filter (fun e => e.1 != p)).lookup q =
        if q = p then none else st.callStacks.lookup q := by
      intro q
      exact lookup_filter_ne p q st.callStacks
    have hother : ∀ k q, k ≠ t → st.gMap.lookup k = some (some q) → q ≠ p := by
      intro k q hk hq heq
      subst heq
      obtain ⟨_, stack1, hstack1, hnum1⟩ := h.2.1 k q hq
      rw [hstack] at hstack1
      cases hstack1
      exact hk (hnum1.symm.trans hnum)
    refine ⟨⟨?_, ?_, ?_⟩, rfl, ?_, ?_⟩
    · intro k q
      show (tlsAssign st.tls t none).lookup k = some q ↔
        ((mapIndex st.gMap t).2.filter (fun e => e.1 != t)).lookup k = some (some q)
      rw [htlsNew, hmapNew]
      by_cases hk : k = t
      · simp [hk]
      · simp only [if_neg hk]
        exact h.1 k q
    · intro k q hq
      change ((mapIndex st.gMap t).2.filter (fun e => e.1 != t)).lookup k = some (some q) at hq
      rw [hmapNew] at hq
      by_cases hk : k = t
      · rw [if_pos hk] at hq; cases hq
      · rw [if_neg hk] at hq
        obtain ⟨hin, stack1, hstack1, hnum1⟩ := h.2.1 k q hq
        have hqp := hother k q hk hq
        refine ⟨?_, stack1, ?_, hnum1⟩
        · show q ∈ st.gList.filter (fun r => r != p)
          rw [List.mem_filter]
          exact ⟨hin, by simpa using hqp⟩
        · show (st.callStacks.filter (fun e => e.1 != p)).lookup q = some stack1
          rw [hheapNew, if_neg hqp]
          exact hstack1
    · intro q hq
      change q ∈ st.gList.filter (fun r => r != p) at hq
      rw [List.mem_filter] at hq
      have hqp : q ≠ p := by simpa using hq.2
      obtain ⟨stack1, hstack1, hback⟩ := h.2.2 q hq.1
      have hne : stack1.mThreadNumber ≠ t := by
        intro heq
        rw [heq, hm] at hback
        exact hqp (Option.some.inj (Option.some.inj hback)).symm
      refine ⟨stack1, ?_, ?_⟩
      · show (st.callStacks.filter (fun e => e.1 != p)).lookup q = some stack1
        rw [hheapNew, if_neg hqp]
        exact hstack1
      · show ((mapIndex st.gMap t).2.filter (fun e => e.1 != t)).lookup
          stack1.mThreadNumber = some (some q)
        rw [hmapNew, if_neg hne]
        exact hback
    · intro q hq
      change ((mapIndex st.gMap t).2.filter (fun e => e.1 != t)).lookup t = some (some q) at hq
      rw [hmapNew] at hq
      simp at hq
    · intro t1 ht1 q
      show ((mapIndex st.gMap t).2.filter (fun e => e.1 != t)).lookup t1 = some (some q) ↔ _
      rw [hmapNew, if_neg ht1]

/-- The profiler call of a frame push or pop keeps the thread number. -/
theorem sampleIfProfiling_threadNumber (clock : Int) (stack : CallStack) :
    (sampleIfProfiling clock stack).mThreadNumber = stack.mThreadNumber := by
  unfold sampleIfProfiling
  cases stack.mProfiler <;> rfl

/-- A call that works on the caller's own stack: the caller has a call stack
afterwards and every other thread is as before. -/
theorem enter_directory (st st1 : DebugState) (caller : Int) (h : DirectoryConsistent st)
    (hsame : SameDirectory (CallStack.GetCallerCallStack st caller).2 st1) :
    DirectoryConsistent st1 ∧ st1.handlerInstalled = st.handlerInstalled ∧
    ∀ t, hasCallStack st1 t = if caller = t then true else hasCallStack st t := by
  obtain ⟨hwf, hhandler, _, hself, hothers⟩ := GetCallerCallStack_directory st caller h
  obtain ⟨hwf1, hmap1⟩ := SameDirectory_consistent _ st1 hsame hwf
  refine ⟨hwf1, hsame.2.2.2.1.trans hhandler, ?_⟩
  intro t
  rw [Bool.eq_iff_iff, hasCallStack_iff st1 hwf1]
  by_cases ht : caller = t
  · subst ht
    simp only [if_true, iff_true]
    exact ⟨_, (hmap1 caller _).mpr hself⟩
  · simp only [if_neg ht]
    rw [hasCallStack_iff st h]
    have hne : t ≠ caller := fun hc => ht hc.symm
    constructor
    · rintro ⟨p, hp⟩
      exact ⟨p, (hothers t hne p).mp ((hmap1 t p).mp hp)⟩
    · rintro ⟨p, hp⟩
      exact ⟨p, (hmap1 t p).mpr ((hothers t hne p).mpr hp)⟩

/-- One call into the runtime keeps the directory consistent and keeps the
handler; the threads with a call stack change as `enteredAndNotRemoved` says. -/
theorem runRuntimeCall_directory (st st1 : DebugState) (call : RuntimeCall)
    (h : DirectoryConsistent st) (hrun : runRuntimeCall st call = some st1) :
    DirectoryConsistent st1 ∧ st1.handlerInstalled = st.handlerInstalled ∧
    ∀ t, hasCallStack st1 t =
      enteredAndNotRemoved st.handlerInstalled t (hasCallStack st t) [call] := by
  cases call with
  | pushFrame caller frame =>
    simp only [runRuntimeCall, CallStack.PushStackFrame] at hrun
    obtain ⟨_, _, ⟨stack, hstack, _⟩, _, _⟩ := GetCallerCallStack_directory st caller h
    rw [hstack] at hrun
    simp only [Option.some.injEq] at hrun
    have hsame : SameDirectory (CallStack.GetCallerCallStack st caller).2 st1 := by
      rw [← hrun]
      exact SameDirectory_store _ _ stack
        { sampleIfProfiling (CallStack.GetCallerCallStack st caller).2.gProfileClock stack with
          mStackFrames :=
            (sampleIfProfiling (CallStack.GetCallerCallStack st caller).2.gProfileClock
              stack).mStackFrames ++ [frame] }
        hstack (sampleIfProfiling_threadNumber _ stack) _ rfl _ ⟨rfl, rfl, rfl, rfl, rfl⟩
    exact enter_directory st st1 caller h hsame
  | popFrame caller =>
    simp only [runRuntimeCall, CallStack.PopStackFrame] at hrun
    obtain ⟨_, _, ⟨stack, hstack, _⟩, _, _⟩ := GetCallerCallStack_directory st caller h
    rw [hstack] at hrun
    simp only at hrun
    split at hrun
    · cases hrun
    · simp only [Option.some.injEq] at hrun
      have hsame : SameDirectory (CallStack.GetCallerCallStack st caller).2 st1 := by
        rw [← hrun]
        exact SameDirectory_store _ _ stack
          { sampleIfProfiling (CallStack.GetCallerCallStack st caller).2.gProfileClock stack with
            mStackFrames :=
              (sampleIfProfiling (CallStack.GetCallerCallStack st caller).2.gProfileClock
                stack).mStackFrames.dropLast }
          hstack (sampleIfProfiling_threadNumber _ stack) _ rfl _ ⟨rfl, rfl, rfl, rfl, rfl⟩
      exact enter_directory st st1 caller h hsame
  | probe caller =>
    simp only [runRuntimeCall, __hxcpp_dbg_HandleBreakpoints] at hrun
    exact enter_directory st st1 caller h (HandleBreakpoints_directory _ st1 _ hrun)
  | threadCreatedOrTerminated n created =>
    simp only [runRuntimeCall, Option.some.injEq] at hrun
    unfold __hxcpp_dbg_threadCreatedOrTerminated at hrun
    cases hh : st.handlerInstalled with
    | false =>
      rw [hh] at hrun
      simp only [Bool.not_false, if_true] at hrun
      subst hrun
      refine ⟨h, hh, ?_⟩
      intro t
      simp [enteredAndNotRemoved]
    | true =>
      rw [hh] at hrun
      simp only [Bool.not_true, Bool.false_eq_true, if_false] at hrun
      cases created with
      | true =>
        simp only [Bool.not_true, Bool.false_eq_true, if_false, if_true] at hrun
        have hsame : SameDirectory st st1 := by
          rw [← hrun]
          exact ⟨rfl, rfl, rfl, rfl, fun _ => rfl⟩
        obtain ⟨hwf1, hmap1⟩ := SameDirectory_consistent st st1 hsame h
        refine ⟨hwf1, hsame.2.2.2.1.trans hh, ?_⟩
        intro t
        rw [Bool.eq_iff_iff, hasCallStack_iff st1 hwf1]
        simp only [enteredAndNotRemoved, Bool.true_eq_false, false_and, and_false, if_false]
        rw [hasCallStack_iff st h]
        constructor
        · rintro ⟨p, hp⟩; exact ⟨p, (hmap1 t p).mp hp⟩
        · rintro ⟨p, hp⟩; exact ⟨p, (hmap1 t p).mpr hp⟩
      | false =>
        simp only [Bool.not_false, if_true, Bool.false_eq_true, if_false] at hrun
        obtain ⟨hwfr, hhr, hgone, hothers⟩ := RemoveCallStack_directory st n h
        have hsame : SameDirectory (CallStack.RemoveCallStack st n n) st1 := by
          rw [← hrun]
          exact ⟨rfl, rfl, rfl, rfl, fun _ => rfl⟩
        obtain ⟨hwf1, hmap1⟩ := SameDirectory_consistent _ st1 hsame hwfr
        refine ⟨hwf1, (hsame.2.2.2.1.trans hhr).trans hh, ?_⟩
        intro t
        rw [Bool.eq_iff_iff, hasCallStack_iff st1 hwf1]
        by_cases hnt : n = t
        · subst hnt
          simp only [enteredAndNotRemoved, and_self, if_true, Bool.false_eq_true, iff_false]
          rintro ⟨p, hp⟩
          exact hgone p ((hmap1 n p).mp hp)
        · simp only [enteredAndNotRemoved, hnt, false_and, if_false]
          rw [hasCallStack_iff st h]
          have hne : t ≠ n := fun hc => hnt hc.symm
          constructor
          · rintro ⟨p, hp⟩
            exact ⟨p, (hothers t hne p).mp ((hmap1 t p).mp hp)⟩
          · rintro ⟨p, hp⟩
            exact ⟨p, (hmap1 t p).mpr ((hothers t hne p).mpr hp)⟩

/-- The record of entries and removals over a sequence of calls is that over its
first call followed by that over the rest. -/
theorem enteredAndNotRemoved_cons (handlerInstalled : Bool) (t : Int) (present : Bool)
    (call : RuntimeCall) (rest : List RuntimeCall) :
    enteredAndNotRemoved handlerInstalled t present (call :: rest) =
      enteredAndNotRemoved handlerInstalled t
        (enteredAndNotRemoved handlerInstalled t present [call]) rest := by
  cases call <;> rfl

/-- A sequence of calls into the runtime keeps the directory consistent; the
threads with a call stack afterwards are those `enteredAndNotRemoved` names. -/
theorem runRuntimeCalls_directory (calls : List RuntimeCall) :
    ∀ (st0 st : DebugState), DirectoryConsistent st0 → runRuntimeCalls st0 calls = some st →
      DirectoryConsistent st ∧ st.handlerInstalled = st0.handlerInstalled ∧
      ∀ t, hasCallStack st t =
        enteredAndNotRemoved st0.handlerInstalled t (hasCallStack st0 t) calls := by
  induction calls with
  | nil =>
    intro st0 st h hrun
    simp only [runRuntimeCalls, Option.some.injEq] at hrun
    subst hrun
    exact ⟨h, rfl, fun _ => rfl⟩
  | cons call rest ih =>
    intro st0 st h hrun
    simp only [runRuntimeCalls] at hrun
    cases hstep : runRuntimeCall st0 call with
    | none => rw [hstep] at hrun; cases hrun
    | some st1 =>
      rw [hstep] at hrun
      obtain ⟨hwf1, hh1, hone⟩ := runRuntimeCall_directory st0 st1 call h hstep
      obtain ⟨hwf, hh, hrest⟩ := ih st1 st hwf1 hrun
      refine ⟨hwf, hh.trans hh1, ?_⟩
      intro t
      rw [hrest t, hh1, hone t, ← enteredAndNotRemoved_cons]

/-- Claim C23, counterexample: with an event handler installed, thread 1 has a
call stack in the directory after its first frame push although no
`ThreadCreatedOrTerminated(1, true)` was observed, and has none after
`ThreadCreatedOrTerminated(1, true)` alone; without an event handler its call
stack is still in the directory after `ThreadCreatedOrTerminated(1, false)`. -/
theorem directory_does_not_follow_notifications :
    ((runRuntimeCalls exampleAttached [RuntimeCall.pushFrame 1 exampleFrame]).map
        (fun st => (hasCallStack st 1, listedThreads st)) = some (true, [1]) ∧
      createdAndNotTerminated 1 [RuntimeCall.pushFrame 1 exampleFrame] = false) ∧
    ((runRuntimeCalls exampleAttached [RuntimeCall.threadCreatedOrTerminated 1 true]).map
        (fun st => (hasCallStack st 1, listedThreads st)) = some (false, []) ∧
      createdAndNotTerminated 1 [RuntimeCall.threadCreatedOrTerminated 1 true] = true) ∧
    (DebugState.initial.handlerInstalled = false ∧
      (runRuntimeCalls DebugState.initial
        [RuntimeCall.threadCreatedOrTerminated 1 true, RuntimeCall.pushFrame 1 exampleFrame,
         RuntimeCall.threadCreatedOrTerminated 1 false]).map
        (fun st => (hasCallStack st 1, listedThreads st)) = some (true, [1])) := by
  refine ⟨⟨by decide, by decide⟩, ⟨by decide, by decide⟩, rfl, by decide⟩

/-- Claim C23, amended: in every state reached from a consistent directory
through frame pushes, frame pops, probes and `ThreadCreatedOrTerminated`
notifications that each thread makes about itself, the directory is consistent
and a thread `t` has a call stack in it (in `gMap` and in `gList`) iff `t` has
entered the runtime by a frame push, frame pop or probe, or had a call stack at
the start, and has not since notified its termination while an event handler
was installed.  In such a state `ThreadCreatedOrTerminated(t, false)` removes
the call stack of `t` when an event handler is installed and changes nothing
when none is. -/
theorem directory_tracks_runtime_entry (st0 st : DebugState) (calls : List RuntimeCall)
    (t : Int) (hwf : DirectoryConsistent st0) (hrun : runRuntimeCalls st0 calls = some st) :
    DirectoryConsistent st ∧
    hasCallStack st t =
      enteredAndNotRemoved st0.handlerInstalled t (hasCallStack st0 t) calls ∧
    (t ∈ listedThreads st ↔ hasCallStack st t = true) ∧
    (st.handlerInstalled = true →
      hasCallStack (__hxcpp_dbg_threadCreatedOrTerminated st t t false) t = false) ∧
    (st.handlerInstalled = false →
      __hxcpp_dbg_threadCreatedOrTerminated st t t false = st) := by
  obtain ⟨hwf1, _, hall⟩ := runRuntimeCalls_directory calls st0 st hwf hrun
  refine ⟨hwf1, hall t, ?_, ?_, ?_⟩
  · rw [listedThreads_iff st hwf1, hasCallStack_iff st hwf1]
  · intro hh
    have hstep := runRuntimeCall_directory st _ (RuntimeCall.threadCreatedOrTerminated t false)
      hwf1 rfl
    rw [hstep.2.2 t, hh]
    simp [enteredAndNotRemoved]
  · intro hh
    simp [__hxcpp_dbg_threadCreatedOrTerminated, hh]

/-- Claim C23, amended, at `exampleCalls` run from `exampleAttached`: thread 1 has
left the directory and thread 2 is in it. -/
theorem directory_tracks_runtime_entry_witness :
    ∃ st, runRuntimeCalls exampleAttached exampleCalls = some st ∧
      hasCallStack st 1 = false ∧ hasCallStack st 2 = true ∧ listedThreads st = [2] := by
  obtain ⟨st, hst⟩ : ∃ st, runRuntimeCalls exampleAttached exampleCalls = some st :=
    Option.isSome_iff_exists.mp (by decide)
  have hwf : DirectoryConsistent exampleAttached := by
    simp [DirectoryConsistent, exampleAttached, DebugState.initial]
  refine ⟨st, hst,
    (directory_tracks_runtime_entry exampleAttached st exampleCalls 1 hwf hst).2.1.trans
      (by decide),
    (directory_tracks_runtime_entry exampleAttached st exampleCalls 2 hwf hst).2.1.trans
      (by decide), ?_⟩
  have hval : (runRuntimeCalls exampleAttached exampleCalls).map listedThreads = some [2] := by
    decide
  rw [hst] at hval
  exact Option.some.inj hval

/-! ### Probes that do not stop, and `Break` -/

/-- A probe by a thread with a frame computes a result. -/
theorem probeResult_some (st : DebugState) (stack : CallStack)
    (hframes : stack.mStackFrames ≠ []) : ∃ r, probeResult st stack = some r := by
  obtain ⟨frame, hframe⟩ : ∃ frame, stack.mStackFrames.getLast? = some frame := by
    cases h : stack.mStackFrames.getLast? with
    | none => exact absurd (List.getLast?_eq_none_iff.mp h) hframes
    | some frame => exact ⟨frame, rfl⟩
  unfold probeResult breakpointCheck
  split
  · split
    · exact ⟨_, rfl⟩
    · simp only [hframe]
      split <;> exact ⟨_, rfl⟩
  · exact ⟨_, rfl⟩

/-- What the stop phase of `DoBreak` leaves in the stack, whenever it gets as far
as blocking. -/
theorem DoBreak_result (handlerInstalled : Bool) (stack : CallStack)
    (status : ThreadStatus) (breakpoint : Int) (criticalErrorDescription : Option String)
    (r : CallStack × List Event)
    (h : stack.DoBreak handlerInstalled status breakpoint criticalErrorDescription = some r) :
    r.1.mStatus = status ∧ r.1.mBreakpoint = breakpoint ∧ r.1.mWaiting = true ∧
    r.1.phase = BreakPhase.blocked ∧ r.1.mContinueCount = stack.mContinueCount := by
  unfold CallStack.DoBreak CallStack.DoBreakNotify at h
  simp only [CallStack.DoBreakRecord] at h
  split at h
  · cases h
  · rename_i stack1 event heq
    cases h
    split at heq
    · cases heq
    · split at heq
      · cases heq
        exact ⟨rfl, rfl, rfl, rfl, rfl⟩
      · cases heq

/-- Claim C31: a probe made by the debugger thread, or by a thread whose
can-stop flag is false, returns without stopping for every step state and
snapshot (the thread having a frame): the whole state is as before, in
particular the thread's status, last breakpoint id and residual continue-count
and the process-wide residual step count. -/
theorem probe_of_unstoppable_thread (st : DebugState) (p : Nat) (stack : CallStack)
    (hheap : st.callStacks.lookup p = some stack)
    (hphase : stack.phase = BreakPhase.running)
    (hflag : isDebugThread st stack.mThreadNumber = true ∨ stack.mCanStop = false)
    (hframes : stack.mStackFrames ≠ []) :
    ∃ st1 stack1, Breakpoints.HandleBreakpoints st p = some st1 ∧ st1 = st ∧
      st1.callStacks.lookup p = some stack1 ∧ stack1.phase = BreakPhase.running ∧
      stack1.mStatus = stack.mStatus ∧ stack1.mBreakpoint = stack.mBreakpoint ∧
      stack1.mContinueCount = stack.mContinueCount ∧ stack1.mWaiting = stack.mWaiting ∧
      st1.gStepCount = st.gStepCount ∧ st1.events = st.events := by
  obtain ⟨r, hr⟩ := probeResult_some st stack hframes
  have hres : probeResult st stack ≠ none := by rw [hr]; simp
  have h := HandleBreakpoints_no_stop st p stack hheap hphase hflag.symm hres
  exact ⟨st, stack, h, rfl, hheap, hphase, rfl, rfl, rfl, rfl, rfl, rfl⟩

/-- Claim C31 at thread 1 of `exampleNoStopBreakAll`, whose can-stop flag is
false while a break-all is pending. -/
theorem probe_of_unstoppable_thread_witness :
    stepCheck exampleNoStopBreakAll { exampleRunningStack with mCanStop := false } =
      ThreadStatus.STATUS_STOPPED_BREAK_IMMEDIATE ∧
    ∃ st1 stack1, Breakpoints.HandleBreakpoints exampleNoStopBreakAll 500 = some st1 ∧
      st1 = exampleNoStopBreakAll ∧ st1.callStacks.lookup 500 = some stack1 ∧
      stack1.mStatus = ThreadStatus.STATUS_RUNNING :=
  ⟨rfl,
    (probe_of_unstoppable_thread exampleNoStopBreakAll 500
      { exampleRunningStack with mCanStop := false } rfl rfl (Or.inr rfl)
      (by simp [exampleRunningStack, exampleStack])).imp
      (fun _ h => h.imp (fun _ h => ⟨h.1, h.2.1, h.2.2.1, h.2.2.2.2.1⟩))⟩

/-- Claim C32: `Break(status, id)` by a running thread with a frame (an event
handler being installed): if the status is STATUS_STOPPED_BREAK_IMMEDIATE the
residual continue-count is set to 0 and the thread stops; otherwise, if the
residual continue-count is positive, it is decremented and nothing else
happens (the stack is otherwise unchanged and no event is emitted); otherwise
the thread stops with the given status and id, one STOPPED event being
emitted. -/
theorem break_cases (stack : CallStack) (status : ThreadStatus) (breakpoint : Int)
    (hphase : stack.phase = BreakPhase.running) (hframes : stack.mStackFrames ≠ []) :
    (status = ThreadStatus.STATUS_STOPPED_BREAK_IMMEDIATE →
      ∃ final event, stack.Break true status breakpoint = some (final, [event]) ∧
        final.mContinueCount = 0 ∧ final.mStatus = status ∧
        final.mBreakpoint = breakpoint ∧ final.mWaiting = true ∧
        final.phase = BreakPhase.blocked) ∧
    (status ≠ ThreadStatus.STATUS_STOPPED_BREAK_IMMEDIATE → 0 < stack.mContinueCount →
      stack.Break true status breakpoint =
        some ({ stack with mContinueCount := stack.mContinueCount - 1 }, [])) ∧
    (status ≠ ThreadStatus.STATUS_STOPPED_BREAK_IMMEDIATE → ¬ 0 < stack.mContinueCount →
      ∃ final event, stack.Break true status breakpoint = some (final, [event]) ∧
        final.mContinueCount = stack.mContinueCount ∧ final.mStatus = status ∧
        final.mBreakpoint = breakpoint ∧ final.mWaiting = true ∧
        final.phase = BreakPhase.blocked) := by
  refine ⟨?_, ?_, ?_⟩
  · intro hs
    obtain ⟨entered, hentered⟩ : ∃ entered : CallStack,
        entered = { stack with mContinueCount := 0
                               phase := BreakPhase.entering status breakpoint none } :=
      ⟨_, rfl⟩
    have hef : entered.mStackFrames ≠ [] := by rw [hentered]; exact hframes
    obtain ⟨final, event, hdo, h1, h2, h3, h4, h5, _⟩ :=
      DoBreak_spec entered status breakpoint none hef
    refine ⟨final, event, ?_, ?_, h1, h2, h3, h5⟩
    · have hbe : stack.BreakEnter status breakpoint = entered := by
        simp [CallStack.BreakEnter, hs, hentered]
      have hph : entered.phase = BreakPhase.entering status breakpoint none := by
        rw [hentered]
      simp only [CallStack.Break, hbe, CallStack.runDoBreak, hph]
      exact hdo
    · rw [h4, hentered]
  · intro hs hc
    simp [CallStack.Break, CallStack.BreakEnter, CallStack.runDoBreak, hs, hc, hphase]
  · intro hs hc
    obtain ⟨entered, hentered⟩ : ∃ entered : CallStack,
        entered = { stack with phase := BreakPhase.entering status breakpoint none } :=
      ⟨_, rfl⟩
    have hef : entered.mStackFrames ≠ [] := by rw [hentered]; exact hframes
    obtain ⟨final, event, hdo, h1, h2, h3, h4, h5, _⟩ :=
      DoBreak_spec entered status breakpoint none hef
    refine ⟨final, event, ?_, ?_, h1, h2, h3, h5⟩
    · have hbe : stack.BreakEnter status breakpoint = entered := by
        simp [CallStack.BreakEnter, hs, hc, hentered]
      have hph : entered.phase = BreakPhase.entering status breakpoint none := by
        rw [hentered]
      simp only [CallStack.Break, hbe, CallStack.runDoBreak, hph]
      exact hdo
    · rw [h4, hentered]

/-- Claim C32 at `exampleRunningStack`: with residual count 2 a breakpoint hit
only lowers the count to 1, while an immediate break stops the thread and
clears the count. -/
theorem break_cases_witness :
    ({ exampleRunningStack with mContinueCount := 2 } : CallStack).Break true
        ThreadStatus.STATUS_STOPPED_BREAKPOINT 0 =
      some ({ exampleRunningStack with mContinueCount := 1 }, []) ∧
    ∃ final event, ({ exampleRunningStack with mContinueCount := 2 } : CallStack).Break true
        ThreadStatus.STATUS_STOPPED_BREAK_IMMEDIATE (-1) = some (final, [event]) ∧
      final.mContinueCount = 0 ∧
      final.mStatus = ThreadStatus.STATUS_STOPPED_BREAK_IMMEDIATE :=
  ⟨(break_cases { exampleRunningStack with mContinueCount := 2 }
      ThreadStatus.STATUS_STOPPED_BREAKPOINT 0 rfl
      (by simp [exampleRunningStack, exampleStack])).2.1 (by decide) (by decide),
    ((break_cases { exampleRunningStack with mContinueCount := 2 }
      ThreadStatus.STATUS_STOPPED_BREAK_IMMEDIATE (-1) rfl
      (by simp [exampleRunningStack, exampleStack])).1 rfl).imp
      (fun _ h => h.imp (fun _ h => ⟨h.1, h.2.1, h.2.2.1⟩))⟩

/-- Claim C39: a probe whose step check fires never reports a breakpoint.  Its
result is BREAK_IMMEDIATE with breakpoint id -1 whatever the snapshot holds,
and the probe either returns with the state unchanged, or returns having
lowered a residual step count above 1 by one, or stops the thread with status
STATUS_STOPPED_BREAK_IMMEDIATE and breakpoint id -1; for a thread that may stop
and has a frame (an event handler being installed) the probe does one of these.
A probe that stops the thread with status STATUS_STOPPED_BREAKPOINT is one whose
step check did not fire. -/
theorem step_hit_reports_no_breakpoint (st : DebugState) (p : Nat) (stack : CallStack)
    (hheap : st.callStacks.lookup p = some stack)
    (hphase : stack.phase = BreakPhase.running) :
    (stepCheck st stack = ThreadStatus.STATUS_STOPPED_BREAK_IMMEDIATE →
      probeResult st stack = some (ThreadStatus.STATUS_STOPPED_BREAK_IMMEDIATE, -1) ∧
      (∀ st1, Breakpoints.HandleBreakpoints st p = some st1 →
        st1 = st ∨
        (1 < st.gStepCount ∧ st1 = { st with gStepCount := st.gStepCount - 1 }) ∨
        ∃ stack1, st1.callStacks.lookup p = some stack1 ∧
          stack1.mStatus = ThreadStatus.STATUS_STOPPED_BREAK_IMMEDIATE ∧
          stack1.mBreakpoint = -1 ∧ stack1.mWaiting = true ∧
          stack1.phase = BreakPhase.blocked) ∧
      (st.handlerInstalled = true → stack.mStackFrames ≠ [] →
        ∃ st1, Breakpoints.HandleBreakpoints st p = some st1)) ∧
    (∀ st1 stack1, Breakpoints.HandleBreakpoints st p = some st1 →
      st1.callStacks.lookup p = some stack1 → stack1.phase = BreakPhase.blocked →
      stack1.mStatus = ThreadStatus.STATUS_STOPPED_BREAKPOINT →
      stepCheck st stack = ThreadStatus.STATUS_INVALID) := by
  have hfire : stepCheck st stack = ThreadStatus.STATUS_STOPPED_BREAK_IMMEDIATE →
      probeResult st stack = some (ThreadStatus.STATUS_STOPPED_BREAK_IMMEDIATE, -1) ∧
      ∀ st1, Breakpoints.HandleBreakpoints st p = some st1 →
        st1 = st ∨
        (1 < st.gStepCount ∧ st1 = { st with gStepCount := st.gStepCount - 1 }) ∨
        ∃ stack1, st1.callStacks.lookup p = some stack1 ∧
          stack1.mStatus = ThreadStatus.STATUS_STOPPED_BREAK_IMMEDIATE ∧
          stack1.mBreakpoint = -1 ∧ stack1.mWaiting = true ∧
          stack1.phase = BreakPhase.blocked := by
    intro hcheck
    have hres : probeResult st stack =
        some (ThreadStatus.STATUS_STOPPED_BREAK_IMMEDIATE, -1) := by
      simp [probeResult, hcheck]
    refine ⟨hres, ?_⟩
    intro st1 hrun
    by_cases hflag : stack.mCanStop = false ∨ isDebugThread st stack.mThreadNumber = true
    · left
      have := HandleBreakpoints_no_stop st p stack hheap hphase hflag (by rw [hres]; simp)
      rw [this] at hrun
      exact (Option.some.inj hrun).symm
    · have hcan : stack.mCanStop = true := by
        cases h : stack.mCanStop with
        | true => rfl
        | false => exact absurd (Or.inl h) hflag
      have hdbg : isDebugThread st stack.mThreadNumber = false := by
        cases h : isDebugThread st stack.mThreadNumber with
        | false => rfl
        | true => exact absurd (Or.inr h) hflag
      by_cases hcount : 1 < st.gStepCount
      · right; left
        have := HandleBreakpoints_countdown st p stack hheap hcheck hdbg hcan hcount hphase
        rw [this] at hrun
        exact ⟨hcount, (Option.some.inj hrun).symm⟩
      · right; right
        obtain ⟨entered, hentered⟩ : ∃ entered : CallStack,
            entered = stack.BreakEnter ThreadStatus.STATUS_STOPPED_BREAK_IMMEDIATE (-1) :=
          ⟨_, rfl⟩
        have hph : entered.phase =
            BreakPhase.entering ThreadStatus.STATUS_STOPPED_BREAK_IMMEDIATE (-1) none := by
          simp [hentered, CallStack.BreakEnter]
        have henter : Breakpoints.HandleBreakpointsEnter st p =
            some { st with callStacks := storeStack st.callStacks p entered } := by
          simp [Breakpoints.HandleBreakpointsEnter, hheap, hres, hdbg, hcan, hcount, hentered]
        have hlook := lookup_storeStack_same p entered st.callStacks stack hheap
        simp only [Breakpoints.HandleBreakpoints, henter, runDoBreakAt, hlook, hph] at hrun
        cases hdo : entered.DoBreak st.handlerInstalled
            ThreadStatus.STATUS_STOPPED_BREAK_IMMEDIATE (-1) none with
        | none =>
          rw [hdo] at hrun
          simp [applyToStack] at hrun
        | some r =>
          rw [hdo] at hrun
          obtain ⟨h1, h2, h3, h4, _⟩ := DoBreak_result _ _ _ _ _ r hdo
          obtain ⟨final, newEvents⟩ := r
          simp only [applyToStack, Option.some.injEq] at hrun
          refine ⟨final, ?_, h1, h2, h3, h4⟩
          rw [← hrun]
          exact lookup_storeStack_same p final _ entered hlook
  refine ⟨fun hcheck => ⟨(hfire hcheck).1, (hfire hcheck).2, ?_⟩, ?_⟩
  · intro hhandler hframes
    by_cases hflag : stack.mCanStop = false ∨ isDebugThread st stack.mThreadNumber = true
    · exact ⟨st, HandleBreakpoints_no_stop st p stack hheap hphase hflag
        (by rw [(hfire hcheck).1]; simp)⟩
    · have hcan : stack.mCanStop = true := by
        cases h : stack.mCanStop with
        | true => rfl
        | false => exact absurd (Or.inl h) hflag
      have hdbg : isDebugThread st stack.mThreadNumber = false := by
        cases h : isDebugThread st stack.mThreadNumber with
        | false => rfl
        | true => exact absurd (Or.inr h) hflag
      by_cases hcount : 1 < st.gStepCount
      · exact ⟨_, HandleBreakpoints_countdown st p stack hheap hcheck hdbg hcan hcount hphase⟩
      · obtain ⟨st1, _, h, _⟩ := HandleBreakpoints_immediate st p stack hheap hcheck hdbg hcan
          (by omega) hhandler hframes
        exact ⟨st1, h⟩
  · intro st1 stack1 hrun hlook hblocked hstatus
    rcases stepCheck_values st stack with hcheck | hcheck
    · exfalso
      rcases (hfire hcheck).2 st1 hrun with h | h | h
      · rw [h, hheap] at hlook
        cases hlook
        rw [hphase] at hblocked
        cases hblocked
      · rw [h.2] at hlook
        change st.callStacks.lookup p = some stack1 at hlook
        rw [hheap] at hlook
        cases hlook
        rw [hphase] at hblocked
        cases hblocked
      · obtain ⟨stack2, hl2, hs2, _⟩ := h
        rw [hlook] at hl2
        cases hl2
        rw [hstatus] at hs2
        cases hs2
    · exact hcheck

/-- Claim C39 at `exampleAtEntry` with a break-all pending: thread 1 is at a line
where breakpoints 0 and 1 match, and stops with BREAK_IMMEDIATE and id -1. -/
theorem step_hit_reports_no_breakpoint_witness :
    probeResult exampleAtEntry
        { exampleRunningStack with mStackFrames := [exampleEntryFrame] } =
      some (ThreadStatus.STATUS_STOPPED_BREAKPOINT, 1) ∧
    probeResult { exampleAtEntry with gStepType := StepType.STEP_INTO, gStepThread := -1 }
        { exampleRunningStack with mStackFrames := [exampleEntryFrame] } =
      some (ThreadStatus.STATUS_STOPPED_BREAK_IMMEDIATE, -1) ∧
    (Breakpoints.HandleBreakpoints
        { exampleAtEntry with gStepType := StepType.STEP_INTO, gStepThread := -1 } 500).map
        (fun st => (st.callStacks.lookup 500).map
          (fun stack => (stack.mStatus, stack.mBreakpoint)))
      = some (some (ThreadStatus.STATUS_STOPPED_BREAK_IMMEDIATE, -1)) :=
  ⟨rfl,
    ((step_hit_reports_no_breakpoint
      { exampleAtEntry with gStepType := StepType.STEP_INTO, gStepThread := -1 } 500
      { exampleRunningStack with mStackFrames := [exampleEntryFrame] } rfl rfl).1 rfl).1,
    rfl⟩

/-! ### The break cycle and the frame formatters -/

/-- Claim C33, failing input: thread 1 of `exampleNoStop` has can-stop false.
`NullReference("Foo", true)` takes it into `DoBreak` through
`BreakCriticalError`; the debugger continues it and it wakes.  The events are
STOPPED then STARTED, status and breakpoint id are RUNNING and -1, but the
can-stop flag is now true. -/
theorem critical_error_cycle_sets_can_stop :
    (exampleNoStop.callStacks.lookup 500).map (fun stack => stack.mCanStop) = some false ∧
    exampleNoStop.events = [] ∧
    (((NullReference exampleNoStop 500 "Foo" true).bind
        (fun st => Breakpoints.ContinueThreads st 1 1)).bind
        (fun st => workerStep st 500)).map
        (fun st => ((st.callStacks.lookup 500).map
          (fun stack => (stack.mStatus, stack.mBreakpoint, stack.mCanStop, stack.phase)),
          st.events))
      = some (some (ThreadStatus.STATUS_RUNNING, -1, true, BreakPhase.running),
          [Event.stopped 1 "X" "m" (some "A.hx") 12, Event.started 1]) := by
  refine ⟨rfl, rfl, rfl⟩

/-- `GetCurrentCallStackAsStrings` appends the strings of the frames in order,
without the innermost when `skipLast` is set. -/
theorem GetCurrentCallStackAsStrings_eq (stackLine : Bool) (stack : CallStack)
    (result : List String) (skipLast : Bool) :
    CallStack.GetCurrentCallStackAsStrings stackLine stack result skipLast =
      result ++ (if skipLast then stack.mStackFrames.dropLast else stack.mStackFrames).map
        (frameString stackLine) := by
  cases skipLast with
  | false => simp [CallStack.GetCurrentCallStackAsStrings]
  | true =>
    have : ((stack.mStackFrames.length : Int) - 1).toNat = stack.mStackFrames.length - 1 := by
      omega
    simp [CallStack.GetCurrentCallStackAsStrings, this, List.dropLast_eq_take]

/-- `BeginCatch` appends the strings of all frames, or of the innermost only, to
the exception stack. -/
theorem BeginCatch_eq (stackLine : Bool) (stack : CallStack) (inAll : Bool) :
    (stack.BeginCatch stackLine inAll).mExceptionStack =
      stack.mExceptionStack ++
        (if inAll then stack.mStackFrames else stack.mStackFrames.getLast?.toList).map
          (frameString stackLine) := by
  unfold CallStack.BeginCatch
  cases hframes : stack.mStackFrames with
  | nil => cases inAll <;> simp
  | cons first rest =>
    cases inAll with
    | true => simp
    | false =>
      have hne : first :: rest ≠ [] := by simp
      have hdrop : (first :: rest).drop ((first :: rest).length - 1) =
          [(first :: rest).getLast hne] := drop_length_pred _ hne
      have hlast : (first :: rest).getLast? = some ((first :: rest).getLast hne) :=
        List.getLast?_eq_getLast _ hne
      simp only [List.length_cons, Nat.add_one_ne_zero, if_false, Bool.false_eq_true]
      simp only [List.length_cons] at hdrop
      rw [hdrop, hlast]
      rfl

/-- Claim C34: the two frame formatters agree.  For every frame sequence the
strings that `BeginCatch(true)` appends to the exception stack are, element by
element and in the same outermost-first order, the result of
`GetCurrentCallStackAsStrings(false)`, which is the per-frame string of each
frame in order; `BeginCatch(false)` appends exactly the last of them (nothing
when there are no frames); `GetCurrentCallStackAsStrings(true)` gives all but
the last; both only append, to the exception stack and to the array passed
in. -/
theorem frame_formatters_agree (stackLine : Bool) (stack : CallStack) :
    CallStack.GetCurrentCallStackAsStrings stackLine stack [] false =
      stack.mStackFrames.map (frameString stackLine) ∧
    (stack.BeginCatch stackLine true).mExceptionStack =
      stack.mExceptionStack ++
        CallStack.GetCurrentCallStackAsStrings stackLine stack [] false ∧
    (stack.BeginCatch stackLine false).mExceptionStack =
      stack.mExceptionStack ++
        (CallStack.GetCurrentCallStackAsStrings stackLine stack [] false).getLast?.toList ∧
    (stack.mStackFrames = [] →
      (stack.BeginCatch stackLine false).mExceptionStack = stack.mExceptionStack) ∧
    CallStack.GetCurrentCallStackAsStrings stackLine stack [] true =
      (CallStack.GetCurrentCallStackAsStrings stackLine stack [] false).dropLast ∧
    (∀ (result : List String) (skipLast : Bool),
      CallStack.GetCurrentCallStackAsStrings stackLine stack result skipLast =
        result ++ CallStack.GetCurrentCallStackAsStrings stackLine stack [] skipLast) := by
  have hall : CallStack.GetCurrentCallStackAsStrings stackLine stack [] false =
      stack.mStackFrames.map (frameString stackLine) := by
    rw [GetCurrentCallStackAsStrings_eq]
    simp
  refine ⟨hall, ?_, ?_, ?_, ?_, ?_⟩
  · rw [BeginCatch_eq, hall]
    simp
  · rw [BeginCatch_eq, hall, List.getLast?_map]
    cases stack.mStackFrames.getLast? <;> simp
  · intro hnil
    rw [BeginCatch_eq, hnil]
    simp
  · rw [hall, GetCurrentCallStackAsStrings_eq]
    simp [List.map_dropLast]
  · intro result skipLast
    rw [GetCurrentCallStackAsStrings_eq, GetCurrentCallStackAsStrings_eq]
    simp

/-- Claim C34 at a thread in `X.f`, called from `Main.main`. -/
theorem frame_formatters_agree_witness :
    (exampleProfiledStack.BeginCatch true true).mExceptionStack =
      ["Main::main::A.hx::12", "X::f::A.hx::12"] ∧
    (exampleProfiledStack.BeginCatch true false).mExceptionStack = ["X::f::A.hx::12"] ∧
    CallStack.GetCurrentCallStackAsStrings true exampleProfiledStack [] true =
      ["Main::main::A.hx::12"] :=
  ⟨(frame_formatters_agree true exampleProfiledStack).2.1.trans (by decide),
    (frame_formatters_agree true exampleProfiledStack).2.2.1.trans (by decide),
    (frame_formatters_agree true exampleProfiledStack).2.2.2.2.1.trans (by decide)⟩

/-! ### The self time of a sample, null entries of the map, and the accesses of
the delete-one constructor -/

/-- Claim C35, failing input: a fresh profiler samples at clock 5.  With the
frames `Main.main`, `X.f` (innermost) the increment 5 goes to the self of
`Main.main` and `X.f` gets no entry; with the single frame `X.f` no entry gets
anything, although the tick is consumed. -/
theorem sample_self_goes_to_caller :
    exampleProfiledStack.mStackFrames.map (fun frame => frame.fullName.chars) =
      ["Main.main", "X.f"] ∧
    sampleDelta (Profiler.ctor "") 5 = 5 ∧
    ((Profiler.ctor "").Sample 5 exampleProfiledStack).mProfileStats.map
        (fun e => (e.1.chars, e.2.self)) = [("Main.main", 5)] ∧
    (entryAt ((Profiler.ctor "").Sample 5 exampleProfiledStack).mProfileStats 301).self = 0 ∧
    ((Profiler.ctor "").Sample 5
        { exampleProfiledStack with mStackFrames := [exampleCalleeFrame] }).mProfileStats.map
        (fun e => (e.1.chars, e.2.self)) = [] ∧
    ((Profiler.ctor "").Sample 5
        { exampleProfiledStack with mStackFrames := [exampleCalleeFrame] }).mT0 = 5 := by
  refine ⟨by decide, by decide, by decide, by decide, by decide, by decide⟩

/-- Claim C37, failing input: with an event handler installed and an empty
directory, `ThreadCreatedOrTerminated(7, false)` for the unregistered thread 7
leaves a null entry for 7 in the map, after which `GetThreadInfo`,
`GetVariableValue` and `SetVariableValue` for thread 7 dereference the null
pointer.  Likewise `WaitForAllThreadsToStop` leaves a null entry for a thread
that was removed during its sleep. -/
theorem removal_leaves_null_map_entry :
    exampleAttached.gMap = [] ∧
    (__hxcpp_dbg_threadCreatedOrTerminated exampleAttached 7 7 false).gMap = [(7, none)] ∧
    (CallStack.RemoveCallStack exampleAttached 7 7).gMap = [(7, none)] ∧
    CallStack.GetThreadInfo (CallStack.RemoveCallStack exampleAttached 7 7) 7 false = none ∧
    CallStack.GetVariableValue (CallStack.RemoveCallStack exampleAttached 7 7) 7 0 "a" false
      (Dynamic.string "nonexistent") (Dynamic.string "not stopped") = none ∧
    (CallStack.SetVariableValue (CallStack.RemoveCallStack exampleAttached 7 7) 7 0 "a"
      (Dynamic.int 5) false (Dynamic.string "nonexistent")
      (Dynamic.string "not stopped")).isNone = true ∧
    (CallStack.WaitForAllThreadsToStop exampleWorkerLeaves exampleRunning).map
        (fun r => (r.1, r.2.gMap, r.2.gList)) = some (1, [(1, none)], []) ∧
    (CallStack.WaitForAllThreadsToStop exampleWorkerLeaves exampleRunning).map
        (fun r => CallStack.GetThreadInfo r.2 1 false) = some none := by
  refine ⟨rfl, rfl, rfl, rfl, rfl, rfl, rfl, rfl⟩

/-- The loop of the delete-one constructor performs the assignments that
`deleteLoopAccesses` lists, in order. -/
theorem deleteLoop_eq_accesses (uninit : Nat → Breakpoint) (number : Int)
    (l : List Breakpoint) :
    ∀ (s d : Nat) (arr : List Breakpoint),
      deleteLoop uninit number s d l arr =
        (deleteLoopAccesses number s d l).foldl
          (fun a access => a.set access.2 (readNew uninit a access.1)) arr := by
  induction l with
  | nil => intro s d arr; rfl
  | cons other rest ih =>
    intro s d arr
    by_cases h : other.number = number
    · simp only [deleteLoop, deleteLoopAccesses, h, if_true]
      exact ih (s + 1) d arr
    · simp only [deleteLoop, deleteLoopAccesses, h, if_false, List.foldl_cons]
      exact ih (s + 1) (d + 1) _

/-- Claim C38, failing input: the source snapshot has the ids 0 and 1 and id 0 is
deleted, so the new count is 1; the one assignment of the loop reads the new
array at index 1.  With the ids 0, 1, 2 (new count 2) deleting 0 or 1 reads
index 2; only deleting the last id keeps every index below the new count. -/
theorem delete_one_reads_past_new_array :
    exampleTwoBreakpoints.gBreakpoints.mBreakpoints.map (fun b => b.number) = [0, 1] ∧
    Breakpoints.deleteOneAccesses exampleTwoBreakpoints.gBreakpoints 0 = [(1, 0)] ∧
    exampleThreeBreakpoints.gBreakpoints.mBreakpoints.map (fun b => b.number) = [0, 1, 2] ∧
    Breakpoints.deleteOneAccesses exampleThreeBreakpoints.gBreakpoints 0 = [(1, 0), (2, 1)] ∧
    Breakpoints.deleteOneAccesses exampleThreeBreakpoints.gBreakpoints 1 = [(0, 0), (2, 1)] ∧
    Breakpoints.deleteOneAccesses exampleThreeBreakpoints.gBreakpoints 2 = [(0, 0), (1, 1)] := by
  refine ⟨by decide, by decide, by decide, by decide, by decide, by decide⟩

/-! ### Totals and call-edge weights of a sample -/

/-- `m[key]` with a key below the first key of the map inserts in front. -/
theorem mapModify_cons_lt {α : Type} (init : α) (f : α → α) (key : CStr) (e : CStr × α)
    (rest : List (CStr × α)) (h : key.addr < e.1.addr) :
    mapModify init f key (e :: rest) = (key, f init) :: e :: rest := by
  show (if key.addr < e.1.addr then _ else _) = _
  rw [if_pos h]

/-- `m[key]` with the first key of the map updates the first element. -/
theorem mapModify_cons_eq {α : Type} (init : α) (f : α → α) (key : CStr) (e : CStr × α)
    (rest : List (CStr × α)) (h : key.addr = e.1.addr) :
    mapModify init f key (e :: rest) = (e.1, f e.2) :: rest := by
  have h1 : ¬ key.addr < e.1.addr := by omega
  show (if key.addr < e.1.addr then _ else if key.addr = e.1.addr then _ else _) = _
  rw [if_neg h1, if_pos h]

/-- `m[key]` with a key above the first key of the map goes on in the rest. -/
theorem mapModify_cons_gt {α : Type} (init : α) (f : α → α) (key : CStr) (e : CStr × α)
    (rest : List (CStr × α)) (h : e.1.addr < key.addr) :
    mapModify init f key (e :: rest) = e :: mapModify init f key rest := by
  have h1 : ¬ key.addr < e.1.addr := by omega
  have h2 : ¬ key.addr = e.1.addr := by omega
  show (if key.addr < e.1.addr then _ else if key.addr = e.1.addr then _ else _) = _
  rw [if_neg h1, if_neg h2]

/-- Reading the first key of a map. -/
theorem mapFind_cons_eq {α : Type} (a : Nat) (e : CStr × α) (rest : List (CStr × α))
    (h : e.1.addr = a) : mapFind a (e :: rest) = some e.2 := by
  show (if e.1.addr = a then _ else _) = _
  rw [if_pos h]

/-- Reading another key than the first key of a map. -/
theorem mapFind_cons_ne {α : Type} (a : Nat) (e : CStr × α) (rest : List (CStr × α))
    (h : ¬ e.1.addr = a) : mapFind a (e :: rest) = mapFind a rest := by
  show (if e.1.addr = a then _ else _) = _
  rw [if_neg h]

/-- The keys of a map after `m[key]`: the old keys and `key`. -/
theorem mapModify_keys {α : Type} (init : α) (f : α → α) (key : CStr) (m : List (CStr × α)) :
    ∀ x ∈ (mapModify init f key m).map (fun e => e.1.addr),
      x = key.addr ∨ x ∈ m.map (fun e => e.1.addr) := by
  induction m with
  | nil =>
    intro x hx
    simp only [mapModify, List.map_cons, List.map_nil, List.mem_singleton] at hx
    exact Or.inl hx
  | cons e rest ih =>
    intro x hx
    rcases Nat.lt_trichotomy key.addr e.1.addr with h | h | h
    · rw [mapModify_cons_lt init f key e rest h] at hx
      simp only [List.map_cons, List.mem_cons] at hx ⊢
      rcases hx with hx | hx | hx
      · exact Or.inl hx
      · exact Or.inr (Or.inl hx)
      · exact Or.inr (Or.inr hx)
    · rw [mapModify_cons_eq init f key e rest h] at hx
      simp only [List.map_cons, List.mem_cons] at hx ⊢
      exact Or.inr hx
    · rw [mapModify_cons_gt init f key e rest h] at hx
      simp only [List.map_cons, List.mem_cons] at hx ⊢
      rcases hx with hx | hx
      · exact Or.inr (Or.inl hx)
      · rcases ih x hx with hk | hk
        · exact Or.inl hk
        · exact Or.inr (Or.inr hk)

/-- `m[key]` keeps the keys in address order. -/
theorem MapOrdered_mapModify {α : Type} (init : α) (f : α → α) (key : CStr)
    (m : List (CStr × α)) (h : MapOrdered m) : MapOrdered (mapModify init f key m) := by
  induction m with
  | nil => simp [MapOrdered, mapModify]
  | cons e rest ih =>
    unfold MapOrdered at h
    simp only [List.map_cons, List.pairwise_cons] at h
    obtain ⟨hhead, htail⟩ := h
    rcases Nat.lt_trichotomy key.addr e.1.addr with h1 | h1 | h1
    · rw [mapModify_cons_lt init f key e rest h1]
      unfold MapOrdered
      simp only [List.map_cons, List.pairwise_cons, List.mem_cons]
      refine ⟨?_, hhead, htail⟩
      rintro x (hx | hx)
      · rw [hx]; exact h1
      · exact Nat.lt_trans h1 (hhead x hx)
    · rw [mapModify_cons_eq init f key e rest h1]
      unfold MapOrdered
      simp only [List.map_cons, List.pairwise_cons]
      exact ⟨hhead, htail⟩
    · rw [mapModify_cons_gt init f key e rest h1]
      have hrest := ih htail
      unfold MapOrdered at hrest ⊢
      simp only [List.map_cons, List.pairwise_cons]
      refine ⟨?_, hrest⟩
      intro x hx
      rcases mapModify_keys init f key rest x hx with hk | hk
      · rw [hk]; exact h1
      · exact hhead x hk

/-- A key below all keys of a map is not in the map. -/
theorem mapFind_below {α : Type} (a : Nat) (m : List (CStr × α))
    (h : ∀ x ∈ m.map (fun e => e.1.addr), a < x) : mapFind a m = none := by
  induction m with
  | nil => rfl
  | cons e rest ih =>
    have he : a < e.1.addr := h e.1.addr (by simp)
    have hne : ¬ e.1.addr = a := by omega
    rw [mapFind_cons_ne a e rest hne]
    exact ih (fun x hx => h x (by simp only [List.map_cons, List.mem_cons]; exact Or.inr hx))

/-- Reading a map after `m[key]` followed by an update of the element. -/
theorem mapFind_mapModify {α : Type} (init : α) (f : α → α) (key : CStr) (a : Nat)
    (m : List (CStr × α)) (h : MapOrdered m) :
    mapFind a (mapModify init f key m) =
      if a = key.addr then some (f ((mapFind a m).getD init)) else mapFind a m := by
  induction m with
  | nil =>
    by_cases ha : a = key.addr
    · simp [mapModify, mapFind, ha]
    · have ha2 : ¬ key.addr = a := fun hc => ha hc.symm
      simp [mapModify, mapFind, ha, ha2]
  | cons e rest ih =>
    unfold MapOrdered at h
    simp only [List.map_cons, List.pairwise_cons] at h
    obtain ⟨hhead, htail⟩ := h
    rcases Nat.lt_trichotomy key.addr e.1.addr with h1 | h1 | h1
    · rw [mapModify_cons_lt init f key e rest h1]
      by_cases ha : a = key.addr
      · have hnone : mapFind a (e :: rest) = none := by
          apply mapFind_below
          intro x hx
          simp only [List.map_cons, List.mem_cons] at hx
          rcases hx with hx | hx
          · rw [hx, ha]; exact h1
          · rw [ha]; exact Nat.lt_trans h1 (hhead x hx)
        rw [if_pos ha, hnone, mapFind_cons_eq a (key, f init) (e :: rest) ha.symm]
        rfl
      · have ha2 : ¬ key.addr = a := fun hc => ha hc.symm
        rw [if_neg ha, mapFind_cons_ne a (key, f init) (e :: rest) ha2]
    · rw [mapModify_cons_eq init f key e rest h1]
      by_cases ha : a = key.addr
      · have hea : e.1.addr = a := by rw [ha, h1]
        rw [if_pos ha, mapFind_cons_eq a e rest hea,
          mapFind_cons_eq a (e.1, f e.2) rest hea]
        rfl
      · have hea : ¬ e.1.addr = a := by rw [← h1]; exact fun hc => ha hc.symm
        rw [if_neg ha, mapFind_cons_ne a e rest hea,
          mapFind_cons_ne a (e.1, f e.2) rest hea]
    · rw [mapModify_cons_gt init f key e rest h1]
      by_cases hea : e.1.addr = a
      · have ha : ¬ a = key.addr := by omega
        rw [if_neg ha, mapFind_cons_eq a e rest hea,
          mapFind_cons_eq a e (mapModify init f key rest) hea]
      · rw [mapFind_cons_ne a e rest hea,
          mapFind_cons_ne a e (mapModify init f key rest) hea]
        exact ih htail

/-- A property of the elements that the update and the initial element respect
holds for all elements after `m[key]` followed by the update. -/
theorem mapModify_values {α : Type} (P : α → Prop) (init : α) (f : α → α) (key : CStr)
    (m : List (CStr × α)) (hinit : P (f init)) (hf : ∀ v, P v → P (f v))
    (h : ∀ e ∈ m, P e.2) : ∀ e ∈ mapModify init f key m, P e.2 := by
  induction m with
  | nil =>
    intro e he
    simp only [mapModify, List.mem_singleton] at he
    rw [he]
    exact hinit
  | cons x rest ih =>
    intro e he
    rcases Nat.lt_trichotomy key.addr x.1.addr with h1 | h1 | h1
    · rw [mapModify_cons_lt init f key x rest h1] at he
      simp only [List.mem_cons] at he
      rcases he with he | he | he
      · rw [he]; exact hinit
      · rw [he]; exact h x (by simp)
      · exact h e (List.mem_cons_of_mem _ he)
    · rw [mapModify_cons_eq init f key x rest h1] at he
      simp only [List.mem_cons] at he
      rcases he with he | he
      · rw [he]; exact hf _ (h x (by simp))
      · exact h e (List.mem_cons_of_mem _ he)
    · rw [mapModify_cons_gt init f key x rest h1] at he
      simp only [List.mem_cons] at he
      rcases he with he | he
      · rw [he]; exact h x (by simp)
      · exact ih (fun y hy => h y (List.mem_cons_of_mem _ hy)) e he

/-- An element read from a map is the value of one of its entries. -/
theorem mapFind_mem {α : Type} (a : Nat) (m : List (CStr × α)) (v : α)
    (h : mapFind a m = some v) : ∃ e ∈ m, e.2 = v := by
  induction m with
  | nil => simp [mapFind] at h
  | cons e rest ih =>
    by_cases hea : e.1.addr = a
    · simp only [mapFind, hea, if_true, Option.some.injEq] at h
      exact ⟨e, by simp, h⟩
    · simp only [mapFind, hea, if_false] at h
      obtain ⟨x, hx, hv⟩ := ih h
      exact ⟨x, List.mem_cons_of_mem _ hx, hv⟩

/-- The child map of every entry of an ordered profile is ordered. -/
theorem entryAt_children_ordered (stats : List (CStr × ProfileEntry)) (a : Nat)
    (h : ProfileOrdered stats) : MapOrdered (entryAt stats a).children := by
  unfold entryAt
  cases hf : mapFind a stats with
  | none => simp [MapOrdered]
  | some v =>
    obtain ⟨e, he, hv⟩ := mapFind_mem a stats v hf
    simp only [Option.getD_some]
    rw [← hv]
    exact h.2 e he

/-- The entry of a key after `mProfileStats[key]` followed by an update. -/
theorem entryAt_mapModify (f : ProfileEntry → ProfileEntry) (key : CStr) (a : Nat)
    (stats : List (CStr × ProfileEntry)) (h : MapOrdered stats) :
    entryAt (mapModify (⟨0, [], 0⟩ : ProfileEntry) f key stats) a =
      if a = key.addr then f (entryAt stats a) else entryAt stats a := by
  unfold entryAt
  rw [mapFind_mapModify _ f key a stats h]
  by_cases ha : a = key.addr
  · simp [ha]
  · simp [ha]

/-- The weight of a key after `children[key]` followed by an update. -/
theorem weightAt_mapModify (f : Int → Int) (key : CStr) (b : Nat)
    (children : List (CStr × Int)) (h : MapOrdered children) :
    weightAt (mapModify (0 : Int) f key children) b =
      if b = key.addr then f (weightAt children b) else weightAt children b := by
  unfold weightAt
  rw [mapFind_mapModify _ f key b children h]
  by_cases hb : b = key.addr
  · simp [hb]
  · simp [hb]

/-- One pass of the loop body of `Sample` keeps the profile ordered. -/
theorem ProfileOrdered_mapModify (f : ProfileEntry → ProfileEntry) (key : CStr)
    (stats : List (CStr × ProfileEntry)) (h : ProfileOrdered stats)
    (hf : ∀ v : ProfileEntry, MapOrdered v.children → MapOrdered (f v).children) :
    ProfileOrdered (mapModify (⟨0, [], 0⟩ : ProfileEntry) f key stats) := by
  refine ⟨MapOrdered_mapModify _ f key stats h.1, ?_⟩
  exact mapModify_values (fun v => MapOrdered v.children) _ f key stats
    (hf (⟨0, [], 0⟩ : ProfileEntry) (by simp [MapOrdered])) hf h.2

/-- The effect of the loop of `Sample` on an ordered profile: the total of a
caller name grows once unless the name was already seen, no self changes, the
weight of a call edge grows once per visited position that realises it, and the
entries of names that are not a caller are as before. -/
theorem sampleLoop_effect (delta : Int) (pairs : List (CStr × CStr)) :
    ∀ (seen : List Nat) (stats : List (CStr × ProfileEntry)), ProfileOrdered stats →
      ProfileOrdered (sampleLoop delta pairs seen stats) ∧
      ∀ a,
        (entryAt (sampleLoop delta pairs seen stats) a).total =
          (if a ∈ pairs.map (fun pr => pr.1.addr) ∧ a ∉ seen then
            wrapInt32 ((entryAt stats a).total + delta)
           else (entryAt stats a).total) ∧
        (entryAt (sampleLoop delta pairs seen stats) a).self = (entryAt stats a).self ∧
        (∀ b, weightAt (entryAt (sampleLoop delta pairs seen stats) a).children b =
          (fun t => wrapInt32 (t + delta))^[pairs.countP
            (fun pr => decide (pr.1.addr = a ∧ pr.2.addr = b))]
            (weightAt (entryAt stats a).children b)) ∧
        (a ∉ pairs.map (fun pr => pr.1.addr) →
          mapFind a (sampleLoop delta pairs seen stats) = mapFind a stats) := by
  induction pairs with
  | nil =>
    intro seen stats h
    refine ⟨h, ?_⟩
    intro a
    simp [sampleLoop]
  | cons pr rest ih =>
    intro seen stats h
    obtain ⟨n, c⟩ := pr
    obtain ⟨g, hg⟩ : ∃ g : ProfileEntry → ProfileEntry, g = (fun pe =>
        { pe with total := if seen.contains n.addr then pe.total
                           else wrapInt32 (pe.total + delta)
                  children := mapModify (0 : Int) (fun t => wrapInt32 (t + delta)) c
                    pe.children }) := ⟨_, rfl⟩
    obtain ⟨seen1, hseen1⟩ : ∃ seen1 : List Nat,
        seen1 = if seen.contains n.addr then seen else n.addr :: seen := ⟨_, rfl⟩
    have hstep : sampleLoop delta ((n, c) :: rest) seen stats =
        sampleLoop delta rest seen1
          (mapModify (⟨0, [], 0⟩ : ProfileEntry) g n stats) := by
      rw [hg, hseen1]
      rfl
    have hord1 : ProfileOrdered (mapModify (⟨0, [], 0⟩ : ProfileEntry) g n stats) := by
      apply ProfileOrdered_mapModify g n stats h
      intro v hv
      rw [hg]
      exact MapOrdered_mapModify _ _ c v.children hv
    obtain ⟨hordAfter, hafter⟩ := ih seen1 _ hord1
    rw [hstep]
    refine ⟨hordAfter, ?_⟩
    intro a
    obtain ⟨htotal, hself, hweight, hfind⟩ := hafter a
    have hentry := entryAt_mapModify g n a stats h.1
    have hcontains : seen.contains n.addr = true ↔ n.addr ∈ seen := by
      simp
    by_cases ha : a = n.addr
    · subst ha
      rw [if_pos rfl] at hentry
      have hchildren : ∀ b, weightAt (g (entryAt stats n.addr)).children b =
          if b = c.addr then wrapInt32 (weightAt (entryAt stats n.addr).children b + delta)
          else weightAt (entryAt stats n.addr).children b := by
        intro b
        rw [hg]
        exact weightAt_mapModify _ c b _ (entryAt_children_ordered stats n.addr h)
      refine ⟨?_, ?_, ?_, ?_⟩
      · rw [htotal, hentry]
        by_cases hs : n.addr ∈ seen
        · have hc : seen.contains n.addr = true := hcontains.mpr hs
          have hs1 : n.addr ∈ seen1 := by rw [hseen1, hc]; exact hs
          have hgt : (g (entryAt stats n.addr)).total = (entryAt stats n.addr).total := by
            rw [hg]; simp [hs]
          rw [if_neg (fun hcond => hcond.2 hs1), if_neg (fun hcond => hcond.2 hs), hgt]
        · have hc : seen.contains n.addr = false := by
            cases hcc : seen.contains n.addr with
            | false => rfl
            | true => exact absurd (hcontains.mp hcc) hs
          have hs1 : n.addr ∈ seen1 := by rw [hseen1, hc]; simp
          have hgt : (g (entryAt stats n.addr)).total =
              wrapInt32 ((entryAt stats n.addr).total + delta) := by
            rw [hg]; simp [hs]
          rw [if_neg (fun hcond => hcond.2 hs1), if_pos ⟨by simp, hs⟩, hgt]
      · rw [hself, hentry, hg]
      · intro b
        rw [hweight b, hentry, hchildren b]
        by_cases hb : b = c.addr
        · subst hb
          simp only [if_true, List.countP_cons, and_self, decide_True]
          rw [Function.iterate_succ_apply]
        · have hb2 : ¬ c.addr = b := fun hc => hb hc.symm
          simp [hb, hb2, List.countP_cons]
      · intro hnot
        exact absurd (by simp) hnot
    · rw [if_neg ha] at hentry
      have ha2 : ¬ n.addr = a := fun hc => ha hc.symm
      have hseenIff : a ∈ seen1 ↔ a ∈ seen := by
        rw [hseen1]
        split
        · exact Iff.rfl
        · simp [ha]
      refine ⟨?_, ?_, ?_, ?_⟩
      · rw [htotal, hentry]
        simp only [List.map_cons, List.mem_cons, ha, false_or, hseenIff]
      · rw [hself, hentry]
      · intro b
        rw [hweight b, hentry]
        simp [List.countP_cons, ha2]
      · intro hnot
        have hnotRest : a ∉ rest.map (fun pr => pr.1.addr) := by
          intro hc
          exact hnot (by simp only [List.map_cons, List.mem_cons]; exact Or.inr hc)
        rw [hfind hnotRest, mapFind_mapModify _ g n a stats h.1, if_neg ha]

/-- An increment inside the 32-bit range is not wrapped. -/
theorem wrapInt32_of_range (x : Int) (hlow : -2147483648 ≤ x) (hhigh : x < 2147483648) :
    wrapInt32 x = x := by
  unfold wrapInt32
  omega

/-- Adding a non-negative `delta` to a 32-bit value `count` times without leaving
the 32-bit range adds `delta * count`. -/
theorem iterate_wrapInt32_add (delta : Int) (hdelta : 0 ≤ delta) :
    ∀ (count : Nat) (w : Int), -2147483648 ≤ w → w + delta * count < 2147483648 →
      (fun t => wrapInt32 (t + delta))^[count] w = w + delta * count := by
  intro count
  induction count with
  | zero =>
    intro w _ _
    simp
  | succ k ih =>
    intro w hlow hhigh
    have hk : 0 ≤ delta * (k : Int) := mul_nonneg hdelta (Int.ofNat_nonneg k)
    have hsucc : delta * ((k + 1 : Nat) : Int) = delta * (k : Int) + delta := by
      push_cast
      ring
    rw [hsucc] at hhigh
    rw [Function.iterate_succ_apply, hsucc]
    have hone : wrapInt32 (w + delta) = w + delta :=
      wrapInt32_of_range _ (by omega) (by omega)
    show (fun t => wrapInt32 (t + delta))^[k] (wrapInt32 (w + delta)) = _
    rw [hone, ih (w + delta) (by omega) (by omega)]
    ring

/-- The increment of a sample is not negative. -/
theorem sampleDelta_nonneg (profiler : Profiler) (clock : Int) :
    0 ≤ sampleDelta profiler clock := by
  unfold sampleDelta
  split
  · decide
  · omega

/-- The profile after a non-trivial `Sample`: the result of the loop, with the
self time added at frame `depth - 1` when the depth is positive. -/
theorem Sample_stats (profiler : Profiler) (clock : Int) (stack : CallStack)
    (hclock : profiler.mT0 ≠ clock) :
    (profiler.Sample clock stack).mProfileStats =
      if stack.GetDepth > 0 then
        match (stack.mStackFrames.map (fun frame => frame.fullName))[(stack.GetDepth - 1).toNat]? with
        | none => sampleLoop (sampleDelta profiler clock) (visitedPairs stack) []
            profiler.mProfileStats
        | some fullName =>
          mapModify (⟨0, [], 0⟩ : ProfileEntry)
            (fun pe => { pe with self := wrapInt32 (pe.self + sampleDelta profiler clock) })
            fullName
            (sampleLoop (sampleDelta profiler clock) (visitedPairs stack) []
              profiler.mProfileStats)
      else sampleLoop (sampleDelta profiler clock) (visitedPairs stack) []
        profiler.mProfileStats := by
  unfold Profiler.Sample
  rw [if_neg hclock]
  rfl

/-- The self-time statement of `Sample` changes no total and no child map, keeps
the profile ordered, and leaves the entries of names that are not on the stack as
the loop left them. -/
theorem Sample_after_loop (profiler : Profiler) (clock : Int) (stack : CallStack)
    (hclock : profiler.mT0 ≠ clock) (hord : ProfileOrdered profiler.mProfileStats) :
    ProfileOrdered (profiler.Sample clock stack).mProfileStats ∧
    ∀ a,
      (entryAt (profiler.Sample clock stack).mProfileStats a).total =
        (entryAt (sampleLoop (sampleDelta profiler clock) (visitedPairs stack) []
          profiler.mProfileStats) a).total ∧
      (entryAt (profiler.Sample clock stack).mProfileStats a).children =
        (entryAt (sampleLoop (sampleDelta profiler clock) (visitedPairs stack) []
          profiler.mProfileStats) a).children ∧
      ((∀ frame ∈ stack.mStackFrames, frame.fullName.addr ≠ a) →
        mapFind a (profiler.Sample clock stack).mProfileStats =
          mapFind a (sampleLoop (sampleDelta profiler clock) (visitedPairs stack) []
            profiler.mProfileStats)) := by
  have hloop := (sampleLoop_effect (sampleDelta profiler clock) (visitedPairs stack) []
    profiler.mProfileStats hord).1
  rw [Sample_stats profiler clock stack hclock]
  split
  · split
    · exact ⟨hloop, fun a => ⟨rfl, rfl, fun _ => rfl⟩⟩
    · rename_i fullName hname
      refine ⟨ProfileOrdered_mapModify _ fullName _ hloop (fun v hv => hv), ?_⟩
      intro a
      have hentry := entryAt_mapModify
        (fun pe => { pe with self := wrapInt32 (pe.self + sampleDelta profiler clock) })
        fullName a _ hloop.1
      by_cases ha : a = fullName.addr
      · rw [if_pos ha] at hentry
        refine ⟨by rw [hentry], by rw [hentry], ?_⟩
        intro hnot
        have hmem : fullName ∈ stack.mStackFrames.map (fun frame => frame.fullName) :=
          List.getElem?_mem hname
        obtain ⟨frame, hframe, hfull⟩ := List.mem_map.mp hmem
        exact absurd (by rw [hfull, ha]) (hnot frame hframe)
      · rw [if_neg ha] at hentry
        refine ⟨by rw [hentry], by rw [hentry], ?_⟩
        intro _
        rw [mapFind_mapModify _ _ fullName a _ hloop.1, if_neg ha]
  · exact ⟨hloop, fun a => ⟨rfl, rfl, fun _ => rfl⟩⟩

/-- The caller names of the visited positions are names of frames of the stack. -/
theorem visitedPairs_callers (stack : CallStack) (a : Nat)
    (h : a ∈ (visitedPairs stack).map (fun pr => pr.1.addr)) :
    ∃ frame ∈ stack.mStackFrames, frame.fullName.addr = a := by
  obtain ⟨pr, hpr, ha⟩ := List.mem_map.mp h
  unfold visitedPairs at hpr
  have hzip := List.mem_of_mem_take hpr
  obtain ⟨n, c⟩ := pr
  have hn := (List.of_mem_zip hzip).1
  obtain ⟨frame, hframe, hfull⟩ := List.mem_map.mp hn
  exact ⟨frame, hframe, by rw [hfull]; exact ha⟩

/-- The loop of `Sample` visits all positions but the last two: with `n` frames
it visits `n - 2` positions, none for fewer than three frames. -/
theorem visitedPairs_length (stack : CallStack) :
    (visitedPairs stack).length = stack.mStackFrames.length - 2 := by
  unfold visitedPairs CallStack.GetDepth
  simp only [List.length_take, List.length_zip, List.length_map, List.length_tail]
  omega

/-- What a non-trivial `Sample` with increment delta does to an address-ordered
profile.  The loop visits the positions `i` with `0 <= i < depth - 1`, where the
depth is the number of frames minus one; names are compared as pointers and the
counters are 32-bit.  The total of every name that is the full name of a visited
frame grows by delta once, however often the name is visited, and no other total
changes; for every pair of a caller name and a callee name the weight of the
callee in the caller's child map grows by delta once for each visited position
whose frame has the caller name and whose next frame has the callee name; without
32-bit overflow these are the sums `total + delta` and `weight + delta * count`.
The entry of a name that is not the full name of a frame of the stack is as
before. -/
theorem sample_totals_and_call_edges (profiler : Profiler) (clock : Int) (stack : CallStack)
    (hclock : profiler.mT0 ≠ clock) (hord : ProfileOrdered profiler.mProfileStats) :
    ProfileOrdered (profiler.Sample clock stack).mProfileStats ∧
    (∀ a, (entryAt (profiler.Sample clock stack).mProfileStats a).total =
      if a ∈ (visitedPairs stack).map (fun pr => pr.1.addr) then
        wrapInt32 ((entryAt profiler.mProfileStats a).total + sampleDelta profiler clock)
      else (entryAt profiler.mProfileStats a).total) ∧
    (∀ a b, weightAt (entryAt (profiler.Sample clock stack).mProfileStats a).children b =
      (fun t => wrapInt32 (t + sampleDelta profiler clock))^[(visitedPairs stack).countP
        (fun pr => decide (pr.1.addr = a ∧ pr.2.addr = b))]
        (weightAt (entryAt profiler.mProfileStats a).children b)) ∧
    (∀ a, a ∈ (visitedPairs stack).map (fun pr => pr.1.addr) →
      -2147483648 ≤ (entryAt profiler.mProfileStats a).total →
      (entryAt profiler.mProfileStats a).total + sampleDelta profiler clock < 2147483648 →
      (entryAt (profiler.Sample clock stack).mProfileStats a).total =
        (entryAt profiler.mProfileStats a).total + sampleDelta profiler clock) ∧
    (∀ a b, -2147483648 ≤ weightAt (entryAt profiler.mProfileStats a).children b →
      weightAt (entryAt profiler.mProfileStats a).children b +
        sampleDelta profiler clock * ((visitedPairs stack).countP
          (fun pr => decide (pr.1.addr = a ∧ pr.2.addr = b)) : Nat) < 2147483648 →
      weightAt (entryAt (profiler.Sample clock stack).mProfileStats a).children b =
        weightAt (entryAt profiler.mProfileStats a).children b +
          sampleDelta profiler clock * ((visitedPairs stack).countP
            (fun pr => decide (pr.1.addr = a ∧ pr.2.addr = b)) : Nat)) ∧
    (∀ a, (∀ frame ∈ stack.mStackFrames, frame.fullName.addr ≠ a) →
      mapFind a (profiler.Sample clock stack).mProfileStats =
        mapFind a profiler.mProfileStats) := by
  obtain ⟨hordAfter, hafter⟩ := Sample_after_loop profiler clock stack hclock hord
  have hloop := (sampleLoop_effect (sampleDelta profiler clock) (visitedPairs stack) []
    profiler.mProfileStats hord).2
  have htotal : ∀ a, (entryAt (profiler.Sample clock stack).mProfileStats a).total =
      if a ∈ (visitedPairs stack).map (fun pr => pr.1.addr) then
        wrapInt32 ((entryAt profiler.mProfileStats a).total + sampleDelta profiler clock)
      else (entryAt profiler.mProfileStats a).total := by
    intro a
    rw [(hafter a).1, (hloop a).1]
    by_cases ha : a ∈ (visitedPairs stack).map (fun pr => pr.1.addr)
    · rw [if_pos ⟨ha, List.not_mem_nil a⟩, if_pos ha]
    · rw [if_neg (fun hcond => ha hcond.1), if_neg ha]
  have hweight : ∀ a b,
      weightAt (entryAt (profiler.Sample clock stack).mProfileStats a).children b =
      (fun t => wrapInt32 (t + sampleDelta profiler clock))^[(visitedPairs stack).countP
        (fun pr => decide (pr.1.addr = a ∧ pr.2.addr = b))]
        (weightAt (entryAt profiler.mProfileStats a).children b) := by
    intro a b
    rw [(hafter a).2.1]
    exact (hloop a).2.2.1 b
  refine ⟨hordAfter, htotal, hweight, ?_, ?_, ?_⟩
  · intro a ha hlow hhigh
    rw [htotal a, if_pos ha]
    exact wrapInt32_of_range _ (by have := sampleDelta_nonneg profiler clock; omega) hhigh
  · intro a b hlow hhigh
    rw [hweight a b]
    exact iterate_wrapInt32_add _ (sampleDelta_nonneg profiler clock) _ _ hlow hhigh
  · intro a hnot
    rw [(hafter a).2.2 hnot]
    apply (hloop a).2.2.2
    intro hmem
    obtain ⟨frame, hframe, hfull⟩ := visitedPairs_callers stack a hmem
    exact hnot frame hframe hfull

/-- The effect of `Sample` at `exampleRecursiveStack`, sampled by a fresh
profiler at clock 5: the loop visits `Main.main` once and `X.f` twice.  Both
totals grow by 5, the weight of `X.f` under `X.f` grows by 10, and the name at
address 999, which is not on the stack, has no entry afterwards, as before. -/
theorem sample_totals_and_call_edges_witness :
    (Profiler.ctor "").mT0 ≠ 5 ∧ ProfileOrdered (Profiler.ctor "").mProfileStats ∧
    (visitedPairs exampleRecursiveStack).map (fun pr => (pr.1.chars, pr.2.chars)) =
      [("Main.main", "X.f"), ("X.f", "X.f"), ("X.f", "X.f")] ∧
    (entryAt ((Profiler.ctor "").Sample 5 exampleRecursiveStack).mProfileStats 300).total = 5 ∧
    (entryAt ((Profiler.ctor "").Sample 5 exampleRecursiveStack).mProfileStats 301).total = 5 ∧
    weightAt (entryAt ((Profiler.ctor "").Sample 5
      exampleRecursiveStack).mProfileStats 301).children 301 = 10 ∧
    mapFind 999 ((Profiler.ctor "").Sample 5 exampleRecursiveStack).mProfileStats = none :=
  ⟨by decide, ⟨List.Pairwise.nil, fun _ he => absurd he (List.not_mem_nil _)⟩, by decide,
    ((sample_totals_and_call_edges (Profiler.ctor "") 5 exampleRecursiveStack (by decide)
      ⟨List.Pairwise.nil, fun _ he => absurd he (List.not_mem_nil _)⟩).2.2.2.1 300
      (by decide) (by decide) (by decide)).trans (by decide),
    ((sample_totals_and_call_edges (Profiler.ctor "") 5 exampleRecursiveStack (by decide)
      ⟨List.Pairwise.nil, fun _ he => absurd he (List.not_mem_nil _)⟩).2.2.2.1 301
      (by decide) (by decide) (by decide)).trans (by decide),
    ((sample_totals_and_call_edges (Profiler.ctor "") 5 exampleRecursiveStack (by decide)
      ⟨List.Pairwise.nil, fun _ he => absurd he (List.not_mem_nil _)⟩).2.2.2.2.1 301 301
      (by decide) (by decide)).trans (by decide),
    ((sample_totals_and_call_edges (Profiler.ctor "") 5 exampleRecursiveStack (by decide)
      ⟨List.Pairwise.nil, fun _ he => absurd he (List.not_mem_nil _)⟩).2.2.2.2.2 999
      (by decide)).trans rfl⟩

/-- Claim C36, failing input: a fresh profiler samples at clock 5 (increment 5).
With the frames `Main.main`, `X.f`, `X.m` (innermost) the adjacent positions
realise the pairs (`Main.main`, `X.f`) and (`X.f`, `X.m`), but the loop visits
position 0 only: the weight of `X.m` under `X.f` stays 0 and `X.f` gets no
total.  With the frames `Main.main`, `X.f` no position is visited and the
weight of `X.f` under `Main.main` stays 0.  On `exampleRecursiveStack` the pair
(`X.f`, `X.m`) of the two innermost frames is likewise not counted. -/
theorem sample_skips_innermost_call_edge :
    exampleThreeFrames.mStackFrames.map (fun frame => frame.fullName.chars) =
      ["Main.main", "X.f", "X.m"] ∧
    sampleDelta (Profiler.ctor "") 5 = 5 ∧
    ((Profiler.ctor "").Sample 5 exampleThreeFrames).mProfileStats.map
        (fun e => (e.1.chars, e.2.total, e.2.children.map (fun c => (c.1.chars, c.2)))) =
      [("Main.main", 5, [("X.f", 5)]), ("X.f", 0, [])] ∧
    weightAt (entryAt ((Profiler.ctor "").Sample 5
      exampleThreeFrames).mProfileStats 301).children 201 = 0 ∧
    exampleProfiledStack.mStackFrames.map (fun frame => frame.fullName.chars) =
      ["Main.main", "X.f"] ∧
    ((Profiler.ctor "").Sample 5 exampleProfiledStack).mProfileStats.map
        (fun e => (e.1.chars, e.2.total, e.2.children.map (fun c => (c.1.chars, c.2)))) =
      [("Main.main", 0, [])] ∧
    exampleRecursiveStack.mStackFrames.map (fun frame => frame.fullName.chars) =
      ["Main.main", "X.f", "X.f", "X.f", "X.m"] ∧
    weightAt (entryAt ((Profiler.ctor "").Sample 5
      exampleRecursiveStack).mProfileStats 301).children 201 = 0 := by
  refine ⟨by decide, by decide, by decide, by decide, by decide, by decide, by decide,
    by decide⟩

/-! ### Totals are descendant time -/

/-- The element access `m[key]` leaves a non-empty map. -/
theorem mapModify_ne_nil {α : Type} (init : α) (f : α → α) (key : CStr)
    (m : List (CStr × α)) : mapModify init f key m ≠ [] := by
  cases m with
  | nil => simp [mapModify]
  | cons e rest =>
    rcases Nat.lt_trichotomy key.addr e.1.addr with h | h | h
    · rw [mapModify_cons_lt init f key e rest h]; simp
    · rw [mapModify_cons_eq init f key e rest h]; simp
    · rw [mapModify_cons_gt init f key e rest h]; simp

/-- The loop of `Sample` keeps the property that an entry without a child has
total 0: every entry it touches gets a child. -/
theorem sampleLoop_childless (delta : Int) (pairs : List (CStr × CStr)) :
    ∀ (seen : List Nat) (stats : List (CStr × ProfileEntry)),
      (∀ e ∈ stats, e.2.children = [] → e.2.total = 0) →
      ∀ e ∈ sampleLoop delta pairs seen stats, e.2.children = [] → e.2.total = 0 := by
  induction pairs with
  | nil =>
    intro seen stats h
    exact h
  | cons pr rest ih =>
    intro seen stats h
    obtain ⟨n, c⟩ := pr
    apply ih
    apply mapModify_values (fun v : ProfileEntry => v.children = [] → v.total = 0)
    · intro hc
      exact absurd hc (mapModify_ne_nil _ _ c _)
    · intro v _ hc
      exact absurd hc (mapModify_ne_nil _ _ c _)
    · exact h

/-- One `Sample` keeps the property that an entry without a child has total 0. -/
theorem Sample_childless (profiler : Profiler) (clock : Int) (stack : CallStack)
    (h : ∀ e ∈ profiler.mProfileStats, e.2.children = [] → e.2.total = 0) :
    ∀ e ∈ (profiler.Sample clock stack).mProfileStats, e.2.children = [] → e.2.total = 0 := by
  by_cases hclock : profiler.mT0 = clock
  · have hsame : profiler.Sample clock stack = profiler := by
      unfold Profiler.Sample
      rw [if_pos hclock]
    rw [hsame]
    exact h
  · have hloop := sampleLoop_childless (sampleDelta profiler clock) (visitedPairs stack) []
      profiler.mProfileStats h
    rw [Sample_stats profiler clock stack hclock]
    split
    · split
      · exact hloop
      · rename_i fullName _
        apply mapModify_values (fun v : ProfileEntry => v.children = [] → v.total = 0)
        · intro _
          rfl
        · intro v hv hc
          exact hv hc
        · exact hloop
    · exact hloop

/-- Claim C27, amended: the total of an entry is descendant time, not inclusive
time.  After every sequence of `Sample` calls over every sequence of call
stacks and clock values, on a profile in which every entry without a child has
total 0 (a fresh profile is one), every entry without a child has total 0,
whatever its self. -/
theorem total_is_descendant_time (profiler : Profiler) (samples : List (Int × CallStack))
    (h : ∀ e ∈ profiler.mProfileStats, e.2.children = [] → e.2.total = 0) :
    ∀ e ∈ (runSamples profiler samples).mProfileStats, e.2.children = [] → e.2.total = 0 := by
  induction samples generalizing profiler with
  | nil => exact h
  | cons sample rest ih =>
    obtain ⟨clock, stack⟩ := sample
    exact ih (profiler.Sample clock stack) (Sample_childless profiler clock stack h)

/-- Claim C27, amended, at a fresh profiler that samples `exampleThreeFrames` at
clock 5 and `exampleProfiledStack` at clock 9: `X.f` ends with self 5, no child
and total 0; `Main.main` ends with self 4, the child `X.f` and total 5. -/
theorem total_is_descendant_time_witness :
    (∀ e ∈ (Profiler.ctor "").mProfileStats, e.2.children = [] → e.2.total = 0) ∧
    (runSamples (Profiler.ctor "")
        [(5, exampleThreeFrames), (9, exampleProfiledStack)]).mProfileStats.map
        (fun e => (e.1.chars, e.2.self, e.2.total,
          e.2.children.map (fun c => (c.1.chars, c.2)))) =
      [("Main.main", 4, 5, [("X.f", 5)]), ("X.f", 5, 0, [])] ∧
    ∀ e ∈ (runSamples (Profiler.ctor "")
        [(5, exampleThreeFrames), (9, exampleProfiledStack)]).mProfileStats,
      e.2.children = [] → e.2.total = 0 :=
  ⟨fun _ he => absurd he (List.not_mem_nil _), by decide,
    total_is_descendant_time (Profiler.ctor "")
      [(5, exampleThreeFrames), (9, exampleProfiledStack)]
      (fun _ he => absurd he (List.not_mem_nil _))⟩

end hx
